import Mathlib

/-!
# LogDevice `Connection`: a shallow embedding of the per-peer protocol engine

The definitions below follow `logdevice/common/Connection.cpp` and
`logdevice/common/Envelope.h`.  A connection is a record of the member
variables the send, receive, close and handshake paths read or write; every
member function becomes a function on that record.  What the connection tells the
outside world (completion callbacks, on-close callbacks, bytes noted to the
sender's accounting) is collected in the record itself: callbacks in `trace`,
what each callback finds when it looks at the connection in `callback_views`,
byte totals in `noted_queued` and `noted_drained`.

Conventions:
* `message_pos_t` is a 64-bit count of the bytes ever written to the logical
  stream of one connection; it is embedded as `Nat` (the counter does not wrap
  within the life of a connection).
* Logging, statistics counters and wall-clock timestamps are left out; the
  health check takes `health_stats_`, the clock reading and the ages of the
  envelopes as arguments.
* A `double` is embedded as the rational it stands for; every operation on
  doubles passes its exact result through `Deps.toDouble`, the rounding to the
  nearest `double`.
* `size_t` differences that can underflow are taken modulo `2 ^ 64`.
* Callbacks are recorded, not executed: what a handler does in reaction is a
  later operation on the connection.  With every callback the state it can
  observe at that moment is recorded (`CallbackView`).
* Memory exhaustion (a failing `evbuffer_add`, a failing allocation) is not
  modelled.
* Assertions (`ld_check`, `ld_assert`) are left out: the functions are embedded
  as they run when the assertions are compiled out.
-/

namespace LogDevice

/-! ## Status codes, message types, messages -/

/-- The error codes of `logdevice/include/Err.h` that `Connection.cpp` uses. -/
inductive Status where
  | OK | NOTCONN | UNREACHABLE | PROTONOSUPPORT | INTERNAL | CANCELLED | TOOBIG
  | NOBUFS | SHUTDOWN | CONNFAILED | PEER_CLOSED | TIMEDOUT | NOMEM | BADMSG
  | PROTO | CHECKSUM_MISMATCH | TOOMANY | ISCONN | ALREADY | DISABLED | UNKNOWN
  | CBREGISTERED | ACCESS | INVALID_CLUSTER | DESTINATION_MISMATCH
  | NOTSUPPORTED | SYSLIMIT | UNROUTABLE | NEVER_CONNECTED | INVALID_PARAM
  deriving DecidableEq, Repr

/-- Message types: the two handshake messages, SHUTDOWN, and every other type
by its code. -/
inductive MessageType where
  | HELLO | ACK | SHUTDOWN
  | OTHER (code : Nat)
  deriving DecidableEq, Repr

/-- Modelled from the spec: `isHELLOMessage` of the message-type header, which
is not part of the sources. -/
def isHELLOMessage (t : MessageType) : Bool := t == MessageType.HELLO

/-- Modelled from the spec: `isACKMessage` of the message-type header, which
is not part of the sources. -/
def isACKMessage (t : MessageType) : Bool := t == MessageType.ACK

/-- Modelled from the spec: `isHandshakeMessage` of the message-type header,
which is not part of the sources; the handshake messages are HELLO and ACK
(`registerMessage`, `onBytesAdmittedToSend`). -/
def isHandshakeMessage (t : MessageType) : Bool :=
  isHELLOMessage t || isACKMessage t

/-- What `Connection.cpp` asks of a `Message`: its type, `cancelled()`,
`getMinProtocolVersion()`, `size(proto)` and the body that `serialize` writes
under a protocol version (`none` when the writer reports an error). -/
structure Message where
  type_ : MessageType
  cancelled : Bool
  min_protocol : Nat
  size : Nat → Nat
  serialize : Nat → Option (List Nat)

/-- Value of `drain_pos_` in a fresh envelope: `~0` as a `message_pos_t`. -/
def DRAIN_POS_UNSET : Nat := 2 ^ 64 - 1

/-- `Envelope` (Envelope.h).  `id` stands for the identity of the heap object. -/
structure Envelope where
  id : Nat
  msg : Message
  drain_pos_ : Nat
  cost_ : Nat

/-- `Message::CompletionMethod`. -/
inductive CompletionMethod where
  | IMMEDIATE | DEFERRED
  deriving DecidableEq, Repr

/-- What the connection does to its collaborators, in the order it does it.
`released` marks `releaseMessage` taking an envelope off the pending queue and
`serialized` marks a message written to the output (with `next_pos_` just
before and the length written); the other three are the callbacks. -/
inductive Event where
  | released (id : Nat)
  | serialized (id : Nat) (type : MessageType) (pos : Nat) (msglen : Nat)
  | onSent (id : Nat) (st : Status) (cm : CompletionMethod)
  | bwCancelled (cb : Nat) (st : Status)
  | onClose (cb : Nat) (st : Status)
  deriving DecidableEq, Repr

/-- What a callback finds when it calls back into the connection: the
envelopes of the three queues (by identity), `connected_`, `handshaken_` and
the result of `isClosed()`. -/
structure CallbackView where
  pendingq_ : List Nat
  serializeq_ : List Nat
  sendq_ : List Nat
  connected_ : Bool
  handshaken_ : Bool
  closed : Bool
  deriving DecidableEq, Repr

/-- `ProtocolHeader`: total frame length, message type, checksum. -/
structure ProtocolHeader where
  len : Nat
  type : MessageType
  cksum : Nat
  deriving DecidableEq, Repr

/-- A `SocketEvent`: the bits of `what` that `eventCallbackImpl` looks at. -/
structure SocketEvent where
  connected : Bool
  error : Bool
  eof : Bool
  deriving DecidableEq, Repr

/-- Settings and collaborators (`SocketDependencies`, `Settings`, constants of
headers that are not part of the sources) and the floating-point arithmetic of
the machine. -/
structure Deps where
  /-- Result of `deps_->shuttingDown()`. -/
  shuttingDown : Bool
  /-- Setting `max_protocol`. -/
  max_protocol : Nat
  /-- Protocol used by `Message::size()` without an argument. -/
  MAX_PROTOCOL_SUPPORTED : Nat
  /-- Setting `outbuf_overflow_kb`. -/
  outbuf_overflow_kb : Nat
  /-- Setting `message_error_injection_chance_percent`. -/
  message_error_injection_chance_percent : Nat
  /-- Setting `message_error_injection_status`. -/
  message_error_injection_status : Status
  /-- The successive results of `folly::Random::randDouble(0, 100.0)`, in the
  unit of `message_error_injection_chance_percent`. -/
  randDouble : Nat → Nat
  /-- Constant `Message::MAX_LEN`. -/
  MAX_LEN : Nat
  /-- Constant `sizeof(ProtocolHeader)`. -/
  sizeofProtocolHeader : Nat
  /-- Function `ProtocolHeader::bytesNeeded(type, proto)`. -/
  bytesNeeded : MessageType → Nat → Nat
  /-- Function `ProtocolHeader::needChecksumInHeader(type, proto)`. -/
  needChecksumInHeader : MessageType → Nat → Bool
  /-- Setting `checksumming_enabled`. -/
  checksumming_enabled : Bool
  /-- Membership in setting `checksumming_blacklisted_messages`. -/
  checksumming_blacklisted : MessageType → Bool
  /-- Checksum of a body (`ProtocolWriter::computeChecksum`). -/
  computeChecksum : List Nat → Nat
  /-- Test hook `shouldTamperChecksum()`. -/
  shouldTamperChecksum : Nat
  /-- The message `deps_->createHelloMessage` builds (its type is HELLO). -/
  helloMessage : Message
  /-- Setting `handshake_timeout`, in milliseconds. -/
  handshake_timeout : Nat
  /-- Setting `connect_timeout`, in milliseconds. -/
  connect_timeout : Nat
  /-- Setting `connection_retries`. -/
  connection_retries : Nat
  /-- Setting `incoming_messages_max_per_socket`. -/
  incoming_messages_max_per_socket : Nat
  /-- Function `shouldBeInlined(type)`. -/
  shouldBeInlined : MessageType → Bool
  /-- Function `allowedOnGossipConnection(type)`. -/
  allowedOnGossipConnection : MessageType → Bool
  /-- Setting `socket_health_check_period`, in milliseconds. -/
  socket_health_check_period : Nat
  /-- Setting `min_socket_idle_threshold_percent`; like the other settings of
  the health check it is taken to be an integer (the declaration of the
  settings is not part of the sources). -/
  min_socket_idle_threshold_percent : Nat
  /-- Setting `min_bytes_to_drain_per_second`. -/
  min_bytes_to_drain_per_second : Nat
  /-- Setting `max_time_to_allow_socket_drain`, in milliseconds. -/
  max_time_to_allow_socket_drain : Nat
  /-- Setting `socket_idle_threshold`. -/
  socket_idle_threshold : Nat
  /-- Rounding of a real number to the nearest `double`. -/
  toDouble : ℚ → ℚ

/-- The HELLO message of `deps_->createHelloMessage`. -/
def Deps.createHelloMessage (d : Deps) : Message :=
  { d.helloMessage with type_ := MessageType.HELLO }

/-! ## The connection record -/

/-- The member variables of `Connection` (and of `SocketImpl`). -/
structure Connection where
  /-- Value of `peer_name_.isClientAddress()`: an incoming connection. -/
  peer_is_client_address : Bool
  /-- Value of `peer_type_ == PeerType::CLIENT`. -/
  peer_type_client : Bool
  legacy_connection_ : Bool
  /-- Value of `conntype_ == ConnectionType::SSL`. -/
  isSSL : Bool
  /-- Value of `type_ == SocketType::GOSSIP`. -/
  is_gossip : Bool
  /-- `conn_closed_`: `none` is the null pointer. -/
  conn_closed_ : Option Bool
  /-- `bev_`: `none` is the null pointer, `some n` a bufferevent whose output
  buffer holds `n` bytes. -/
  bev_ : Option Nat
  /-- `buffered_output_`: `none` is the null pointer, `some n` holds `n` bytes. -/
  buffered_output_ : Option Nat
  /-- `sendChain_`: `none` is the null pointer, `some n` a chain of `n` bytes. -/
  sendChain_ : Option Nat
  /-- Field `sock_write_cb_.bytes_buffered`. -/
  bytes_buffered : Nat
  /-- Field `sock_write_cb_.write_chains` (the lengths). -/
  write_chains : List Nat
  /-- Result of `proto_handler_->good()`. -/
  proto_good : Bool
  /-- Whether the read callback is installed (on `bev_` or on the socket of
  the protocol handler). -/
  read_cb_installed : Bool
  /-- Whether `onOutputEmpty` is installed as the write callback of `bev_`. -/
  output_empty_cb_installed : Bool
  connected_ : Bool
  handshaken_ : Bool
  closing_ : Bool
  proto_ : Nat
  /-- `our_name_at_peer_`: `none` is `ClientID::INVALID`. -/
  our_name_at_peer_ : Option Nat
  pendingq_ : List Envelope
  serializeq_ : List Envelope
  sendq_ : List Envelope
  next_pos_ : Nat
  drain_pos_ : Nat
  outbuf_overflow_ : Nat
  retries_so_far_ : Nat
  first_attempt_ : Bool
  close_reason_ : Status
  num_messages_sent_ : Nat
  num_messages_received_ : Nat
  num_bytes_received_ : Nat
  peer_shuttingdown_ : Bool
  expecting_ssl_handshake_ : Bool
  expecting_header_ : Bool
  recv_message_ph_ : ProtocolHeader
  deferred_event_queue_ : List SocketEvent
  /-- `impl_->on_close_` (the callbacks by number). -/
  on_close_ : List Nat
  /-- `impl_->pending_bw_cbs_` (the callbacks by number). -/
  pending_bw_cbs_ : List Nat
  conn_incoming_token_ : Bool
  conn_external_token_ : Bool
  message_error_injection_rewinding_stream_ : Bool
  message_error_injection_pass_count_ : Nat
  message_error_injection_rewound_count_ : Nat
  /-- Whether `read_more_` is scheduled; likewise for the next seven. -/
  read_more_ : Bool
  connect_timeout_event_ : Bool
  handshake_timeout_event_ : Bool
  deferred_event_queue_event_ : Bool
  end_stream_rewind_event_ : Bool
  buffered_output_flush_event_ : Bool
  retry_receipt_of_message_ : Bool
  sched_write_chain_ : Bool
  /-- The thread-local `err`. -/
  err : Status
  /-- Callbacks and markers so far, oldest first. -/
  trace : List Event
  /-- Total passed to `deps_->noteBytesQueued`. -/
  noted_queued : Nat
  /-- Total passed to `deps_->noteBytesDrained`. -/
  noted_drained : Nat
  /-- Number of envelopes created so far (the next envelope's `id`). -/
  envelopes_created : Nat
  /-- Number of calls of `folly::Random::randDouble` so far. -/
  rand_calls : Nat
  /-- `msg_pending_processing_`: `none` is the null pointer, `some n` a buffer
  that holds `n` bytes of a message body. -/
  msg_pending_processing_ : Option Nat
  /-- What the callbacks so far found, oldest first: one view for every
  `onSent`, `bwCancelled` and `onClose` of `trace`, taken when the callback is
  invoked. -/
  callback_views : List CallbackView

/-- Cost of a queue: the sum of the costs of its envelopes. -/
def queueCost (q : List Envelope) : Nat := (q.map Envelope.cost_).sum

/-- The identities of the envelopes of a queue, front first. -/
def queueIds (q : List Envelope) : List Nat := q.map Envelope.id

/-! ## Observers -/

/-- `Connection::isClosed`. -/
def isClosed (c : Connection) : Bool :=
  match c.conn_closed_ with
  | some false => false
  | _ => true

/-- The connection as a callback that is invoked now finds it. -/
def Connection.view (c : Connection) : CallbackView :=
  { pendingq_ := queueIds c.pendingq_
    serializeq_ := queueIds c.serializeq_
    sendq_ := queueIds c.sendq_
    connected_ := c.connected_
    handshaken_ := c.handshaken_
    closed := isClosed c }

/-- `Connection::getBufferedBytesSize`. -/
def getBufferedBytesSize (c : Connection) : Nat :=
  let buffered_bytes := c.next_pos_ - c.drain_pos_
  if !c.legacy_connection_ then buffered_bytes + c.bytes_buffered
  else buffered_bytes

/-- `Connection::getBytesPending`. -/
def getBytesPending (c : Connection) : Nat :=
  let queued_bytes :=
    queueCost c.pendingq_ + queueCost c.serializeq_ + queueCost c.sendq_
  let buffered_bytes := c.bev_.getD 0 + c.buffered_output_.getD 0
  let buffered_bytes :=
    if !c.legacy_connection_ then buffered_bytes + getBufferedBytesSize c
    else buffered_bytes
  queued_bytes + buffered_bytes

/-- `Connection::sizeLimitsExceeded`. -/
def sizeLimitsExceeded (c : Connection) : Bool :=
  decide (getBytesPending c > c.outbuf_overflow_)

/-- `Connection::getTotalOutbufLength`. -/
def getTotalOutbufLength (c : Connection) : Nat :=
  c.bev_.getD 0 + c.buffered_output_.getD 0

/-! ## Completion and close -/

/-- `Connection::onSent`: unless the worker is shutting down, the cost is
noted as drained and the message's completion callback runs, on the connection
as it is at that moment. -/
def onSent (d : Deps) (c : Connection) (e : Envelope) (reason : Status)
    (cm : CompletionMethod) : Connection :=
  if !d.shuttingDown then
    { c with
      noted_drained := c.noted_drained + e.cost_
      trace := c.trace ++ [Event.onSent e.id reason cm]
      callback_views := c.callback_views ++ [c.view] }
  else c

/-- The loop `while (!queue.empty()) { pop_front; onSent(e, reason); }` over a
queue that has been moved out of the connection. -/
def onSentAll (d : Deps) (c : Connection) (q : List Envelope)
    (reason : Status) : Connection :=
  q.foldl (fun c e => onSent d c e reason CompletionMethod.IMMEDIATE) c

/-- `Connection::endStreamRewind`. -/
def endStreamRewind (c : Connection) : Connection :=
  if c.message_error_injection_rewinding_stream_ then
    { c with
      message_error_injection_rewound_count_ := 0
      message_error_injection_rewinding_stream_ := false }
  else c

/-- `Connection::markDisconnectedOnClose`. -/
def markDisconnectedOnClose (c : Connection) : Connection :=
  { c with
    conn_incoming_token_ := false
    conn_external_token_ := false
    our_name_at_peer_ := none
    connected_ := false
    handshaken_ := false
    read_more_ := false
    connect_timeout_event_ := false
    handshake_timeout_event_ := false
    deferred_event_queue_event_ := false
    end_stream_rewind_event_ := false }

/-- Modelled from the spec: `PendingQueue::trim(Priority::MAX, cost(), cb)` of
the priority-queue header, which is not part of the sources.  It empties the
queue and hands every envelope to the callback; the result is the order in
which they are handed over, taken to be queue order. -/
def PendingQueue.trimAll (q : List Envelope) : List Envelope := q

/-- Modelled from the spec: `SocketWriteCallback::clear()`, which is not part
of the sources; it forgets the writes in progress, so that
`getBufferedBytesSize()` counts none of them (`clearConnQueues` asserts it). -/
def SocketWriteCallback.clear (c : Connection) : Connection :=
  { c with bytes_buffered := 0, write_chains := [] }

/-- `Connection::clearConnQueues`: the queues and callback lists are moved out
first, then the envelopes of `serializeq_`, of `sendq_` and (unless shutting
down) of `pendingq_` are completed with the close reason, `drain_pos_` catches
up with `next_pos_`, and the bandwidth and on-close callbacks run. -/
def clearConnQueues (d : Deps) (c : Connection) (close_reason : Status) :
    Connection :=
  let moved_pendingq := c.pendingq_
  let moved_serializeq := c.serializeq_
  let moved_sendq := c.sendq_
  let on_close_moved := c.on_close_
  let pending_bw_cbs_moved := c.pending_bw_cbs_
  let c := { c with
    pendingq_ := [], serializeq_ := [], sendq_ := []
    on_close_ := [], pending_bw_cbs_ := [] }
  let c := onSentAll d c moved_serializeq close_reason
  let c := onSentAll d c moved_sendq close_reason
  let c :=
    if !d.shuttingDown then
      onSentAll d c (PendingQueue.trimAll moved_pendingq) close_reason
    else c
  let c := { c with drain_pos_ := c.next_pos_ }
  let c := { c with
    trace := c.trace ++
      pending_bw_cbs_moved.map (fun cb => Event.bwCancelled cb close_reason)
    callback_views := c.callback_views ++
      pending_bw_cbs_moved.map (fun _ => c.view) }
  { c with
    trace := c.trace ++
      on_close_moved.map (fun cb => Event.onClose cb close_reason)
    callback_views := c.callback_views ++ on_close_moved.map (fun _ => c.view) }

/-- The deferred-event block of `Connection::close`.  The events are handled
while `closing_` is set and `conn_closed_` already holds true: `onError` and
`onPeerClosed` return at their `closing_` guard and a CONNECTED event is never
deferred (`eventCallback`), so handling them only empties the queue and
cancels its timer (see `processDeferredEventQueue_of_closing`). -/
def closeDeferredEvents (d : Deps) (c : Connection) : Connection :=
  if !c.deferred_event_queue_.isEmpty then
    if !d.shuttingDown then
      { c with deferred_event_queue_ := [], deferred_event_queue_event_ := false }
    else { c with deferred_event_queue_ := [] }
  else c

/-- The transport block of `Connection::close`: the bytes still buffered are
noted as drained and the transport is torn down.  Freeing `bev_` removes its
callbacks, and after `closeNow()` the protocol handler is no longer good. -/
def closeTransport (d : Deps) (c : Connection) : Connection :=
  if c.legacy_connection_ then
    let buffered_bytes := c.bev_.getD 0 + c.buffered_output_.getD 0
    let c :=
      if c.buffered_output_.isSome then
        { c with buffered_output_flush_event_ := false, buffered_output_ := none }
      else c
    let c :=
      if buffered_bytes != 0 && !d.shuttingDown then
        { c with noted_drained := c.noted_drained + buffered_bytes }
      else c
    { c with
      bev_ := none
      read_cb_installed := false, output_empty_cb_installed := false }
  else
    let buffered_bytes := getBufferedBytesSize c
    let c := { c with read_cb_installed := false }
    let c :=
      if buffered_bytes != 0 && !d.shuttingDown then
        { c with noted_drained := c.noted_drained + buffered_bytes }
      else c
    let c := SocketWriteCallback.clear c
    { c with sendChain_ := none, sched_write_chain_ := false, proto_good := false }

/-- `Connection::close` from the point where the connection is known to be
open (`closing_` is set by then). -/
def closeOpen (d : Deps) (c : Connection) (reason : Status) : Connection :=
  let c := { c with conn_closed_ := some true }
  let c := endStreamRewind c
  let c := closeDeferredEvents d c
  let c := closeTransport d c
  let c := markDisconnectedOnClose c
  clearConnQueues d c reason

/-- `Connection::close`: nothing when called from inside a close, nothing but
setting and resetting `closing_` when the connection is already closed. -/
def close (d : Deps) (c : Connection) (reason : Status) : Connection :=
  if c.closing_ then c
  else
    let c := { c with closing_ := true }
    if isClosed c then { c with closing_ := false }
    else { closeOpen d c reason with closing_ := false }

/-! ## The send path -/

/-- `Connection::preSendCheck`: the connection afterwards (with `err` set on
failure) and the return value. -/
def preSendCheck (d : Deps) (c : Connection) (msg : Message) :
    Connection × Int :=
  if isClosed c then ({ c with err := Status.NOTCONN }, -1)
  else if !c.handshaken_ then
    if c.peer_is_client_address && !isACKMessage msg.type_ then
      ({ c with err := Status.UNREACHABLE }, -1)
    else (c, 0)
  else if msg.min_protocol > c.proto_ then
    let c :=
      if isHandshakeMessage msg.type_ then
        { close d c Status.INTERNAL with err := Status.INTERNAL }
      else c
    ({ c with err := Status.PROTONOSUPPORT }, -1)
  else (c, 0)

/-- `Connection::isChecksummingEnabled`. -/
def isChecksummingEnabled (d : Deps) (msgtype : MessageType) : Bool :=
  if !d.checksumming_enabled then false
  else !d.checksumming_blacklisted msgtype

/-- A serialized message: the header and the body behind it. -/
structure Frame where
  hdr : ProtocolHeader
  body : List Nat

/-- `computeChainDataLength()` of the buffer `serializeMessage` returns: the
header bytes of the message type under `proto` and the body. -/
def Frame.chainDataLength (d : Deps) (proto : Nat) (f : Frame) : Nat :=
  d.bytesNeeded f.hdr.type proto + f.body.length

/-- `Connection::serializeMessage(const Message&)`: the frame, or `none` after
closing the connection with INTERNAL when the writer wrote nothing.  The
header's `len` is a 32-bit field. -/
def serializeMessageBuf (d : Deps) (c : Connection) (msg : Message) :
    Connection × Option Frame :=
  let compute_checksum :=
    d.needChecksumInHeader msg.type_ c.proto_ &&
      isChecksummingEnabled d msg.type_
  let protohdr_bytes := d.bytesNeeded msg.type_ c.proto_
  match msg.serialize c.proto_ with
  | none => (close d { c with err := Status.INTERNAL } Status.INTERNAL, none)
  | some body =>
    if body.length = 0 then
      (close d { c with err := Status.INTERNAL } Status.INTERNAL, none)
    else
      let cksum := if compute_checksum then d.computeChecksum body else 0
      let cksum := (cksum + d.shouldTamperChecksum) % 2 ^ 64
      (c, some
        { hdr := { cksum := cksum, type := msg.type_
                   len := (protohdr_bytes + body.length) % 2 ^ 32 }
          body := body })

/-- `Connection::sendBuffer` for a buffer of `len` bytes.  On a legacy
connection the bytes go to `buffered_output_` when it exists (which schedules
its flush, `onBufferedOutputWrite`) and to the output buffer of `bev_`
otherwise; on a new-style connection they are chained to `sendChain_` if the
protocol handler is good.  The status is always SCHEDULED. -/
def sendBuffer (c : Connection) (len : Nat) : Connection :=
  if c.legacy_connection_ then
    match c.buffered_output_ with
    | some n =>
      { c with
        buffered_output_ := some (n + len)
        buffered_output_flush_event_ :=
          if len != 0 then true else c.buffered_output_flush_event_ }
    | none => { c with bev_ := c.bev_.map (· + len) }
  else if c.proto_good then
    match c.sendChain_ with
    | some n => { c with sendChain_ := some (n + len) }
    | none => { c with sendChain_ := some len, sched_write_chain_ := true }
  else c

/-- `Connection::serializeMessage(std::unique_ptr<Envelope>&&)`: on success the
envelope joins `sendq_` with its drain position set to the new `next_pos_`. -/
def serializeMessage (d : Deps) (c : Connection) (envelope : Envelope) :
    Connection × Int :=
  match serializeMessageBuf d c envelope.msg with
  | (c, none) => (c, -1)
  | (c, some serialized_buf) =>
    let msglen := serialized_buf.chainDataLength d c.proto_
    let c := sendBuffer c msglen
    let c := { c with noted_queued := c.noted_queued + msglen }
    let pos := c.next_pos_
    let c := { c with next_pos_ := c.next_pos_ + msglen }
    let envelope := { envelope with drain_pos_ := c.next_pos_ }
    ({ c with
        sendq_ := c.sendq_ ++ [envelope]
        trace := c.trace ++
          [Event.serialized envelope.id envelope.msg.type_ pos msglen] }, 0)

/-- `Connection::injectAsyncMessageError`: the connection afterwards and
whether the envelope was completed with the injected error. -/
def injectAsyncMessageError (d : Deps) (c : Connection) (e : Envelope) :
    Connection × Bool :=
  let error_chance_percent := d.message_error_injection_chance_percent
  let error_status := d.message_error_injection_status
  let c :=
    if error_chance_percent != 0 && error_status != Status.CBREGISTERED &&
        !isHandshakeMessage e.msg.type_ && !c.closing_ &&
        !c.message_error_injection_rewinding_stream_ then
      let r := d.randDouble c.rand_calls
      let c := { c with rand_calls := c.rand_calls + 1 }
      if r ≤ error_chance_percent then
        { c with
          message_error_injection_rewinding_stream_ := true
          end_stream_rewind_event_ := true
          message_error_injection_pass_count_ := 0 }
      else c
    else c
  if c.message_error_injection_rewinding_stream_ then
    let c := { c with
      message_error_injection_rewound_count_ :=
        c.message_error_injection_rewound_count_ + 1 }
    (onSent d c e error_status CompletionMethod.DEFERRED, true)
  else
    ({ c with
        message_error_injection_pass_count_ :=
          c.message_error_injection_pass_count_ + 1 }, false)

/-- `Connection::send`. -/
def send (d : Deps) (c : Connection) (envelope : Envelope) : Connection :=
  let msg := envelope.msg
  match preSendCheck d c msg with
  | (c, rv) =>
    if rv != 0 then onSent d c envelope c.err CompletionMethod.IMMEDIATE
    else if msg.cancelled then
      onSent d c envelope Status.CANCELLED CompletionMethod.IMMEDIATE
    else if c.handshaken_ || (c.connected_ && isHandshakeMessage msg.type_) then
      let msglen := msg.size c.proto_
      if msglen > d.MAX_LEN + d.sizeofProtocolHeader then
        let c := { c with err := Status.TOOBIG }
        onSent d c envelope c.err CompletionMethod.IMMEDIATE
      else
        match injectAsyncMessageError d c envelope with
        | (c, true) => c
        | (c, false) =>
          match serializeMessage d c envelope with
          | (c, rv) =>
            if rv != 0 then
              onSent d c envelope c.err CompletionMethod.IMMEDIATE
            else c
    else { c with serializeq_ := c.serializeq_ ++ [envelope] }

/-- `Connection::flushNextInSerializeQueue` (the source asserts that the queue
is not empty). -/
def flushNextInSerializeQueue (d : Deps) (c : Connection) : Connection :=
  match c.serializeq_ with
  | [] => c
  | next_envelope :: rest => send d { c with serializeq_ := rest } next_envelope

/-- The loop of `Connection::flushSerializeQueue`, run at most `fuel` times. -/
def flushSerializeQueueLoop (d : Deps) : Nat → Connection → Connection
  | 0, c => c
  | fuel + 1, c =>
    if c.serializeq_.isEmpty then c
    else flushSerializeQueueLoop d fuel (flushNextInSerializeQueue d c)

/-- `Connection::flushSerializeQueue`: as many rounds as the queue is long. -/
def flushSerializeQueue (d : Deps) (c : Connection) : Connection :=
  flushSerializeQueueLoop d c.serializeq_.length c

/-- `Connection::addHandshakeTimeoutEvent`. -/
def addHandshakeTimeoutEvent (d : Deps) (c : Connection) : Connection :=
  if d.handshake_timeout > 0 then { c with handshake_timeout_event_ := true }
  else c

/-- `Connection::transitionToConnected`. -/
def transitionToConnected (d : Deps) (c : Connection) : Connection :=
  let c := addHandshakeTimeoutEvent d c
  let c := { c with connected_ := true, peer_shuttingdown_ := false }
  flushNextInSerializeQueue d c

/-- `Connection::expectProtocolHeader`. -/
def expectProtocolHeader (c : Connection) : Connection :=
  { c with expecting_header_ := true }

/-- `Connection::onConnected`. -/
def onConnected (d : Deps) (c : Connection) : Connection :=
  if c.expecting_ssl_handshake_ then
    expectProtocolHeader { c with expecting_ssl_handshake_ := false }
  else
    transitionToConnected d { c with connect_timeout_event_ := false }

/-- `Connection::onError`. -/
def onError (d : Deps) (c : Connection) : Connection :=
  if c.closing_ then c
  else if isClosed c then c
  else close d c Status.CONNFAILED

/-- `Connection::onPeerClosed`. -/
def onPeerClosed (d : Deps) (c : Connection) : Connection :=
  if c.closing_ then c
  else
    let reason :=
      if !c.peer_is_client_address && c.peer_shuttingdown_ then Status.SHUTDOWN
      else Status.PEER_CLOSED
    close d c reason

/-- `Connection::eventCallbackImpl`. -/
def eventCallbackImpl (d : Deps) (c : Connection) (e : SocketEvent) :
    Connection :=
  if e.connected then onConnected d c
  else if e.error then onError d c
  else if e.eof then onPeerClosed d c
  else c

/-- `Connection::enqueueDeferredEvent`. -/
def enqueueDeferredEvent (c : Connection) (e : SocketEvent) : Connection :=
  { c with
    deferred_event_queue_ := c.deferred_event_queue_ ++ [e]
    deferred_event_queue_event_ := true }

/-- `Connection::eventCallback`. -/
def eventCallback (d : Deps) (c : Connection) (e : SocketEvent) : Connection :=
  if c.isSSL && !e.connected then enqueueDeferredEvent c e
  else eventCallbackImpl d c e

/-- The loop of `Connection::processDeferredEventQueue`, run at most `fuel`
times. -/
def processDeferredEventQueueLoop (d : Deps) : Nat → Connection → Connection
  | 0, c => c
  | fuel + 1, c =>
    match c.deferred_event_queue_ with
    | [] => c
    | event :: rest =>
      processDeferredEventQueueLoop d fuel
        (eventCallbackImpl d { c with deferred_event_queue_ := rest } event)

/-- `Connection::processDeferredEventQueue`. -/
def processDeferredEventQueue (d : Deps) (c : Connection) : Connection :=
  let c := processDeferredEventQueueLoop d c.deferred_event_queue_.length c
  { c with deferred_event_queue_event_ := false }

/-! ## Admission and release -/

/-- `Connection::registerMessage`: the connection afterwards and the new
envelope, if the message was admitted. -/
def registerMessage (d : Deps) (c : Connection) (msg : Message) :
    Connection × Option Envelope :=
  match preSendCheck d c msg with
  | (c, rv) =>
    if rv != 0 then (c, none)
    else if !isHandshakeMessage msg.type_ && sizeLimitsExceeded c then
      ({ c with err := Status.NOBUFS }, none)
    else
      let envelope : Envelope :=
        { id := c.envelopes_created, msg := msg
          drain_pos_ := DRAIN_POS_UNSET
          cost_ := msg.size d.MAX_PROTOCOL_SUPPORTED }
      ({ c with
          envelopes_created := c.envelopes_created + 1
          pendingq_ := c.pendingq_ ++ [envelope]
          noted_queued := c.noted_queued + envelope.cost_ }, some envelope)

/-- `pendingq_.erase(envelope)`. -/
def eraseEnvelope (q : List Envelope) (envelope : Envelope) : List Envelope :=
  q.filter (fun e => e.id != envelope.id)

/-- `Connection::releaseMessage` for an envelope of `pendingq_`. -/
def releaseMessage (d : Deps) (c : Connection) (envelope : Envelope) :
    Connection :=
  let c := { c with
    pendingq_ := eraseEnvelope c.pendingq_ envelope
    trace := c.trace ++ [Event.released envelope.id] }
  send d c envelope

/-- `Connection::discardEnvelope` for an envelope of `pendingq_`. -/
def discardEnvelope (c : Connection) (envelope : Envelope) : Connection :=
  { c with
    noted_drained := c.noted_drained + envelope.cost_
    pendingq_ := eraseEnvelope c.pendingq_ envelope }

/-- `Connection::sendHello` (the source asserts that the HELLO is admitted). -/
def sendHello (d : Deps) (c : Connection) : Connection :=
  match registerMessage d c d.createHelloMessage with
  | (c, some envelope) => releaseMessage d c envelope
  | (c, none) => c

/-! ## Transport acknowledgements -/

/-- `Connection::onBytesPassedToTCP`. -/
def onBytesPassedToTCP (c : Connection) (nbytes : Nat) : Connection :=
  { c with noted_drained := c.noted_drained + nbytes }

/-- The loop of `Connection::onBytesAdmittedToSend`, run at most `fuel` times:
while the front of `sendq_` has its drain position at or below
`next_drain_pos`, it is popped and completed with OK. -/
def onBytesAdmittedToSendLoop (d : Deps) (next_drain_pos : Nat) :
    Nat → Connection → Connection
  | 0, c => c
  | fuel + 1, c =>
    match c.sendq_ with
    | [] => c
    | e :: rest =>
      if e.drain_pos_ ≤ next_drain_pos then
        let c := { c with sendq_ := rest }
        let c := onSent d c e Status.OK CompletionMethod.IMMEDIATE
        onBytesAdmittedToSendLoop d next_drain_pos fuel
          { c with num_messages_sent_ := c.num_messages_sent_ + 1 }
      else c

/-- `Connection::onBytesAdmittedToSend`. -/
def onBytesAdmittedToSend (d : Deps) (c : Connection) (nbytes : Nat) :
    Connection :=
  let next_drain_pos := c.drain_pos_ + nbytes
  let c := onBytesAdmittedToSendLoop d next_drain_pos c.sendq_.length c
  let c := { c with drain_pos_ := next_drain_pos }
  if c.legacy_connection_ then onBytesPassedToTCP c nbytes else c

/-- `Connection::bytesSentCallback` with `info->n_deleted = n_deleted`. -/
def bytesSentCallback (d : Deps) (c : Connection) (n_deleted : Nat) :
    Connection :=
  if n_deleted > 0 then onBytesAdmittedToSend d c n_deleted else c

/-- `Connection::onOutputEmpty`. -/
def onOutputEmpty (d : Deps) (c : Connection) : Connection :=
  if getTotalOutbufLength c = 0 then close d c c.close_reason_ else c

/-- `Connection::flushBufferedOutput`: the bytes of `buffered_output_` move to
the output buffer of `bev_`. -/
def flushBufferedOutput (c : Connection) : Connection :=
  match c.buffered_output_ with
  | none => c
  | some n =>
    { c with
      bev_ := c.bev_.map (· + n)
      buffered_output_ := some 0
      buffered_output_flush_event_ := false }

/-- `Connection::scheduleWriteChain`. -/
def scheduleWriteChain (d : Deps) (c : Connection) : Connection :=
  let c := { c with sched_write_chain_ := false }
  if !c.proto_good then c
  else
    let bytes_in_sendq := getBufferedBytesSize c - c.bytes_buffered
    let c := { c with
      write_chains := c.write_chains ++ [bytes_in_sendq]
      bytes_buffered := c.bytes_buffered + bytes_in_sendq
      sendChain_ := none }
    onBytesAdmittedToSend d c bytes_in_sendq

/-- `Connection::drainSendQueue` after `num_success` writes have succeeded. -/
def drainSendQueue (d : Deps) (c : Connection) (num_success : Nat) :
    Connection :=
  let total_bytes_drained := (c.write_chains.take num_success).sum
  let c := { c with
    write_chains := c.write_chains.drop num_success
    bytes_buffered := c.bytes_buffered - total_bytes_drained }
  let c := onBytesPassedToTCP c total_bytes_drained
  if c.close_reason_ != Status.UNKNOWN && c.write_chains.length = 0 &&
      c.sendChain_.isNone then
    close d c c.close_reason_
  else c

/-- `Connection::flushOutputAndClose`. -/
def flushOutputAndClose (d : Deps) (c : Connection) (reason : Status) :
    Connection :=
  if isClosed c then c
  else
    let pending_bytes :=
      if c.legacy_connection_ then getTotalOutbufLength c
      else getBufferedBytesSize c
    if pending_bytes = 0 then close d c reason
    else
      let c := { c with close_reason_ := reason }
      if c.legacy_connection_ then
        { c with read_cb_installed := false, output_empty_cb_installed := true }
      else { c with read_cb_installed := false }

/-! ## Connecting -/

/-- `Connection::preConnectAttempt`; `mayConnect` is false when a connect
throttle exists and vetoes the attempt. -/
def preConnectAttempt (c : Connection) (mayConnect : Bool) : Connection × Int :=
  if c.peer_is_client_address then
    if !isClosed c then ({ c with err := Status.ISCONN }, -1)
    else ({ c with err := Status.UNREACHABLE }, -1)
  else if !isClosed c then
    ({ c with err := if c.connected_ then Status.ISCONN else Status.ALREADY }, -1)
  else if !mayConnect then ({ c with err := Status.DISABLED }, -1)
  else (c, 0)

/-- How one `doConnectAttempt` ends: well, without a bufferevent
(`newBufferevent` failed), or with `buffereventSocketConnect` failing. -/
inductive ConnectAttempt where
  | started
  | noBufferevent (e : Status)
  | connectFailed (e : Status)
  deriving DecidableEq, Repr

/-- `Connection::doConnectAttempt` (with `newBufferevent` and
`addConnectAttemptTimeoutEvent`). -/
def doConnectAttempt (d : Deps) (c : Connection) (a : ConnectAttempt) :
    Connection × Int :=
  match a with
  | ConnectAttempt.noBufferevent e => ({ c with err := e }, -1)
  | _ =>
    let c := { c with
      bev_ := some 0
      read_cb_installed := true, output_empty_cb_installed := false
      buffered_output_ :=
        if c.isSSL then (if c.buffered_output_.isSome then c.buffered_output_
          else some 0)
        else none }
    let c := { c with conn_closed_ := some false }
    let c := expectProtocolHeader c
    match a with
    | ConnectAttempt.connectFailed e => ({ c with err := e }, -1)
    | _ =>
      if d.connect_timeout > 0 then ({ c with connect_timeout_event_ := true }, 0)
      else (c, 0)

/-- Modelled from the spec: `Connection::asyncConnect` as far as it shows in the
connection, the protocol handler not being part of the sources.  `fut` is the
status the connect future holds when it is ready at once; the handler stops
being good when that status is an error. -/
def asyncConnect (c : Connection) (fut : Option Status) : Connection :=
  match fut with
  | none => { c with proto_good := true }
  | some st => { c with err := st, proto_good := decide (st = Status.ISCONN) }

/-- `Connection::good`. -/
def good (c : Connection) : Bool :=
  let is_good := !isClosed c
  if !c.legacy_connection_ then is_good && c.proto_good else is_good

/-- `Connection::connect`: `a` is how the legacy connect attempt ends, `fut`
the ready status of the new-style connect. -/
def connect (d : Deps) (c : Connection) (mayConnect : Bool)
    (a : ConnectAttempt) (fut : Option Status) : Connection × Int :=
  match preConnectAttempt c mayConnect with
  | (c, rv) =>
    if rv != 0 then (c, rv)
    else if c.legacy_connection_ then
      let c := { c with retries_so_far_ := 0 }
      match doConnectAttempt d c a with
      | (c, rv) =>
        if rv != 0 then
          if !isClosed c then (close d c c.err, -1) else (c, -1)
        else
          let c := { c with next_pos_ := 0, drain_pos_ := 0 }
          (sendHello d c, 0)
    else
      let c := asyncConnect c fut
      let c := { c with conn_closed_ := some false }
      let c := { c with next_pos_ := 0, drain_pos_ := 0 }
      let c := if good c then sendHello d c else c
      match fut with
      | some Status.ISCONN =>
        ({ transitionToConnected d c with read_cb_installed := true }, 0)
      | _ => (c, 0)

/-! ## Receiving a message body -/

/-- `Message::Disposition`. -/
inductive Disposition where
  | NORMAL | KEEP | ERROR
  deriving DecidableEq, Repr

/-- What the collaborators answer while one received body is dispatched. -/
structure Received where
  /-- Whether `deps_->getResourceToken` gave a token. -/
  resource_token : Bool
  /-- Result of `reader.computeChecksum`. -/
  cksum_computed : Nat
  /-- The type of the message `deps_->deserialize` built, `none` on failure. -/
  deserialized : Option MessageType
  /-- Value of `err` after a failed `deps_->deserialize`. -/
  deserialize_err : Status
  /-- Result of `deps_->onReceived`. -/
  disposition : Disposition
  /-- Value of `err` after `deps_->onReceived` returned ERROR. -/
  handler_err : Status
  /-- What `deps_->processACKMessage` stores in `our_name_at_peer_`. -/
  ack_our_name : Option Nat
  /-- What `deps_->processACKMessage` stores in `proto_`. -/
  ack_proto : Nat
  /-- Result of `deps_->processHelloMessage`. -/
  hello_proto : Nat
  /-- Whether `getConnBudgetExternal().acquireToken()` gave a token. -/
  conn_budget_token : Bool

/-- `Connection::verifyChecksum`: the connection (with `err` set on a
mismatch) and the verdict. -/
def verifyChecksum (d : Deps) (c : Connection) (ph : ProtocolHeader)
    (cksum_computed : Nat) : Connection × Bool :=
  let enabled := isChecksummingEnabled d ph.type &&
    d.needChecksumInHeader ph.type c.proto_ && ph.cksum != 0
  if !enabled then (c, true)
  else if ph.cksum != cksum_computed then
    ({ c with err := Status.CHECKSUM_MISMATCH }, false)
  else (c, true)

/-- `Connection::validateReceivedMessage`. -/
def validateReceivedMessage (d : Deps) (c : Connection) (t : MessageType) :
    Connection × Bool :=
  if isHandshakeMessage t && c.handshaken_ then
    ({ c with err := Status.PROTO }, false)
  else if c.is_gossip &&
      !(t == MessageType.SHUTDOWN || d.allowedOnGossipConnection t) then
    ({ c with err := Status.BADMSG }, false)
  else (c, true)

/-- `Connection::processHandshakeMessage`. -/
def processHandshakeMessage (d : Deps) (c : Connection) (t : MessageType)
    (r : Received) : Connection × Bool :=
  match t with
  | MessageType.ACK =>
    let c := { c with our_name_at_peer_ := r.ack_our_name, proto_ := r.ack_proto }
    (flushSerializeQueue d c, true)
  | MessageType.HELLO =>
    if c.peer_type_client && !r.conn_budget_token then
      ({ c with
          conn_external_token_ := false
          handshaken_ := false, err := Status.TOOMANY }, false)
    else
      let c :=
        if c.peer_type_client then { c with conn_external_token_ := true } else c
      (flushSerializeQueue d { c with proto_ := r.hello_proto }, true)
  | _ => (flushSerializeQueue d c, true)

/-- `Connection::dispatchMessageBody`. -/
def dispatchMessageBody (d : Deps) (c : Connection) (header : ProtocolHeader)
    (r : Received) : Connection × Int :=
  let c := { c with recv_message_ph_ := header }
  let ph := header
  if !r.resource_token && !d.shouldBeInlined ph.type then
    let c := { c with err := Status.NOBUFS }
    if !c.legacy_connection_ then
      ({ c with retry_receipt_of_message_ := true, read_cb_installed := false }, -1)
    else (c, -1)
  else
    let c := { c with
      num_messages_received_ := c.num_messages_received_ + 1
      num_bytes_received_ := c.num_bytes_received_ + ph.len }
    let c := expectProtocolHeader c
    match verifyChecksum d c ph r.cksum_computed with
    | (c, false) => ({ c with err := Status.BADMSG }, -1)
    | (c, true) =>
      match r.deserialized with
      | none =>
        let c := { c with err := r.deserialize_err }
        match r.deserialize_err with
        | Status.TOOBIG => ({ c with err := Status.BADMSG }, -1)
        | Status.BADMSG => ({ c with err := Status.BADMSG }, -1)
        | Status.INTERNAL => (c, 0)
        | Status.NOTSUPPORTED => ({ c with err := Status.INTERNAL }, -1)
        | _ => (c, 0)
      | some t =>
        match validateReceivedMessage d c t with
        | (c, false) => (c, -1)
        | (c, true) =>
          let c :=
            if isHandshakeMessage ph.type then
              { c with
                handshaken_ := true, first_attempt_ := false
                handshake_timeout_event_ := false }
            else c
          match r.disposition with
          | Disposition.NORMAL =>
            if isHandshakeMessage ph.type then
              match processHandshakeMessage d c t r with
              | (c, false) => (c, -1)
              | (c, true) => (c, 0)
            else (c, 0)
          | Disposition.KEEP => (c, 0)
          | Disposition.ERROR => ({ c with err := r.handler_err }, -1)

/-- `Connection::readMessageHeader` for a header that has arrived in full:
length and type are read first, the checksum only when the type and protocol
carry one. -/
def readMessageHeader (d : Deps) (c : Connection) (hdr : ProtocolHeader) :
    Connection × Int :=
  let min_protohdr_bytes := d.sizeofProtocolHeader - 8
  let c := { c with
    recv_message_ph_ := { c.recv_message_ph_ with len := hdr.len, type := hdr.type } }
  if c.recv_message_ph_.len ≤ min_protohdr_bytes then
    ({ c with err := Status.BADMSG }, -1)
  else
    let protohdr_bytes := d.bytesNeeded c.recv_message_ph_.type c.proto_
    if c.recv_message_ph_.len > d.MAX_LEN + protohdr_bytes then
      ({ c with err := Status.BADMSG }, -1)
    else if !c.handshaken_ && !isHandshakeMessage c.recv_message_ph_.type then
      ({ c with err := Status.PROTO }, -1)
    else if d.needChecksumInHeader c.recv_message_ph_.type c.proto_ then
      ({ c with
          recv_message_ph_ := { c.recv_message_ph_ with cksum := hdr.cksum } }, 0)
    else (c, 0)

/-- `Connection::expectMessageBody`. -/
def expectMessageBody (c : Connection) : Connection :=
  { c with expecting_header_ := false }

/-- `Connection::bytesExpected`: the header bytes of the type last read while a
header is expected, the rest of the frame otherwise.  The difference is taken
in `size_t`: it wraps modulo `2 ^ 64` when the header is longer than the
declared length. -/
def bytesExpected (d : Deps) (c : Connection) : Nat :=
  let protohdr_bytes := d.bytesNeeded c.recv_message_ph_.type c.proto_
  if c.expecting_header_ then protohdr_bytes
  else (c.recv_message_ph_.len + 2 ^ 64 - protohdr_bytes) % 2 ^ 64

/-- What the loop of `Connection::onBytesAvailable` does when reading a header
or dispatching a body has failed: on NOBUFS the read is retried later, any
other failure closes the connection (after flushing the output when a HELLO
was refused). -/
def onReadFailure (d : Deps) (c : Connection) : Connection :=
  if c.err = Status.NOBUFS then { c with read_more_ := true }
  else if (c.err = Status.PROTONOSUPPORT || c.err = Status.INVALID_CLUSTER ||
      c.err = Status.ACCESS || c.err = Status.DESTINATION_MISMATCH) &&
      isHELLOMessage c.recv_message_ph_.type then
    flushOutputAndClose d c c.err
  else close d c c.err

/-- The header branch of the loop of `Connection::onBytesAvailable`, for a
header that has arrived in full. -/
def onMessageHeader (d : Deps) (c : Connection) (hdr : ProtocolHeader) :
    Connection :=
  match readMessageHeader d c hdr with
  | (c, rv) => if rv = 0 then expectMessageBody c else onReadFailure d c

/-- The body branch of the loop of `Connection::onBytesAvailable`, for a body
that has arrived in full. -/
def onMessageBody (d : Deps) (c : Connection) (r : Received) : Connection :=
  match dispatchMessageBody d c c.recv_message_ph_ r with
  | (c, rv) => if rv = 0 then expectProtocolHeader c else onReadFailure d c

/-! ## The read loop -/

/-- The input buffer of `bev_` as `onBytesAvailable` reads it: the number of
bytes it holds, the headers those bytes decode to and what the collaborators
answer when a body is dispatched, both numbered in the order of the reads. -/
structure Inbuf where
  length : Nat
  headers : Nat → ProtocolHeader
  headers_read : Nat
  bodies : Nat → Received
  bodies_dispatched : Nat

/-- `Connection::readMessageHeader` on the input buffer: the two calls of
`evbuffer_remove` around the checks of `readMessageHeader`.  Length and type
take `sizeof(ProtocolHeader) - sizeof(cksum)` bytes, the checksum 8 more; a
call that finds fewer bytes fails with INTERNAL (what the short read leaves in
`recv_message_ph_` is not modelled). -/
def readMessageHeaderInbuf (d : Deps) (c : Connection) (inbuf : Inbuf) :
    Connection × Inbuf × Int :=
  let min_protohdr_bytes := d.sizeofProtocolHeader - 8
  if inbuf.length < min_protohdr_bytes then
    ({ c with err := Status.INTERNAL }, { inbuf with length := 0 }, -1)
  else
    let hdr := inbuf.headers inbuf.headers_read
    let inbuf := { inbuf with
      length := inbuf.length - min_protohdr_bytes
      headers_read := inbuf.headers_read + 1 }
    match readMessageHeader d c hdr with
    | (c1, rv) =>
      if rv != 0 then (c1, inbuf, rv)
      else if d.needChecksumInHeader hdr.type c.proto_ then
        if inbuf.length < 8 then
          ({ c1 with err := Status.INTERNAL }, { inbuf with length := 0 }, -1)
        else (c1, { inbuf with length := inbuf.length - 8 }, 0)
      else (c1, inbuf, 0)

/-- How the loop of `onBytesAvailable` ends: too few bytes for the next unit,
the bound on the messages of one invocation, a failed read or dispatch; `fuel`
stands for a loop that has not ended yet. -/
inductive LoopEnd where
  | starved | bound | failed | fuel
  deriving DecidableEq, Repr

/-- What one invocation of `onBytesAvailable` leaves: the connection, the input
buffer, the loop counter `i` and how the loop ended. -/
structure ReadResult where
  conn : Connection
  inbuf : Inbuf
  i : Nat
  loop_end : LoopEnd

/-- The header and body branches of one round of the loop of
`onBytesAvailable`: the connection, the input buffer and `rv`.  A body is taken
out of the input buffer into `msg_pending_processing_` unless one is cached
there already (`bytes_cached` bytes, counted when the invocation began), and is
dispatched if it is not empty. -/
def readUnit (d : Deps) (c : Connection) (inbuf : Inbuf) (bytes_cached : Nat) :
    Connection × Inbuf × Int :=
  if c.expecting_header_ then
    match readMessageHeaderInbuf d c inbuf with
    | (c, inbuf, rv) =>
      if rv = 0 then (expectMessageBody c, inbuf, rv) else (c, inbuf, rv)
  else
    let expected_bytes := bytesExpected d c
    let (c, inbuf, rv, read_bytes) : Connection × Inbuf × Int × Nat :=
      match c.msg_pending_processing_ with
      | none =>
        let removed := min inbuf.length expected_bytes
        let inbuf := { inbuf with length := inbuf.length - removed }
        if removed > 0 then
          ({ c with msg_pending_processing_ := some expected_bytes }, inbuf,
            (removed : Int), removed)
        else
          ({ c with msg_pending_processing_ := some 0, err := Status.INTERNAL },
            inbuf, 0, 0)
      | some _ => (c, inbuf, 0, bytes_cached)
    if read_bytes > 0 then
      match dispatchMessageBody d c c.recv_message_ph_
          (inbuf.bodies inbuf.bodies_dispatched) with
      | (c, rv) =>
        let inbuf := { inbuf with bodies_dispatched := inbuf.bodies_dispatched + 1 }
        if rv = 0 then
          (expectProtocolHeader { c with msg_pending_processing_ := none }, inbuf, rv)
        else (c, inbuf, rv)
    else (c, inbuf, rv)

/-- The loop of `Connection::onBytesAvailable`, run at most `fuel` times, from
round `i` with `available` bytes.  The counter `i` is an `unsigned` that stays
below `2 * process_max + 1`; it is embedded without wrap-around. -/
def onBytesAvailableLoop (d : Deps) (process_max bytes_cached : Nat) :
    Nat → Nat → Nat → Connection → Inbuf → ReadResult
  | 0, i, _, c, inbuf => { conn := c, inbuf := inbuf, i := i, loop_end := LoopEnd.fuel }
  | fuel + 1, i, available, c, inbuf =>
    if available ≥ bytesExpected d c then
      if i / 2 < process_max then
        match readUnit d c inbuf bytes_cached with
        | (c, inbuf, rv) =>
          if rv != 0 then
            { conn := onReadFailure d c, inbuf := inbuf, i := i
              loop_end := LoopEnd.failed }
          else
            onBytesAvailableLoop d process_max bytes_cached fuel (i + 1)
              inbuf.length c inbuf
      else
        { conn := { c with read_more_ := true }, inbuf := inbuf, i := i
          loop_end := LoopEnd.bound }
    else
      { conn := { c with read_more_ := false }, inbuf := inbuf, i := i
        loop_end := LoopEnd.starved }

/-- `Connection::onBytesAvailable`: the loop from `i = 0` with the bytes of the
input buffer and of `msg_pending_processing_`.  Two rounds for each of the
`incoming_messages_max_per_socket` messages and one more to leave the loop are
all it can take. -/
def onBytesAvailable (d : Deps) (c : Connection) (inbuf : Inbuf) : ReadResult :=
  let process_max := d.incoming_messages_max_per_socket
  let bytes_cached := c.msg_pending_processing_.getD 0
  let available := inbuf.length + bytes_cached
  onBytesAvailableLoop d process_max bytes_cached (2 * process_max + 1) 0
    available c inbuf

/-! ## Timeouts of connection establishment -/

/-- `Connection::onConnectTimeout`. -/
def onConnectTimeout (d : Deps) (c : Connection) : Connection :=
  close d c Status.TIMEDOUT

/-- `Connection::onHandshakeTimeout`. -/
def onHandshakeTimeout (d : Deps) (c : Connection) : Connection :=
  onConnectTimeout d c

/-- `Connection::onConnectAttemptTimeout`; `a` is how the new connect attempt
ends.  Before the new attempt the bufferevent is freed and the shared
`conn_closed_` flag is set. -/
def onConnectAttemptTimeout (d : Deps) (c : Connection) (a : ConnectAttempt) :
    Connection :=
  if c.retries_so_far_ ≥ d.connection_retries then onConnectTimeout d c
  else
    let c := { c with
      bev_ := none
      read_cb_installed := false, output_empty_cb_installed := false }
    let c := { c with conn_closed_ := some true }
    match doConnectAttempt d c a with
    | (c, rv) =>
      if rv != 0 then onConnectTimeout d c
      else { c with retries_so_far_ := c.retries_so_far_ + 1 }

/-- The timers of connection establishment. -/
inductive Timer where
  /-- The timer of a connect attempt; `a` is how the next attempt ends. -/
  | connectAttempt (a : ConnectAttempt)
  /-- The handshake timer. -/
  | handshake

/-- A timer fires: `none` when it is not scheduled.  A timer that has fired is
no longer scheduled when its callback runs. -/
def fire (d : Deps) (c : Connection) : Timer → Option Connection
  | Timer.connectAttempt a =>
    if c.connect_timeout_event_ then
      some (onConnectAttemptTimeout d { c with connect_timeout_event_ := false } a)
    else none
  | Timer.handshake =>
    if c.handshake_timeout_event_ then
      some (onHandshakeTimeout d { c with handshake_timeout_event_ := false })
    else none

/-! ## Socket health

Times are whole milliseconds, the unit `to_msec` converts to.  The `double`
values of `getSlowSocketReason` and `checkSocketHealth` are rationals: every
conversion of an integer to `double` and every operation on doubles yields
`Deps.toDouble` of the exact result. -/

/-- `SocketDrainStatusType`. -/
inductive SocketDrainStatusType where
  | UNKNOWN | ACTIVE | STALLED | NET_SLOW | RECV_SLOW | IDLE
  deriving DecidableEq, Repr

/-- `health_stats_`; `active_start_time_ = none` is `SteadyTimestamp::min()`. -/
structure HealthStats where
  active_start_time_ : Option Nat
  active_time_ : Nat
  num_bytes_sent_ : Nat
  busy_time_ : Nat
  rwnd_limited_time_ : Nat
  sndbuf_limited_time_ : Nat
  deriving DecidableEq, Repr

/-- Modelled from the spec: `TCPInfo`, whose declaration is not part of the
sources: the three times `getSlowSocketReason` reads. -/
structure TCPInfo where
  busy_time : Nat
  rwnd_limited_time : Nat
  sndbuf_limited_time : Nat
  deriving DecidableEq, Repr

/-- Conversion of a `double` to `unsigned`: the fraction is dropped; a value
out of range is reduced modulo `2 ^ 32`. -/
def toUnsigned (x : ℚ) : Nat := ((x.num.tdiv x.den) % 2 ^ 32).toNat

/-- `Connection::getSlowSocketReason`; `tcp_info` is what `deps_->getTCPInfo`
fills in, `none` when it fails. -/
def getSlowSocketReason (d : Deps) (s : HealthStats) (tcp_info : Option TCPInfo) :
    HealthStats × SocketDrainStatusType :=
  match tcp_info with
  | none => (s, SocketDrainStatusType.NET_SLOW)
  | some tcp_info =>
    let cur_busy :=
      if tcp_info.busy_time > s.busy_time_ then tcp_info.busy_time - s.busy_time_
      else 0
    let cur_rwnd :=
      if tcp_info.rwnd_limited_time > s.rwnd_limited_time_ then
        tcp_info.rwnd_limited_time - s.rwnd_limited_time_
      else 0
    let cur_sndbuf :=
      if tcp_info.sndbuf_limited_time > s.sndbuf_limited_time_ then
        tcp_info.sndbuf_limited_time - s.sndbuf_limited_time_
      else 0
    let s := { s with
      busy_time_ := tcp_info.busy_time
      rwnd_limited_time_ := tcp_info.rwnd_limited_time
      sndbuf_limited_time_ := tcp_info.sndbuf_limited_time }
    if cur_busy > 0 then
      let rwnd_ltd_pct := toUnsigned
        (d.toDouble (d.toDouble (100 * d.toDouble cur_rwnd) / d.toDouble cur_busy))
      let sndbuf_ltd_pct := toUnsigned
        (d.toDouble (d.toDouble (100 * d.toDouble cur_sndbuf) / d.toDouble cur_busy))
      let net_ltd_pct := toUnsigned
        (d.toDouble (d.toDouble (100 - d.toDouble rwnd_ltd_pct) -
          d.toDouble sndbuf_ltd_pct))
      if net_ltd_pct > 50 then (s, SocketDrainStatusType.NET_SLOW)
      else if rwnd_ltd_pct > 50 then (s, SocketDrainStatusType.RECV_SLOW)
      else (s, SocketDrainStatusType.IDLE)
    else (s, SocketDrainStatusType.IDLE)

/-- The `SCOPE_EXIT` block of `checkSocketHealth`: the counters are reset and a
new active window opens if enough bytes are buffered. -/
def resetHealthCounters (d : Deps) (c : Connection) (s : HealthStats)
    (now : Nat) : HealthStats :=
  { s with
    active_time_ := 0
    num_bytes_sent_ := 0
    active_start_time_ :=
      if getBufferedBytesSize c > d.socket_idle_threshold then some now else none }

/-- `Connection::checkSocketHealth` on the health statistics `s`: `now` is the
current timestamp, `age e` the result of `e.age()` for an envelope `e`, in
microseconds since the envelope was created, and `tcp_info` what
`deps_->getTCPInfo` fills in. -/
def checkSocketHealth (d : Deps) (c : Connection) (s : HealthStats)
    (now : Nat) (age : Envelope → Nat) (tcp_info : Option TCPInfo) :
    HealthStats × SocketDrainStatusType :=
  let s :=
    match s.active_start_time_ with
    | some start => { s with active_time_ := s.active_time_ + (now - start) }
    | none => s
  let health_check_period := d.socket_health_check_period
  if !c.handshaken_ || health_check_period = 0 then
    (resetHealthCounters d c s now, SocketDrainStatusType.UNKNOWN)
  else
    let age_in_ms :=
      match c.sendq_ with
      | front :: _ => age front / 1000
      | [] => 0
    let is_active : Bool :=
      decide (d.toDouble
        (d.toDouble (health_check_period * d.min_socket_idle_threshold_percent : Nat) /
          100) < d.toDouble s.active_time_)
    let rateKBps : ℚ :=
      d.toDouble (d.toDouble (d.toDouble s.num_bytes_sent_ * 1) /
        d.toDouble health_check_period)
    let min_rateKBps : ℚ :=
      d.toDouble (d.toDouble d.min_bytes_to_drain_per_second / 1000)
    let (s, decision) : HealthStats × SocketDrainStatusType :=
      if age_in_ms > d.max_time_to_allow_socket_drain then
        (s, SocketDrainStatusType.STALLED)
      else if !is_active then (s, SocketDrainStatusType.IDLE)
      else if rateKBps < min_rateKBps then getSlowSocketReason d s tcp_info
      else (s, SocketDrainStatusType.ACTIVE)
    let s :=
      if decision = SocketDrainStatusType.ACTIVE ||
          decision = SocketDrainStatusType.UNKNOWN then
        { s with busy_time_ := s.busy_time_ + s.active_time_ }
      else s
    (resetHealthCounters d c s now, decision)

/-! ## Connections and the operations on them -/

/-- A connection as the constructors for an outgoing connection leave it:
nothing is open yet. -/
def Connection.outgoing (d : Deps) (legacy ssl gossip : Bool) : Connection :=
  { peer_is_client_address := false, peer_type_client := false
    legacy_connection_ := legacy, isSSL := ssl, is_gossip := gossip
    conn_closed_ := none, bev_ := none, buffered_output_ := none
    sendChain_ := none, bytes_buffered := 0, write_chains := []
    proto_good := false, read_cb_installed := false
    output_empty_cb_installed := false
    connected_ := false, handshaken_ := false, closing_ := false
    proto_ := d.max_protocol, our_name_at_peer_ := none
    pendingq_ := [], serializeq_ := [], sendq_ := []
    next_pos_ := 0, drain_pos_ := 0
    outbuf_overflow_ := d.outbuf_overflow_kb * 1024
    retries_so_far_ := 0, first_attempt_ := true
    close_reason_ := Status.UNKNOWN
    num_messages_sent_ := 0, num_messages_received_ := 0
    num_bytes_received_ := 0
    peer_shuttingdown_ := false, expecting_ssl_handshake_ := false
    expecting_header_ := false
    recv_message_ph_ := { len := 0, type := MessageType.HELLO, cksum := 0 }
    deferred_event_queue_ := [], on_close_ := [], pending_bw_cbs_ := []
    conn_incoming_token_ := false, conn_external_token_ := false
    message_error_injection_rewinding_stream_ := false
    message_error_injection_pass_count_ := 0
    message_error_injection_rewound_count_ := 0
    read_more_ := false, connect_timeout_event_ := false
    handshake_timeout_event_ := false, deferred_event_queue_event_ := false
    end_stream_rewind_event_ := false, buffered_output_flush_event_ := false
    retry_receipt_of_message_ := false, sched_write_chain_ := false
    err := Status.OK, trace := [], noted_queued := 0, noted_drained := 0
    envelopes_created := 0, rand_calls := 0
    msg_pending_processing_ := none, callback_views := [] }

/-- A connection as the constructors for an accepted (incoming) connection
leave it: connected, holding its connection token, waiting for the header of
the peer's HELLO. -/
def Connection.incoming (d : Deps) (legacy ssl gossip peer_client : Bool) :
    Connection :=
  let c := Connection.outgoing d legacy ssl gossip
  let c := { c with
    peer_is_client_address := true, peer_type_client := peer_client
    bev_ := if legacy then some 0 else none
    buffered_output_ := if legacy && ssl then some 0 else none
    proto_good := !legacy
    read_cb_installed := true
    conn_closed_ := some false
    conn_incoming_token_ := true }
  let c := addHandshakeTimeoutEvent d c
  let c := expectProtocolHeader c
  { c with expecting_ssl_handshake_ := ssl, connected_ := true }

/-- The operations on a connection: the calls of its owner, the events of
its transport and its timers. -/
inductive Op where
  /-- A call of `connect()`. -/
  | connect (mayConnect : Bool) (a : ConnectAttempt) (fut : Option Status)
  /-- The future of a new-style connect completes with a status. -/
  | connectCompleted (st : Status)
  /-- An event of `bev_` reaches `eventCallback`. -/
  | event (e : SocketEvent)
  /-- The timer of the deferred event queue fires. -/
  | deferredEvents
  /-- A call of `registerMessage`. -/
  | registerMessage (msg : Message)
  /-- A call of `releaseMessage` on the pending envelope `id`. -/
  | releaseMessage (id : Nat)
  /-- A call of `discardEnvelope` on the pending envelope `id`. -/
  | discardEnvelope (id : Nat)
  /-- The transport takes `n` bytes out of the output buffer of `bev_`. -/
  | bytesSent (n : Nat)
  /-- The flush timer of `buffered_output_` fires. -/
  | flushBufferedOutput
  /-- The timer that writes `sendChain_` fires. -/
  | scheduleWriteChain
  /-- The protocol handler reports `num_success` finished writes. -/
  | drainSendQueue (num_success : Nat)
  /-- A message header has arrived. -/
  | header (hdr : ProtocolHeader)
  /-- The body of the message whose header was read has arrived. -/
  | body (r : Received)
  /-- A call of `pushOnCloseCallback` with an inactive callback. -/
  | pushOnCloseCallback (cb : Nat)
  /-- A call of `flushOutputAndClose`. -/
  | flushOutputAndClose (reason : Status)
  /-- A call of `close`. -/
  | close (reason : Status)
  /-- The timer of a connect attempt fires; `a` is how the next attempt ends. -/
  | connectAttemptTimeout (a : ConnectAttempt)
  /-- The handshake timer fires. -/
  | handshakeTimeout

/-- The pending envelope with a given identity. -/
def findPending (c : Connection) (id : Nat) : Option Envelope :=
  c.pendingq_.find? (fun e => e.id == id)

/-- One operation: `none` when the operation cannot occur in this state (an
envelope that is not pending, more bytes taken than the buffer holds, an event
of a transport that does not exist, a timer that is not scheduled). -/
def step (d : Deps) (c : Connection) : Op → Option Connection
  | Op.connect mayConnect a fut => some (connect d c mayConnect a fut).1
  | Op.connectCompleted st =>
    if !c.legacy_connection_ && !isClosed c && !c.connected_ then
      if st = Status.ISCONN then
        some { transitionToConnected d c with read_cb_installed := true }
      else some c
    else none
  | Op.event e =>
    if c.legacy_connection_ && c.bev_.isSome && !isClosed c &&
        (!e.connected || c.expecting_ssl_handshake_ ||
          (!c.connected_ && !c.peer_is_client_address)) then
      some (eventCallback d c e)
    else none
  | Op.deferredEvents =>
    if c.deferred_event_queue_event_ && !c.deferred_event_queue_.isEmpty then
      some (processDeferredEventQueue d c)
    else none
  | Op.registerMessage msg => some (registerMessage d c msg).1
  | Op.releaseMessage id =>
    match findPending c id with
    | some e => some (releaseMessage d c e)
    | none => none
  | Op.discardEnvelope id =>
    match findPending c id with
    | some e => some (discardEnvelope c e)
    | none => none
  | Op.bytesSent n =>
    match c.bev_ with
    | some len =>
      if c.legacy_connection_ && !isClosed c && n ≤ len then
        let c := bytesSentCallback d { c with bev_ := some (len - n) } n
        if c.output_empty_cb_installed && c.bev_ = some 0 then
          some (onOutputEmpty d c)
        else some c
      else none
    | none => none
  | Op.flushBufferedOutput =>
    if c.buffered_output_flush_event_ && c.buffered_output_.isSome &&
        !isClosed c then
      some (flushBufferedOutput c)
    else none
  | Op.scheduleWriteChain =>
    if c.sched_write_chain_ && c.sendChain_.isSome && !c.legacy_connection_ then
      some (scheduleWriteChain d c)
    else none
  | Op.drainSendQueue num_success =>
    if !c.legacy_connection_ && num_success ≤ c.write_chains.length then
      some (drainSendQueue d c num_success)
    else none
  | Op.header hdr =>
    if !isClosed c && c.connected_ && c.read_cb_installed &&
        c.expecting_header_ then
      some (onMessageHeader d c hdr)
    else none
  | Op.body r =>
    if !isClosed c && c.connected_ && c.read_cb_installed &&
        !c.expecting_header_ then
      some (onMessageBody d c r)
    else none
  | Op.pushOnCloseCallback cb => some { c with on_close_ := c.on_close_ ++ [cb] }
  | Op.flushOutputAndClose reason => some (flushOutputAndClose d c reason)
  | Op.close reason => some (close d c reason)
  | Op.connectAttemptTimeout a => fire d c (Timer.connectAttempt a)
  | Op.handshakeTimeout => fire d c Timer.handshake

/-- A sequence of operations, from left to right. -/
def run (d : Deps) : Connection → List Op → Option Connection
  | c, [] => some c
  | c, op :: ops =>
    match step d c op with
    | some c => run d c ops
    | none => none

/-- What happens to a connection: an operation, or a timer of connection
establishment given as such. -/
inductive Activity where
  | op (o : Op)
  | timer (t : Timer)

/-- One activity. -/
def advance (d : Deps) (c : Connection) : Activity → Option Connection
  | Activity.op o => step d c o
  | Activity.timer t => fire d c t

/-- A sequence of activities, from left to right. -/
def runTimed (d : Deps) : Connection → List Activity → Option Connection
  | c, [] => some c
  | c, a :: as =>
    match advance d c a with
    | some c => runTimed d c as
    | none => none

/-- The identities released so far, oldest first. -/
def releasedIds : List Event → List Nat
  | [] => []
  | Event.released id :: t => id :: releasedIds t
  | _ :: t => releasedIds t

/-- The identities whose completion callback has run, oldest first. -/
def completedIds : List Event → List Nat
  | [] => []
  | Event.onSent id _ _ :: t => id :: completedIds t
  | _ :: t => completedIds t

/-- The identities serialized so far, oldest first. -/
def serializedIds : List Event → List Nat
  | [] => []
  | Event.serialized id _ _ _ :: t => id :: serializedIds t
  | _ :: t => serializedIds t

/-- The completion callbacks so far, oldest first: envelope and status. -/
def completions : List Event → List (Nat × Status)
  | [] => []
  | Event.onSent id st _ :: t => (id, st) :: completions t
  | _ :: t => completions t

/-- Settings used in the examples: protocol 5, headers of 5 bytes for the
handshake messages and 13 bytes otherwise, no error injection.  The numbers of
the health-check examples are doubles, which rounding leaves as they are. -/
def exampleDeps : Deps :=
  { shuttingDown := false, max_protocol := 5, MAX_PROTOCOL_SUPPORTED := 5
    outbuf_overflow_kb := 1
    message_error_injection_chance_percent := 0
    message_error_injection_status := Status.NOBUFS
    randDouble := fun _ => 100
    MAX_LEN := 1000, sizeofProtocolHeader := 13
    bytesNeeded := fun t _ => if isHandshakeMessage t then 5 else 13
    needChecksumInHeader := fun t _ => !isHandshakeMessage t
    checksumming_enabled := true
    checksumming_blacklisted := fun _ => false
    computeChecksum := fun body => body.sum % 2 ^ 64
    shouldTamperChecksum := 0
    helloMessage :=
      { type_ := MessageType.HELLO, cancelled := false, min_protocol := 0
        size := fun _ => 12, serialize := fun _ => some (List.replicate 7 0) }
    handshake_timeout := 1000, connect_timeout := 100, connection_retries := 3
    incoming_messages_max_per_socket := 10
    shouldBeInlined := fun _ => false
    allowedOnGossipConnection := fun _ => false
    socket_health_check_period := 60000
    min_socket_idle_threshold_percent := 50
    min_bytes_to_drain_per_second := 1000000
    max_time_to_allow_socket_drain := 180000
    socket_idle_threshold := 0
    toDouble := fun x => x }

/-- An application message whose frame is `len + 13` bytes long under
`exampleDeps`. -/
def exampleMessage (code len : Nat) : Message :=
  { type_ := MessageType.OTHER code, cancelled := false, min_protocol := 0
    size := fun _ => len + 13, serialize := fun _ => some (List.replicate len 0) }

/-! ## The core of a connection

The members that the properties below speak about, gathered in one record so
that the effect of each function on them is one equation. -/

/-- The members of a connection that the properties speak about. -/
@[ext]
structure Core where
  legacy_connection_ : Bool
  peer_is_client_address : Bool
  conn_closed_ : Option Bool
  closing_ : Bool
  connected_ : Bool
  handshaken_ : Bool
  proto_ : Nat
  bev_ : Option Nat
  buffered_output_ : Option Nat
  bytes_buffered : Nat
  pendingq_ : List Envelope
  serializeq_ : List Envelope
  sendq_ : List Envelope
  next_pos_ : Nat
  drain_pos_ : Nat
  on_close_ : List Nat
  pending_bw_cbs_ : List Nat
  message_error_injection_rewinding_stream_ : Bool
  deferred_event_queue_ : List SocketEvent
  trace : List Event
  envelopes_created : Nat
  connect_timeout_event_ : Bool

/-- The core members of a connection. -/
def Connection.core (c : Connection) : Core :=
  { legacy_connection_ := c.legacy_connection_
    peer_is_client_address := c.peer_is_client_address
    conn_closed_ := c.conn_closed_
    closing_ := c.closing_
    connected_ := c.connected_
    handshaken_ := c.handshaken_
    proto_ := c.proto_
    bev_ := c.bev_
    buffered_output_ := c.buffered_output_
    bytes_buffered := c.bytes_buffered
    pendingq_ := c.pendingq_
    serializeq_ := c.serializeq_
    sendq_ := c.sendq_
    next_pos_ := c.next_pos_
    drain_pos_ := c.drain_pos_
    on_close_ := c.on_close_
    pending_bw_cbs_ := c.pending_bw_cbs_
    message_error_injection_rewinding_stream_ := c.message_error_injection_rewinding_stream_
    deferred_event_queue_ := c.deferred_event_queue_
    trace := c.trace
    envelopes_created := c.envelopes_created
    connect_timeout_event_ := c.connect_timeout_event_ }

/-- The trace a close appends: the completions of the envelopes of
`serializeq_`, `sendq_` and `pendingq_` (none when shutting down), then the
bandwidth callbacks, then the on-close callbacks. -/
def closeEvents (d : Deps) (k : Core) (r : Status) : List Event :=
  (if d.shuttingDown then []
   else (k.serializeq_ ++ k.sendq_ ++ k.pendingq_).map
     (fun e => Event.onSent e.id r CompletionMethod.IMMEDIATE)) ++
  k.pending_bw_cbs_.map (fun cb => Event.bwCancelled cb r) ++
  k.on_close_.map (fun cb => Event.onClose cb r)

/-- The core of a connection after an effective close. -/
def Core.closed (d : Deps) (k : Core) (r : Status) : Core :=
  { k with
    conn_closed_ := some true
    connected_ := false, handshaken_ := false
    bev_ := if k.legacy_connection_ then none else k.bev_
    buffered_output_ := if k.legacy_connection_ then none else k.buffered_output_
    bytes_buffered := if k.legacy_connection_ then k.bytes_buffered else 0
    pendingq_ := [], serializeq_ := [], sendq_ := []
    on_close_ := [], pending_bw_cbs_ := []
    drain_pos_ := k.next_pos_
    message_error_injection_rewinding_stream_ := false
    deferred_event_queue_ := []
    trace := k.trace ++ closeEvents d k r
    connect_timeout_event_ := false }

/-- An ACK message whose frame is 10 bytes long under `exampleDeps`. -/
def exampleAck : Message :=
  { type_ := MessageType.ACK, cancelled := false, min_protocol := 0
    size := fun _ => 10, serialize := fun _ => some (List.replicate 5 0) }

/-- The settings of `exampleDeps` on a worker that is shutting down. -/
def shuttingDownDeps : Deps := { exampleDeps with shuttingDown := true }

/-- An envelope for the examples: message `id`, 23 bytes. -/
def exampleEnvelope (id : Nat) : Envelope :=
  { id := id, msg := exampleMessage id 10, drain_pos_ := DRAIN_POS_UNSET
    cost_ := 23 }

/-- An open, handshaken incoming connection with two envelopes in flight, one
pending and one on-close callback. -/
def exampleOpenConnection : Connection :=
  { Connection.incoming exampleDeps true false false true with
    handshaken_ := true
    pendingq_ := [exampleEnvelope 2]
    sendq_ := [{ exampleEnvelope 0 with drain_pos_ := 23 },
      { exampleEnvelope 1 with drain_pos_ := 46 }]
    next_pos_ := 46, bev_ := some 46, envelopes_created := 3
    on_close_ := [7] }

/-- The length of the frame of a message under a protocol: header bytes and
body (0 for the body when the message does not serialize). -/
def frameLength (d : Deps) (proto : Nat) (m : Message) : Nat :=
  d.bytesNeeded m.type_ proto + ((m.serialize proto).getD []).length

/-- Whether `send` on an open, handshaken connection without error injection
writes the message: it passes `preSendCheck`, is not cancelled, is within the
size limit and serializes to a non-empty body. -/
def sendable (d : Deps) (proto : Nat) (m : Message) : Bool :=
  decide (m.min_protocol ≤ proto) && !m.cancelled &&
  decide (m.size proto ≤ d.MAX_LEN + d.sizeofProtocolHeader) &&
  decide (0 < ((m.serialize proto).getD []).length)

/-- The envelopes of a queue with the drain positions they get when they are
serialized one after the other from stream position `pos`. -/
def stampDrainPos (d : Deps) (proto : Nat) : Nat → List Envelope → List Envelope
  | _, [] => []
  | pos, e :: es =>
    { e with drain_pos_ := pos + frameLength d proto e.msg } ::
      stampDrainPos d proto (pos + frameLength d proto e.msg) es

/-- The `serialized` markers of a queue serialized from stream position `pos`. -/
def serializedEvents (d : Deps) (proto : Nat) : Nat → List Envelope → List Event
  | _, [] => []
  | pos, e :: es =>
    Event.serialized e.id e.msg.type_ pos (frameLength d proto e.msg) ::
      serializedEvents d proto (pos + frameLength d proto e.msg) es

/-- The core after the envelopes `q` have been serialized one after the other. -/
def Core.flushed (d : Deps) (k : Core) (q : List Envelope) : Core :=
  { k with
    serializeq_ := []
    bev_ :=
      if k.legacy_connection_ && k.buffered_output_.isNone then
        k.bev_.map (· + (q.map (fun e => frameLength d k.proto_ e.msg)).sum)
      else k.bev_
    buffered_output_ :=
      if k.legacy_connection_ then
        k.buffered_output_.map
          (· + (q.map (fun e => frameLength d k.proto_ e.msg)).sum)
      else k.buffered_output_
    next_pos_ := k.next_pos_ + (q.map (fun e => frameLength d k.proto_ e.msg)).sum
    sendq_ := k.sendq_ ++ stampDrainPos d k.proto_ k.next_pos_ q
    trace := k.trace ++ serializedEvents d k.proto_ k.next_pos_ q }

/-- The protocol version a handshake message settles: `processACKMessage`
stores it for an ACK, `processHelloMessage` returns it for a HELLO. -/
def negotiatedProto (t : MessageType) (r : Received) : Nat :=
  match t with
  | MessageType.ACK => r.ack_proto
  | _ => r.hello_proto

/-- An outgoing legacy connection after `connect()`, two application messages
with frames of 100 and 50 bytes registered and released, and the transport
connected: HELLO is in flight, the two messages wait in `serializeq_`; the
peer's ACK is being dispatched (`handshaken_` is set). -/
def exampleAwaitingAck : Connection :=
  match run exampleDeps (Connection.outgoing exampleDeps true false false)
      [Op.connect true ConnectAttempt.started none,
        Op.registerMessage (exampleMessage 1 87), Op.releaseMessage 1,
        Op.registerMessage (exampleMessage 2 37), Op.releaseMessage 2,
        Op.event { connected := true, error := false, eof := false }] with
  | some c => { c with handshaken_ := true }
  | none => Connection.outgoing exampleDeps true false false

/-- What the collaborators answer when the ACK of the examples is dispatched. -/
def exampleAckReceived : Received :=
  { resource_token := true, cksum_computed := 0
    deserialized := some MessageType.ACK, deserialize_err := Status.OK
    disposition := Disposition.NORMAL, handler_err := Status.OK
    ack_our_name := some 7, ack_proto := 5, hello_proto := 5
    conn_budget_token := true }

/-- An outgoing legacy connection right after a successful `connect()`. -/
def exampleConnecting : Connection :=
  (connect exampleDeps (Connection.outgoing exampleDeps true false false) true
    ConnectAttempt.started none).1

/-- What `registerMessage` leaves when it admits a message: the new envelope
at the tail of `pendingq_`, its cost noted as queued. -/
def admitted (d : Deps) (c : Connection) (msg : Message) :
    Connection × Option Envelope :=
  ({ c with
      envelopes_created := c.envelopes_created + 1
      pendingq_ := c.pendingq_ ++
        [{ id := c.envelopes_created, msg := msg, drain_pos_ := DRAIN_POS_UNSET
           cost_ := msg.size d.MAX_PROTOCOL_SUPPORTED }]
      noted_queued := c.noted_queued + msg.size d.MAX_PROTOCOL_SUPPORTED },
    some { id := c.envelopes_created, msg := msg, drain_pos_ := DRAIN_POS_UNSET
           cost_ := msg.size d.MAX_PROTOCOL_SUPPORTED })

/-- The identity of the held envelope, as a list. -/
def heldIds (H : Option Envelope) : List Nat :=
  match H with
  | none => []
  | some e => [e.id]

/-- Stream positions and transport: `drain_pos_` and the bytes still in the
output buffers never pass `next_pos_`; a closed connection has no bufferevent
and is not connected; a connection that is not connected has nothing in flight
and nothing in its output buffers; the timer of a connect attempt runs only on
an open legacy connection that is not connected yet.  (A closed connection may
hold envelopes: see `onConnectAttemptTimeout`.) -/
structure BaseInv (k : Core) : Prop where
  closing : k.closing_ = false
  pos : k.drain_pos_ + k.bev_.getD 0 + k.buffered_output_.getD 0 ≤ k.next_pos_
  new_transport : k.legacy_connection_ = false →
    k.bev_ = none ∧ k.buffered_output_ = none
  closed : k.conn_closed_ ≠ some false → k.connected_ = false ∧ k.bev_ = none
  unconnected : k.connected_ = false →
    k.sendq_ = [] ∧ k.bev_.getD 0 = 0 ∧ k.buffered_output_.getD 0 = 0
  hs_conn : k.handshaken_ = true → k.connected_ = true
  deferred : ∀ e ∈ k.deferred_event_queue_, e.connected = false
  timer : k.connect_timeout_event_ = true →
    k.legacy_connection_ = true ∧ k.conn_closed_ = some false ∧ k.connected_ = false

/-- Envelope bookkeeping on plain lists of identities: pending `P`, waiting
in the serialization queue `Q`, in flight `X`, held `Hs`, completed `C`,
released `R`, serialized `S`, with `n` envelopes created so far.  Every
envelope is in exactly one place, a released envelope is never lost, and the
envelopes that were serialized complete in the order they were serialized. -/
structure IdsOK (P Q X Hs C R S : List Nat) (n : Nat) : Prop where
  fresh : ∀ id ∈ P ++ Q ++ X ++ Hs ++ C, id < n
  nodup : (P ++ Q ++ X ++ Hs ++ C).Nodup
  released : ∀ id ∈ R, id ∈ Q ++ X ++ Hs ++ C
  order : C.filter (fun id => decide (id ∈ S)) ++ X = S

/-- Envelope bookkeeping of a core with a held envelope. -/
def IdsInv (k : Core) (H : Option Envelope) : Prop :=
  IdsOK (queueIds k.pendingq_) (queueIds k.serializeq_) (queueIds k.sendq_)
    (heldIds H) (completedIds k.trace) (releasedIds k.trace)
    (serializedIds k.trace) k.envelopes_created

/-- What `send` and the functions under it can do to the core and the held
envelope: nothing, complete the held envelope, serialize it, hold it back in
`serializeq_`, close the connection, toggle the error-injection flag. -/
inductive SendMove (d : Deps) :
    Core → Option Envelope → Core → Option Envelope → Prop where
  | refl (k : Core) (H : Option Envelope) : SendMove d k H k H
  | trans {k k1 k2 : Core} {H H1 H2 : Option Envelope} :
    SendMove d k H k1 H1 → SendMove d k1 H1 k2 H2 → SendMove d k H k2 H2
  | aux (k : Core) (H : Option Envelope) (w : Bool) :
    SendMove d k H { k with message_error_injection_rewinding_stream_ := w } H
  | complete (k : Core) (e : Envelope) (st : Status) (cm : CompletionMethod) :
    SendMove d k (some e)
      { k with
        trace := if d.shuttingDown then k.trace
          else k.trace ++ [Event.onSent e.id st cm] } none
  | serialize (k : Core) (e : Envelope) (len : Nat) :
    k.conn_closed_ = some false →
    (k.handshaken_ = true ∨
      (k.connected_ = true ∧ isHandshakeMessage e.msg.type_ = true)) →
    SendMove d k (some e)
      { k with
        bev_ :=
          if k.legacy_connection_ && k.buffered_output_.isNone then
            k.bev_.map (· + len)
          else k.bev_
        buffered_output_ :=
          if k.legacy_connection_ then k.buffered_output_.map (· + len)
          else k.buffered_output_
        next_pos_ := k.next_pos_ + len
        sendq_ := k.sendq_ ++ [{ e with drain_pos_ := k.next_pos_ + len }]
        trace := k.trace ++ [Event.serialized e.id e.msg.type_ k.next_pos_ len] }
      none
  | hold (k : Core) (e : Envelope) :
    k.conn_closed_ = some false → k.handshaken_ = false →
    (k.connected_ = false ∨ isHandshakeMessage e.msg.type_ = false) →
    SendMove d k (some e) { k with serializeq_ := k.serializeq_ ++ [e] } none
  | close (k : Core) (H : Option Envelope) (r : Status) :
    k.conn_closed_ = some false → SendMove d k H (Core.closed d k r) H

/-- What the operations on a connection can do to the core and the held
envelope.  `allowed` says which messages the owner may register, `reset`
whether the stream positions may be reset (only `connect` does so).  `retry`
is the timer of a connect attempt giving up the bufferevent before the next
attempt: the connection counts as closed and keeps its queues. -/
inductive Move (d : Deps) (allowed : Message → Prop) (reset : Prop) :
    Core → Option Envelope → Core → Option Envelope → Prop where
  | send {k k1 : Core} {H H1 : Option Envelope} :
    SendMove d k H k1 H1 → Move d allowed reset k H k1 H1
  | trans {k k1 k2 : Core} {H H1 H2 : Option Envelope} :
    Move d allowed reset k H k1 H1 → Move d allowed reset k1 H1 k2 H2 →
    Move d allowed reset k H k2 H2
  | aux (k : Core) (H : Option Envelope) (b : Nat) (oc bw : List Nat) (p : Nat) :
    Move d allowed reset k H
      { k with bytes_buffered := b, on_close_ := oc, pending_bw_cbs_ := bw
               proto_ := p } H
  | pop (k : Core) (e : Envelope) (rest : List Envelope) :
    k.serializeq_ = e :: rest → k.handshaken_ = true →
    Move d allowed reset k none { k with serializeq_ := rest } (some e)
  | connectedPop (k : Core) (e : Envelope) (rest : List Envelope) :
    k.conn_closed_ = some false → k.connected_ = false →
    k.connect_timeout_event_ = false → k.serializeq_ = e :: rest →
    Move d allowed reset k none { k with connected_ := true, serializeq_ := rest }
      (some e)
  | connectedEmpty (k : Core) :
    k.conn_closed_ = some false → k.connected_ = false →
    k.connect_timeout_event_ = false → k.serializeq_ = [] →
    Move d allowed reset k none { k with connected_ := true } none
  | register (k : Core) (H : Option Envelope) (e : Envelope) :
    allowed e.msg → e.id = k.envelopes_created → k.conn_closed_ = some false →
    Move d allowed reset k H
      { k with
        pendingq_ := k.pendingq_ ++ [e]
        envelopes_created := k.envelopes_created + 1 } H
  | release (k : Core) (e : Envelope) :
    e ∈ k.pendingq_ →
    Move d allowed reset k none
      { k with
        pendingq_ := eraseEnvelope k.pendingq_ e
        trace := k.trace ++ [Event.released e.id] } (some e)
  | discard (k : Core) (H : Option Envelope) (e : Envelope) :
    Move d allowed reset k H { k with pendingq_ := eraseEnvelope k.pendingq_ e } H
  | hello (k : Core) (e : Envelope) :
    e.id = k.envelopes_created → k.conn_closed_ = some false →
    k.connected_ = false → k.handshaken_ = false →
    Move d allowed reset k none
      { k with
        pendingq_ := eraseEnvelope k.pendingq_ e
        envelopes_created := k.envelopes_created + 1
        trace := k.trace ++ [Event.released e.id] } (some e)
  | ack (k : Core) (e : Envelope) (rest : List Envelope) :
    k.sendq_ = e :: rest →
    Move d allowed reset k none
      { k with
        sendq_ := rest
        trace := if d.shuttingDown then k.trace
          else k.trace ++ [Event.onSent e.id Status.OK CompletionMethod.IMMEDIATE] }
      none
  | drain (k : Core) (H : Option Envelope) (n : Nat) :
    k.drain_pos_ + n + k.bev_.getD 0 + k.buffered_output_.getD 0 ≤ k.next_pos_ →
    Move d allowed reset k H { k with drain_pos_ := k.drain_pos_ + n } H
  | shrink (k : Core) (H : Option Envelope) (len n : Nat) :
    k.bev_ = some len → n ≤ len →
    Move d allowed reset k H { k with bev_ := some n } H
  | flushBuffered (k : Core) (H : Option Envelope) (n : Nat) :
    k.buffered_output_ = some n →
    Move d allowed reset k H
      { k with bev_ := k.bev_.map (· + n), buffered_output_ := some 0 } H
  | handshaken (k : Core) :
    k.connected_ = true →
    Move d allowed reset k none { k with handshaken_ := true } none
  | unhandshaken (k : Core) (H : Option Envelope) :
    Move d allowed reset k H { k with handshaken_ := false } H
  | opened (k : Core) (bev buf : Option Nat) :
    k.conn_closed_ ≠ some false → bev.getD 0 = 0 → buf.getD 0 = 0 →
    (k.legacy_connection_ = false → bev = none ∧ buf = none) →
    Move d allowed reset k none
      { k with conn_closed_ := some false, bev_ := bev, buffered_output_ := buf }
      none
  | resetPos (k : Core) (H : Option Envelope) :
    reset → k.bev_.getD 0 = 0 → k.buffered_output_.getD 0 = 0 →
    Move d allowed reset k H { k with next_pos_ := 0, drain_pos_ := 0 } H
  | defer (k : Core) (H : Option Envelope) (e : SocketEvent) :
    k.conn_closed_ = some false → e.connected = false →
    Move d allowed reset k H
      { k with deferred_event_queue_ := k.deferred_event_queue_ ++ [e] } H
  | undefer (k : Core) (H : Option Envelope) (q : List SocketEvent) :
    (∀ e ∈ q, e ∈ k.deferred_event_queue_) →
    Move d allowed reset k H { k with deferred_event_queue_ := q } H
  | cancelTimer (k : Core) (H : Option Envelope) :
    Move d allowed reset k H { k with connect_timeout_event_ := false } H
  | armTimer (k : Core) (H : Option Envelope) :
    k.legacy_connection_ = true → k.conn_closed_ = some false →
    k.connected_ = false →
    Move d allowed reset k H { k with connect_timeout_event_ := true } H
  | retry (k : Core) (H : Option Envelope) :
    k.connect_timeout_event_ = true →
    Move d allowed reset k H
      { k with connect_timeout_event_ := false, conn_closed_ := some true, bev_ := none }
      H

/-- Flags after a send: unchanged (and with them `serializeq_`, if the
connection is not open), or the connection was closed and its serialization
queue emptied. -/
def SameFlagsOrClosed (k k1 : Core) : Prop :=
  (k1.conn_closed_ = k.conn_closed_ ∧ k1.connected_ = k.connected_ ∧
    k1.handshaken_ = k.handshaken_ ∧
    (k.conn_closed_ ≠ some false → k1.serializeq_ = k.serializeq_)) ∨
  (k1.conn_closed_ = some true ∧ k1.serializeq_ = [])

/-- Every envelope in flight was serialized, and its drain position is the
stream position just behind its frame. -/
def DrainInv (k : Core) : Prop :=
  ∀ e ∈ k.sendq_, ∃ pos len,
    Event.serialized e.id e.msg.type_ pos len ∈ k.trace ∧ e.drain_pos_ = pos + len

/-- The invariants of the core between two operations. -/
structure Inv (d : Deps) (k : Core) : Prop where
  base : BaseInv k
  drain : DrainInv k
  ids : d.shuttingDown = false → IdsInv k none

/-- A connection as one of the two constructors leaves it. -/
def Initial (d : Deps) (c : Connection) : Prop :=
  (∃ legacy ssl gossip, c = Connection.outgoing d legacy ssl gossip) ∨
  (∃ legacy ssl gossip peer_client, c = Connection.incoming d legacy ssl gossip peer_client)

/-- A successful `connect()` of a legacy connection. -/
def exampleConnect : Op := Op.connect true ConnectAttempt.started none

/-- The transport reports that it is connected. -/
def exampleConnectedEvent : Op :=
  Op.event { connected := true, error := false, eof := false }

/-- The operations of an outgoing legacy connection on which an application
message is registered and released before the transport connects. -/
def exampleEarlySend : List Op :=
  [exampleConnect, Op.registerMessage (exampleMessage 1 10), Op.releaseMessage 1,
    exampleConnectedEvent]

/-- The connection after `exampleEarlySend`. -/
def exampleEarlySent : Connection :=
  match run exampleDeps (Connection.outgoing exampleDeps true false false)
      exampleEarlySend with
  | some c => c
  | none => Connection.outgoing exampleDeps true false false

/-- The operations of an outgoing legacy connection whose first connect attempt
times out and whose new attempt gets no bufferevent. -/
def exampleFailedRetry : List Op :=
  [exampleConnect, Op.connectAttemptTimeout (ConnectAttempt.noBufferevent Status.NOMEM)]

/-- The operations of an outgoing legacy connection whose first connect attempt
times out, whose second attempt connects, and on which an application message
is registered and released in between. -/
def exampleRetrySend : List Op :=
  [exampleConnect, Op.registerMessage (exampleMessage 1 10), Op.releaseMessage 1,
    Op.connectAttemptTimeout ConnectAttempt.started, exampleConnectedEvent]

/-- The connection after `exampleRetrySend`. -/
def exampleRetrySent : Connection :=
  match run exampleDeps (Connection.outgoing exampleDeps true false false)
      exampleRetrySend with
  | some c => c
  | none => Connection.outgoing exampleDeps true false false

/-- The settings of `exampleDeps` with an overflow threshold of 0 bytes. -/
def tightDeps : Deps := { exampleDeps with outbuf_overflow_kb := 0 }

/-- An incoming connection under `tightDeps` with one ACK pending: 10 bytes
are pending, above the threshold of 0. -/
def exampleOverLimit : Connection :=
  match run tightDeps (Connection.incoming tightDeps true false false true)
      [Op.registerMessage exampleAck] with
  | some c => c
  | none => Connection.incoming tightDeps true false false true

/-- An outgoing connection under `exampleDeps` after `connect()` and the
admission of a message of 1012 bytes: with the 12 bytes of HELLO, 1024 bytes
are pending, exactly the threshold. -/
def exampleAtThreshold : Connection :=
  match run exampleDeps (Connection.outgoing exampleDeps true false false)
      [exampleConnect, Op.registerMessage (exampleMessage 1 999)] with
  | some c => c
  | none => Connection.outgoing exampleDeps true false false

/-- The error `registerMessage` leaves for a message that is not a handshake
message when the byte limit is exceeded: that of `preSendCheck` if it fails,
NOBUFS otherwise. -/
def overLimitError (c : Connection) (msg : Message) : Status :=
  if isClosed c then Status.NOTCONN
  else if !c.handshaken_ then
    if c.peer_is_client_address then Status.UNREACHABLE else Status.NOBUFS
  else if msg.min_protocol > c.proto_ then Status.PROTONOSUPPORT
  else Status.NOBUFS

/-- An application message of 2013 bytes under every protocol, above the limit
of 1013 bytes of `exampleDeps`. -/
def exampleTooBig : Message := exampleMessage 1 2000

/-- What `readMessageHeader` stores in `recv_message_ph_` before its checks:
length and type of the header that arrived. -/
def headerRead (c : Connection) (hdr : ProtocolHeader) : Connection :=
  { c with
    recv_message_ph_ := { c.recv_message_ph_ with len := hdr.len, type := hdr.type } }

/-- An incoming legacy connection of the examples, waiting for the header of
the peer's HELLO. -/
def exampleIncoming : Connection := Connection.incoming exampleDeps true false false true

/-- What `dispatchMessageBody` records once the message is admitted (a
resource token was granted or the type is processed inline): the header, the
receive counters, and that a protocol header is expected next. -/
def bodyAdmitted (c : Connection) (header : ProtocolHeader) : Connection :=
  { c with
    recv_message_ph_ := header
    num_messages_received_ := c.num_messages_received_ + 1
    num_bytes_received_ := c.num_bytes_received_ + header.len
    expecting_header_ := true }

/-- The header of an application message of type 1 with a frame of 23 bytes
that carries the checksum `cksum`. -/
def exampleHeader (cksum : Nat) : ProtocolHeader :=
  { len := 23, type := MessageType.OTHER 1, cksum := cksum }

/-- What the collaborators answer for an application message of type 1 whose
body has the checksum `cksum`: it deserializes and the handler takes it. -/
def exampleReceived (cksum : Nat) : Received :=
  { exampleAckReceived with
    cksum_computed := cksum, deserialized := some (MessageType.OTHER 1) }

/-- The error `preConnectAttempt` leaves when it refuses: the peer is a client
address (ISCONN if open, UNREACHABLE if closed), else the connection is open
(ISCONN if connected, ALREADY otherwise), else the connect throttle vetoes
(DISABLED). -/
def connectRefusal (c : Connection) : Status :=
  if c.peer_is_client_address then
    if !isClosed c then Status.ISCONN else Status.UNREACHABLE
  else if !isClosed c then
    if c.connected_ then Status.ISCONN else Status.ALREADY
  else Status.DISABLED

/-- Modelled from the spec: the layout of the wire header, `ProtocolHeader` and
`Message::MAX_LEN` not being part of the sources: one byte of type, four of
length and, for the types and protocol versions that carry one, eight of
checksum; a frame length fits the 32 bits of the length field and a checksum
the 64 bits of the checksum field. -/
def wireFormat (d : Deps) : Prop :=
  d.sizeofProtocolHeader = 13 ∧
  (∀ t p, d.bytesNeeded t p = if d.needChecksumInHeader t p then 13 else 5) ∧
  d.MAX_LEN + 13 < 2 ^ 32 ∧
  ∀ body, d.computeChecksum body < 2 ^ 64

/-- Modelled from the spec: `ProtocolReader::computeChecksum(n)` on a reader
over the bytes `body`, the reader not being part of the sources: the checksum
of the first `n` bytes of the body. -/
def readerChecksum (d : Deps) (body : List Nat) (n : Nat) : Nat :=
  d.computeChecksum (body.take n)

/-- The checksum `verifyChecksum` computes over a received body:
`reader.computeChecksum(ph.len - sizeof(ProtocolHeader))`. -/
def receivedChecksum (d : Deps) (ph : ProtocolHeader) (body : List Nat) : Nat :=
  readerChecksum d body (ph.len - d.sizeofProtocolHeader)

/-- The frame `serializeMessage` builds for a message whose body is `body`,
without checksum tampering and with a length that fits 32 bits. -/
def frameOf (d : Deps) (proto : Nat) (msg : Message) (body : List Nat) : Frame :=
  { hdr :=
      { cksum :=
          if d.needChecksumInHeader msg.type_ proto && isChecksummingEnabled d msg.type_
          then d.computeChecksum body else 0
        type := msg.type_
        len := d.bytesNeeded msg.type_ proto + body.length }
    body := body }

/-- The header of an application message of type 1 that declares a frame of 10
bytes, fewer than the 13 bytes of its own header. -/
def exampleShortHeader : ProtocolHeader :=
  { len := 10, type := MessageType.OTHER 1, cksum := 0 }

/-- The settings of `exampleDeps` with `Message::MAX_LEN` = 20. -/
def shortFrameDeps : Deps := { exampleDeps with MAX_LEN := 20 }

/-- An ACK whose frame is 30 bytes long: 5 bytes of header and a body of 25
bytes. -/
def exampleLongAck : Message :=
  { type_ := MessageType.ACK, cancelled := false, min_protocol := 0
    size := fun _ => 30, serialize := fun _ => some (List.replicate 25 0) }

/-- What `dispatchMessageBody` leaves when the HELLO of a client is refused for
want of a connection token: the message was admitted and counted, the
handshake timer cancelled, and `handshaken_` is false again. -/
def helloRefused (c : Connection) (header : ProtocolHeader) : Connection :=
  { bodyAdmitted c header with
    first_attempt_ := false
    handshake_timeout_event_ := false
    conn_external_token_ := false
    handshaken_ := false
    err := Status.TOOMANY }

/-- What the collaborators answer for the HELLO of a client when the external
connection budget is used up. -/
def exampleHelloOverBudget : Received :=
  { exampleAckReceived with
    deserialized := some MessageType.HELLO, conn_budget_token := false }

/-- An incoming connection of the examples that has read the header of the
peer's HELLO and has one on-close callback. -/
def exampleHelloBody : Connection :=
  { exampleIncoming with
    expecting_header_ := false
    recv_message_ph_ := { len := 12, type := MessageType.HELLO, cksum := 0 }
    on_close_ := [7] }

/-- What `dispatchMessageBody` leaves when no resource token is to be had for a
message that is not processed inline: the header and NOBUFS, and on a new-style
connection the retry timer in place of the read callback. -/
def deferredReceipt (c : Connection) (header : ProtocolHeader) : Connection :=
  if !c.legacy_connection_ then
    { c with
      recv_message_ph_ := header, err := Status.NOBUFS
      retry_receipt_of_message_ := true, read_cb_installed := false }
  else { c with recv_message_ph_ := header, err := Status.NOBUFS }

/-- The bodies of the examples: no resource token is to be had for any. -/
def exampleNoToken : Inbuf :=
  { length := 10, headers := fun _ => exampleHeader 0, headers_read := 1
    bodies := fun _ => { exampleReceived 0 with resource_token := false }
    bodies_dispatched := 0 }

/-- A handshaken connection that has read the header of a frame of 23 bytes
and waits for its body of 10 bytes. -/
def exampleAwaitingBody : Connection :=
  { exampleOpenConnection with
    expecting_header_ := false, recv_message_ph_ := exampleHeader 0 }

/-- Whether an event of the trace is a callback. -/
def Event.isCallback : Event → Bool
  | Event.onSent _ _ _ => true
  | Event.bwCancelled _ _ => true
  | Event.onClose _ _ => true
  | _ => false

/-- What a callback finds on a closed connection whose queues are empty. -/
def closedView : CallbackView :=
  { pendingq_ := [], serializeq_ := [], sendq_ := []
    connected_ := false, handshaken_ := false, closed := true }

/-- Between `c` and `c1` the callbacks `evs` ran and nothing else was added to
the trace; each of them found the connection as `c` shows it, and `c1` still
shows it so. -/
def Grew (c c1 : Connection) (evs : List Event) : Prop :=
  c1.trace = c.trace ++ evs ∧
  c1.callback_views = c.callback_views ++ evs.map (fun _ => c.view) ∧
  c1.view = c.view

/-- The members of a connection that the steps of a close before
`clearConnQueues` leave alone, apart from `conn_closed_`. -/
def closeFrame (c : Connection) :
    List Event × List CallbackView × Option Bool × List Envelope × List Envelope ×
      List Envelope × List Nat × List Nat :=
  (c.trace, c.callback_views, c.conn_closed_, c.pendingq_, c.serializeq_, c.sendq_,
    c.pending_bw_cbs_, c.on_close_)

/-- The events a function has added to the trace of `c` when it leaves `c1`. -/
def newEvents (c c1 : Connection) : List Event := c1.trace.drop c.trace.length

/-- The views of the callbacks a function has invoked between `c` and `c1`. -/
def newViews (c c1 : Connection) : List CallbackView :=
  c1.callback_views.drop c.callback_views.length

/-- The envelopes `onBytesAdmittedToSend` completes when the stream is drained
up to `pos`: the longest prefix of the queue whose drain positions are at most
`pos`. -/
def drainedPrefix (pos : Nat) (q : List Envelope) : List Envelope :=
  q.takeWhile (fun e => decide (e.drain_pos_ ≤ pos))

/-- The envelopes that stay in `sendq_` when the stream is drained up to
`pos`. -/
def undrained (pos : Nat) (q : List Envelope) : List Envelope :=
  q.dropWhile (fun e => decide (e.drain_pos_ ≤ pos))

/-- What the completion callbacks of the envelopes `done` find, one after the
other, while `rest` stays in `sendq_`: each finds `v` with the queue without
itself and the envelopes completed before it. -/
def drainViews (v : CallbackView) : List Envelope → List Envelope → List CallbackView
  | [], _ => []
  | _ :: done, rest =>
    { v with sendq_ := queueIds (done ++ rest) } :: drainViews v done rest

/-- What the completion of the envelopes `done` with OK adds to the
connection: callbacks and drained cost (nothing when shutting down) and the
count of messages sent. -/
def completedOK (d : Deps) (c : Connection) (done rest : List Envelope) : Connection :=
  { c with
    sendq_ := rest
    num_messages_sent_ := c.num_messages_sent_ + done.length
    noted_drained :=
      if d.shuttingDown then c.noted_drained else c.noted_drained + queueCost done
    trace :=
      if d.shuttingDown then c.trace
      else c.trace ++
        done.map (fun e => Event.onSent e.id Status.OK CompletionMethod.IMMEDIATE)
    callback_views :=
      if d.shuttingDown then c.callback_views
      else c.callback_views ++ drainViews c.view done rest }

/-- The active time `checkSocketHealth` judges by: the time accumulated in
`health_stats_` and, if an active window is open, the time since it opened. -/
def activeTime (s : HealthStats) (now : Nat) : Nat :=
  match s.active_start_time_ with
  | some start => s.active_time_ + (now - start)
  | none => s.active_time_

/-- The age in whole milliseconds of the envelope at the front of `sendq_`, the
one serialized first; 0 when the queue is empty. -/
def frontAgeMs (age : Envelope → Nat) (c : Connection) : Nat :=
  match c.sendq_.head? with
  | some front => age front / 1000
  | none => 0

/-- The age in whole milliseconds of the oldest envelope in `sendq_`, the one
created first; 0 when the queue is empty. -/
def oldestAgeMs (age : Envelope → Nat) (c : Connection) : Nat :=
  (c.sendq_.map (fun e => age e / 1000)).foldr max 0

/-- Health statistics of the examples: an active window open since time 0 and
120000 bytes sent.  (The rounding of `exampleDeps` is the identity; the
examples of the health check keep to values a `double` holds exactly.) -/
def exampleHealthStats : HealthStats :=
  { active_start_time_ := some 0, active_time_ := 0, num_bytes_sent_ := 120000
    busy_time_ := 0, rwnd_limited_time_ := 0, sndbuf_limited_time_ := 0 }

/-- The operations of an outgoing legacy connection that completes its
handshake and on which two application messages are registered, envelope 1
before envelope 2, and released in the opposite order. -/
def exampleOutOfOrder : List Op :=
  [exampleConnect, exampleConnectedEvent,
    Op.header { len := 10, type := MessageType.ACK, cksum := 0 },
    Op.body exampleAckReceived, Op.bytesSent 12,
    Op.registerMessage (exampleMessage 1 10), Op.registerMessage (exampleMessage 2 10),
    Op.releaseMessage 2, Op.releaseMessage 1]

/-- The connection after `exampleOutOfOrder`. -/
def exampleOutOfOrderSent : Connection :=
  match run exampleDeps (Connection.outgoing exampleDeps true false false)
      exampleOutOfOrder with
  | some c => c
  | none => Connection.outgoing exampleDeps true false false

/-- Ages for the examples, in microseconds: the envelopes created up to
envelope 1 are 200 seconds old, the later ones one millisecond. -/
def exampleAge (e : Envelope) : Nat := if e.id ≤ 1 then 200000000 else 1000

/-- The settings of `exampleDeps` with one message for each invocation of
`onBytesAvailable`. -/
def oneMessageDeps : Deps := { exampleDeps with incoming_messages_max_per_socket := 1 }

/-- An input buffer that holds three frames of 23 bytes of an application
message of type 1. -/
def exampleThreeFrames : Inbuf :=
  { length := 69, headers := fun _ => exampleHeader 0, headers_read := 0
    bodies := fun _ => exampleReceived 0, bodies_dispatched := 0 }

/-- The activities of an outgoing legacy connection whose connect attempts time
out three times. -/
def exampleThreeRetries : List Activity :=
  [Activity.op exampleConnect, Activity.timer (Timer.connectAttempt ConnectAttempt.started),
    Activity.timer (Timer.connectAttempt ConnectAttempt.started),
    Activity.timer (Timer.connectAttempt ConnectAttempt.started)]

/-- The connection after `exampleThreeRetries`. -/
def exampleRetried : Connection :=
  match runTimed exampleDeps (Connection.outgoing exampleDeps true false false)
      exampleThreeRetries with
  | some c => c
  | none => Connection.outgoing exampleDeps true false false

/-- The bytes a legacy connection holds: the cost of the envelopes in its three
queues and the serialized bytes in its output buffers. -/
def heldBytes (c : Connection) : Nat :=
  queueCost c.pendingq_ + queueCost c.serializeq_ + queueCost c.sendq_ +
    c.bev_.getD 0 + c.buffered_output_.getD 0

/-- Byte accounting of a legacy connection while a function holds envelopes of
total cost `held` outside the queues: what was noted as queued is what was
noted as drained plus what the connection and the function hold; an open
connection has a bufferevent, a closed one has nothing in output buffers. -/
structure Ledger (c : Connection) (held : Nat) : Prop where
  legacy : c.legacy_connection_ = true
  balance : c.noted_queued = c.noted_drained + heldBytes c + held
  open_bev : isClosed c = false → c.bev_.isSome = true
  closed_buf : isClosed c = true → c.bev_ = none ∧ c.buffered_output_.getD 0 = 0

/-- The members of a connection that its byte accounting depends on. -/
def books (c : Connection) :
    Bool × Option Bool × Option Nat × Option Nat × List Envelope × List Envelope ×
      List Envelope × Nat × Nat :=
  (c.legacy_connection_, c.conn_closed_, c.bev_, c.buffered_output_, c.pendingq_,
    c.serializeq_, c.sendq_, c.noted_queued, c.noted_drained)

theorem toCore (c : Connection) :
    c.legacy_connection_ = c.core.legacy_connection_ ∧
    c.peer_is_client_address = c.core.peer_is_client_address ∧
    c.conn_closed_ = c.core.conn_closed_ ∧
    c.closing_ = c.core.closing_ ∧
    c.connected_ = c.core.connected_ ∧
    c.handshaken_ = c.core.handshaken_ ∧
    c.proto_ = c.core.proto_ ∧
    c.bev_ = c.core.bev_ ∧
    c.buffered_output_ = c.core.buffered_output_ ∧
    c.bytes_buffered = c.core.bytes_buffered ∧
    c.pendingq_ = c.core.pendingq_ ∧
    c.serializeq_ = c.core.serializeq_ ∧
    c.sendq_ = c.core.sendq_ ∧
    c.next_pos_ = c.core.next_pos_ ∧
    c.drain_pos_ = c.core.drain_pos_ ∧
    c.on_close_ = c.core.on_close_ ∧
    c.pending_bw_cbs_ = c.core.pending_bw_cbs_ ∧
    c.message_error_injection_rewinding_stream_ = c.core.message_error_injection_rewinding_stream_ ∧
    c.deferred_event_queue_ = c.core.deferred_event_queue_ ∧
    c.trace = c.core.trace ∧
    c.envelopes_created = c.core.envelopes_created ∧
    c.connect_timeout_event_ = c.core.connect_timeout_event_ :=
  ⟨rfl, rfl, rfl, rfl, rfl, rfl, rfl, rfl, rfl, rfl, rfl, rfl, rfl, rfl, rfl, rfl, rfl, rfl, rfl, rfl, rfl,
    rfl⟩

theorem core_mk
    (x0 : Bool) (x1 : Bool) (x2 : Bool) (x3 : Bool) (x4 : Bool) (x5 : Option
    Bool) (x6 : Option Nat) (x7 : Option Nat) (x8 : Option Nat) (x9 : Nat)
    (x10 : List Nat) (x11 : Bool) (x12 : Bool) (x13 : Bool) (x14 : Bool)
    (x15 : Bool) (x16 : Bool) (x17 : Nat) (x18 : Option Nat) (x19 : List
    Envelope) (x20 : List Envelope) (x21 : List Envelope) (x22 : Nat) (x23 :
    Nat) (x24 : Nat) (x25 : Nat) (x26 : Bool) (x27 : Status) (x28 : Nat)
    (x29 : Nat) (x30 : Nat) (x31 : Bool) (x32 : Bool) (x33 : Bool) (x34 :
    ProtocolHeader) (x35 : List SocketEvent) (x36 : List Nat) (x37 : List
    Nat) (x38 : Bool) (x39 : Bool) (x40 : Bool) (x41 : Nat) (x42 : Nat) (x43
    : Bool) (x44 : Bool) (x45 : Bool) (x46 : Bool) (x47 : Bool) (x48 : Bool)
    (x49 : Bool) (x50 : Bool) (x51 : Status) (x52 : List Event) (x53 : Nat)
    (x54 : Nat) (x55 : Nat) (x56 : Nat) (x57 : Option Nat)
    (x58 : List CallbackView) :
    (Connection.mk
      x0 x1 x2 x3 x4 x5 x6 x7 x8 x9 x10 x11 x12 x13 x14 x15 x16 x17
      x18 x19 x20 x21 x22 x23 x24 x25 x26 x27 x28 x29 x30 x31 x32 x33
      x34 x35 x36 x37 x38 x39 x40 x41 x42 x43 x44 x45 x46 x47 x48 x49
      x50 x51 x52 x53 x54 x55 x56 x57 x58).core =
      { legacy_connection_ := x2
        peer_is_client_address := x0
        conn_closed_ := x5
        closing_ := x16
        connected_ := x14
        handshaken_ := x15
        proto_ := x17
        bev_ := x6
        buffered_output_ := x7
        bytes_buffered := x9
        pendingq_ := x19
        serializeq_ := x20
        sendq_ := x21
        next_pos_ := x22
        drain_pos_ := x23
        on_close_ := x36
        pending_bw_cbs_ := x37
        message_error_injection_rewinding_stream_ := x40
        deferred_event_queue_ := x35
        trace := x52
        envelopes_created := x55
        connect_timeout_event_ := x44 } := rfl

/-! ## Effects of completion and close on the core -/

theorem onSent_core (d : Deps) (c : Connection) (e : Envelope) (r : Status)
    (cm : CompletionMethod) :
    (onSent d c e r cm).core =
      { c.core with
        trace := if d.shuttingDown then c.core.trace
          else c.core.trace ++ [Event.onSent e.id r cm] } := by
  unfold onSent; cases d.shuttingDown <;> rfl

theorem onSentAll_core (d : Deps) (q : List Envelope) (r : Status) :
    ∀ c : Connection, (onSentAll d c q r).core =
      { c.core with
        trace := if d.shuttingDown then c.core.trace
          else c.core.trace ++
            q.map (fun e => Event.onSent e.id r CompletionMethod.IMMEDIATE) } := by
  induction q with
  | nil => intro c; cases d.shuttingDown <;> simp [onSentAll]
  | cons e q ih =>
    intro c
    have h := ih (onSent d c e r CompletionMethod.IMMEDIATE)
    simp only [onSentAll, List.foldl_cons] at h ⊢
    rw [h, onSent_core]
    cases d.shuttingDown <;> simp

theorem endStreamRewind_core (c : Connection) :
    (endStreamRewind c).core =
      { c.core with message_error_injection_rewinding_stream_ := false } := by
  unfold endStreamRewind
  split
  · rfl
  · rename_i h
    simp only [Connection.core]
    simp at h
    simp [h]

theorem closeDeferredEvents_core (d : Deps) (c : Connection) :
    (closeDeferredEvents d c).core =
      { c.core with deferred_event_queue_ := [] } := by
  unfold closeDeferredEvents
  split
  · split <;> rfl
  · rename_i h
    have h2 : c.deferred_event_queue_ = [] := by simpa using h
    apply Core.ext <;> simp [Connection.core, h2]

theorem closeTransport_core (d : Deps) (c : Connection) :
    (closeTransport d c).core =
      { c.core with
        bev_ := if c.core.legacy_connection_ then none else c.core.bev_
        buffered_output_ :=
          if c.core.legacy_connection_ then none else c.core.buffered_output_
        bytes_buffered :=
          if c.core.legacy_connection_ then c.core.bytes_buffered else 0 } := by
  unfold closeTransport SocketWriteCallback.clear
  simp only [toCore c]
  simp only [apply_ite Connection.core, core_mk, toCore]
  split_ifs <;> simp_all

theorem markDisconnectedOnClose_core (c : Connection) :
    (markDisconnectedOnClose c).core =
      { c.core with
        connected_ := false, handshaken_ := false
        connect_timeout_event_ := false } := rfl

theorem clearConnQueues_core (d : Deps) (c : Connection) (r : Status) :
    (clearConnQueues d c r).core =
      { c.core with
        pendingq_ := [], serializeq_ := [], sendq_ := []
        on_close_ := [], pending_bw_cbs_ := []
        drain_pos_ := c.core.next_pos_
        trace := c.core.trace ++
          (if d.shuttingDown then []
           else (c.core.serializeq_ ++ c.core.sendq_ ++ c.core.pendingq_).map
             (fun e => Event.onSent e.id r CompletionMethod.IMMEDIATE)) ++
          c.core.pending_bw_cbs_.map (fun cb => Event.bwCancelled cb r) ++
          c.core.on_close_.map (fun cb => Event.onClose cb r) } := by
  unfold clearConnQueues PendingQueue.trimAll
  simp only [apply_ite Connection.core, core_mk, toCore, onSentAll_core]
  cases d.shuttingDown <;> simp

theorem closeOpen_core (d : Deps) (c : Connection) (r : Status) :
    (closeOpen d c r).core = Core.closed d c.core r := by
  unfold closeOpen Core.closed closeEvents
  simp only [clearConnQueues_core, markDisconnectedOnClose_core, closeTransport_core,
    closeDeferredEvents_core, endStreamRewind_core, core_mk, toCore]
  cases d.shuttingDown <;> simp

theorem close_of_closing (d : Deps) (c : Connection) (reason : Status)
    (h : c.closing_ = true) : close d c reason = c := by
  simp [close, h]

theorem close_of_isClosed (d : Deps) (c : Connection) (reason : Status)
    (h : c.closing_ = false) (hc : isClosed c = true) : close d c reason = c := by
  have hc2 : isClosed { c with closing_ := true } = true := hc
  simp only [close, h, hc2]
  cases c; simp_all

theorem close_core_open (d : Deps) (c : Connection) (reason : Status)
    (h : c.closing_ = false) (hc : isClosed c = false) :
    (close d c reason).core = Core.closed d c.core reason := by
  have hc2 : isClosed { c with closing_ := true } = false := hc
  simp only [close, h, hc2, Bool.false_eq_true, if_false]
  have h2 : c.core.closing_ = false := h
  simp only [core_mk, toCore, closeOpen_core, Core.closed, closeEvents]
  simp [h2]



/-! ## Close: idempotence, completion of outstanding envelopes, buffered bytes -/

theorem close_closing (d : Deps) (c : Connection) (reason : Status) :
    (close d c reason).closing_ = c.closing_ := by
  cases h : c.closing_
  · cases hc : isClosed c
    · have := congrArg Core.closing_ (close_core_open d c reason h hc)
      simpa [Core.closed, Connection.core, h] using this
    · rw [close_of_isClosed d c reason h hc]; exact h
  · rw [close_of_closing d c reason h]; exact h

theorem isClosed_close (d : Deps) (c : Connection) (reason : Status)
    (h : c.closing_ = false) : isClosed (close d c reason) = true := by
  cases hc : isClosed c
  · have := congrArg Core.conn_closed_ (close_core_open d c reason h hc)
    have h2 : (close d c reason).conn_closed_ = some true := by
      simpa [Core.closed, Connection.core] using this
    simp [isClosed, h2]
  · rw [close_of_isClosed d c reason h hc]; exact hc

/-- C3: close is idempotent.  For every connection and reasons `r1`, `r2`,
`close(r1)` followed by `close(r2)` leaves the same connection, callbacks
included, as `close(r1)` alone; and a close entered while `closing_` is set
changes nothing. -/
theorem close_idempotent (d : Deps) (c : Connection) (r1 r2 : Status) :
    close d (close d c r1) r2 = close d c r1 ∧
    (c.closing_ = true → close d c r1 = c) := by
  refine ⟨?_, close_of_closing d c r1⟩
  cases h : c.closing_
  · exact close_of_isClosed d _ r2 ((close_closing d c r1).trans h)
      (isClosed_close d c r1 h)
  · rw [close_of_closing d c r1 h]; exact close_of_closing d c r2 h

theorem close_idempotent_witness :
    ({ Connection.incoming exampleDeps true false false true with
        closing_ := true }).closing_ = true ∧
    close exampleDeps
      { Connection.incoming exampleDeps true false false true with
        closing_ := true } Status.TIMEDOUT =
      { Connection.incoming exampleDeps true false false true with
        closing_ := true } :=
  ⟨rfl, (close_idempotent exampleDeps
    { Connection.incoming exampleDeps true false false true with
      closing_ := true } Status.TIMEDOUT Status.SHUTDOWN).2 rfl⟩

/-- C5: right after `close(reason)` on an open connection, `next_pos_ -
drain_pos_` is 0 and `getBufferedBytesSize()` returns 0. -/
theorem close_buffered_bytes_zero (d : Deps) (c : Connection) (reason : Status)
    (hopen : isClosed c = false) (hcl : c.closing_ = false) :
    (close d c reason).next_pos_ - (close d c reason).drain_pos_ = 0 ∧
    getBufferedBytesSize (close d c reason) = 0 := by
  have h := close_core_open d c reason hcl hopen
  have h1 : (close d c reason).next_pos_ = c.next_pos_ := by
    simpa [Core.closed, Connection.core] using congrArg Core.next_pos_ h
  have h2 : (close d c reason).drain_pos_ = c.next_pos_ := by
    simpa [Core.closed, Connection.core] using congrArg Core.drain_pos_ h
  have h3 : (close d c reason).legacy_connection_ = c.legacy_connection_ := by
    simpa [Core.closed, Connection.core] using congrArg Core.legacy_connection_ h
  have h4 : (close d c reason).bytes_buffered =
      if c.legacy_connection_ then c.bytes_buffered else 0 := by
    simpa [Core.closed, Connection.core] using congrArg Core.bytes_buffered h
  refine ⟨by rw [h1, h2]; exact Nat.sub_self _, ?_⟩
  unfold getBufferedBytesSize
  rw [h1, h2, h3, h4]
  cases c.legacy_connection_ <;> simp

theorem close_buffered_bytes_zero_witness :
    isClosed exampleOpenConnection = false ∧ exampleOpenConnection.closing_ = false ∧
    exampleOpenConnection.next_pos_ - exampleOpenConnection.drain_pos_ = 46 ∧
    getBufferedBytesSize exampleOpenConnection = 46 ∧
    (close exampleDeps exampleOpenConnection Status.SHUTDOWN).next_pos_ -
      (close exampleDeps exampleOpenConnection Status.SHUTDOWN).drain_pos_ = 0 ∧
    getBufferedBytesSize (close exampleDeps exampleOpenConnection Status.SHUTDOWN) = 0 :=
  ⟨rfl, rfl, rfl, rfl,
    close_buffered_bytes_zero exampleDeps exampleOpenConnection Status.SHUTDOWN rfl rfl⟩

/-- C2, as amended: unless the worker is shutting down, `close(reason)` on an
open connection appends to the callbacks exactly one completion, with status
`reason`, for every envelope of `serializeq_`, of `sendq_` and of `pendingq_`
(in that order), then the bandwidth and on-close callbacks, and leaves the
three queues empty. -/
theorem close_completes_outstanding (d : Deps) (c : Connection) (reason : Status)
    (hsd : d.shuttingDown = false) (hopen : isClosed c = false)
    (hcl : c.closing_ = false) :
    (close d c reason).trace =
      c.trace ++
      (c.serializeq_ ++ c.sendq_ ++ c.pendingq_).map
        (fun e => Event.onSent e.id reason CompletionMethod.IMMEDIATE) ++
      c.pending_bw_cbs_.map (fun cb => Event.bwCancelled cb reason) ++
      c.on_close_.map (fun cb => Event.onClose cb reason) ∧
    (close d c reason).pendingq_ = [] ∧ (close d c reason).serializeq_ = [] ∧
    (close d c reason).sendq_ = [] := by
  have h := close_core_open d c reason hcl hopen
  refine ⟨?_, ?_, ?_, ?_⟩
  · simpa [Core.closed, Connection.core, closeEvents, hsd] using congrArg Core.trace h
  · simpa [Core.closed, Connection.core] using congrArg Core.pendingq_ h
  · simpa [Core.closed, Connection.core] using congrArg Core.serializeq_ h
  · simpa [Core.closed, Connection.core] using congrArg Core.sendq_ h

/-- C2 as stated fails: on a worker that is shutting down, an incoming
connection holds the released ACK (envelope 0) in `sendq_`, and `close` ends
without any completion callback. -/
theorem close_shutting_down_drops_completions :
    (run shuttingDownDeps
        (Connection.incoming shuttingDownDeps true false false true)
        [Op.registerMessage exampleAck, Op.releaseMessage 0]).map
      (fun c => (isClosed c, queueIds c.sendq_)) = some (false, [0]) ∧
    (run shuttingDownDeps
        (Connection.incoming shuttingDownDeps true false false true)
        [Op.registerMessage exampleAck, Op.releaseMessage 0,
          Op.close Status.PEER_CLOSED]).map
      (fun c => (isClosed c, completions c.trace)) = some (true, []) := by
  decide

theorem close_completes_outstanding_witness :
    exampleDeps.shuttingDown = false ∧ isClosed exampleOpenConnection = false ∧
    exampleOpenConnection.closing_ = false ∧
    ((close exampleDeps exampleOpenConnection Status.PEER_CLOSED).trace =
      exampleOpenConnection.trace ++
      (exampleOpenConnection.serializeq_ ++ exampleOpenConnection.sendq_ ++
        exampleOpenConnection.pendingq_).map
        (fun e => Event.onSent e.id Status.PEER_CLOSED CompletionMethod.IMMEDIATE) ++
      exampleOpenConnection.pending_bw_cbs_.map
        (fun cb => Event.bwCancelled cb Status.PEER_CLOSED) ++
      exampleOpenConnection.on_close_.map
        (fun cb => Event.onClose cb Status.PEER_CLOSED) ∧
    (close exampleDeps exampleOpenConnection Status.PEER_CLOSED).pendingq_ = [] ∧
    (close exampleDeps exampleOpenConnection Status.PEER_CLOSED).serializeq_ = [] ∧
    (close exampleDeps exampleOpenConnection Status.PEER_CLOSED).sendq_ = []) :=
  ⟨rfl, rfl, rfl,
    close_completes_outstanding exampleDeps exampleOpenConnection
      Status.PEER_CLOSED rfl rfl rfl⟩

theorem eventCallbackImpl_of_closing (d : Deps) (c : Connection) (e : SocketEvent)
    (hcl : c.closing_ = true) (he : e.connected = false) :
    eventCallbackImpl d c e = c := by
  unfold eventCallbackImpl onError onPeerClosed
  rw [if_neg (by simp [he]), if_pos hcl, if_pos hcl]
  split
  · rfl
  · split <;> rfl

theorem processDeferredEventQueueLoop_of_closing (d : Deps) :
    ∀ (q : List SocketEvent) (c : Connection) (fuel : Nat),
      c.deferred_event_queue_ = q → q.length ≤ fuel → c.closing_ = true →
      (∀ e ∈ q, e.connected = false) →
      processDeferredEventQueueLoop d fuel c = { c with deferred_event_queue_ := [] } := by
  intro q
  induction q with
  | nil =>
    intro c fuel hq _ _ _
    cases fuel with
    | zero =>
      unfold processDeferredEventQueueLoop
      rw [← hq]
    | succ f =>
      unfold processDeferredEventQueueLoop
      rw [hq]
      simp only []
      rw [← hq]
  | cons e rest ih =>
    intro c fuel hq hfuel hcl hall
    cases fuel with
    | zero => simp at hfuel
    | succ f =>
      unfold processDeferredEventQueueLoop
      rw [hq]
      simp only []
      rw [eventCallbackImpl_of_closing d { c with deferred_event_queue_ := rest } e hcl
        (hall e (List.mem_cons_self _ _))]
      rw [ih { c with deferred_event_queue_ := rest } f rfl (by simpa using hfuel) hcl
        (fun x hx => hall x (List.mem_cons_of_mem _ hx))]

/-- While `closing_` is set, `processDeferredEventQueue` on a queue without
CONNECTED events only empties the queue and cancels its timer. -/
theorem processDeferredEventQueue_of_closing (d : Deps) (c : Connection)
    (hcl : c.closing_ = true)
    (hq : ∀ e ∈ c.deferred_event_queue_, e.connected = false) :
    processDeferredEventQueue d c =
      { c with deferred_event_queue_ := [], deferred_event_queue_event_ := false } := by
  unfold processDeferredEventQueue
  rw [processDeferredEventQueueLoop_of_closing d c.deferred_event_queue_ c _ rfl
    (Nat.le_refl _) hcl hq]

theorem preSendCheck_handshaken (d : Deps) (c : Connection) (m : Message)
    (h : isClosed c = false) (hh : c.handshaken_ = true)
    (hp : m.min_protocol ≤ c.proto_) :
    preSendCheck d c m = (c, 0) := by
  rw [preSendCheck, if_neg (by simp [h]), if_neg (by simp [hh]), if_neg (by omega)]

theorem injectAsyncMessageError_off (d : Deps) (c : Connection) (e : Envelope)
    (h0 : d.message_error_injection_chance_percent = 0)
    (hr : c.message_error_injection_rewinding_stream_ = false) :
    injectAsyncMessageError d c e =
      ({ c with
          message_error_injection_pass_count_ :=
            c.message_error_injection_pass_count_ + 1 }, false) := by
  unfold injectAsyncMessageError
  simp only [h0, bne_self_eq_false, Bool.false_and, Bool.false_eq_true, if_false, hr]

theorem serializeMessageBuf_ok (d : Deps) (c : Connection) (m : Message)
    (body : List Nat) (hs : m.serialize c.proto_ = some body)
    (hb : body.length ≠ 0) :
    ∃ f : Frame, serializeMessageBuf d c m = (c, some f) ∧
      f.chainDataLength d c.proto_ = frameLength d c.proto_ m := by
  unfold serializeMessageBuf
  simp only [hs, hb, if_false]
  exact ⟨_, rfl, by simp [Frame.chainDataLength, frameLength, hs]⟩

theorem serializeMessage_ok (d : Deps) (c : Connection) (e : Envelope)
    (body : List Nat) (hs : e.msg.serialize c.proto_ = some body)
    (hb : body.length ≠ 0) :
    serializeMessage d c e =
      ({ sendBuffer c (frameLength d c.proto_ e.msg) with
          noted_queued :=
            (sendBuffer c (frameLength d c.proto_ e.msg)).noted_queued +
              frameLength d c.proto_ e.msg
          next_pos_ :=
            (sendBuffer c (frameLength d c.proto_ e.msg)).next_pos_ +
              frameLength d c.proto_ e.msg
          sendq_ := (sendBuffer c (frameLength d c.proto_ e.msg)).sendq_ ++
            [{ e with
               drain_pos_ :=
                 (sendBuffer c (frameLength d c.proto_ e.msg)).next_pos_ +
                   frameLength d c.proto_ e.msg }]
          trace := (sendBuffer c (frameLength d c.proto_ e.msg)).trace ++
            [Event.serialized e.id e.msg.type_
              (sendBuffer c (frameLength d c.proto_ e.msg)).next_pos_
              (frameLength d c.proto_ e.msg)] }, 0) := by
  obtain ⟨f, hf, hl⟩ := serializeMessageBuf_ok d c e.msg body hs hb
  unfold serializeMessage
  rw [hf]
  simp only [hl]

theorem sendBuffer_core (c : Connection) (n : Nat) :
    (sendBuffer c n).core =
      { c.core with
        bev_ :=
          if c.core.legacy_connection_ && c.core.buffered_output_.isNone then
            c.core.bev_.map (· + n)
          else c.core.bev_
        buffered_output_ :=
          if c.core.legacy_connection_ then c.core.buffered_output_.map (· + n)
          else c.core.buffered_output_ } := by
  unfold sendBuffer
  simp only [toCore c]
  repeat' split
  all_goals (apply Core.ext <;> simp_all [core_mk])

theorem isClosed_eq_false_iff (c : Connection) :
    isClosed c = false ↔ c.core.conn_closed_ = some false := by
  show isClosed c = false ↔ c.conn_closed_ = some false
  unfold isClosed
  split <;> simp_all

theorem send_serializes_core (d : Deps) (c : Connection) (e : Envelope)
    (hopen : c.core.conn_closed_ = some false) (hh : c.core.handshaken_ = true)
    (h0 : d.message_error_injection_chance_percent = 0)
    (hr : c.core.message_error_injection_rewinding_stream_ = false)
    (hs : sendable d c.core.proto_ e.msg = true) :
    (send d c e).core =
      { c.core with
        bev_ :=
          if c.core.legacy_connection_ && c.core.buffered_output_.isNone then
            c.core.bev_.map (· + frameLength d c.core.proto_ e.msg)
          else c.core.bev_
        buffered_output_ :=
          if c.core.legacy_connection_ then
            c.core.buffered_output_.map (· + frameLength d c.core.proto_ e.msg)
          else c.core.buffered_output_
        next_pos_ := c.core.next_pos_ + frameLength d c.core.proto_ e.msg
        sendq_ := c.core.sendq_ ++
          [{ e with
             drain_pos_ := c.core.next_pos_ + frameLength d c.core.proto_ e.msg }]
        trace := c.core.trace ++
          [Event.serialized e.id e.msg.type_ c.core.next_pos_
            (frameLength d c.core.proto_ e.msg)] } := by
  replace hopen : isClosed c = false := (isClosed_eq_false_iff c).mpr hopen
  replace hh : c.handshaken_ = true := hh
  replace hr : c.message_error_injection_rewinding_stream_ = false := hr
  replace hs : sendable d c.proto_ e.msg = true := hs
  simp only [sendable, Bool.and_eq_true, decide_eq_true_eq, Bool.not_eq_true'] at hs
  obtain ⟨⟨⟨hp, hcan⟩, hsz⟩, hlen⟩ := hs
  obtain ⟨body, hbody⟩ : ∃ body, e.msg.serialize c.proto_ = some body := by
    cases hser : e.msg.serialize c.proto_ with
    | none => simp [hser] at hlen
    | some b => exact ⟨b, rfl⟩
  have hb : body.length ≠ 0 := by simp [hbody] at hlen; omega
  rw [send, preSendCheck_handshaken d c e.msg hopen hh hp]
  simp only [hcan, hh, Bool.true_or, if_true, Bool.false_eq_true, if_false,
    show ((0 : Int) != 0) = false from rfl, if_neg (Nat.not_lt.mpr hsz)]
  rw [injectAsyncMessageError_off d c e h0 hr]
  simp only []
  rw [serializeMessage_ok d
    { c with
      message_error_injection_pass_count_ :=
        c.message_error_injection_pass_count_ + 1 } e body hbody hb]
  simp only [show ((0 : Int) != 0) = false from rfl, Bool.false_eq_true, if_false]
  simp only [core_mk, toCore, sendBuffer_core]

theorem flushSerializeQueueLoop_core (d : Deps)
    (h0 : d.message_error_injection_chance_percent = 0) :
    ∀ (q : List Envelope) (c : Connection) (fuel : Nat),
      c.core.serializeq_ = q → q.length ≤ fuel →
      c.core.conn_closed_ = some false → c.core.handshaken_ = true →
      c.core.message_error_injection_rewinding_stream_ = false →
      (∀ e ∈ q, sendable d c.core.proto_ e.msg = true) →
      (flushSerializeQueueLoop d fuel c).core = Core.flushed d c.core q := by
  intro q
  induction q with
  | nil =>
    intro c fuel hq _ _ _ _ _
    have hq2 : c.serializeq_ = [] := hq
    cases fuel with
    | zero =>
      unfold flushSerializeQueueLoop
      apply Core.ext <;> simp [Core.flushed, hq, stampDrainPos, serializedEvents]
    | succ f =>
      unfold flushSerializeQueueLoop
      simp only [hq2, List.isEmpty_nil, if_true]
      apply Core.ext <;> simp [Core.flushed, hq, stampDrainPos, serializedEvents]
  | cons e rest ih =>
    intro c fuel hq hfuel hopen hh hr hall
    have hq2 : c.serializeq_ = e :: rest := hq
    cases fuel with
    | zero => simp at hfuel
    | succ f =>
      unfold flushSerializeQueueLoop
      simp only [hq2, List.isEmpty_cons, Bool.false_eq_true, if_false]
      unfold flushNextInSerializeQueue
      simp only [hq2]
      have hc1 : ({ c with serializeq_ := rest } : Connection).core =
          { c.core with serializeq_ := rest } := rfl
      generalize ({ c with serializeq_ := rest } : Connection) = c1 at hc1 ⊢
      have hsend := send_serializes_core d c1 e (by rw [hc1]; exact hopen)
        (by rw [hc1]; exact hh) h0 (by rw [hc1]; exact hr)
        (by rw [hc1]; exact hall e (by simp))
      have := ih (send d c1 e) f
        (by rw [hsend, hc1]) (by simpa using hfuel) (by rw [hsend, hc1]; exact hopen)
        (by rw [hsend, hc1]; exact hh) (by rw [hsend, hc1]; exact hr)
        (by rw [hsend, hc1]; intro x hx; exact hall x (by simp [hx]))
      rw [this, hsend, hc1]
      apply Core.ext <;>
        simp [Core.flushed, stampDrainPos, serializedEvents, Nat.add_assoc]
      all_goals
        cases c.core.legacy_connection_ <;> cases c.core.buffered_output_ <;>
          cases c.core.bev_ <;> simp [Nat.add_assoc]

theorem queueIds_stampDrainPos (d : Deps) (p : Nat) :
    ∀ (q : List Envelope) (pos : Nat),
      queueIds (stampDrainPos d p pos q) = queueIds q := by
  intro q
  induction q with
  | nil => intro pos; rfl
  | cons e q ih =>
    intro pos
    have := ih (pos + frameLength d p e.msg)
    simp only [queueIds] at this
    simp [stampDrainPos, queueIds, this]

theorem length_stampDrainPos (d : Deps) (p : Nat) :
    ∀ (q : List Envelope) (pos : Nat), (stampDrainPos d p pos q).length = q.length := by
  intro q
  induction q with
  | nil => intro pos; rfl
  | cons e q ih => intro pos; simp [stampDrainPos, ih]

theorem drain_pos_stampDrainPos (d : Deps) (p : Nat) :
    ∀ (q : List Envelope) (pos : Nat),
      (stampDrainPos d p pos q).map Envelope.drain_pos_ =
        (List.range q.length).map (fun i =>
          pos + ((q.take (i + 1)).map (fun e => frameLength d p e.msg)).sum) := by
  intro q
  induction q with
  | nil => intro pos; rfl
  | cons e q ih =>
    intro pos
    simp only [stampDrainPos, List.map_cons, List.length_cons, List.range_succ_eq_map,
      List.map_map, ih]
    simp [Function.comp_def, Nat.add_assoc]

theorem processHandshakeMessage_flush (d : Deps) (c : Connection) (t : MessageType)
    (r : Received)
    (ht : t = MessageType.ACK ∨
      (t = MessageType.HELLO ∧
        (c.peer_type_client = false ∨ r.conn_budget_token = true))) :
    ∃ c1 : Connection,
      c1.core = { c.core with proto_ := negotiatedProto t r } ∧
      processHandshakeMessage d c t r = (flushSerializeQueue d c1, true) := by
  rcases ht with rfl | ⟨rfl, ht⟩
  · exact ⟨_, rfl, rfl⟩
  · unfold processHandshakeMessage
    simp only []
    rw [if_neg (by rcases ht with h | h <;> simp [h])]
    split
    · exact ⟨_, rfl, rfl⟩
    · exact ⟨_, rfl, rfl⟩

theorem flushSerializeQueue_core (d : Deps) (c : Connection)
    (h0 : d.message_error_injection_chance_percent = 0)
    (hopen : c.core.conn_closed_ = some false) (hh : c.core.handshaken_ = true)
    (hr : c.core.message_error_injection_rewinding_stream_ = false)
    (hall : ∀ e ∈ c.core.serializeq_, sendable d c.core.proto_ e.msg = true) :
    (flushSerializeQueue d c).core = Core.flushed d c.core c.core.serializeq_ :=
  flushSerializeQueueLoop_core d h0 c.core.serializeq_ c _ rfl (Nat.le_refl _)
    hopen hh hr hall

/-- C8: when the handshake completes (an ACK, or a HELLO that is not refused
for lack of a connection token) on an open connection without error injection
whose `serializeq_` holds envelopes that each pass `preSendCheck` under the
negotiated protocol, are not cancelled, are within the size limit and
serialize, the queue is emptied in FIFO order into `sendq_`, and the drain
position of the i-th envelope is `next_pos_` before the flush plus the frame
lengths of the first i envelopes; nothing is completed.  With HELLO in flight
at drain position `H` and frames of 100 and 50 bytes held back, the drain
positions are `H`, `H + 100`, `H + 150`. -/
theorem handshake_flushes_serializeq_fifo (d : Deps) (c : Connection)
    (t : MessageType) (r : Received)
    (ht : t = MessageType.ACK ∨
      (t = MessageType.HELLO ∧
        (c.peer_type_client = false ∨ r.conn_budget_token = true)))
    (hopen : isClosed c = false) (hh : c.handshaken_ = true)
    (h0 : d.message_error_injection_chance_percent = 0)
    (hr : c.message_error_injection_rewinding_stream_ = false)
    (hall : ∀ e ∈ c.serializeq_, sendable d (negotiatedProto t r) e.msg = true) :
    (processHandshakeMessage d c t r).2 = true ∧
    (processHandshakeMessage d c t r).1.serializeq_ = [] ∧
    (processHandshakeMessage d c t r).1.sendq_ =
      c.sendq_ ++ stampDrainPos d (negotiatedProto t r) c.next_pos_ c.serializeq_ ∧
    queueIds (processHandshakeMessage d c t r).1.sendq_ =
      queueIds c.sendq_ ++ queueIds c.serializeq_ ∧
    ((processHandshakeMessage d c t r).1.sendq_.drop c.sendq_.length).map
        Envelope.drain_pos_ =
      (List.range c.serializeq_.length).map (fun i =>
        c.next_pos_ + ((c.serializeq_.take (i + 1)).map
          (fun e => frameLength d (negotiatedProto t r) e.msg)).sum) ∧
    (processHandshakeMessage d c t r).1.next_pos_ =
      c.next_pos_ +
        (c.serializeq_.map
          (fun e => frameLength d (negotiatedProto t r) e.msg)).sum ∧
    (processHandshakeMessage d c t r).1.trace =
      c.trace ++ serializedEvents d (negotiatedProto t r) c.next_pos_ c.serializeq_ ∧
    (∀ (hello m1 m2 : Envelope) (H : Nat),
      c.sendq_ = [hello] → hello.drain_pos_ = H → c.next_pos_ = H →
      c.serializeq_ = [m1, m2] →
      frameLength d (negotiatedProto t r) m1.msg = 100 →
      frameLength d (negotiatedProto t r) m2.msg = 50 →
      (processHandshakeMessage d c t r).1.sendq_.map Envelope.drain_pos_ =
        [H, H + 100, H + 150]) := by
  obtain ⟨c1, hc1, heq⟩ := processHandshakeMessage_flush d c t r ht
  have hflush := flushSerializeQueue_core d c1 h0
    (by rw [hc1]; exact (isClosed_eq_false_iff c).mp hopen)
    (by rw [hc1]; exact hh) (by rw [hc1]; exact hr)
    (by rw [hc1]; exact hall)
  rw [hc1] at hflush
  rw [heq]
  have hsq : (flushSerializeQueue d c1).sendq_ =
      c.sendq_ ++ stampDrainPos d (negotiatedProto t r) c.next_pos_ c.serializeq_ := by
    simpa [Core.flushed, Connection.core] using congrArg Core.sendq_ hflush
  refine ⟨rfl, ?_, hsq, ?_, ?_, ?_, ?_, ?_⟩
  · simpa [Core.flushed] using congrArg Core.serializeq_ hflush
  · show queueIds (flushSerializeQueue d c1).sendq_ = _
    rw [hsq]
    have := queueIds_stampDrainPos d (negotiatedProto t r) c.serializeq_ c.next_pos_
    simp only [queueIds] at this ⊢
    rw [List.map_append, this]
  · show ((flushSerializeQueue d c1).sendq_.drop _).map _ = _
    rw [hsq, List.drop_left, drain_pos_stampDrainPos]
  · simpa [Core.flushed, Connection.core] using congrArg Core.next_pos_ hflush
  · simpa [Core.flushed, Connection.core] using congrArg Core.trace hflush
  · intro hello m1 m2 H h1 h2 h3 h4 h5 h6
    show (flushSerializeQueue d c1).sendq_.map _ = _
    rw [hsq, h1, h3, h4]
    simp [stampDrainPos, h2, h5, h6, Nat.add_assoc]

theorem handshake_flushes_serializeq_fifo_witness :
    isClosed exampleAwaitingAck = false ∧
    queueIds exampleAwaitingAck.sendq_ = [0] ∧
    queueIds exampleAwaitingAck.serializeq_ = [1, 2] ∧
    (processHandshakeMessage exampleDeps exampleAwaitingAck MessageType.ACK
        exampleAckReceived).1.sendq_.map Envelope.drain_pos_ = [12, 112, 162] :=
  ⟨rfl, rfl, rfl,
    (handshake_flushes_serializeq_fifo exampleDeps exampleAwaitingAck
      MessageType.ACK exampleAckReceived (Or.inl rfl) rfl rfl rfl rfl
      (by decide)).2.2.2.2.2.2.2
      (exampleAwaitingAck.sendq_.headD (exampleEnvelope 0))
      (exampleAwaitingAck.serializeq_.headD (exampleEnvelope 0))
      (exampleAwaitingAck.serializeq_.tail.headD (exampleEnvelope 0))
      12 rfl rfl rfl rfl rfl rfl⟩

theorem preSendCheck_closed (d : Deps) (c : Connection) (m : Message)
    (h : isClosed c = true) :
    preSendCheck d c m = ({ c with err := Status.NOTCONN }, -1) := by
  rw [preSendCheck, if_pos h]

theorem preSendCheck_unhandshaken (d : Deps) (c : Connection) (m : Message)
    (h : isClosed c = false) (hh : c.handshaken_ = false) :
    preSendCheck d c m =
      if c.peer_is_client_address && !isACKMessage m.type_ then
        ({ c with err := Status.UNREACHABLE }, -1)
      else (c, 0) := by
  rw [preSendCheck, if_neg (by simp [h]), if_pos (by simp [hh])]

theorem preSendCheck_old_protocol (d : Deps) (c : Connection) (m : Message)
    (h : isClosed c = false) (hh : c.handshaken_ = true)
    (hp : c.proto_ < m.min_protocol) :
    preSendCheck d c m =
      ({ (if isHandshakeMessage m.type_ then
            { close d c Status.INTERNAL with err := Status.INTERNAL }
          else c) with err := Status.PROTONOSUPPORT }, -1) := by
  rw [preSendCheck, if_neg (by simp [h]), if_neg (by simp [hh]), if_pos (by omega)]

/-- C7: on an open outgoing connection that is not handshaken, `send` of a
message that is neither cancelled nor a handshake message only appends the
envelope to the tail of `serializeq_`: positions, `sendq_`, the output buffers
and the callbacks so far are unchanged. -/
theorem send_before_handshake_queues (d : Deps) (c : Connection) (e : Envelope)
    (hpeer : c.peer_is_client_address = false) (hopen : isClosed c = false)
    (hh : c.handshaken_ = false) (hcan : e.msg.cancelled = false)
    (hhs : isHandshakeMessage e.msg.type_ = false) :
    send d c e = { c with serializeq_ := c.serializeq_ ++ [e] } ∧
    (send d c e).serializeq_ = c.serializeq_ ++ [e] ∧
    (send d c e).next_pos_ = c.next_pos_ ∧ (send d c e).drain_pos_ = c.drain_pos_ ∧
    (send d c e).sendq_ = c.sendq_ ∧ (send d c e).bev_ = c.bev_ ∧
    (send d c e).buffered_output_ = c.buffered_output_ ∧
    (send d c e).sendChain_ = c.sendChain_ ∧ (send d c e).trace = c.trace := by
  have h : send d c e = { c with serializeq_ := c.serializeq_ ++ [e] } := by
    rw [send, preSendCheck_unhandshaken d c e.msg hopen hh]
    simp only [hpeer, hcan, hh, hhs, Bool.false_and, Bool.and_false, Bool.or_false,
      Bool.false_eq_true, if_false]
    rfl
  rw [h]
  exact ⟨rfl, rfl, rfl, rfl, rfl, rfl, rfl, rfl, rfl⟩

theorem send_before_handshake_queues_witness :
    exampleConnecting.peer_is_client_address = false ∧
    isClosed exampleConnecting = false ∧ exampleConnecting.handshaken_ = false ∧
    (send exampleDeps exampleConnecting (exampleEnvelope 1)).serializeq_ =
      exampleConnecting.serializeq_ ++ [exampleEnvelope 1] ∧
    (send exampleDeps exampleConnecting (exampleEnvelope 1)).trace =
      exampleConnecting.trace :=
  ⟨rfl, rfl, rfl,
    (send_before_handshake_queues exampleDeps exampleConnecting (exampleEnvelope 1)
      rfl rfl rfl rfl rfl).2.1,
    (send_before_handshake_queues exampleDeps exampleConnecting (exampleEnvelope 1)
      rfl rfl rfl rfl rfl).2.2.2.2.2.2.2.2⟩

/-- C9: on a closed connection `registerMessage` returns no envelope and only
sets `err` to NOTCONN, whatever the message: the three queues, their costs and
both stream positions are unchanged. -/
theorem registerMessage_closed (d : Deps) (c : Connection) (msg : Message)
    (h : isClosed c = true) :
    registerMessage d c msg = ({ c with err := Status.NOTCONN }, none) ∧
    (registerMessage d c msg).2 = none ∧
    (registerMessage d c msg).1.err = Status.NOTCONN ∧
    (registerMessage d c msg).1.pendingq_ = c.pendingq_ ∧
    (registerMessage d c msg).1.serializeq_ = c.serializeq_ ∧
    (registerMessage d c msg).1.sendq_ = c.sendq_ ∧
    queueCost (registerMessage d c msg).1.pendingq_ = queueCost c.pendingq_ ∧
    queueCost (registerMessage d c msg).1.serializeq_ = queueCost c.serializeq_ ∧
    queueCost (registerMessage d c msg).1.sendq_ = queueCost c.sendq_ ∧
    (registerMessage d c msg).1.next_pos_ = c.next_pos_ ∧
    (registerMessage d c msg).1.drain_pos_ = c.drain_pos_ := by
  have h1 : registerMessage d c msg = ({ c with err := Status.NOTCONN }, none) := by
    rw [registerMessage, preSendCheck_closed d c msg h]
    rfl
  rw [h1]
  exact ⟨rfl, rfl, rfl, rfl, rfl, rfl, rfl, rfl, rfl, rfl, rfl⟩

theorem registerMessage_closed_witness :
    isClosed (Connection.outgoing exampleDeps true false false) = true ∧
    (registerMessage exampleDeps (Connection.outgoing exampleDeps true false false)
      exampleAck).2 = none ∧
    (registerMessage exampleDeps (Connection.outgoing exampleDeps true false false)
      exampleAck).1.err = Status.NOTCONN :=
  ⟨rfl,
    (registerMessage_closed exampleDeps
      (Connection.outgoing exampleDeps true false false) exampleAck rfl).2.1,
    (registerMessage_closed exampleDeps
      (Connection.outgoing exampleDeps true false false) exampleAck rfl).2.2.1⟩

/-- C10 as stated fails both ways: an open outgoing connection that is not
handshaken admits a message that is not a handshake message (envelope 1 joins
`pendingq_`), and an open incoming connection that is not handshaken rejects
HELLO, which is a handshake message. -/
theorem registerMessage_before_handshake_counterexample :
    (isClosed exampleConnecting = false ∧ exampleConnecting.handshaken_ = false ∧
      isHandshakeMessage (exampleMessage 1 10).type_ = false ∧
      (registerMessage exampleDeps exampleConnecting (exampleMessage 1 10)).2.map
        Envelope.id = some 1 ∧
      queueIds (registerMessage exampleDeps exampleConnecting
        (exampleMessage 1 10)).1.pendingq_ = [1]) ∧
    (isClosed (Connection.incoming exampleDeps true false false true) = false ∧
      (Connection.incoming exampleDeps true false false true).handshaken_ = false ∧
      isHandshakeMessage exampleDeps.createHelloMessage.type_ = true ∧
      (registerMessage exampleDeps
        (Connection.incoming exampleDeps true false false true)
        exampleDeps.createHelloMessage).2.map Envelope.id = none ∧
      (registerMessage exampleDeps
        (Connection.incoming exampleDeps true false false true)
        exampleDeps.createHelloMessage).1.err = Status.UNREACHABLE) := by
  decide

/-- C10, as amended: on an open connection that has not completed its
handshake, `registerMessage` towards a client peer rejects every message that
is not an ACK (no envelope, `err` = UNREACHABLE, nothing queued) and admits an
ACK; towards a server peer it admits every handshake message and every other
message unless the byte limit is exceeded, in which case it returns no
envelope with `err` = NOBUFS. -/
theorem registerMessage_before_handshake (d : Deps) (c : Connection)
    (msg : Message) (hopen : isClosed c = false) (hh : c.handshaken_ = false) :
    (c.peer_is_client_address = true → isACKMessage msg.type_ = false →
      registerMessage d c msg = ({ c with err := Status.UNREACHABLE }, none)) ∧
    (c.peer_is_client_address = false ∨ isACKMessage msg.type_ = true →
      isHandshakeMessage msg.type_ = true ∨ sizeLimitsExceeded c = false →
      registerMessage d c msg = admitted d c msg) ∧
    (c.peer_is_client_address = false → isHandshakeMessage msg.type_ = false →
      sizeLimitsExceeded c = true →
      registerMessage d c msg = ({ c with err := Status.NOBUFS }, none)) := by
  refine ⟨?_, ?_, ?_⟩
  · intro hp ha
    rw [registerMessage, preSendCheck_unhandshaken d c msg hopen hh]
    simp only [hp, ha, Bool.not_false, Bool.and_self, if_true]
    rfl
  · intro hp hl
    rw [registerMessage, preSendCheck_unhandshaken d c msg hopen hh]
    rw [if_neg (by rcases hp with h | h <;> simp [h])]
    simp only [show ((0 : Int) != 0) = false from rfl, Bool.false_eq_true, if_false]
    rw [if_neg (by rcases hl with h | h <;> simp [h])]
    rfl
  · intro hp hs hl
    rw [registerMessage, preSendCheck_unhandshaken d c msg hopen hh]
    simp only [hp, hs, hl, Bool.false_and, Bool.false_eq_true, if_false,
      show ((0 : Int) != 0) = false from rfl, Bool.not_false, Bool.and_self, if_true]

theorem registerMessage_before_handshake_witness :
    isClosed exampleConnecting = false ∧ exampleConnecting.handshaken_ = false ∧
    registerMessage exampleDeps exampleConnecting (exampleMessage 1 10) =
      admitted exampleDeps exampleConnecting (exampleMessage 1 10) :=
  ⟨rfl, rfl,
    (registerMessage_before_handshake exampleDeps exampleConnecting
      (exampleMessage 1 10) rfl rfl).2.1 (Or.inl rfl) (Or.inr rfl)⟩

/-! ## Invariants of the core and the moves that preserve them

While a function runs, one envelope may be owned by a local variable (the
envelope `send` was given, the one `flushNextInSerializeQueue` just popped);
it is the *held* envelope `H` below. -/

theorem SendMove.send_baseInv {d : Deps} {k k1 : Core} {H H1 : Option Envelope}
    (hm : SendMove d k H k1 H1) : BaseInv k → BaseInv k1 := by
  induction hm with
  | refl => exact id
  | trans _ _ ih1 ih2 => exact fun h => ih2 (ih1 h)
  | aux k H w =>
    intro h
    exact ⟨h.closing, h.pos, h.new_transport, h.closed, h.unconnected, h.hs_conn,
      h.deferred, h.timer⟩
  | complete k e st cm =>
    intro h
    exact ⟨h.closing, h.pos, h.new_transport, h.closed, h.unconnected, h.hs_conn,
      h.deferred, h.timer⟩
  | serialize k e len hopen hg =>
    intro h
    have hcon : k.connected_ = true := by
      rcases hg with hg | ⟨hg, _⟩
      · exact h.hs_conn hg
      · exact hg
    refine ⟨h.closing, ?_, ?_, ?_, ?_, h.hs_conn, h.deferred, h.timer⟩
    · have := h.pos
      have hn := h.new_transport
      show k.drain_pos_ + Option.getD _ 0 + Option.getD _ 0 ≤ k.next_pos_ + len
      cases hl : k.legacy_connection_ <;> cases hb : k.buffered_output_ <;>
        cases hv : k.bev_ <;> simp_all <;> omega
    · intro hl
      have := h.new_transport hl
      show (if _ then _ else _) = none ∧ (if _ then _ else _) = none
      simp [hl, this.1, this.2]
    · intro hc
      exact absurd hopen hc
    · intro hc
      have hc2 : k.connected_ = false := hc
      rw [hcon] at hc2
      cases hc2
  | hold k e hopen hh hg =>
    intro h
    exact ⟨h.closing, h.pos, h.new_transport, fun hc => absurd hopen hc, h.unconnected,
      h.hs_conn, h.deferred, h.timer⟩
  | close k H r hopen =>
    intro h
    have hbev : (Core.closed d k r).bev_ = none := by
      cases hl : k.legacy_connection_
      · simp [Core.closed, hl, (h.new_transport hl).1]
      · simp [Core.closed, hl]
    have hbuf : (Core.closed d k r).buffered_output_ = none := by
      cases hl : k.legacy_connection_
      · simp [Core.closed, hl, (h.new_transport hl).2]
      · simp [Core.closed, hl]
    refine ⟨h.closing, ?_, fun _ => ⟨hbev, hbuf⟩, fun _ => ⟨rfl, hbev⟩, ?_, ?_, ?_, ?_⟩
    · rw [hbev, hbuf]
      exact Nat.le_refl _
    · intro _
      refine ⟨rfl, ?_, ?_⟩
      · rw [hbev]; rfl
      · rw [hbuf]; rfl
    · intro hh
      exact absurd hh (by simp [Core.closed])
    · intro e he
      simp [Core.closed] at he
    · intro hf
      exact absurd hf (by simp [Core.closed])

theorem SendMove.flags {d : Deps} {k k1 : Core} {H H1 : Option Envelope}
    (hm : SendMove d k H k1 H1) : SameFlagsOrClosed k k1 := by
  induction hm with
  | refl => exact Or.inl ⟨rfl, rfl, rfl, fun _ => rfl⟩
  | trans _ _ ih1 ih2 =>
    rcases ih2 with ⟨a, b, c, q⟩ | h2
    · rcases ih1 with ⟨a1, b1, c1, q1⟩ | ⟨h1, e1⟩
      · refine Or.inl ⟨a.trans a1, b.trans b1, c.trans c1, fun hc => ?_⟩
        exact (q (by rw [a1]; exact hc)).trans (q1 hc)
      · refine Or.inr ⟨a.trans h1, ?_⟩
        exact (q (by rw [h1]; simp)).trans e1
    · exact Or.inr h2
  | aux => exact Or.inl ⟨rfl, rfl, rfl, fun _ => rfl⟩
  | complete => exact Or.inl ⟨rfl, rfl, rfl, fun _ => rfl⟩
  | serialize => exact Or.inl ⟨rfl, rfl, rfl, fun _ => rfl⟩
  | hold k e hopen => exact Or.inl ⟨rfl, rfl, rfl, fun hc => absurd hopen hc⟩
  | close => exact Or.inr ⟨rfl, rfl⟩

theorem Move.baseInv {d : Deps} {allowed : Message → Prop} {reset : Prop} {k k1 : Core}
    {H H1 : Option Envelope} (hm : Move d allowed reset k H k1 H1) :
    BaseInv k → BaseInv k1 := by
  induction hm with
  | send hs => exact hs.send_baseInv
  | trans _ _ ih1 ih2 => exact fun h => ih2 (ih1 h)
  | aux k H b oc bw p =>
    intro h
    exact ⟨h.closing, h.pos, h.new_transport, h.closed, h.unconnected, h.hs_conn,
      h.deferred, h.timer⟩
  | pop k e rest hq hh =>
    intro h
    exact ⟨h.closing, h.pos, h.new_transport, h.closed, h.unconnected, h.hs_conn,
      h.deferred, h.timer⟩
  | connectedPop k e rest hopen hc ht hq =>
    intro h
    refine ⟨h.closing, h.pos, h.new_transport, fun hc => absurd hopen hc,
      fun hx => (by cases hx), fun _ => rfl, h.deferred, ?_⟩
    intro hf
    have hf2 : k.connect_timeout_event_ = true := hf
    rw [ht] at hf2
    cases hf2
  | connectedEmpty k hopen hc ht hq =>
    intro h
    refine ⟨h.closing, h.pos, h.new_transport, fun hc => absurd hopen hc,
      fun hx => (by cases hx), fun _ => rfl, h.deferred, ?_⟩
    intro hf
    have hf2 : k.connect_timeout_event_ = true := hf
    rw [ht] at hf2
    cases hf2
  | register k H e ha hid hopen =>
    intro h
    exact ⟨h.closing, h.pos, h.new_transport, h.closed, h.unconnected, h.hs_conn,
      h.deferred, h.timer⟩
  | release k e he =>
    intro h
    exact ⟨h.closing, h.pos, h.new_transport, h.closed, h.unconnected, h.hs_conn,
      h.deferred, h.timer⟩
  | discard k H e =>
    intro h
    exact ⟨h.closing, h.pos, h.new_transport, h.closed, h.unconnected, h.hs_conn,
      h.deferred, h.timer⟩
  | hello k e hid hopen hc hh =>
    intro h
    exact ⟨h.closing, h.pos, h.new_transport, h.closed, h.unconnected, h.hs_conn,
      h.deferred, h.timer⟩
  | ack k e rest hq =>
    intro h
    refine ⟨h.closing, h.pos, h.new_transport, h.closed, ?_, h.hs_conn, h.deferred,
      h.timer⟩
    intro hc
    have := (h.unconnected hc).1
    rw [hq] at this
    cases this
  | drain k H n hn =>
    intro h
    exact ⟨h.closing, hn, h.new_transport, h.closed, h.unconnected, h.hs_conn,
      h.deferred, h.timer⟩
  | shrink k H len n hb hn =>
    intro h
    refine ⟨h.closing, ?_, ?_, ?_, ?_, h.hs_conn, h.deferred, h.timer⟩
    · have := h.pos
      rw [hb] at this
      show k.drain_pos_ + n + k.buffered_output_.getD 0 ≤ k.next_pos_
      simp at this
      omega
    · intro hl
      have := (h.new_transport hl).1
      rw [hb] at this
      exact absurd this (by simp)
    · intro hc
      have := (h.closed hc).2
      rw [hb] at this
      exact absurd this (by simp)
    · intro hc
      obtain ⟨a, b, c⟩ := h.unconnected hc
      rw [hb] at b
      have b2 : len = 0 := b
      refine ⟨a, ?_, c⟩
      show n = 0
      omega
  | flushBuffered k H n hb =>
    intro h
    refine ⟨h.closing, ?_, ?_, ?_, ?_, h.hs_conn, h.deferred, h.timer⟩
    · have := h.pos
      rw [hb] at this
      show k.drain_pos_ + Option.getD (k.bev_.map _) 0 + 0 ≤ _
      cases hv : k.bev_ <;> simp_all <;> omega
    · intro hl
      have := (h.new_transport hl).2
      rw [hb] at this
      exact absurd this (by simp)
    · intro hc
      refine ⟨(h.closed hc).1, ?_⟩
      show Option.map _ k.bev_ = none
      rw [(h.closed hc).2]
      rfl
    · intro hc
      obtain ⟨a, b, c⟩ := h.unconnected hc
      rw [hb] at c
      have c2 : n = 0 := c
      refine ⟨a, ?_, rfl⟩
      show Option.getD (k.bev_.map _) 0 = 0
      cases hv : k.bev_ with
      | none => rfl
      | some v =>
        rw [hv] at b
        have b2 : v = 0 := b
        show v + n = 0
        omega
  | handshaken k hc =>
    intro h
    exact ⟨h.closing, h.pos, h.new_transport, h.closed, h.unconnected, fun _ => hc,
      h.deferred, h.timer⟩
  | unhandshaken k H =>
    intro h
    exact ⟨h.closing, h.pos, h.new_transport, h.closed, h.unconnected,
      fun hh => (by cases hh), h.deferred, h.timer⟩
  | opened k bev buf hcl hbev hbuf hnl =>
    intro h
    refine ⟨h.closing, ?_, hnl, fun hc => absurd rfl hc, ?_, h.hs_conn, h.deferred, ?_⟩
    · have := h.pos
      show k.drain_pos_ + bev.getD 0 + buf.getD 0 ≤ k.next_pos_
      omega
    · intro hc
      exact ⟨(h.unconnected hc).1, hbev, hbuf⟩
    · intro hf
      obtain ⟨a, _, c⟩ := h.timer hf
      exact ⟨a, rfl, c⟩
  | resetPos k H _ hbev hbuf =>
    intro h
    refine ⟨h.closing, ?_, h.new_transport, h.closed, h.unconnected, h.hs_conn,
      h.deferred, h.timer⟩
    show 0 + k.bev_.getD 0 + k.buffered_output_.getD 0 ≤ 0
    omega
  | defer k H e hopen he =>
    intro h
    refine ⟨h.closing, h.pos, h.new_transport, h.closed, h.unconnected, h.hs_conn, ?_,
      h.timer⟩
    intro x hx
    rcases List.mem_append.mp hx with hx | hx
    · exact h.deferred x hx
    · simp at hx; rw [hx]; exact he
  | undefer k H q hq =>
    intro h
    exact ⟨h.closing, h.pos, h.new_transport, h.closed, h.unconnected, h.hs_conn,
      fun x hx => h.deferred x (hq x hx), h.timer⟩
  | cancelTimer k H =>
    intro h
    exact ⟨h.closing, h.pos, h.new_transport, h.closed, h.unconnected, h.hs_conn,
      h.deferred, fun hf => (by cases hf)⟩
  | armTimer k H hl ho hc =>
    intro h
    exact ⟨h.closing, h.pos, h.new_transport, h.closed, h.unconnected, h.hs_conn,
      h.deferred, fun _ => ⟨hl, ho, hc⟩⟩
  | retry k H hf =>
    intro h
    obtain ⟨hl, ho, hc⟩ := h.timer hf
    obtain ⟨hs, hb, hbuf⟩ := h.unconnected hc
    refine ⟨h.closing, ?_, ?_, fun _ => ⟨hc, rfl⟩, fun _ => ⟨hs, rfl, hbuf⟩, h.hs_conn,
      h.deferred, fun hx => (by cases hx)⟩
    · have := h.pos
      show k.drain_pos_ + 0 + k.buffered_output_.getD 0 ≤ k.next_pos_
      omega
    · intro hl2
      have hl3 : k.legacy_connection_ = false := hl2
      rw [hl] at hl3
      cases hl3

theorem completedIds_append (t1 t2 : List Event) :
    completedIds (t1 ++ t2) = completedIds t1 ++ completedIds t2 := by
  induction t1 with
  | nil => rfl
  | cons e t ih => cases e <;> simp [completedIds, ih]

theorem releasedIds_append (t1 t2 : List Event) :
    releasedIds (t1 ++ t2) = releasedIds t1 ++ releasedIds t2 := by
  induction t1 with
  | nil => rfl
  | cons e t ih => cases e <;> simp [releasedIds, ih]

theorem serializedIds_append (t1 t2 : List Event) :
    serializedIds (t1 ++ t2) = serializedIds t1 ++ serializedIds t2 := by
  induction t1 with
  | nil => rfl
  | cons e t ih => cases e <;> simp [serializedIds, ih]

theorem completedIds_map_onSent (q : List Envelope) (r : Status) (cm : CompletionMethod) :
    completedIds (q.map (fun e => Event.onSent e.id r cm)) = queueIds q := by
  induction q with
  | nil => rfl
  | cons e q ih => simpa [completedIds, queueIds] using ih

theorem completedIds_closeEvents (d : Deps) (hsd : d.shuttingDown = false)
    (k : Core) (r : Status) :
    completedIds (closeEvents d k r) =
      queueIds k.serializeq_ ++ queueIds k.sendq_ ++ queueIds k.pendingq_ := by
  unfold closeEvents
  simp only [hsd, Bool.false_eq_true, if_false, completedIds_append, completedIds_map_onSent]
  have h1 : ∀ l : List Nat, completedIds (l.map (fun cb => Event.bwCancelled cb r)) = [] := by
    intro l; induction l with
    | nil => rfl
    | cons a l ih => simpa [completedIds] using ih
  have h2 : ∀ l : List Nat, completedIds (l.map (fun cb => Event.onClose cb r)) = [] := by
    intro l; induction l with
    | nil => rfl
    | cons a l ih => simpa [completedIds] using ih
  simp [h1, h2, queueIds]

theorem releasedIds_closeEvents (d : Deps) (k : Core) (r : Status) :
    releasedIds (closeEvents d k r) = [] := by
  unfold closeEvents
  have h0 : ∀ l : List Envelope, releasedIds
      (l.map (fun e => Event.onSent e.id r CompletionMethod.IMMEDIATE)) = [] := by
    intro l; induction l with
    | nil => rfl
    | cons a l ih => simpa [releasedIds] using ih
  have h1 : ∀ l : List Nat, releasedIds (l.map (fun cb => Event.bwCancelled cb r)) = [] := by
    intro l; induction l with
    | nil => rfl
    | cons a l ih => simpa [releasedIds] using ih
  have h2 : ∀ l : List Nat, releasedIds (l.map (fun cb => Event.onClose cb r)) = [] := by
    intro l; induction l with
    | nil => rfl
    | cons a l ih => simpa [releasedIds] using ih
  cases d.shuttingDown <;> simp [releasedIds_append, h0, h1, h2, releasedIds]

theorem serializedIds_closeEvents (d : Deps) (k : Core) (r : Status) :
    serializedIds (closeEvents d k r) = [] := by
  unfold closeEvents
  have h0 : ∀ l : List Envelope, serializedIds
      (l.map (fun e => Event.onSent e.id r CompletionMethod.IMMEDIATE)) = [] := by
    intro l; induction l with
    | nil => rfl
    | cons a l ih => simpa [serializedIds] using ih
  have h1 : ∀ l : List Nat, serializedIds (l.map (fun cb => Event.bwCancelled cb r)) = [] := by
    intro l; induction l with
    | nil => rfl
    | cons a l ih => simpa [serializedIds] using ih
  have h2 : ∀ l : List Nat, serializedIds (l.map (fun cb => Event.onClose cb r)) = [] := by
    intro l; induction l with
    | nil => rfl
    | cons a l ih => simpa [serializedIds] using ih
  cases d.shuttingDown <;> simp [serializedIds_append, h0, h1, h2, serializedIds]

theorem nodup5 (P Q X Hs C : List Nat) :
    (P ++ Q ++ X ++ Hs ++ C).Nodup ↔
      P.Nodup ∧ Q.Nodup ∧ X.Nodup ∧ Hs.Nodup ∧ C.Nodup ∧
      (∀ id, id ∈ P → id ∉ Q ∧ id ∉ X ∧ id ∉ Hs ∧ id ∉ C) ∧
      (∀ id, id ∈ Q → id ∉ X ∧ id ∉ Hs ∧ id ∉ C) ∧
      (∀ id, id ∈ X → id ∉ Hs ∧ id ∉ C) ∧
      (∀ id, id ∈ Hs → id ∉ C) := by
  simp only [List.nodup_append, List.Disjoint, List.mem_append]
  constructor
  · rintro ⟨⟨⟨⟨hp, hq, h1⟩, hx, h2⟩, hh, h3⟩, hc, h4⟩
    refine ⟨hp, hq, hx, hh, hc, ?_, ?_, ?_, ?_⟩
    · intro id h
      exact ⟨fun a => h1 h a, fun a => h2 (Or.inl h) a, fun a => h3 (Or.inl (Or.inl h)) a,
        fun a => h4 (Or.inl (Or.inl (Or.inl h))) a⟩
    · intro id h
      exact ⟨fun a => h2 (Or.inr h) a, fun a => h3 (Or.inl (Or.inr h)) a,
        fun a => h4 (Or.inl (Or.inl (Or.inr h))) a⟩
    · intro id h
      exact ⟨fun a => h3 (Or.inr h) a, fun a => h4 (Or.inl (Or.inr h)) a⟩
    · intro id h
      exact fun a => h4 (Or.inr h) a
  · rintro ⟨hp, hq, hx, hh, hc, h1, h2, h3, h4⟩
    refine ⟨⟨⟨⟨hp, hq, ?_⟩, hx, ?_⟩, hh, ?_⟩, hc, ?_⟩
    · intro id a b
      exact (h1 id a).1 b
    · intro id a b
      rcases a with a | a
      · exact (h1 id a).2.1 b
      · exact (h2 id a).1 b
    · intro id a b
      rcases a with (a | a) | a
      · exact (h1 id a).2.2.1 b
      · exact (h2 id a).2.1 b
      · exact (h3 id a).1 b
    · intro id a b
      rcases a with ((a | a) | a) | a
      · exact (h1 id a).2.2.2 b
      · exact (h2 id a).2.2 b
      · exact (h3 id a).2 b
      · exact h4 id a b

theorem IdsOK.not_mem_S {P Q X Hs C R S : List Nat} {n : Nat}
    (h : IdsOK P Q X Hs C R S n) {id : Nat} (hid : id ∈ P ∨ id ∈ Q ∨ id ∈ Hs) : id ∉ S := by
  intro hs
  rw [← h.order] at hs
  obtain ⟨_, _, _, _, _, h1, h2, h3, h4⟩ := (nodup5 _ _ _ _ _).1 h.nodup
  simp only [List.mem_append, List.mem_filter] at hs
  rcases hs with ⟨hc, _⟩ | hx
  · rcases hid with hp | hq | hh
    · exact (h1 id hp).2.2.2 hc
    · exact (h2 id hq).2.2 hc
    · exact h4 id hh hc
  · rcases hid with hp | hq | hh
    · exact (h1 id hp).2.1 hx
    · exact (h2 id hq).1 hx
    · exact (h3 id hx).1 hh

theorem filter_mem_append_of_not_mem (C S : List Nat) (e : Nat) (h : e ∉ C) :
    C.filter (fun id => decide (id ∈ S ++ [e])) = C.filter (fun id => decide (id ∈ S)) := by
  apply List.filter_congr
  intro x hx
  have : x ≠ e := fun a => h (a ▸ hx)
  simp [this]

theorem filter_eq_nil_of_disjoint (L S : List Nat) (h : ∀ id ∈ L, id ∉ S) :
    L.filter (fun id => decide (id ∈ S)) = [] := by
  rw [List.filter_eq_nil_iff]
  intro a ha
  simpa using h a ha

theorem filter_eq_self_of_subset (L S : List Nat) (h : ∀ id ∈ L, id ∈ S) :
    L.filter (fun id => decide (id ∈ S)) = L := by
  rw [List.filter_eq_self]
  intro a ha
  simpa using h a ha

theorem IdsOK.complete {P Q X C R S : List Nat} {n e : Nat}
    (h : IdsOK P Q X [e] C R S n) : IdsOK P Q X [] (C ++ [e]) R S n := by
  have hS : e ∉ S := h.not_mem_S (by simp)
  obtain ⟨hf, hn, hr, ho⟩ := h
  rw [nodup5] at hn
  obtain ⟨n1, n2, n3, n4, n5, h1, h2, h3, h4⟩ := hn
  refine ⟨?_, ?_, ?_, ?_⟩
  · intro id hid
    apply hf
    simp only [List.mem_append, List.mem_singleton, List.not_mem_nil, or_false] at hid ⊢
    tauto
  · rw [nodup5]
    refine ⟨n1, n2, n3, List.nodup_nil, ?_, ?_, ?_, ?_, ?_⟩
    · rw [List.nodup_append]
      refine ⟨n5, List.nodup_singleton e, ?_⟩
      intro a ha hb
      simp only [List.mem_singleton] at hb
      subst hb
      exact h4 a (by simp) ha
    · intro id hid
      have := h1 id hid
      simp only [List.mem_append, List.mem_singleton, List.not_mem_nil] at this ⊢
      tauto
    · intro id hid
      have := h2 id hid
      simp only [List.mem_append, List.mem_singleton, List.not_mem_nil] at this ⊢
      tauto
    · intro id hid
      have := h3 id hid
      simp only [List.mem_append, List.mem_singleton, List.not_mem_nil] at this ⊢
      tauto
    · intro id hid
      simp at hid
  · intro id hid
    have := hr id hid
    simp only [List.mem_append, List.mem_singleton, List.not_mem_nil, or_false] at this ⊢
    tauto
  · rw [List.filter_append, ← ho]
    have : List.filter (fun id => decide (id ∈ S)) [e] = [] :=
      filter_eq_nil_of_disjoint _ _ (by simpa using hS)
    rw [ho, this, List.append_nil, ho]

theorem IdsOK.serialize {P Q X C R S : List Nat} {n e : Nat}
    (h : IdsOK P Q X [e] C R S n) : IdsOK P Q (X ++ [e]) [] C R (S ++ [e]) n := by
  obtain ⟨hf, hn, hr, ho⟩ := h
  rw [nodup5] at hn
  obtain ⟨n1, n2, n3, n4, n5, h1, h2, h3, h4⟩ := hn
  refine ⟨?_, ?_, ?_, ?_⟩
  · intro id hid
    apply hf
    simp only [List.mem_append, List.mem_singleton, List.not_mem_nil, or_false] at hid ⊢
    tauto
  · rw [nodup5]
    refine ⟨n1, n2, ?_, List.nodup_nil, n5, ?_, ?_, ?_, ?_⟩
    · rw [List.nodup_append]
      refine ⟨n3, List.nodup_singleton e, ?_⟩
      intro a ha hb
      simp only [List.mem_singleton] at hb
      subst hb
      exact (h3 a ha).1 (by simp)
    · intro id hid
      have := h1 id hid
      simp only [List.mem_append, List.mem_singleton, List.not_mem_nil] at this ⊢
      tauto
    · intro id hid
      have := h2 id hid
      simp only [List.mem_append, List.mem_singleton, List.not_mem_nil] at this ⊢
      tauto
    · intro id hid
      simp only [List.mem_append, List.mem_singleton] at hid
      rcases hid with hid | hid
      · have := h3 id hid
        simp only [List.mem_append, List.mem_singleton, List.not_mem_nil] at this ⊢
        tauto
      · subst hid
        have := h4 id (by simp)
        simp only [List.mem_append, List.mem_singleton, List.not_mem_nil] at this ⊢
        tauto
    · intro id hid
      simp at hid
  · intro id hid
    have := hr id hid
    simp only [List.mem_append, List.mem_singleton, List.not_mem_nil, or_false] at this ⊢
    tauto
  · rw [filter_mem_append_of_not_mem C S e (h4 e (by simp)), ← List.append_assoc, ho]

theorem IdsOK.hold {P Q X C R S : List Nat} {n e : Nat}
    (h : IdsOK P Q X [e] C R S n) : IdsOK P (Q ++ [e]) X [] C R S n := by
  obtain ⟨hf, hn, hr, ho⟩ := h
  rw [nodup5] at hn
  obtain ⟨n1, n2, n3, n4, n5, h1, h2, h3, h4⟩ := hn
  refine ⟨?_, ?_, ?_, ho⟩
  · intro id hid
    apply hf
    simp only [List.mem_append, List.mem_singleton, List.not_mem_nil, or_false] at hid ⊢
    tauto
  · rw [nodup5]
    refine ⟨n1, ?_, n3, List.nodup_nil, n5, ?_, ?_, ?_, ?_⟩
    · rw [List.nodup_append]
      refine ⟨n2, List.nodup_singleton e, ?_⟩
      intro a ha hb
      simp only [List.mem_singleton] at hb
      subst hb
      exact (h2 a ha).2.1 (by simp)
    · intro id hid
      have := h1 id hid
      simp only [List.mem_append, List.mem_singleton, List.not_mem_nil] at this ⊢
      tauto
    · intro id hid
      simp only [List.mem_append, List.mem_singleton] at hid
      rcases hid with hid | hid
      · have := h2 id hid
        simp only [List.mem_append, List.mem_singleton, List.not_mem_nil] at this ⊢
        tauto
      · subst hid
        have a := h4 id (by simp)
        have b := h3 id
        simp only [List.mem_append, List.mem_singleton, List.not_mem_nil] at a b ⊢
        tauto
    · intro id hid
      have := h3 id hid
      simp only [List.mem_append, List.mem_singleton, List.not_mem_nil] at this ⊢
      tauto
    · intro id hid
      simp at hid
  · intro id hid
    have := hr id hid
    simp only [List.mem_append, List.mem_singleton, List.not_mem_nil, or_false] at this ⊢
    tauto

theorem IdsOK.shrinkP {P P1 Q X Hs C R S : List Nat} {n : Nat}
    (h : IdsOK P Q X Hs C R S n) (hs : P1.Sublist P) : IdsOK P1 Q X Hs C R S n := by
  obtain ⟨hf, hn, hr, ho⟩ := h
  refine ⟨?_, ?_, hr, ho⟩
  · intro id hid
    apply hf
    simp only [List.mem_append] at hid ⊢
    rcases hid with (((a | a) | a) | a) | a
    · exact Or.inl (Or.inl (Or.inl (Or.inl (hs.subset a))))
    all_goals tauto
  · refine List.Nodup.sublist ?_ hn
    exact (((hs.append (List.Sublist.refl _)).append (List.Sublist.refl _)).append
      (List.Sublist.refl _)).append (List.Sublist.refl _)

theorem IdsOK.pop {P Q X C R S : List Nat} {n e : Nat}
    (h : IdsOK P (e :: Q) X [] C R S n) : IdsOK P Q X [e] C R S n := by
  obtain ⟨hf, hn, hr, ho⟩ := h
  refine ⟨?_, ?_, ?_, ho⟩
  · intro id hid
    apply hf
    simp only [List.mem_append, List.mem_singleton, List.not_mem_nil, or_false,
      List.mem_cons] at hid ⊢
    tauto
  · refine (List.Perm.nodup_iff ?_).1 hn
    rw [List.perm_iff_count]
    intro a
    simp only [List.count_append, List.count_cons, List.count_nil]
    omega
  · intro id hid
    have := hr id hid
    simp only [List.mem_append, List.mem_singleton, List.not_mem_nil, or_false,
      List.mem_cons] at this ⊢
    tauto

theorem IdsOK.register {P Q X Hs C R S : List Nat} {n : Nat}
    (h : IdsOK P Q X Hs C R S n) : IdsOK (P ++ [n]) Q X Hs C R S (n + 1) := by
  obtain ⟨hf, hn, hr, ho⟩ := h
  refine ⟨?_, ?_, hr, ho⟩
  · intro id hid
    simp only [List.mem_append, List.mem_singleton] at hid
    rcases hid with ((((a | a) | a) | a) | a) | a
    · exact Nat.lt_succ_of_lt (hf id (by simp [a]))
    · omega
    all_goals exact Nat.lt_succ_of_lt (hf id (by simp [a]))
  · have hp : (n :: (P ++ Q ++ X ++ Hs ++ C)).Perm (P ++ [n] ++ Q ++ X ++ Hs ++ C) := by
      rw [List.perm_iff_count]
      intro a
      simp only [List.count_append, List.count_cons, List.count_nil]
      omega
    refine (List.Perm.nodup_iff hp).1 ?_
    rw [List.nodup_cons]
    exact ⟨fun a => Nat.lt_irrefl _ (hf n a), hn⟩

theorem IdsOK.holdNew {P Q X C R S : List Nat} {n m e : Nat}
    (h : IdsOK P Q X [] C R S n) (hp : e ∉ P) (hq : e ∉ Q) (hx : e ∉ X) (hc : e ∉ C)
    (hlt : e < m) (hnm : n ≤ m) : IdsOK P Q X [e] C (R ++ [e]) S m := by
  obtain ⟨hf, hn, hr, ho⟩ := h
  refine ⟨?_, ?_, ?_, ho⟩
  · intro id hid
    simp only [List.mem_append, List.mem_singleton] at hid
    rcases hid with (((a | a) | a) | a) | a
    · exact Nat.lt_of_lt_of_le (hf id (by simp [a])) hnm
    · exact Nat.lt_of_lt_of_le (hf id (by simp [a])) hnm
    · exact Nat.lt_of_lt_of_le (hf id (by simp [a])) hnm
    · exact a ▸ hlt
    · exact Nat.lt_of_lt_of_le (hf id (by simp [a])) hnm
  · have hperm : (e :: (P ++ Q ++ X ++ [] ++ C)).Perm (P ++ Q ++ X ++ [e] ++ C) := by
      rw [List.perm_iff_count]
      intro a
      simp only [List.count_append, List.count_cons, List.count_nil]
      omega
    refine (List.Perm.nodup_iff hperm).1 ?_
    rw [List.nodup_cons]
    refine ⟨?_, hn⟩
    simp only [List.mem_append, List.not_mem_nil, or_false]
    tauto
  · intro id hid
    simp only [List.mem_append, List.mem_singleton] at hid
    rcases hid with a | a
    · have := hr id a
      simp only [List.mem_append, List.mem_singleton, List.not_mem_nil, or_false] at this ⊢
      tauto
    · simp [a]

theorem IdsOK.release {P P1 Q X C R S : List Nat} {n e : Nat}
    (h : IdsOK P Q X [] C R S n) (he : e ∈ P) (hs : P1.Sublist P) (h1 : e ∉ P1) :
    IdsOK P1 Q X [e] C (R ++ [e]) S n := by
  obtain ⟨_, _, _, _, _, d1, _⟩ := (nodup5 _ _ _ _ _).1 h.nodup
  have hlt : e < n := h.fresh e (by simp [he])
  exact (h.shrinkP hs).holdNew h1 (d1 e he).1 (d1 e he).2.1 (d1 e he).2.2.2 hlt (Nat.le_refl n)

theorem IdsOK.hello {P P1 Q X C R S : List Nat} {n : Nat}
    (h : IdsOK P Q X [] C R S n) (hs : P1.Sublist P) :
    IdsOK P1 Q X [n] C (R ++ [n]) S (n + 1) := by
  have hf := h.fresh
  have nm : ∀ L : List Nat, (∀ id ∈ L, id ∈ P ++ Q ++ X ++ [] ++ C) → n ∉ L :=
    fun L hL a => Nat.lt_irrefl _ (hf n (hL n a))
  refine (h.shrinkP hs).holdNew (nm _ ?_) (nm _ ?_) (nm _ ?_) (nm _ ?_)
    (Nat.lt_succ_self n) (Nat.le_succ n)
  · intro id a
    simp [hs.subset a]
  · intro id a
    simp [a]
  · intro id a
    simp [a]
  · intro id a
    simp [a]

theorem IdsOK.ack {P Q X C R S : List Nat} {n e : Nat}
    (h : IdsOK P Q (e :: X) [] C R S n) : IdsOK P Q X [] (C ++ [e]) R S n := by
  obtain ⟨hf, hn, hr, ho⟩ := h
  have hperm : (P ++ Q ++ e :: X ++ [] ++ C).Perm (P ++ Q ++ X ++ [] ++ (C ++ [e])) := by
    rw [List.perm_iff_count]
    intro a
    simp only [List.count_append, List.count_cons, List.count_nil]
    omega
  refine ⟨?_, (List.Perm.nodup_iff hperm).1 hn, ?_, ?_⟩
  · intro id hid
    exact hf id (hperm.symm.subset hid)
  · intro id hid
    have := hr id hid
    simp only [List.mem_append, List.mem_singleton, List.not_mem_nil, or_false,
      List.mem_cons] at this ⊢
    tauto
  · have heS : e ∈ S := by
      rw [← ho]
      simp
    rw [List.filter_append, filter_eq_self_of_subset [e] S (by simpa using heS),
      List.append_assoc]
    exact ho

theorem IdsOK.close {P Q X Hs C R S : List Nat} {n : Nat}
    (h : IdsOK P Q X Hs C R S n) : IdsOK [] [] [] Hs (C ++ (Q ++ X ++ P)) R S n := by
  have hP : ∀ id ∈ P, id ∉ S := fun id a => h.not_mem_S (Or.inl a)
  have hQ : ∀ id ∈ Q, id ∉ S := fun id a => h.not_mem_S (Or.inr (Or.inl a))
  obtain ⟨hf, hn, hr, ho⟩ := h
  have hperm : (P ++ Q ++ X ++ Hs ++ C).Perm ([] ++ [] ++ [] ++ Hs ++ (C ++ (Q ++ X ++ P))) := by
    rw [List.perm_iff_count]
    intro a
    simp only [List.count_append, List.count_cons, List.count_nil]
    omega
  refine ⟨?_, (List.Perm.nodup_iff hperm).1 hn, ?_, ?_⟩
  · intro id hid
    exact hf id (hperm.symm.subset hid)
  · intro id hid
    have := hr id hid
    simp only [List.mem_append, List.mem_singleton, List.not_mem_nil, or_false,
      List.mem_cons, List.nil_append] at this ⊢
    tauto
  · have hX : ∀ id ∈ X, id ∈ S := by
      intro id a
      rw [← ho]
      simp [a]
    rw [List.filter_append, List.filter_append, List.filter_append,
      filter_eq_nil_of_disjoint Q S hQ, filter_eq_nil_of_disjoint P S hP,
      filter_eq_self_of_subset X S hX]
    simpa using ho

theorem queueIds_eraseEnvelope_sublist (q : List Envelope) (e : Envelope) :
    (queueIds (eraseEnvelope q e)).Sublist (queueIds q) :=
  List.Sublist.map _ (List.filter_sublist q)

theorem not_mem_queueIds_eraseEnvelope (q : List Envelope) (e : Envelope) :
    e.id ∉ queueIds (eraseEnvelope q e) := by
  simp [queueIds, eraseEnvelope]

theorem mem_queueIds {q : List Envelope} {e : Envelope} (h : e ∈ q) : e.id ∈ queueIds q :=
  List.mem_map_of_mem _ h

theorem SendMove.send_idsInv {d : Deps} (hsd : d.shuttingDown = false) {k k1 : Core}
    {H H1 : Option Envelope} (hm : SendMove d k H k1 H1) : IdsInv k H → IdsInv k1 H1 := by
  induction hm with
  | refl => exact id
  | trans _ _ ih1 ih2 => exact fun h => ih2 (ih1 h)
  | aux k H w => exact id
  | complete k e st cm =>
    intro h
    have := IdsOK.complete h
    simpa [IdsInv, hsd, completedIds_append, releasedIds_append, serializedIds_append,
      completedIds, releasedIds, serializedIds, heldIds] using this
  | serialize k e len ho hh =>
    intro h
    have := IdsOK.serialize h
    simpa [IdsInv, completedIds_append, releasedIds_append, serializedIds_append,
      completedIds, releasedIds, serializedIds, heldIds, queueIds] using this
  | hold k e ho hh hc =>
    intro h
    have := IdsOK.hold h
    simpa [IdsInv, heldIds, queueIds] using this
  | close k H r ho =>
    intro h
    have := IdsOK.close h
    simpa [IdsInv, Core.closed, completedIds_append, releasedIds_append, serializedIds_append,
      completedIds_closeEvents d hsd, releasedIds_closeEvents, serializedIds_closeEvents,
      queueIds] using this

theorem Move.idsInv {d : Deps} (hsd : d.shuttingDown = false) {allowed : Message → Prop}
    {reset : Prop} {k k1 : Core} {H H1 : Option Envelope}
    (hm : Move d allowed reset k H k1 H1) : IdsInv k H → IdsInv k1 H1 := by
  induction hm with
  | send hs => exact hs.send_idsInv hsd
  | trans _ _ ih1 ih2 => exact fun h => ih2 (ih1 h)
  | aux k H b oc bw p => exact id
  | pop k e rest hq hh =>
    intro h
    unfold IdsInv at h
    rw [hq] at h
    exact IdsOK.pop h
  | connectedPop k e rest ho hc ht hq =>
    intro h
    unfold IdsInv at h
    rw [hq] at h
    exact IdsOK.pop h
  | connectedEmpty k ho hc ht hq => exact id
  | register k H e ha hid ho =>
    intro h
    have := IdsOK.register h
    simpa [IdsInv, queueIds, hid] using this
  | release k e he =>
    intro h
    have := IdsOK.release h (mem_queueIds he) (queueIds_eraseEnvelope_sublist _ e)
      (not_mem_queueIds_eraseEnvelope _ e)
    simpa [IdsInv, releasedIds_append, completedIds_append, serializedIds_append,
      completedIds, releasedIds, serializedIds, heldIds] using this
  | discard k H e =>
    intro h
    exact IdsOK.shrinkP h (queueIds_eraseEnvelope_sublist _ e)
  | hello k e hid ho hc hh =>
    intro h
    have := IdsOK.hello h (queueIds_eraseEnvelope_sublist k.pendingq_ e)
    simpa [IdsInv, releasedIds_append, completedIds_append, serializedIds_append,
      completedIds, releasedIds, serializedIds, heldIds, hid] using this
  | ack k e rest hq =>
    intro h
    unfold IdsInv at h
    rw [hq] at h
    have := IdsOK.ack h
    simpa [IdsInv, hsd, releasedIds_append, completedIds_append, serializedIds_append,
      completedIds, releasedIds, serializedIds, heldIds] using this
  | drain k H n hn => exact id
  | shrink k H len n hb hn => exact id
  | flushBuffered k H n hb => exact id
  | handshaken k hc => exact id
  | unhandshaken k H => exact id
  | opened k bev buf hc hb hbuf hnew => exact id
  | resetPos k H hr hbev hbuf => exact id
  | defer k H e ho he => exact id
  | undefer k H q hq => exact id
  | cancelTimer k H => exact id
  | armTimer k H hl ho hc => exact id
  | retry k H hf => exact id

theorem mem_eraseEnvelope {q : List Envelope} {e e1 : Envelope}
    (h : e1 ∈ eraseEnvelope q e) : e1 ∈ q :=
  (List.mem_filter.1 h).1

theorem Move.next_pos_mono {d : Deps} {allowed : Message → Prop}
    {k k1 : Core} {H H1 : Option Envelope}
    (hm : Move d allowed False k H k1 H1) : k.next_pos_ ≤ k1.next_pos_ := by
  induction hm with
  | send hs =>
    induction hs with
    | refl => exact Nat.le_refl _
    | trans _ _ ih1 ih2 => exact Nat.le_trans ih1 ih2
    | aux => exact Nat.le_refl _
    | complete => exact Nat.le_refl _
    | serialize k e len => exact Nat.le_add_right _ _
    | hold => exact Nat.le_refl _
    | close => exact Nat.le_refl _
  | trans _ _ ih1 ih2 => exact Nat.le_trans ih1 ih2
  | resetPos k H hr => exact hr.elim
  | _ => exact Nat.le_refl _

/-! ## Every function as a move of the core -/

theorem SendMove.send_closing {d : Deps} {k k1 : Core} {H H1 : Option Envelope}
    (hm : SendMove d k H k1 H1) : k1.closing_ = k.closing_ := by
  induction hm with
  | trans _ _ ih1 ih2 => exact ih2.trans ih1
  | _ => rfl

theorem Move.closing {d : Deps} {allowed : Message → Prop} {reset : Prop}
    {k k1 : Core} {H H1 : Option Envelope}
    (hm : Move d allowed reset k H k1 H1) : k1.closing_ = k.closing_ := by
  induction hm with
  | send hs => exact hs.send_closing
  | trans _ _ ih1 ih2 => exact ih2.trans ih1
  | _ => rfl

theorem SendMove.send_legacy {d : Deps} {k k1 : Core} {H H1 : Option Envelope}
    (hm : SendMove d k H k1 H1) : k1.legacy_connection_ = k.legacy_connection_ := by
  induction hm with
  | trans _ _ ih1 ih2 => exact ih2.trans ih1
  | _ => rfl

theorem Move.legacy {d : Deps} {allowed : Message → Prop} {reset : Prop}
    {k k1 : Core} {H H1 : Option Envelope}
    (hm : Move d allowed reset k H k1 H1) :
    k1.legacy_connection_ = k.legacy_connection_ := by
  induction hm with
  | send hs => exact hs.send_legacy
  | trans _ _ ih1 ih2 => exact ih2.trans ih1
  | _ => rfl

theorem BaseInv.handshaken_of_unconnected {k : Core} (h : BaseInv k)
    (hc : k.connected_ = false) : k.handshaken_ = false := by
  cases hx : k.handshaken_
  · rfl
  · have := h.hs_conn hx
    rw [hc] at this
    cases this

theorem BaseInv.timer_of_new_transport {k : Core} (h : BaseInv k)
    (hl : k.legacy_connection_ = false) : k.connect_timeout_event_ = false := by
  cases hx : k.connect_timeout_event_
  · rfl
  · have := (h.timer hx).1
    rw [hl] at this
    cases this

theorem close_of_closed (d : Deps) (c : Connection) (reason : Status)
    (hc : isClosed c = true) : close d c reason = c := by
  cases h : c.closing_
  · exact close_of_isClosed d c reason h hc
  · exact close_of_closing d c reason h

theorem onSent_move (d : Deps) (c : Connection) (e : Envelope) (r : Status)
    (cm : CompletionMethod) :
    SendMove d c.core (some e) (onSent d c e r cm).core none := by
  rw [onSent_core]
  exact SendMove.complete c.core e r cm

theorem close_move (d : Deps) (c : Connection) (r : Status) (H : Option Envelope)
    (hcl : c.core.closing_ = false) :
    SendMove d c.core H (close d c r).core H := by
  cases hc : isClosed c
  · rw [close_core_open d c r hcl hc]
    exact SendMove.close _ _ _ ((isClosed_eq_false_iff c).1 hc)
  · rw [close_of_isClosed d c r hcl hc]
    exact SendMove.refl _ _

theorem preSendCheck_move (d : Deps) (c : Connection) (msg : Message)
    (H : Option Envelope) (hcl : c.core.closing_ = false) :
    SendMove d c.core H (preSendCheck d c msg).1.core H ∧
    ((preSendCheck d c msg).2 = 0 →
      (preSendCheck d c msg).1 = c ∧ c.core.conn_closed_ = some false) := by
  unfold preSendCheck
  cases hc : isClosed c
  · have ho := (isClosed_eq_false_iff c).1 hc
    simp only [Bool.false_eq_true, if_false]
    split
    · split
      · exact ⟨SendMove.refl _ _, fun h => by simp at h⟩
      · exact ⟨SendMove.refl _ _, fun _ => ⟨rfl, ho⟩⟩
    · split
      · refine ⟨?_, fun h => by simp at h⟩
        split
        · exact close_move d c Status.INTERNAL H hcl
        · exact SendMove.refl _ _
      · exact ⟨SendMove.refl _ _, fun _ => ⟨rfl, ho⟩⟩
  · simp only [if_true]
    exact ⟨SendMove.refl _ _, fun h => by simp at h⟩

theorem serializeMessageBuf_move (d : Deps) (c : Connection) (msg : Message)
    (H : Option Envelope) (hcl : c.core.closing_ = false) :
    ((serializeMessageBuf d c msg).2 = none ∧
      SendMove d c.core H (serializeMessageBuf d c msg).1.core H) ∨
    ((serializeMessageBuf d c msg).2 ≠ none ∧ (serializeMessageBuf d c msg).1 = c) := by
  unfold serializeMessageBuf
  simp only []
  split
  · exact Or.inl ⟨rfl, close_move d { c with err := Status.INTERNAL } Status.INTERNAL H hcl⟩
  · split
    · exact Or.inl ⟨rfl, close_move d { c with err := Status.INTERNAL } Status.INTERNAL H hcl⟩
    · exact Or.inr ⟨by simp, rfl⟩

theorem serializeMessage_move (d : Deps) (c : Connection) (e : Envelope)
    (hcl : c.core.closing_ = false) (ho : c.core.conn_closed_ = some false)
    (hg : c.core.handshaken_ = true ∨
      (c.core.connected_ = true ∧ isHandshakeMessage e.msg.type_ = true)) :
    ((serializeMessage d c e).2 = 0 ∧
      SendMove d c.core (some e) (serializeMessage d c e).1.core none) ∨
    ((serializeMessage d c e).2 ≠ 0 ∧
      SendMove d c.core (some e) (serializeMessage d c e).1.core (some e)) := by
  unfold serializeMessage
  rcases serializeMessageBuf_move d c e.msg (some e) hcl with ⟨h1, h2⟩ | ⟨h1, h2⟩
  · generalize serializeMessageBuf d c e.msg = p at h1 h2
    obtain ⟨c1, f⟩ := p
    simp only at h1 h2
    subst h1
    exact Or.inr ⟨by simp, h2⟩
  · generalize serializeMessageBuf d c e.msg = p at h1 h2
    obtain ⟨c1, f⟩ := p
    simp only at h1 h2
    subst h2
    cases f with
    | none => exact absurd rfl h1
    | some f =>
      refine Or.inl ⟨rfl, ?_⟩
      simp only [core_mk, toCore, sendBuffer_core]
      exact SendMove.serialize c1.core e _ ho hg

theorem injectAsyncMessageError_rewinding (d : Deps) (c : Connection) (e : Envelope)
    (hf : c.message_error_injection_rewinding_stream_ = true) :
    injectAsyncMessageError d c e =
      (onSent d
        { c with
          message_error_injection_rewound_count_ :=
            c.message_error_injection_rewound_count_ + 1 } e
        d.message_error_injection_status CompletionMethod.DEFERRED, true) := by
  unfold injectAsyncMessageError
  simp only [hf, Bool.not_true, Bool.and_false, Bool.false_eq_true, if_false, if_true]

theorem injectAsyncMessageError_move (d : Deps) (c : Connection) (e : Envelope) :
    ((injectAsyncMessageError d c e).2 = true ∧
      SendMove d c.core (some e) (injectAsyncMessageError d c e).1.core none) ∨
    ((injectAsyncMessageError d c e).2 = false ∧
      (injectAsyncMessageError d c e).1.core = c.core) := by
  cases hf : c.message_error_injection_rewinding_stream_
  · unfold injectAsyncMessageError
    simp only []
    by_cases hg : (d.message_error_injection_chance_percent != 0 &&
        d.message_error_injection_status != Status.CBREGISTERED &&
        !isHandshakeMessage e.msg.type_ && !c.closing_) = true
    · by_cases hr : d.randDouble c.rand_calls ≤ d.message_error_injection_chance_percent
      · simp only [hg, hf, hr, Bool.not_false, Bool.and_true, if_true]
        refine Or.inl ⟨trivial, ?_⟩
        rw [onSent_core]
        exact (SendMove.aux c.core (some e) true).trans (SendMove.complete _ e _ _)
      · simp only [hg, hr, Bool.not_false, Bool.and_true, if_true, if_false, hf,
          Bool.false_eq_true]
        exact Or.inr ⟨trivial, by apply Core.ext <;> simp [Connection.core, hf]⟩
    · simp only [hg, Bool.not_false, Bool.and_true, if_false, hf, Bool.false_eq_true]
      exact Or.inr ⟨trivial, by apply Core.ext <;> simp [Connection.core, hf]⟩
  · rw [injectAsyncMessageError_rewinding d c e hf]
    refine Or.inl ⟨rfl, ?_⟩
    rw [onSent_core]
    exact SendMove.complete _ e _ _

theorem send_move (d : Deps) (c : Connection) (e : Envelope)
    (hcl : c.core.closing_ = false) :
    SendMove d c.core (some e) (send d c e).core none := by
  unfold send
  simp only []
  obtain ⟨hm, hz⟩ := preSendCheck_move d c e.msg (some e) hcl
  generalize preSendCheck d c e.msg = p at hm hz ⊢
  obtain ⟨c1, rv⟩ := p
  simp only at hm hz ⊢
  by_cases hrv : rv = 0
  · obtain ⟨h1, ho⟩ := hz hrv
    subst h1
    subst hrv
    simp only [bne_self_eq_false, Bool.false_eq_true, if_false]
    split
    · exact onSent_move d c1 e _ _
    · split
      · rename_i hg
        have hg2 : c1.core.handshaken_ = true ∨
            (c1.core.connected_ = true ∧ isHandshakeMessage e.msg.type_ = true) := by
          simpa [Bool.or_eq_true, Bool.and_eq_true] using hg
        split
        · exact onSent_move d { c1 with err := Status.TOOBIG } e _ _
        · rcases injectAsyncMessageError_move d c1 e with ⟨h1, h2⟩ | ⟨h1, h2⟩
          · generalize injectAsyncMessageError d c1 e = q at h1 h2 ⊢
            obtain ⟨c2, b⟩ := q
            simp only at h1 h2 ⊢
            subst h1
            exact h2
          · generalize injectAsyncMessageError d c1 e = q at h1 h2 ⊢
            obtain ⟨c2, b⟩ := q
            simp only at h1 h2 ⊢
            subst h1
            simp only []
            rcases serializeMessage_move d c2 e (by rw [h2]; exact hcl) (by rw [h2]; exact ho)
              (by rw [h2]; exact hg2) with ⟨s1, s2⟩ | ⟨s1, s2⟩
            · generalize serializeMessage d c2 e = r at s1 s2 ⊢
              obtain ⟨c3, rv⟩ := r
              simp only at s1 s2 ⊢
              subst s1
              simp only [bne_self_eq_false, Bool.false_eq_true, if_false]
              rw [← h2]
              exact s2
            · generalize serializeMessage d c2 e = r at s1 s2 ⊢
              obtain ⟨c3, rv⟩ := r
              simp only at s1 s2 ⊢
              rw [if_pos (by simpa using s1)]
              rw [← h2]
              exact s2.trans (onSent_move d c3 e _ _)
      · rename_i hg
        have hg2 : c1.core.handshaken_ = false ∧
            (c1.core.connected_ = false ∨ isHandshakeMessage e.msg.type_ = false) := by
          have : ¬ (c1.handshaken_ = true ∨
              (c1.connected_ = true ∧ isHandshakeMessage e.msg.type_ = true)) := by
            simpa [Bool.or_eq_true, Bool.and_eq_true] using hg
          constructor
          · cases h : c1.handshaken_
            · exact h
            · exact absurd (Or.inl h) this
          · cases h : c1.connected_
            · exact Or.inl h
            · cases h2 : isHandshakeMessage e.msg.type_
              · exact Or.inr rfl
              · exact absurd (Or.inr ⟨h, h2⟩) this
        exact SendMove.hold c1.core e ho hg2.1 hg2.2
  · rw [if_pos (by simpa using hrv)]
    exact hm.trans (onSent_move d c1 e _ _)

theorem flushNextInSerializeQueue_move (d : Deps) (allowed : Message → Prop)
    (reset : Prop) (c : Connection) (hcl : c.core.closing_ = false)
    (hh : c.core.handshaken_ = true) :
    Move d allowed reset c.core none (flushNextInSerializeQueue d c).core none := by
  unfold flushNextInSerializeQueue
  cases hq : c.serializeq_ with
  | nil => exact Move.send (SendMove.refl _ _)
  | cons e rest =>
    simp only []
    exact (Move.pop c.core e rest hq hh).trans
      (Move.send (send_move d { c with serializeq_ := rest } e hcl))

theorem flushSerializeQueueLoop_move (d : Deps) (allowed : Message → Prop)
    (reset : Prop) :
    ∀ (fuel : Nat) (c : Connection), BaseInv c.core →
      (c.core.handshaken_ = true ∨ c.core.serializeq_ = []) →
      Move d allowed reset c.core none (flushSerializeQueueLoop d fuel c).core none := by
  intro fuel
  induction fuel with
  | zero =>
    intro c _ _
    exact Move.send (SendMove.refl _ _)
  | succ f ih =>
    intro c hinv hh
    unfold flushSerializeQueueLoop
    cases hq : c.serializeq_ with
    | nil =>
      simp only [List.isEmpty_nil, if_true]
      exact Move.send (SendMove.refl _ _)
    | cons e rest =>
      simp only [List.isEmpty_cons, Bool.false_eq_true, if_false]
      have hhs : c.core.handshaken_ = true := by
        rcases hh with hh | hh
        · exact hh
        · have hq2 : c.core.serializeq_ = e :: rest := hq
          rw [hq2] at hh
          cases hh
      have hpop : Move d allowed reset c.core none
          ({ c with serializeq_ := rest } : Connection).core (some e) :=
        Move.pop c.core e rest hq hhs
      have hsend : SendMove d ({ c with serializeq_ := rest } : Connection).core (some e)
          (send d { c with serializeq_ := rest } e).core none :=
        send_move d { c with serializeq_ := rest } e hinv.closing
      have hstep : Move d allowed reset c.core none
          (flushNextInSerializeQueue d c).core none := by
        unfold flushNextInSerializeQueue
        rw [hq]
        exact hpop.trans (Move.send hsend)
      have hinv2 := hstep.baseInv hinv
      refine hstep.trans (ih _ hinv2 ?_)
      have hfl : SameFlagsOrClosed ({ c with serializeq_ := rest } : Connection).core
          (flushNextInSerializeQueue d c).core := by
        unfold flushNextInSerializeQueue
        rw [hq]
        exact hsend.flags
      rcases hfl with ⟨_, _, h3, _⟩ | ⟨_, h3⟩
      · exact Or.inl (h3.trans hhs)
      · exact Or.inr h3

theorem flushSerializeQueue_move (d : Deps) (allowed : Message → Prop)
    (reset : Prop) (c : Connection) (hinv : BaseInv c.core)
    (hh : c.core.handshaken_ = true ∨ c.core.serializeq_ = []) :
    Move d allowed reset c.core none (flushSerializeQueue d c).core none :=
  flushSerializeQueueLoop_move d allowed reset _ c hinv hh

theorem flushNextInSerializeQueue_nil (d : Deps) (c : Connection)
    (h : c.serializeq_ = []) : flushNextInSerializeQueue d c = c := by
  unfold flushNextInSerializeQueue
  split
  · rfl
  · rename_i h2
    rw [h] at h2
    cases h2

theorem flushNextInSerializeQueue_cons (d : Deps) (c : Connection) (e : Envelope)
    (rest : List Envelope) (h : c.serializeq_ = e :: rest) :
    flushNextInSerializeQueue d c = send d { c with serializeq_ := rest } e := by
  unfold flushNextInSerializeQueue
  split
  · rename_i h2
    rw [h] at h2
    cases h2
  · rename_i h2
    rw [h] at h2
    cases h2
    rfl

theorem transitionToConnected_move (d : Deps) (allowed : Message → Prop)
    (reset : Prop) (c : Connection) (hcl : c.core.closing_ = false)
    (ho : c.core.conn_closed_ = some false) (hc : c.core.connected_ = false)
    (ht : c.core.connect_timeout_event_ = false) :
    Move d allowed reset c.core none (transitionToConnected d c).core none := by
  unfold transitionToConnected
  have hadd : (addHandshakeTimeoutEvent d c).core = c.core := by
    unfold addHandshakeTimeoutEvent
    split <;> rfl
  generalize addHandshakeTimeoutEvent d c = c1 at hadd ⊢
  simp only []
  rw [← hadd] at hcl ho hc ht ⊢
  obtain hq | ⟨e, rest, hq⟩ : c1.serializeq_ = [] ∨ ∃ e rest, c1.serializeq_ = e :: rest := by
    cases c1.serializeq_ with
    | nil => exact Or.inl rfl
    | cons e rest => exact Or.inr ⟨e, rest, rfl⟩
  · rw [flushNextInSerializeQueue_nil d
      { c1 with connected_ := true, peer_shuttingdown_ := false } hq]
    exact Move.connectedEmpty c1.core ho hc ht hq
  · rw [flushNextInSerializeQueue_cons d
      { c1 with connected_ := true, peer_shuttingdown_ := false } e rest hq]
    exact (Move.connectedPop c1.core e rest ho hc ht hq).trans
      (Move.send (send_move d
        { c1 with connected_ := true, peer_shuttingdown_ := false, serializeq_ := rest }
        e hcl))

theorem onConnected_move (d : Deps) (allowed : Message → Prop)
    (reset : Prop) (c : Connection) (hcl : c.core.closing_ = false)
    (h : c.expecting_ssl_handshake_ = true ∨
      (c.core.conn_closed_ = some false ∧ c.core.connected_ = false)) :
    Move d allowed reset c.core none (onConnected d c).core none := by
  unfold onConnected
  split
  · exact Move.send (SendMove.refl _ _)
  · rename_i hne
    rcases h with h | ⟨ho, hc⟩
    · exact absurd h hne
    · exact (Move.cancelTimer c.core none).trans
        (transitionToConnected_move d allowed reset
          { c with connect_timeout_event_ := false } hcl ho hc rfl)

theorem onError_move (d : Deps) (c : Connection) (H : Option Envelope)
    (hcl : c.core.closing_ = false) :
    SendMove d c.core H (onError d c).core H := by
  unfold onError
  split
  · exact SendMove.refl _ _
  · split
    · exact SendMove.refl _ _
    · exact close_move d c _ H hcl

theorem onPeerClosed_move (d : Deps) (c : Connection) (H : Option Envelope)
    (hcl : c.core.closing_ = false) :
    SendMove d c.core H (onPeerClosed d c).core H := by
  unfold onPeerClosed
  split
  · exact SendMove.refl _ _
  · exact close_move d c _ H hcl

theorem eventCallbackImpl_move (d : Deps) (allowed : Message → Prop)
    (reset : Prop) (c : Connection) (e : SocketEvent) (hcl : c.core.closing_ = false)
    (h : e.connected = true → c.expecting_ssl_handshake_ = true ∨
      (c.core.conn_closed_ = some false ∧ c.core.connected_ = false)) :
    Move d allowed reset c.core none (eventCallbackImpl d c e).core none := by
  unfold eventCallbackImpl
  split
  · rename_i hc
    exact onConnected_move d allowed reset c hcl (h hc)
  · split
    · exact Move.send (onError_move d c none hcl)
    · split
      · exact Move.send (onPeerClosed_move d c none hcl)
      · exact Move.send (SendMove.refl _ _)

theorem eventCallback_move (d : Deps) (allowed : Message → Prop)
    (reset : Prop) (c : Connection) (e : SocketEvent) (hcl : c.core.closing_ = false)
    (ho : c.core.conn_closed_ = some false)
    (h : e.connected = true → c.expecting_ssl_handshake_ = true ∨
      c.core.connected_ = false) :
    Move d allowed reset c.core none (eventCallback d c e).core none := by
  unfold eventCallback
  split
  · rename_i hc
    have he : e.connected = false := by
      simp only [Bool.and_eq_true, Bool.not_eq_true'] at hc
      exact hc.2
    exact Move.defer c.core none e ho he
  · refine eventCallbackImpl_move d allowed reset c e hcl ?_
    intro hc
    rcases h hc with h | h
    · exact Or.inl h
    · exact Or.inr ⟨ho, h⟩

theorem processDeferredEventQueueLoop_move (d : Deps) (allowed : Message → Prop)
    (reset : Prop) :
    ∀ (fuel : Nat) (c : Connection), BaseInv c.core →
      Move d allowed reset c.core none
        (processDeferredEventQueueLoop d fuel c).core none := by
  intro fuel
  induction fuel with
  | zero =>
    intro c _
    exact Move.send (SendMove.refl _ _)
  | succ f ih =>
    intro c hinv
    unfold processDeferredEventQueueLoop
    cases hq : c.deferred_event_queue_ with
    | nil => exact Move.send (SendMove.refl _ _)
    | cons e rest =>
      simp only []
      have hq2 : c.core.deferred_event_queue_ = e :: rest := hq
      have he : e.connected = false :=
        hinv.deferred e (by rw [hq2]; exact List.mem_cons_self _ _)
      have h1 : Move d allowed reset c.core none
          ({ c with deferred_event_queue_ := rest } : Connection).core none :=
        Move.undefer c.core none rest
          (fun x hx => by rw [hq2]; exact List.mem_cons_of_mem _ hx)
      have h2 : Move d allowed reset
          ({ c with deferred_event_queue_ := rest } : Connection).core none
          (eventCallbackImpl d { c with deferred_event_queue_ := rest } e).core none :=
        eventCallbackImpl_move d allowed reset _ e hinv.closing
          (fun hc => by rw [he] at hc; cases hc)
      have h3 := h1.trans h2
      exact h3.trans (ih _ (h3.baseInv hinv))

theorem processDeferredEventQueue_move (d : Deps) (allowed : Message → Prop)
    (reset : Prop) (c : Connection) (hinv : BaseInv c.core) :
    Move d allowed reset c.core none (processDeferredEventQueue d c).core none :=
  processDeferredEventQueueLoop_move d allowed reset _ c hinv

theorem registerMessage_move (d : Deps) (allowed : Message → Prop) (reset : Prop)
    (c : Connection) (msg : Message) (H : Option Envelope)
    (hal : allowed msg) (hcl : c.core.closing_ = false) :
    Move d allowed reset c.core H (registerMessage d c msg).1.core H := by
  unfold registerMessage
  obtain ⟨hm, hz⟩ := preSendCheck_move d c msg H hcl
  generalize preSendCheck d c msg = p at hm hz ⊢
  obtain ⟨c1, rv⟩ := p
  simp only at hm hz ⊢
  by_cases hrv : rv = 0
  · obtain ⟨h1, ho⟩ := hz hrv
    subst h1
    subst hrv
    simp only [bne_self_eq_false, Bool.false_eq_true, if_false]
    split
    · exact Move.send (SendMove.refl _ _)
    · exact Move.register c1.core H _ hal rfl ho
  · rw [if_pos (by simpa using hrv)]
    exact Move.send hm

theorem mem_of_findPending {c : Connection} {id : Nat} {e : Envelope}
    (h : findPending c id = some e) : e ∈ c.pendingq_ :=
  List.mem_of_find?_eq_some h

theorem releaseMessage_move (d : Deps) (allowed : Message → Prop) (reset : Prop)
    (c : Connection) (e : Envelope) (he : e ∈ c.pendingq_)
    (hcl : c.core.closing_ = false) :
    Move d allowed reset c.core none (releaseMessage d c e).core none := by
  unfold releaseMessage
  exact (Move.release c.core e he).trans (Move.send (send_move d
    { c with
      pendingq_ := eraseEnvelope c.pendingq_ e
      trace := c.trace ++ [Event.released e.id] } e hcl))

theorem discardEnvelope_move (d : Deps) (allowed : Message → Prop) (reset : Prop)
    (c : Connection) (e : Envelope) :
    Move d allowed reset c.core none (discardEnvelope c e).core none :=
  Move.discard c.core none e

theorem eraseEnvelope_append_self (q : List Envelope) (e : Envelope) :
    eraseEnvelope (q ++ [e]) e = eraseEnvelope q e := by
  simp [eraseEnvelope, List.filter_append]

theorem sendHello_move (d : Deps) (allowed : Message → Prop) (reset : Prop)
    (c : Connection) (hcl : c.core.closing_ = false)
    (ho : c.core.conn_closed_ = some false) (hpeer : c.core.peer_is_client_address = false)
    (hc : c.core.connected_ = false) (hh : c.core.handshaken_ = false) :
    Move d allowed reset c.core none (sendHello d c).core none := by
  obtain ⟨env, henv⟩ : ∃ env : Envelope, env =
      { id := c.envelopes_created, msg := d.createHelloMessage
        drain_pos_ := DRAIN_POS_UNSET
        cost_ := d.createHelloMessage.size d.MAX_PROTOCOL_SUPPORTED } := ⟨_, rfl⟩
  have hid : env.id = c.core.envelopes_created := by rw [henv]; rfl
  have hreg : registerMessage d c d.createHelloMessage =
      ({ c with
          envelopes_created := c.envelopes_created + 1
          pendingq_ := c.pendingq_ ++ [env]
          noted_queued := c.noted_queued + env.cost_ }, some env) := by
    have hpre : preSendCheck d c d.createHelloMessage = (c, 0) := by
      have hh2 : c.handshaken_ = false := hh
      have hpeer2 : c.peer_is_client_address = false := hpeer
      rw [preSendCheck, if_neg (by simp [(isClosed_eq_false_iff c).2 ho]),
        if_pos (by simp [hh2]), if_neg (by simp [hpeer2])]
    unfold registerMessage
    rw [hpre, henv]
    simp [Deps.createHelloMessage, isHandshakeMessage, isHELLOMessage]
  unfold sendHello
  rw [hreg]
  simp only []
  unfold releaseMessage
  simp only [eraseEnvelope_append_self]
  exact (Move.hello c.core env hid ho hc hh).trans (Move.send (send_move d
    { c with
      envelopes_created := c.envelopes_created + 1
      pendingq_ := eraseEnvelope c.pendingq_ env
      noted_queued := c.noted_queued + env.cost_
      trace := c.trace ++ [Event.released env.id] } env hcl))

theorem onBytesAdmittedToSendLoop_move (d : Deps) (allowed : Message → Prop)
    (reset : Prop) (pos : Nat) :
    ∀ (fuel : Nat) (c : Connection),
      Move d allowed reset c.core none (onBytesAdmittedToSendLoop d pos fuel c).core none ∧
      ∃ q t, (onBytesAdmittedToSendLoop d pos fuel c).core =
        { c.core with sendq_ := q, trace := t } := by
  intro fuel
  induction fuel with
  | zero =>
    intro c
    exact ⟨Move.send (SendMove.refl _ _), _, _, rfl⟩
  | succ f ih =>
    intro c
    unfold onBytesAdmittedToSendLoop
    obtain hq | ⟨e, rest, hq⟩ : c.sendq_ = [] ∨ ∃ e rest, c.sendq_ = e :: rest := by
      cases c.sendq_ with
      | nil => exact Or.inl rfl
      | cons e rest => exact Or.inr ⟨e, rest, rfl⟩
    · rw [hq]
      exact ⟨Move.send (SendMove.refl _ _), _, _, rfl⟩
    · rw [hq]
      simp only []
      split
      · have h1 : Move d allowed reset c.core none
            ({ onSent d { c with sendq_ := rest } e Status.OK CompletionMethod.IMMEDIATE with
                num_messages_sent_ :=
                  (onSent d { c with sendq_ := rest } e Status.OK
                    CompletionMethod.IMMEDIATE).num_messages_sent_ + 1 } : Connection).core
            none := by
          have := @Move.ack d allowed reset c.core e rest hq
          have hcore : ({ onSent d { c with sendq_ := rest } e Status.OK
                CompletionMethod.IMMEDIATE with
              num_messages_sent_ :=
                (onSent d { c with sendq_ := rest } e Status.OK
                  CompletionMethod.IMMEDIATE).num_messages_sent_ + 1 } : Connection).core =
              (onSent d { c with sendq_ := rest } e Status.OK
                CompletionMethod.IMMEDIATE).core := rfl
          rw [hcore, onSent_core]
          exact this
        obtain ⟨h2, q, t, h3⟩ := ih
          { onSent d { c with sendq_ := rest } e Status.OK CompletionMethod.IMMEDIATE with
            num_messages_sent_ :=
              (onSent d { c with sendq_ := rest } e Status.OK
                CompletionMethod.IMMEDIATE).num_messages_sent_ + 1 }
        refine ⟨h1.trans h2, q, t, ?_⟩
        rw [h3]
        have hcore : ({ onSent d { c with sendq_ := rest } e Status.OK
              CompletionMethod.IMMEDIATE with
            num_messages_sent_ :=
              (onSent d { c with sendq_ := rest } e Status.OK
                CompletionMethod.IMMEDIATE).num_messages_sent_ + 1 } : Connection).core =
            (onSent d { c with sendq_ := rest } e Status.OK
              CompletionMethod.IMMEDIATE).core := rfl
        rw [hcore, onSent_core]
        apply Core.ext <;> rfl
      · exact ⟨Move.send (SendMove.refl _ _), _, _, rfl⟩

theorem onBytesAdmittedToSend_move (d : Deps) (allowed : Message → Prop)
    (reset : Prop) (c : Connection) (n : Nat)
    (hn : c.core.drain_pos_ + n + c.core.bev_.getD 0 + c.core.buffered_output_.getD 0 ≤
      c.core.next_pos_) :
    Move d allowed reset c.core none (onBytesAdmittedToSend d c n).core none := by
  unfold onBytesAdmittedToSend
  simp only []
  obtain ⟨h1, q, t, h2⟩ :=
    onBytesAdmittedToSendLoop_move d allowed reset (c.drain_pos_ + n) c.sendq_.length c
  generalize onBytesAdmittedToSendLoop d (c.drain_pos_ + n) c.sendq_.length c = c1 at h1 h2 ⊢
  have h3 : Move d allowed reset c1.core none
      ({ c1 with drain_pos_ := c.drain_pos_ + n } : Connection).core none := by
    have hd : c.drain_pos_ = c1.core.drain_pos_ := by rw [h2]; rfl
    rw [hd]
    refine Move.drain c1.core none n ?_
    rw [h2]
    exact hn
  split
  · exact h1.trans h3
  · exact h1.trans h3

theorem bytesSentCallback_move (d : Deps) (allowed : Message → Prop)
    (reset : Prop) (c : Connection) (n : Nat)
    (hn : c.core.drain_pos_ + n + c.core.bev_.getD 0 + c.core.buffered_output_.getD 0 ≤
      c.core.next_pos_) :
    Move d allowed reset c.core none (bytesSentCallback d c n).core none := by
  unfold bytesSentCallback
  split
  · exact onBytesAdmittedToSend_move d allowed reset c n hn
  · exact Move.send (SendMove.refl _ _)

theorem onOutputEmpty_move (d : Deps) (c : Connection) (H : Option Envelope)
    (hcl : c.core.closing_ = false) :
    SendMove d c.core H (onOutputEmpty d c).core H := by
  unfold onOutputEmpty
  split
  · exact close_move d c _ H hcl
  · exact SendMove.refl _ _

theorem flushBufferedOutput_move (d : Deps) (allowed : Message → Prop)
    (reset : Prop) (c : Connection) :
    Move d allowed reset c.core none (flushBufferedOutput c).core none := by
  unfold flushBufferedOutput
  split
  · exact Move.send (SendMove.refl _ _)
  · rename_i n hb
    exact Move.flushBuffered c.core none n hb

theorem scheduleWriteChain_move (d : Deps) (allowed : Message → Prop)
    (reset : Prop) (c : Connection) (hinv : BaseInv c.core)
    (hl : c.core.legacy_connection_ = false) :
    Move d allowed reset c.core none (scheduleWriteChain d c).core none := by
  unfold scheduleWriteChain
  simp only []
  split
  · exact Move.send (SendMove.refl _ _)
  · have hl2 : c.legacy_connection_ = false := hl
    have hn : getBufferedBytesSize { c with sched_write_chain_ := false } - c.bytes_buffered =
        c.core.next_pos_ - c.core.drain_pos_ := by
      unfold getBufferedBytesSize
      simp only [hl2, Bool.not_false, if_true]
      show c.next_pos_ - c.drain_pos_ + c.bytes_buffered - c.bytes_buffered = _
      rw [Nat.add_sub_cancel]
      rfl
    have h1 : Move d allowed reset c.core none
        ({ c with
            sched_write_chain_ := false
            write_chains := c.write_chains ++
              [getBufferedBytesSize { c with sched_write_chain_ := false } - c.bytes_buffered]
            bytes_buffered := c.bytes_buffered +
              (getBufferedBytesSize { c with sched_write_chain_ := false } - c.bytes_buffered)
            sendChain_ := none } : Connection).core none :=
      Move.aux c.core none _ c.core.on_close_ c.core.pending_bw_cbs_ c.core.proto_
    refine h1.trans (onBytesAdmittedToSend_move d allowed reset _ _ ?_)
    rw [hn]
    obtain ⟨hb, hbuf⟩ := hinv.new_transport hl
    have hp := hinv.pos
    show c.core.drain_pos_ + (c.core.next_pos_ - c.core.drain_pos_) + c.core.bev_.getD 0 +
      c.core.buffered_output_.getD 0 ≤ c.core.next_pos_
    rw [hb, hbuf] at hp ⊢
    simp only [Option.getD_none] at hp ⊢
    omega

theorem drainSendQueue_move (d : Deps) (allowed : Message → Prop)
    (reset : Prop) (c : Connection) (n : Nat) (hcl : c.core.closing_ = false) :
    Move d allowed reset c.core none (drainSendQueue d c n).core none := by
  unfold drainSendQueue onBytesPassedToTCP
  simp only []
  have h1 : Move d allowed reset c.core none
      ({ c with
          write_chains := c.write_chains.drop n
          bytes_buffered := c.bytes_buffered - (c.write_chains.take n).sum
          noted_drained := c.noted_drained + (c.write_chains.take n).sum } : Connection).core
      none :=
    Move.aux c.core none _ c.core.on_close_ c.core.pending_bw_cbs_ c.core.proto_
  split
  · exact h1.trans (Move.send (close_move d _ _ none hcl))
  · exact h1

theorem flushOutputAndClose_move (d : Deps) (c : Connection) (r : Status)
    (H : Option Envelope) (hcl : c.core.closing_ = false) :
    SendMove d c.core H (flushOutputAndClose d c r).core H := by
  unfold flushOutputAndClose
  split
  · exact SendMove.refl _ _
  · simp only []
    repeat' split
    all_goals first
      | exact close_move d c r H hcl
      | exact SendMove.refl _ _

theorem preConnectAttempt_spec (c : Connection) (mayConnect : Bool) :
    ((preConnectAttempt c mayConnect).2 = 0 ∧ (preConnectAttempt c mayConnect).1 = c ∧
      isClosed c = true ∧ c.peer_is_client_address = false) ∨
    ((preConnectAttempt c mayConnect).2 ≠ 0 ∧
      (preConnectAttempt c mayConnect).1.core = c.core) := by
  unfold preConnectAttempt
  split
  · split
    · exact Or.inr ⟨by simp, rfl⟩
    · exact Or.inr ⟨by simp, rfl⟩
  · rename_i hp
    split
    · exact Or.inr ⟨by simp, rfl⟩
    · rename_i hc
      split
      · exact Or.inr ⟨by simp, rfl⟩
      · exact Or.inl ⟨rfl, rfl, by simpa using hc, by simpa using hp⟩

theorem send_unconnected_flags (d : Deps) (c : Connection) (e : Envelope)
    (hh : c.core.handshaken_ = false) (hc : c.core.connected_ = false) :
    (send d c e).core.conn_closed_ = c.core.conn_closed_ ∧
    (send d c e).core.connected_ = false ∧
    (send d c e).core.handshaken_ = false := by
  have hh2 : c.handshaken_ = false := hh
  have hpre : (preSendCheck d c e.msg).1.core = c.core := by
    unfold preSendCheck
    split
    · rfl
    · rw [if_pos (by simp [hh2])]
      split <;> rfl
  unfold send
  simp only []
  generalize preSendCheck d c e.msg = p at hpre ⊢
  obtain ⟨c1, rv⟩ := p
  simp only at hpre ⊢
  rw [← hpre] at hh hc ⊢
  have hh3 : c1.handshaken_ = false := hh
  have hc3 : c1.connected_ = false := hc
  split
  · rw [onSent_core]
    exact ⟨rfl, hc, hh⟩
  · split
    · rw [onSent_core]
      exact ⟨rfl, hc, hh⟩
    · split
      · rename_i hg
        rw [hh3, hc3] at hg
        simp at hg
      · exact ⟨rfl, hc, hh⟩

theorem sendHello_flags (d : Deps) (c : Connection)
    (ho : c.core.conn_closed_ = some false) (hpeer : c.core.peer_is_client_address = false)
    (hc : c.core.connected_ = false) (hh : c.core.handshaken_ = false) :
    (sendHello d c).core.conn_closed_ = some false ∧
    (sendHello d c).core.connected_ = false := by
  unfold sendHello
  have hpre : preSendCheck d c d.createHelloMessage = (c, 0) := by
    have hh2 : c.handshaken_ = false := hh
    have hpeer2 : c.peer_is_client_address = false := hpeer
    rw [preSendCheck, if_neg (by simp [(isClosed_eq_false_iff c).2 ho]),
      if_pos (by simp [hh2]), if_neg (by simp [hpeer2])]
  unfold registerMessage
  rw [hpre]
  simp only [bne_self_eq_false, Bool.false_eq_true, if_false]
  split
  · rename_i c1 env heq
    split at heq
    · cases heq
    · cases heq
      unfold releaseMessage
      have := send_unconnected_flags d
        { c with
          envelopes_created := c.envelopes_created + 1
          pendingq_ := eraseEnvelope (c.pendingq_ ++
            [{ id := c.envelopes_created, msg := d.createHelloMessage
               drain_pos_ := DRAIN_POS_UNSET
               cost_ := d.createHelloMessage.size d.MAX_PROTOCOL_SUPPORTED }])
            { id := c.envelopes_created, msg := d.createHelloMessage
              drain_pos_ := DRAIN_POS_UNSET
              cost_ := d.createHelloMessage.size d.MAX_PROTOCOL_SUPPORTED }
          noted_queued := c.noted_queued +
            d.createHelloMessage.size d.MAX_PROTOCOL_SUPPORTED
          trace := c.trace ++ [Event.released c.envelopes_created] }
        { id := c.envelopes_created, msg := d.createHelloMessage
          drain_pos_ := DRAIN_POS_UNSET
          cost_ := d.createHelloMessage.size d.MAX_PROTOCOL_SUPPORTED } hh hc
      exact ⟨this.1.trans ho, this.2.1⟩
  · rename_i c1 heq
    split at heq
    · cases heq
      exact ⟨ho, hc⟩
    · cases heq

theorem doConnectAttempt_spec (d : Deps) (allowed : Message → Prop) (reset : Prop)
    (c : Connection) (a : ConnectAttempt) (hinv : BaseInv c.core)
    (hnot : c.core.conn_closed_ ≠ some false)
    (hleg : c.core.legacy_connection_ = true) :
    ((doConnectAttempt d c a).2 ≠ 0 ∧ (doConnectAttempt d c a).1.core = c.core) ∨
    (∃ (buf : Option Nat) (t : Bool), buf.getD 0 = 0 ∧
      (doConnectAttempt d c a).1.core =
        { c.core with
          conn_closed_ := some false
          bev_ := some 0
          buffered_output_ := buf
          connect_timeout_event_ := t } ∧
      Move d allowed reset c.core none (doConnectAttempt d c a).1.core none) := by
  have hcon : c.core.connected_ = false := (hinv.closed hnot).1
  have hb : c.core.buffered_output_.getD 0 = 0 := (hinv.unconnected hcon).2.2
  have hb2 : c.buffered_output_.getD 0 = 0 := hb
  have hbuf : (if c.isSSL then (if c.buffered_output_.isSome then c.buffered_output_
      else some 0) else none : Option Nat).getD 0 = 0 := by
    cases c.isSSL
    · rfl
    · cases hx : c.buffered_output_ with
      | none => rfl
      | some v =>
        rw [hx] at hb2
        simpa using hb2
  have hnl : c.core.legacy_connection_ = false →
      (some 0 : Option Nat) = none ∧
      (if c.isSSL then (if c.buffered_output_.isSome then c.buffered_output_
        else some 0) else none : Option Nat) = none := by
    intro h
    rw [hleg] at h
    cases h
  have hopen : Move d allowed reset c.core none
      { c.core with
        conn_closed_ := some false
        bev_ := some 0
        buffered_output_ :=
          if c.isSSL then (if c.buffered_output_.isSome then c.buffered_output_
            else some 0) else none } none :=
    Move.opened c.core (some 0) _ hnot rfl hbuf hnl
  cases a with
  | noBufferevent e => exact Or.inl ⟨by simp [doConnectAttempt], rfl⟩
  | connectFailed e =>
    refine Or.inr ⟨_, c.core.connect_timeout_event_, hbuf, ?_, ?_⟩
    · unfold doConnectAttempt expectProtocolHeader
      rfl
    · unfold doConnectAttempt expectProtocolHeader
      exact hopen
  | started =>
    by_cases ht : d.connect_timeout > 0
    · refine Or.inr ⟨_, true, hbuf, ?_, ?_⟩
      · unfold doConnectAttempt expectProtocolHeader
        simp only [ht, if_true]
        rfl
      · unfold doConnectAttempt expectProtocolHeader
        simp only [ht, if_true]
        exact hopen.trans (Move.armTimer _ none hleg rfl hcon)
    · refine Or.inr ⟨_, c.core.connect_timeout_event_, hbuf, ?_, ?_⟩
      · unfold doConnectAttempt expectProtocolHeader
        simp only [ht, if_false]
        rfl
      · unfold doConnectAttempt expectProtocolHeader
        simp only [ht, if_false]
        exact hopen

theorem asyncConnect_core (c : Connection) (fut : Option Status) :
    (asyncConnect c fut).core = c.core := by
  cases fut <;> rfl

theorem getD_ite_some_zero (b : Bool) :
    (if b then some 0 else none : Option Nat).getD 0 = 0 := by
  cases b <;> rfl

theorem connect_move (d : Deps) (allowed : Message → Prop) (c : Connection)
    (mayConnect : Bool) (a : ConnectAttempt) (fut : Option Status)
    (hinv : BaseInv c.core) :
    Move d allowed True c.core none (connect d c mayConnect a fut).1.core none := by
  unfold connect
  rcases preConnectAttempt_spec c mayConnect with ⟨h0, h1, hclosed, hpeer⟩ | ⟨h0, h1⟩
  · generalize preConnectAttempt c mayConnect = p at h0 h1 ⊢
    obtain ⟨c1, rv⟩ := p
    simp only at h0 h1 ⊢
    subst h0
    subst h1
    simp only [bne_self_eq_false, Bool.false_eq_true, if_false]
    have hnot : c1.core.conn_closed_ ≠ some false := by
      intro h
      rw [(isClosed_eq_false_iff c1).2 h] at hclosed
      cases hclosed
    obtain ⟨hcon, hbev⟩ := hinv.closed hnot
    have hhs : c1.core.handshaken_ = false := hinv.handshaken_of_unconnected hcon
    have hbuf : c1.core.buffered_output_.getD 0 = 0 := (hinv.unconnected hcon).2.2
    split
    · rename_i hleg
      rcases doConnectAttempt_spec d allowed True { c1 with retries_so_far_ := 0 } a hinv
        hnot hleg with ⟨r1, r2⟩ | ⟨buf, t, hb0, r2, hopen⟩
      · generalize doConnectAttempt d { c1 with retries_so_far_ := 0 } a = q at r1 r2 ⊢
        obtain ⟨c2, rv2⟩ := q
        simp only at r1 r2 ⊢
        rw [if_pos (by simpa using r1)]
        have hc2 : isClosed c2 = true := by
          cases h : isClosed c2
          · have := (isClosed_eq_false_iff c2).1 h
            rw [r2] at this
            exact absurd this hnot
          · rfl
        simp only [hc2, Bool.not_true, Bool.false_eq_true, if_false]
        rw [r2]
        exact Move.send (SendMove.refl _ _)
      · generalize doConnectAttempt d { c1 with retries_so_far_ := 0 } a = q at r2 hopen ⊢
        obtain ⟨c2, rv2⟩ := q
        simp only at r2 hopen ⊢
        have r3 : c2.core =
            { c1.core with
              conn_closed_ := some false
              bev_ := some 0
              buffered_output_ := buf
              connect_timeout_event_ := t } := r2
        have ho2 : c2.core.conn_closed_ = some false := congrArg Core.conn_closed_ r3
        split
        · have hc2 : isClosed c2 = false := (isClosed_eq_false_iff c2).2 ho2
          simp only [hc2, Bool.not_false, if_true]
          exact hopen.trans (Move.send (close_move d c2 _ none (by rw [r3]; exact hinv.closing)))
        · have hreset : Move d allowed True c2.core none
              ({ c2 with next_pos_ := 0, drain_pos_ := 0 } : Connection).core none :=
            Move.resetPos c2.core none trivial (congrArg (fun k => k.bev_.getD 0) r3)
              (by rw [r3]; exact hb0)
          refine (hopen.trans hreset).trans
            (sendHello_move d allowed True { c2 with next_pos_ := 0, drain_pos_ := 0 }
              ?_ ?_ ?_ ?_ ?_)
          · show c2.core.closing_ = false
            rw [r3]
            exact hinv.closing
          · exact ho2
          · show c2.core.peer_is_client_address = false
            rw [r3]
            exact hpeer
          · show c2.core.connected_ = false
            rw [r3]
            exact hcon
          · show c2.core.handshaken_ = false
            rw [r3]
            exact hhs
    · rename_i hleg
      have hleg2 : c1.core.legacy_connection_ = false := by simpa using hleg
      have hbuf2 : c1.core.buffered_output_ = none := (hinv.new_transport hleg2).2
      have hc3 : ({ asyncConnect c1 fut with
            conn_closed_ := some false, next_pos_ := 0, drain_pos_ := 0 } : Connection).core =
          { c1.core with conn_closed_ := some false, next_pos_ := 0, drain_pos_ := 0 } := by
        cases fut <;> rfl
      generalize ({ asyncConnect c1 fut with
            conn_closed_ := some false, next_pos_ := 0, drain_pos_ := 0 } : Connection) = c3
        at hc3 ⊢
      have hopen : Move d allowed True c1.core none c3.core none := by
        rw [hc3]
        have h1 : Move d allowed True c1.core none
            { c1.core with conn_closed_ := some false } none := by
          have := @Move.opened d allowed True c1.core
            c1.core.bev_ c1.core.buffered_output_ hnot (by rw [hbev]; rfl) hbuf
            (fun _ => ⟨hbev, hbuf2⟩)
          exact this
        exact h1.trans (Move.resetPos _ none trivial (by show c1.core.bev_.getD 0 = 0; rw [hbev]; rfl)
          (by show c1.core.buffered_output_.getD 0 = 0; exact hbuf))
      have ho3 : c3.core.conn_closed_ = some false := congrArg Core.conn_closed_ hc3
      have hcl3 : c3.core.closing_ = false := by rw [hc3]; exact hinv.closing
      have hcon3 : c3.core.connected_ = false := by rw [hc3]; exact hcon
      have hhs3 : c3.core.handshaken_ = false := by rw [hc3]; exact hhs
      have hpeer3 : c3.core.peer_is_client_address = false := by rw [hc3]; exact hpeer
      have hhello : Move d allowed True c3.core none
          (if good c3 then sendHello d c3 else c3).core none := by
        split
        · exact sendHello_move d allowed True c3 hcl3 ho3 hpeer3 hcon3 hhs3
        · exact Move.send (SendMove.refl _ _)
      have hflags : (if good c3 then sendHello d c3 else c3).core.conn_closed_ = some false ∧
          (if good c3 then sendHello d c3 else c3).core.connected_ = false := by
        split
        · exact sendHello_flags d c3 ho3 hpeer3 hcon3 hhs3
        · exact ⟨ho3, hcon3⟩
      have hcl4 : (if good c3 then sendHello d c3 else c3).core.closing_ = false :=
        hhello.closing.trans hcl3
      have ht4 : (if good c3 then sendHello d c3 else c3).core.connect_timeout_event_ =
          false :=
        ((hopen.trans hhello).baseInv hinv).timer_of_new_transport
          ((hopen.trans hhello).legacy.trans hleg2)
      generalize (if good c3 then sendHello d c3 else c3) = c4 at hhello hflags hcl4 ht4 ⊢
      split
      · exact (hopen.trans hhello).trans
          (transitionToConnected_move d allowed True c4 hcl4 hflags.1 hflags.2 ht4)
      · exact hopen.trans hhello
  · generalize preConnectAttempt c mayConnect = p at h0 h1 ⊢
    obtain ⟨c1, rv⟩ := p
    simp only at h0 h1 ⊢
    rw [if_pos (by simpa using h0), h1]
    exact Move.send (SendMove.refl _ _)

theorem onConnectAttemptTimeout_move (d : Deps) (allowed : Message → Prop)
    (reset : Prop) (c : Connection) (a : ConnectAttempt) (hinv : BaseInv c.core)
    (hf : c.core.connect_timeout_event_ = true) :
    Move d allowed reset c.core none
      (onConnectAttemptTimeout d { c with connect_timeout_event_ := false } a).core none := by
  unfold onConnectAttemptTimeout onConnectTimeout
  split
  · exact (Move.cancelTimer c.core none).trans
      (Move.send (close_move d { c with connect_timeout_event_ := false } _ none hinv.closing))
  · simp only []
    have hretry : Move d allowed reset c.core none
        ({ c with
          connect_timeout_event_ := false, bev_ := none, read_cb_installed := false
          output_empty_cb_installed := false, conn_closed_ := some true } : Connection).core
        none := Move.retry c.core none hf
    have hnot : ({ c with
          connect_timeout_event_ := false, bev_ := none, read_cb_installed := false
          output_empty_cb_installed := false, conn_closed_ := some true } : Connection).core.conn_closed_
        ≠ some false := by
      intro h
      cases h
    generalize ({ c with
          connect_timeout_event_ := false, bev_ := none, read_cb_installed := false
          output_empty_cb_installed := false, conn_closed_ := some true } : Connection) = c2
      at hretry hnot ⊢
    have hinv2 := hretry.baseInv hinv
    have hleg2 : c2.core.legacy_connection_ = true := hretry.legacy.trans (hinv.timer hf).1
    rcases doConnectAttempt_spec d allowed reset c2 a hinv2 hnot hleg2 with
      ⟨r1, r2⟩ | ⟨buf, t, hb0, r2, hopen⟩
    · generalize doConnectAttempt d c2 a = q at r1 r2 ⊢
      obtain ⟨c3, rv⟩ := q
      simp only at r1 r2 ⊢
      rw [if_pos (by simpa using r1)]
      have hc3 : isClosed c3 = true := by
        cases h : isClosed c3
        · have := (isClosed_eq_false_iff c3).1 h
          rw [r2] at this
          exact absurd this hnot
        · rfl
      rw [close_of_closed d c3 _ hc3, r2]
      exact hretry
    · generalize doConnectAttempt d c2 a = q at r2 hopen ⊢
      obtain ⟨c3, rv⟩ := q
      simp only at r2 hopen ⊢
      split
      · exact (hretry.trans hopen).trans (Move.send (close_move d c3 _ none
          ((hretry.trans hopen).closing.trans hinv.closing)))
      · exact hretry.trans hopen

theorem onHandshakeTimeout_move (d : Deps) (c : Connection) (H : Option Envelope)
    (hcl : c.core.closing_ = false) :
    SendMove d c.core H
      (onHandshakeTimeout d { c with handshake_timeout_event_ := false }).core H :=
  close_move d { c with handshake_timeout_event_ := false } _ H hcl

theorem verifyChecksum_core (d : Deps) (c : Connection) (ph : ProtocolHeader) (k : Nat) :
    (verifyChecksum d c ph k).1.core = c.core := by
  unfold verifyChecksum
  simp only []
  repeat' split
  all_goals rfl

theorem validateReceivedMessage_core (d : Deps) (c : Connection) (t : MessageType) :
    (validateReceivedMessage d c t).1.core = c.core := by
  unfold validateReceivedMessage
  repeat' split
  all_goals rfl

theorem readMessageHeader_core (d : Deps) (c : Connection) (hdr : ProtocolHeader) :
    (readMessageHeader d c hdr).1.core = c.core := by
  unfold readMessageHeader
  simp only []
  repeat' split
  all_goals rfl

theorem processHandshakeMessage_move (d : Deps) (allowed : Message → Prop)
    (reset : Prop) (c : Connection) (t : MessageType) (r : Received)
    (hinv : BaseInv c.core) (hh : c.core.handshaken_ = true) :
    Move d allowed reset c.core none (processHandshakeMessage d c t r).1.core none := by
  unfold processHandshakeMessage
  split
  · have h1 : Move d allowed reset c.core none
        ({ c with our_name_at_peer_ := r.ack_our_name, proto_ := r.ack_proto } :
          Connection).core none :=
      Move.aux c.core none c.core.bytes_buffered c.core.on_close_ c.core.pending_bw_cbs_
        r.ack_proto
    exact h1.trans (flushSerializeQueue_move d allowed reset _ (h1.baseInv hinv) (Or.inl hh))
  · split
    · exact Move.unhandshaken c.core none
    · simp only []
      split
      · have h1 : Move d allowed reset c.core none
            ({ c with conn_external_token_ := true, proto_ := r.hello_proto } :
              Connection).core none :=
          Move.aux c.core none c.core.bytes_buffered c.core.on_close_ c.core.pending_bw_cbs_
            r.hello_proto
        exact h1.trans
          (flushSerializeQueue_move d allowed reset _ (h1.baseInv hinv) (Or.inl hh))
      · have h1 : Move d allowed reset c.core none
            ({ c with proto_ := r.hello_proto } : Connection).core none :=
          Move.aux c.core none c.core.bytes_buffered c.core.on_close_ c.core.pending_bw_cbs_
            r.hello_proto
        exact h1.trans
          (flushSerializeQueue_move d allowed reset _ (h1.baseInv hinv) (Or.inl hh))
  · exact flushSerializeQueue_move d allowed reset c hinv (Or.inl hh)

theorem onReadFailure_move (d : Deps) (c : Connection) (H : Option Envelope)
    (hcl : c.core.closing_ = false) :
    SendMove d c.core H (onReadFailure d c).core H := by
  unfold onReadFailure
  split
  · exact SendMove.refl _ _
  · split
    · exact flushOutputAndClose_move d c _ H hcl
    · exact close_move d c _ H hcl

theorem onMessageHeader_move (d : Deps) (c : Connection) (hdr : ProtocolHeader)
    (H : Option Envelope) (hcl : c.core.closing_ = false) :
    SendMove d c.core H (onMessageHeader d c hdr).core H := by
  unfold onMessageHeader
  have h := readMessageHeader_core d c hdr
  generalize readMessageHeader d c hdr = p at h ⊢
  obtain ⟨c1, rv⟩ := p
  simp only at h ⊢
  rw [← h] at hcl ⊢
  split
  · exact SendMove.refl _ _
  · exact onReadFailure_move d c1 H hcl

theorem dispatchMessageBody_move (d : Deps) (allowed : Message → Prop)
    (reset : Prop) (c : Connection) (header : ProtocolHeader) (r : Received)
    (hinv : BaseInv c.core) (hcon : c.core.connected_ = true) :
    Move d allowed reset c.core none (dispatchMessageBody d c header r).1.core none := by
  unfold dispatchMessageBody
  simp only []
  split
  · split
    · exact Move.send (SendMove.refl _ _)
    · exact Move.send (SendMove.refl _ _)
  · split
    · rename_i c1 heq
      have hc1 := congrArg (fun p => p.1.core) heq
      simp only [verifyChecksum_core] at hc1
      have hc2 : c.core = c1.core := hc1
      rw [hc2]
      exact Move.send (SendMove.refl _ _)
    · rename_i c1 heq
      have hc1 := congrArg (fun p => p.1.core) heq
      simp only [verifyChecksum_core] at hc1
      have hc2 : c.core = c1.core := hc1
      rw [hc2] at hinv hcon ⊢
      clear heq hc1 hc2
      split
      · repeat' split
        all_goals exact Move.send (SendMove.refl _ _)
      · rename_i t ht
        split
        · rename_i c2 heq2
          have hd1 := congrArg (fun p => p.1.core) heq2
          simp only [validateReceivedMessage_core] at hd1
          rw [hd1]
          exact Move.send (SendMove.refl _ _)
        · rename_i c2 heq2
          have hd1 := congrArg (fun p => p.1.core) heq2
          simp only [validateReceivedMessage_core] at hd1
          rw [hd1] at hinv hcon ⊢
          clear heq2 hd1
          by_cases hhs : isHandshakeMessage header.type = true
          · simp only [hhs, if_true]
            have h1 : Move d allowed reset c2.core none
                ({ c2 with
                    handshaken_ := true, first_attempt_ := false
                    handshake_timeout_event_ := false } : Connection).core none :=
              Move.handshaken c2.core hcon
            split
            · have h2 := processHandshakeMessage_move d allowed reset
                { c2 with
                  handshaken_ := true, first_attempt_ := false
                  handshake_timeout_event_ := false } t r (h1.baseInv hinv) rfl
              split
              · rename_i c3 heq3
                rw [heq3] at h2
                exact h1.trans h2
              · rename_i c3 heq3
                rw [heq3] at h2
                exact h1.trans h2
            · exact h1
            · exact h1
          · simp only [hhs, Bool.false_eq_true, if_false]
            split
            · exact Move.send (SendMove.refl _ _)
            · exact Move.send (SendMove.refl _ _)
            · exact Move.send (SendMove.refl _ _)

theorem onMessageBody_move (d : Deps) (allowed : Message → Prop)
    (reset : Prop) (c : Connection) (r : Received)
    (hinv : BaseInv c.core) (hcon : c.core.connected_ = true) :
    Move d allowed reset c.core none (onMessageBody d c r).core none := by
  unfold onMessageBody
  have h := dispatchMessageBody_move d allowed reset c c.recv_message_ph_ r hinv hcon
  generalize dispatchMessageBody d c c.recv_message_ph_ r = p at h ⊢
  obtain ⟨c1, rv⟩ := p
  simp only at h ⊢
  split
  · exact h
  · exact h.trans (Move.send (onReadFailure_move d c1 none (h.closing.trans hinv.closing)))

theorem Move.mono {d : Deps} {allowed allowed1 : Message → Prop} {reset reset1 : Prop}
    (hal : ∀ m, allowed m → allowed1 m) (hr : reset → reset1)
    {k k1 : Core} {H H1 : Option Envelope}
    (hm : Move d allowed reset k H k1 H1) : Move d allowed1 reset1 k H k1 H1 := by
  induction hm with
  | send hs => exact Move.send hs
  | trans _ _ ih1 ih2 => exact Move.trans ih1 ih2
  | aux k H b oc bw p => exact Move.aux k H b oc bw p
  | pop k e rest hq hh => exact Move.pop k e rest hq hh
  | connectedPop k e rest ho hc ht hq => exact Move.connectedPop k e rest ho hc ht hq
  | connectedEmpty k ho hc ht hq => exact Move.connectedEmpty k ho hc ht hq
  | register k H e ha hid ho => exact Move.register k H e (hal _ ha) hid ho
  | release k e he => exact Move.release k e he
  | discard k H e => exact Move.discard k H e
  | hello k e hid ho hc hh => exact Move.hello k e hid ho hc hh
  | ack k e rest hq => exact Move.ack k e rest hq
  | drain k H n hn => exact Move.drain k H n hn
  | shrink k H len n hb hn => exact Move.shrink k H len n hb hn
  | flushBuffered k H n hb => exact Move.flushBuffered k H n hb
  | handshaken k hc => exact Move.handshaken k hc
  | unhandshaken k H => exact Move.unhandshaken k H
  | opened k bev buf hc hb hbuf hnew => exact Move.opened k bev buf hc hb hbuf hnew
  | resetPos k H hrs hbev hbuf => exact Move.resetPos k H (hr hrs) hbev hbuf
  | defer k H e ho he => exact Move.defer k H e ho he
  | undefer k H q hq => exact Move.undefer k H q hq
  | cancelTimer k H => exact Move.cancelTimer k H
  | armTimer k H hl ho hc => exact Move.armTimer k H hl ho hc
  | retry k H hf => exact Move.retry k H hf

/-- Every operation is a move of the core that holds no envelope before or
after; it registers only the message of a `registerMessage` operation and
resets the stream positions only in `connect`. -/
theorem step_move (d : Deps) (allowed : Message → Prop) (reset : Prop)
    (c c1 : Connection) (op : Op) (hinv : BaseInv c.core)
    (hal : ∀ msg, op = Op.registerMessage msg → allowed msg)
    (hreset : ∀ m a fut, op = Op.connect m a fut → reset)
    (h : step d c op = some c1) :
    Move d allowed reset c.core none c1.core none := by
  cases op with
  | connect m a fut =>
    simp only [step, Option.some.injEq] at h
    subst h
    exact (connect_move d allowed c m a fut hinv).mono (fun _ x => x)
      (fun _ => hreset m a fut rfl)
  | connectCompleted st =>
    simp only [step] at h
    split at h
    · rename_i hg
      simp only [Bool.and_eq_true, Bool.not_eq_true'] at hg
      obtain ⟨⟨hleg, hcl⟩, hcon⟩ := hg
      split at h
      · cases h
        exact transitionToConnected_move d allowed reset c hinv.closing
          ((isClosed_eq_false_iff c).1 hcl) hcon
          (hinv.timer_of_new_transport (by simpa using hleg))
      · cases h
        exact Move.send (SendMove.refl _ _)
    · cases h
  | event e =>
    simp only [step] at h
    split at h
    · rename_i hg
      cases h
      simp only [Bool.and_eq_true, Bool.not_eq_true', Bool.or_eq_true] at hg
      obtain ⟨⟨⟨_, _⟩, hcl⟩, hev⟩ := hg
      refine eventCallback_move d allowed reset c e hinv.closing
        ((isClosed_eq_false_iff c).1 hcl) ?_
      intro he
      rcases hev with (hev | hev) | hev
      · rw [he] at hev
        cases hev
      · exact Or.inl hev
      · exact Or.inr hev.1
    · cases h
  | deferredEvents =>
    simp only [step] at h
    split at h
    · cases h
      exact processDeferredEventQueue_move d allowed reset c hinv
    · cases h
  | registerMessage msg =>
    simp only [step, Option.some.injEq] at h
    subst h
    exact registerMessage_move d allowed reset c msg none (hal msg rfl) hinv.closing
  | releaseMessage id =>
    simp only [step] at h
    split at h
    · rename_i e he
      cases h
      exact releaseMessage_move d allowed reset c e (mem_of_findPending he) hinv.closing
    · cases h
  | discardEnvelope id =>
    simp only [step] at h
    split at h
    · rename_i e he
      cases h
      exact discardEnvelope_move d allowed reset c e
    · cases h
  | bytesSent n =>
    simp only [step] at h
    split at h
    · rename_i len hb
      split at h
      · rename_i hg
        simp only [Bool.and_eq_true, Bool.not_eq_true', decide_eq_true_eq] at hg
        obtain ⟨⟨_, _⟩, hn⟩ := hg
        have hb2 : c.core.bev_ = some len := hb
        have h1 : Move d allowed reset c.core none
            ({ c with bev_ := some (len - n) } : Connection).core none :=
          Move.shrink c.core none len (len - n) hb2 (Nat.sub_le _ _)
        have h2 := bytesSentCallback_move d allowed reset
          { c with bev_ := some (len - n) } n (by
            have hp := hinv.pos
            rw [hb2] at hp
            show c.core.drain_pos_ + n + (len - n) + c.core.buffered_output_.getD 0 ≤
              c.core.next_pos_
            simp only [Option.getD_some] at hp
            omega)
        have h3 := h1.trans h2
        split at h
        · cases h
          exact h3.trans (Move.send (onOutputEmpty_move d _ none
            (h3.closing.trans hinv.closing)))
        · cases h
          exact h3
      · cases h
    · cases h
  | flushBufferedOutput =>
    simp only [step] at h
    split at h
    · cases h
      exact flushBufferedOutput_move d allowed reset c
    · cases h
  | scheduleWriteChain =>
    simp only [step] at h
    split at h
    · rename_i hg
      cases h
      simp only [Bool.and_eq_true, Bool.not_eq_true'] at hg
      exact scheduleWriteChain_move d allowed reset c hinv hg.2
    · cases h
  | drainSendQueue n =>
    simp only [step] at h
    split at h
    · cases h
      exact drainSendQueue_move d allowed reset c n hinv.closing
    · cases h
  | header hdr =>
    simp only [step] at h
    split at h
    · cases h
      exact Move.send (onMessageHeader_move d c hdr none hinv.closing)
    · cases h
  | body r =>
    simp only [step] at h
    split at h
    · rename_i hg
      cases h
      simp only [Bool.and_eq_true, Bool.not_eq_true'] at hg
      exact onMessageBody_move d allowed reset c r hinv hg.1.1.2
    · cases h
  | pushOnCloseCallback cb =>
    simp only [step, Option.some.injEq] at h
    subst h
    exact Move.aux c.core none c.core.bytes_buffered (c.core.on_close_ ++ [cb])
      c.core.pending_bw_cbs_ c.core.proto_
  | flushOutputAndClose reason =>
    simp only [step, Option.some.injEq] at h
    subst h
    exact Move.send (flushOutputAndClose_move d c reason none hinv.closing)
  | close reason =>
    simp only [step, Option.some.injEq] at h
    subst h
    exact Move.send (close_move d c reason none hinv.closing)
  | connectAttemptTimeout a =>
    simp only [step, fire] at h
    split at h
    · rename_i hg
      cases h
      exact onConnectAttemptTimeout_move d allowed reset c a hinv hg
    · cases h
  | handshakeTimeout =>
    simp only [step, fire] at h
    split at h
    · cases h
      exact Move.send (onHandshakeTimeout_move d c none hinv.closing)
    · cases h

/-! ## Invariants of every reachable state -/

theorem SendMove.send_drainInv {d : Deps} {k k1 : Core} {H H1 : Option Envelope}
    (hm : SendMove d k H k1 H1) : DrainInv k → DrainInv k1 := by
  induction hm with
  | refl => exact fun h => h
  | trans _ _ ih1 ih2 => exact fun h => ih2 (ih1 h)
  | aux k H w => exact fun h => h
  | complete k e st cm =>
    intro h e1 he1
    obtain ⟨pos, len, h1, h2⟩ := h e1 he1
    refine ⟨pos, len, ?_, h2⟩
    show _ ∈ (if d.shuttingDown = true then k.trace
      else k.trace ++ [Event.onSent e.id st cm])
    split
    · exact h1
    · exact List.mem_append_left _ h1
  | serialize k e len ho hh =>
    intro h e1 he1
    have he2 : e1 ∈ k.sendq_ ++ [{ e with drain_pos_ := k.next_pos_ + len }] := he1
    rw [List.mem_append, List.mem_singleton] at he2
    rcases he2 with he2 | he2
    · obtain ⟨pos, l, h1, h2⟩ := h e1 he2
      exact ⟨pos, l, List.mem_append_left _ h1, h2⟩
    · refine ⟨k.next_pos_, len, ?_, ?_⟩
      · rw [he2]
        exact List.mem_append_right _ (List.mem_singleton_self _)
      · rw [he2]
  | hold k e ho hh hc => exact fun h => h
  | close k H r ho =>
    intro h e1 he1
    cases he1

theorem Move.drainInv {d : Deps} {allowed : Message → Prop} {reset : Prop}
    {k k1 : Core} {H H1 : Option Envelope}
    (hm : Move d allowed reset k H k1 H1) : DrainInv k → DrainInv k1 := by
  induction hm with
  | send hs => exact hs.send_drainInv
  | trans _ _ ih1 ih2 => exact fun h => ih2 (ih1 h)
  | release k e he =>
    intro h e1 he1
    obtain ⟨pos, len, h1, h2⟩ := h e1 he1
    exact ⟨pos, len, List.mem_append_left _ h1, h2⟩
  | hello k e hid ho hc hh =>
    intro h e1 he1
    obtain ⟨pos, len, h1, h2⟩ := h e1 he1
    exact ⟨pos, len, List.mem_append_left _ h1, h2⟩
  | ack k e rest hq =>
    intro h e1 he1
    obtain ⟨pos, len, h1, h2⟩ := h e1 (by rw [hq]; exact List.mem_cons_of_mem _ he1)
    refine ⟨pos, len, ?_, h2⟩
    show _ ∈ (if d.shuttingDown = true then k.trace
      else k.trace ++ [Event.onSent e.id Status.OK CompletionMethod.IMMEDIATE])
    split
    · exact h1
    · exact List.mem_append_left _ h1
  | _ => exact fun h => h

theorem outgoing_baseInv (d : Deps) (legacy ssl gossip : Bool) :
    BaseInv (Connection.outgoing d legacy ssl gossip).core := by
  refine ⟨rfl, Nat.le_refl _, fun _ => ⟨rfl, rfl⟩, fun _ => ⟨rfl, rfl⟩,
    fun _ => ⟨rfl, rfl, rfl⟩, fun h => (by cases h), fun e he => (by cases he),
    fun h => (by cases h)⟩

theorem incoming_baseInv (d : Deps) (legacy ssl gossip peer_client : Bool) :
    BaseInv (Connection.incoming d legacy ssl gossip peer_client).core := by
  have hcore : (Connection.incoming d legacy ssl gossip peer_client).core =
      { (Connection.outgoing d legacy ssl gossip).core with
        peer_is_client_address := true
        bev_ := if legacy then some 0 else none
        buffered_output_ := if legacy && ssl then some 0 else none
        conn_closed_ := some false
        connected_ := true } := by
    unfold Connection.incoming addHandshakeTimeoutEvent expectProtocolHeader
    simp only []
    split <;> rfl
  rw [hcore]
  refine ⟨rfl, ?_, ?_, fun h => absurd rfl h, fun h => (by cases h), fun _ => rfl,
    fun e he => (by cases he), fun h => (by cases h)⟩
  · cases legacy <;> cases ssl <;> exact Nat.le_refl _
  · intro h
    have h2 : legacy = false := h
    subst h2
    exact ⟨rfl, rfl⟩

theorem incoming_core_lists (d : Deps) (legacy ssl gossip peer_client : Bool) :
    (Connection.incoming d legacy ssl gossip peer_client).core.pendingq_ = [] ∧
    (Connection.incoming d legacy ssl gossip peer_client).core.serializeq_ = [] ∧
    (Connection.incoming d legacy ssl gossip peer_client).core.sendq_ = [] ∧
    (Connection.incoming d legacy ssl gossip peer_client).core.trace = [] ∧
    (Connection.incoming d legacy ssl gossip peer_client).core.envelopes_created = 0 := by
  unfold Connection.incoming addHandshakeTimeoutEvent expectProtocolHeader
  simp only []
  split <;> exact ⟨rfl, rfl, rfl, rfl, rfl⟩

theorem idsInv_of_empty (k : Core) (hp : k.pendingq_ = []) (hq : k.serializeq_ = [])
    (hx : k.sendq_ = []) (ht : k.trace = []) : IdsInv k none := by
  unfold IdsInv
  rw [hp, hq, hx, ht]
  exact ⟨fun id h => (by cases h), List.nodup_nil, fun id h => (by cases h), rfl⟩

theorem drainInv_of_empty (k : Core) (hx : k.sendq_ = []) : DrainInv k := by
  intro e he
  rw [hx] at he
  cases he

theorem initial_inv (d : Deps) (c : Connection) (h : Initial d c) : Inv d c.core := by
  rcases h with ⟨l, s, g, rfl⟩ | ⟨l, s, g, p, rfl⟩
  · exact ⟨outgoing_baseInv d l s g, drainInv_of_empty _ rfl,
      fun _ => idsInv_of_empty _ rfl rfl rfl rfl⟩
  · obtain ⟨h1, h2, h3, h4, _⟩ := incoming_core_lists d l s g p
    exact ⟨incoming_baseInv d l s g p, drainInv_of_empty _ h3,
      fun _ => idsInv_of_empty _ h1 h2 h3 h4⟩

theorem step_inv (d : Deps) (c c1 : Connection) (op : Op) (hinv : Inv d c.core)
    (h : step d c op = some c1) : Inv d c1.core := by
  have hm := step_move d (fun _ => True) True c c1 op hinv.base (fun _ _ => trivial)
    (fun _ _ _ _ => trivial) h
  exact ⟨hm.baseInv hinv.base, hm.drainInv hinv.drain, fun hsd => hm.idsInv hsd (hinv.ids hsd)⟩

theorem run_inv (d : Deps) (ops : List Op) :
    ∀ (c c1 : Connection), Inv d c.core → run d c ops = some c1 → Inv d c1.core := by
  induction ops with
  | nil =>
    intro c c1 hinv h
    simp only [run, Option.some.injEq] at h
    subst h
    exact hinv
  | cons op ops ih =>
    intro c c1 hinv h
    simp only [run] at h
    split at h
    · rename_i c2 hs
      exact ih c2 c1 (step_inv d c c2 op hinv hs) h
    · cases h

/-! ## Completion, stream positions and the handshake position -/

theorem isClosed_eq_true_iff (c : Connection) :
    isClosed c = true ↔ c.core.conn_closed_ ≠ some false := by
  have h := isClosed_eq_false_iff c
  constructor
  · intro ht hf
    rw [h.2 hf] at ht
    cases ht
  · intro hne
    cases hc : isClosed c
    · exact absurd (h.1 hc) hne
    · rfl

/-- C4 as stated fails: `connect()` on a connection that was used and closed
lowers `next_pos_`: after HELLO was written and the connection closed,
`next_pos_` is 12; the next `connect()` leaves it at 0. -/
theorem connect_lowers_next_pos :
    (run exampleDeps (Connection.outgoing exampleDeps true false false)
      [exampleConnect, exampleConnectedEvent, Op.close Status.PEER_CLOSED]).map
        (fun c => (c.next_pos_, (step exampleDeps c exampleConnect).map
          (fun c1 => c1.next_pos_))) = some (12, some 0) := by
  decide

/-- C4, as amended: in every state reachable from a freshly constructed
connection (by the calls of its owner, the events of its transport and its
connect-attempt and handshake timers) `drain_pos_ ≤ next_pos_`, and every
operation other than `connect()` leaves `next_pos_` greater than or equal to
its previous value. -/
theorem drain_pos_le_next_pos_and_monotone (d : Deps) (c0 c : Connection)
    (ops : List Op) (h0 : Initial d c0) (hrun : run d c0 ops = some c) :
    c.drain_pos_ ≤ c.next_pos_ ∧
    ∀ (op : Op) (c1 : Connection), (∀ m a fut, op ≠ Op.connect m a fut) →
      step d c op = some c1 → c.next_pos_ ≤ c1.next_pos_ := by
  have hinv := run_inv d ops c0 c (initial_inv d c0 h0) hrun
  constructor
  · have hp := hinv.base.pos
    have : c.core.drain_pos_ ≤ c.core.next_pos_ := by omega
    exact this
  · intro op c1 hop hstep
    have hm := step_move d (fun _ => True) False c c1 op hinv.base (fun _ _ => trivial)
      (fun m a fut h => hop m a fut h) hstep
    exact hm.next_pos_mono

theorem drain_pos_le_next_pos_and_monotone_witness :
    Initial exampleDeps (Connection.outgoing exampleDeps true false false) ∧
    run exampleDeps (Connection.outgoing exampleDeps true false false) exampleRetrySend =
      some exampleRetrySent ∧
    (exampleRetrySent.drain_pos_, exampleRetrySent.next_pos_) = (0, 12) ∧
    exampleRetrySent.drain_pos_ ≤ exampleRetrySent.next_pos_ ∧
    ∀ (op : Op) (c1 : Connection), (∀ m a fut, op ≠ Op.connect m a fut) →
      step exampleDeps exampleRetrySent op = some c1 →
      exampleRetrySent.next_pos_ ≤ c1.next_pos_ :=
  ⟨Or.inl ⟨true, false, false, rfl⟩, rfl, by decide,
    drain_pos_le_next_pos_and_monotone exampleDeps _ _ exampleRetrySend
      (Or.inl ⟨true, false, false, rfl⟩) rfl⟩

/-- C6 (failing input): the owner of an incoming connection registers and
releases two ACK messages; the second is serialized at stream position 10, and
its drain position is 20, twice its length. -/
theorem second_handshake_message_not_at_zero :
    (run exampleDeps (Connection.incoming exampleDeps true false false true)
      [Op.registerMessage exampleAck, Op.releaseMessage 0,
        Op.registerMessage exampleAck, Op.releaseMessage 1]).map
      (fun c => (c.trace, c.sendq_.map Envelope.drain_pos_)) =
    some ([Event.released 0, Event.serialized 0 MessageType.ACK 0 10,
        Event.released 1, Event.serialized 1 MessageType.ACK 10 10], [10, 20]) := by
  decide

/-- A handshake message past position 0 without the owner registering any: a
connect attempt times out and the new attempt gets no bufferevent, which
leaves the connection closed with the HELLO (envelope 0) still in
`serializeq_`; the next `connect()` queues a second HELLO (envelope 1) behind
it, and when the peer's ACK arrives the second HELLO is serialized at stream
position 12. -/
theorem retried_hello_not_at_zero :
    (run exampleDeps (Connection.outgoing exampleDeps true false false)
      exampleFailedRetry).map
      (fun c => (isClosed c, queueIds c.serializeq_, completedIds c.trace)) =
      some (true, [0], []) ∧
    (run exampleDeps (Connection.outgoing exampleDeps true false false)
      (exampleFailedRetry ++ [exampleConnect, exampleConnectedEvent,
        Op.header { len := 10, type := MessageType.ACK, cksum := 0 },
        Op.body exampleAckReceived])).map (fun c => c.trace) =
      some [Event.released 0, Event.released 1,
        Event.serialized 0 MessageType.HELLO 0 12,
        Event.serialized 1 MessageType.HELLO 12 12] := by
  decide

/-- C1 as stated fails: HELLO (envelope 0) is released before the application
message (envelope 1); the transport connects and HELLO is written while the
message still waits for the handshake; a close then completes the waiting
message first: the callbacks run in the order 1, 0. -/
theorem close_completes_out_of_release_order :
    (run exampleDeps (Connection.outgoing exampleDeps true false false)
      (exampleEarlySend ++ [Op.close Status.PEER_CLOSED])).map
      (fun c => (releasedIds c.trace, completedIds c.trace)) = some ([0, 1], [1, 0]) := by
  decide

/-- C1, as amended: unless the worker is shutting down, in every state reachable
from a freshly constructed connection (by the calls of its owner, the events
of its transport and its timers) no envelope has been completed twice; every
released envelope has been completed or is still queued (in `serializeq_` or
`sendq_`); a closed connection has nothing in `sendq_`, so that every released
envelope that is not in its `serializeq_` has been completed exactly once;
after a `close` that finds the connection open every released envelope has
been completed exactly once; and the envelopes that were written to the stream
are completed in the order in which they were written. -/
theorem completion_once_in_serialization_order (d : Deps) (c0 c : Connection)
    (ops : List Op) (hsd : d.shuttingDown = false) (h0 : Initial d c0)
    (hrun : run d c0 ops = some c) :
    (completedIds c.trace).Nodup ∧
    (∀ id ∈ releasedIds c.trace,
      id ∈ completedIds c.trace ∨ id ∈ queueIds c.serializeq_ ∨ id ∈ queueIds c.sendq_) ∧
    (isClosed c = true → c.sendq_ = [] ∧
      ∀ id ∈ releasedIds c.trace, id ∉ queueIds c.serializeq_ →
        (completedIds c.trace).count id = 1) ∧
    (∀ reason, isClosed c = false →
      isClosed (close d c reason) = true ∧ (close d c reason).serializeq_ = [] ∧
      ∀ id ∈ releasedIds (close d c reason).trace,
        (completedIds (close d c reason).trace).count id = 1) ∧
    (completedIds c.trace).filter (fun id => decide (id ∈ serializedIds c.trace)) ++
      queueIds c.sendq_ = serializedIds c.trace := by
  have key : ∀ c1 : Connection, Inv d c1.core →
      (completedIds c1.trace).Nodup ∧
      (∀ id ∈ releasedIds c1.trace,
        id ∈ completedIds c1.trace ∨ id ∈ queueIds c1.serializeq_ ∨
          id ∈ queueIds c1.sendq_) ∧
      (isClosed c1 = true → c1.sendq_ = [] ∧
        ∀ id ∈ releasedIds c1.trace, id ∉ queueIds c1.serializeq_ →
          (completedIds c1.trace).count id = 1) ∧
      (completedIds c1.trace).filter (fun id => decide (id ∈ serializedIds c1.trace)) ++
        queueIds c1.sendq_ = serializedIds c1.trace := by
    intro c1 hinv
    have hids : IdsOK (queueIds c1.pendingq_) (queueIds c1.serializeq_) (queueIds c1.sendq_)
        [] (completedIds c1.trace) (releasedIds c1.trace) (serializedIds c1.trace)
        c1.envelopes_created := hinv.ids hsd
    have hnd : (completedIds c1.trace).Nodup := ((nodup5 _ _ _ _ _).1 hids.nodup).2.2.2.2.1
    have hrel : ∀ id ∈ releasedIds c1.trace,
        id ∈ completedIds c1.trace ∨ id ∈ queueIds c1.serializeq_ ∨
          id ∈ queueIds c1.sendq_ := by
      intro id hid
      have := hids.released id hid
      simp only [List.mem_append, List.not_mem_nil, or_false] at this
      tauto
    refine ⟨hnd, hrel, ?_, hids.order⟩
    intro hcl
    have hx : c1.sendq_ = [] :=
      (hinv.base.unconnected (hinv.base.closed ((isClosed_eq_true_iff c1).1 hcl)).1).1
    refine ⟨hx, ?_⟩
    intro id hid hnq
    have hmem : id ∈ completedIds c1.trace := by
      rcases hrel id hid with h | h | h
      · exact h
      · exact absurd h hnq
      · rw [hx] at h
        cases h
    exact List.count_eq_one_of_mem hnd hmem
  have hinv := run_inv d ops c0 c (initial_inv d c0 h0) hrun
  obtain ⟨k1, k2, k3, k4⟩ := key c hinv
  refine ⟨k1, k2, k3, ?_, k4⟩
  intro reason hopen
  have hinv2 : Inv d (close d c reason).core :=
    step_inv d c (close d c reason) (Op.close reason) hinv rfl
  have hcl : isClosed (close d c reason) = true := isClosed_close d c reason hinv.base.closing
  have hq : (close d c reason).serializeq_ = [] := by
    have h := close_core_open d c reason hinv.base.closing hopen
    simpa [Core.closed, Connection.core] using congrArg Core.serializeq_ h
  obtain ⟨_, _, j3, _⟩ := key (close d c reason) hinv2
  refine ⟨hcl, hq, ?_⟩
  intro id hid
  refine (j3 hcl).2 id hid ?_
  rw [hq]
  simp [queueIds]

theorem completion_once_in_serialization_order_witness :
    exampleDeps.shuttingDown = false ∧
    Initial exampleDeps (Connection.outgoing exampleDeps true false false) ∧
    run exampleDeps (Connection.outgoing exampleDeps true false false)
      exampleEarlySend = some exampleEarlySent ∧
    isClosed exampleEarlySent = false ∧
    releasedIds exampleEarlySent.trace = [0, 1] ∧
    completedIds (close exampleDeps exampleEarlySent Status.PEER_CLOSED).trace = [1, 0] ∧
    ((completedIds exampleEarlySent.trace).Nodup ∧
    (∀ id ∈ releasedIds exampleEarlySent.trace,
      id ∈ completedIds exampleEarlySent.trace ∨
      id ∈ queueIds exampleEarlySent.serializeq_ ∨
      id ∈ queueIds exampleEarlySent.sendq_) ∧
    (isClosed exampleEarlySent = true → exampleEarlySent.sendq_ = [] ∧
      ∀ id ∈ releasedIds exampleEarlySent.trace,
        id ∉ queueIds exampleEarlySent.serializeq_ →
        (completedIds exampleEarlySent.trace).count id = 1) ∧
    (∀ reason, isClosed exampleEarlySent = false →
      isClosed (close exampleDeps exampleEarlySent reason) = true ∧
      (close exampleDeps exampleEarlySent reason).serializeq_ = [] ∧
      ∀ id ∈ releasedIds (close exampleDeps exampleEarlySent reason).trace,
        (completedIds (close exampleDeps exampleEarlySent reason).trace).count id = 1) ∧
    (completedIds exampleEarlySent.trace).filter
        (fun id => decide (id ∈ serializedIds exampleEarlySent.trace)) ++
      queueIds exampleEarlySent.sendq_ =
        serializedIds exampleEarlySent.trace) :=
  ⟨rfl, Or.inl ⟨true, false, false, rfl⟩, rfl, by decide, by decide, by decide,
    completion_once_in_serialization_order exampleDeps _ _ exampleEarlySend rfl
      (Or.inl ⟨true, false, false, rfl⟩) rfl⟩

/-! ## Admission limits and oversized messages -/

theorem isACKMessage_of_not_handshake {t : MessageType}
    (h : isHandshakeMessage t = false) : isACKMessage t = false := by
  unfold isHandshakeMessage at h
  simp only [Bool.or_eq_false_iff] at h
  exact h.2

theorem preSendCheck_pass (d : Deps) (c : Connection) (m : Message)
    (h : (preSendCheck d c m).2 = 0) : preSendCheck d c m = (c, 0) := by
  unfold preSendCheck at h ⊢
  split
  · rw [if_pos (by assumption)] at h
    simp at h
  · rename_i hc
    rw [if_neg hc] at h
    split
    · rename_i hh
      rw [if_pos hh] at h
      split
      · rename_i hp
        rw [if_pos hp] at h
        simp at h
      · rfl
    · rename_i hh
      rw [if_neg hh] at h
      split
      · rename_i hp
        rw [if_pos hp] at h
        simp at h
      · rfl

theorem sizeLimitsExceeded_iff (c : Connection) :
    sizeLimitsExceeded c = true ↔ c.outbuf_overflow_ < getBytesPending c := by
  unfold sizeLimitsExceeded
  simp

/-- C11 as stated fails: on an incoming connection that is not handshaken, with
10 bytes pending against a threshold of 0, `registerMessage` of an application
message returns no envelope, but `err` is UNREACHABLE, not NOBUFS. -/
theorem registerMessage_over_limit_not_nobufs :
    (decide (getBytesPending exampleOverLimit > exampleOverLimit.outbuf_overflow_),
      isClosed exampleOverLimit,
      isHandshakeMessage (exampleMessage 1 10).type_,
      (registerMessage tightDeps exampleOverLimit (exampleMessage 1 10)).2.isNone,
      (registerMessage tightDeps exampleOverLimit (exampleMessage 1 10)).1.err) =
    (true, false, false, true, Status.UNREACHABLE) := by
  decide

/-- C11, as amended: if `getBytesPending()` exceeds `outbuf_overflow_`,
`registerMessage` of a message that is not a handshake message returns no
envelope and changes nothing but `err` (the pending queue, its cost, the noted
queued bytes and the open or closed state are as before); `err` is NOBUFS
when the message passes `preSendCheck`, and otherwise the error of
`preSendCheck`: NOTCONN on a closed connection, UNREACHABLE towards a client
peer before the handshake, PROTONOSUPPORT for a message above the negotiated
protocol. -/
theorem registerMessage_over_limit (d : Deps) (c : Connection) (msg : Message)
    (hnh : isHandshakeMessage msg.type_ = false)
    (hlim : getBytesPending c > c.outbuf_overflow_) :
    registerMessage d c msg = ({ c with err := overLimitError c msg }, none) ∧
    (registerMessage d c msg).1.pendingq_ = c.pendingq_ ∧
    queueCost (registerMessage d c msg).1.pendingq_ = queueCost c.pendingq_ ∧
    (registerMessage d c msg).1.noted_queued = c.noted_queued ∧
    isClosed (registerMessage d c msg).1 = isClosed c ∧
    ((preSendCheck d c msg).2 = 0 → (registerMessage d c msg).1.err = Status.NOBUFS) := by
  have hack := isACKMessage_of_not_handshake hnh
  have hex : sizeLimitsExceeded c = true := (sizeLimitsExceeded_iff c).2 hlim
  have key : registerMessage d c msg = ({ c with err := overLimitError c msg }, none) := by
    unfold registerMessage overLimitError
    cases hc : isClosed c
    · cases hh : c.handshaken_
      · rw [preSendCheck_unhandshaken d c msg hc hh]
        cases hp : c.peer_is_client_address
        · simp [hack, hnh, hex, hh, hp]
        · simp [hack, hh, hp]
      · by_cases hp : c.proto_ < msg.min_protocol
        · rw [preSendCheck_old_protocol d c msg hc hh hp]
          simp [hnh, hp, hh]
        · rw [preSendCheck_handshaken d c msg hc hh (by omega)]
          simp [hnh, hex, hp, hh]
    · rw [preSendCheck_closed d c msg hc]
      simp
  refine ⟨key, ?_, ?_, ?_, ?_, ?_⟩
  · rw [key]
  · rw [key]
  · rw [key]
  · rw [key]
    rfl
  · intro hpre
    have hp := preSendCheck_pass d c msg hpre
    unfold registerMessage
    rw [hp]
    simp [hnh, hex]

theorem registerMessage_over_limit_witness :
    isHandshakeMessage (exampleMessage 1 10).type_ = false ∧
    getBytesPending exampleOverLimit > exampleOverLimit.outbuf_overflow_ ∧
    registerMessage tightDeps exampleOverLimit (exampleMessage 1 10) =
      ({ exampleOverLimit with
          err := overLimitError exampleOverLimit (exampleMessage 1 10) }, none) :=
  ⟨rfl, by decide,
    (registerMessage_over_limit tightDeps exampleOverLimit (exampleMessage 1 10) rfl
      (by decide)).1⟩

/-- C12 as stated fails: with exactly 1024 bytes pending against a threshold of
1024, `registerMessage` admits a new application message: an envelope is
returned and joins `pendingq_`. -/
theorem registerMessage_at_threshold_admits :
    (getBytesPending exampleAtThreshold, exampleAtThreshold.outbuf_overflow_,
      isHandshakeMessage (exampleMessage 2 10).type_,
      (registerMessage exampleDeps exampleAtThreshold (exampleMessage 2 10)).2.map
        Envelope.id,
      queueIds
        (registerMessage exampleDeps exampleAtThreshold (exampleMessage 2 10)).1.pendingq_) =
    (1024, 1024, false, some 2, [1, 2]) := by
  decide

/-- C12, as amended: for a message that is not a handshake message and passes
`preSendCheck`, `registerMessage` admits the message while `getBytesPending()`
is at most `outbuf_overflow_`, the threshold itself included, and rejects it
with NOBUFS, changing nothing else, once `getBytesPending()` is greater than
`outbuf_overflow_`. -/
theorem registerMessage_threshold (d : Deps) (c : Connection) (msg : Message)
    (hnh : isHandshakeMessage msg.type_ = false)
    (hpre : (preSendCheck d c msg).2 = 0) :
    (getBytesPending c ≤ c.outbuf_overflow_ →
      registerMessage d c msg = admitted d c msg) ∧
    (c.outbuf_overflow_ < getBytesPending c →
      registerMessage d c msg = ({ c with err := Status.NOBUFS }, none)) := by
  have hp := preSendCheck_pass d c msg hpre
  constructor
  · intro h
    have hex : sizeLimitsExceeded c = false := by
      cases hs : sizeLimitsExceeded c
      · rfl
      · have := (sizeLimitsExceeded_iff c).1 hs
        omega
    unfold registerMessage
    rw [hp]
    simp only [show ((0 : Int) != 0) = false from rfl, Bool.false_eq_true, if_false, hex,
      Bool.and_false]
    rfl
  · intro h
    have hex : sizeLimitsExceeded c = true := (sizeLimitsExceeded_iff c).2 h
    unfold registerMessage
    rw [hp]
    simp only [show ((0 : Int) != 0) = false from rfl, Bool.false_eq_true, if_false, hex, hnh,
      Bool.not_false, Bool.and_self, if_true]

theorem registerMessage_threshold_witness :
    isHandshakeMessage (exampleMessage 2 10).type_ = false ∧
    (preSendCheck exampleDeps exampleAtThreshold (exampleMessage 2 10)).2 = 0 ∧
    getBytesPending exampleAtThreshold = exampleAtThreshold.outbuf_overflow_ ∧
    registerMessage exampleDeps exampleAtThreshold (exampleMessage 2 10) =
      admitted exampleDeps exampleAtThreshold (exampleMessage 2 10) :=
  ⟨rfl, by decide, by decide,
    (registerMessage_threshold exampleDeps exampleAtThreshold (exampleMessage 2 10) rfl
      (by decide)).1 (by decide)⟩

/-- C13: handshake messages are exempt from the byte limit.  Whatever the
pending bytes, `registerMessage` of a handshake message that passes
`preSendCheck` creates an envelope, appends it to `pendingq_`, notes its cost
as queued and returns it. -/
theorem registerMessage_handshake_exempt (d : Deps) (c : Connection) (msg : Message)
    (hhs : isHandshakeMessage msg.type_ = true)
    (hpre : (preSendCheck d c msg).2 = 0) :
    registerMessage d c msg = admitted d c msg ∧
    (registerMessage d c msg).2 =
      some { id := c.envelopes_created, msg := msg, drain_pos_ := DRAIN_POS_UNSET
             cost_ := msg.size d.MAX_PROTOCOL_SUPPORTED } ∧
    (registerMessage d c msg).1.pendingq_ = c.pendingq_ ++
      [{ id := c.envelopes_created, msg := msg, drain_pos_ := DRAIN_POS_UNSET
         cost_ := msg.size d.MAX_PROTOCOL_SUPPORTED }] := by
  have hp := preSendCheck_pass d c msg hpre
  have key : registerMessage d c msg = admitted d c msg := by
    unfold registerMessage
    rw [hp]
    simp only [show ((0 : Int) != 0) = false from rfl, Bool.false_eq_true, if_false, hhs,
      Bool.not_true, Bool.false_and]
    rfl
  exact ⟨key, by rw [key]; rfl, by rw [key]; rfl⟩

theorem registerMessage_handshake_exempt_witness :
    isHandshakeMessage exampleAck.type_ = true ∧
    (preSendCheck tightDeps exampleOverLimit exampleAck).2 = 0 ∧
    getBytesPending exampleOverLimit > exampleOverLimit.outbuf_overflow_ ∧
    registerMessage tightDeps exampleOverLimit exampleAck =
      admitted tightDeps exampleOverLimit exampleAck :=
  ⟨rfl, by decide, by decide,
    (registerMessage_handshake_exempt tightDeps exampleOverLimit exampleAck rfl
      (by decide)).1⟩

theorem isClosed_of_preSendCheck_pass (d : Deps) (c : Connection) (m : Message)
    (h : (preSendCheck d c m).2 = 0) : isClosed c = false := by
  cases hc : isClosed c
  · rfl
  · rw [preSendCheck_closed d c m hc] at h
    simp at h

theorem completions_append (t1 t2 : List Event) :
    completions (t1 ++ t2) = completions t1 ++ completions t2 := by
  induction t1 with
  | nil => rfl
  | cons e t ih => cases e <;> simp [completions, ih]

/-- C14 as stated fails: on an outgoing connection that is not yet handshaken,
`send` of a message of 2013 bytes (the limit is 1013) does not complete the
envelope: it joins `serializeq_` behind HELLO. -/
theorem send_too_big_before_handshake_queues :
    (run exampleDeps (Connection.outgoing exampleDeps true false false)
      [exampleConnect, Op.registerMessage exampleTooBig, Op.releaseMessage 1]).map
      (fun c => (decide (exampleTooBig.size c.proto_ >
          exampleDeps.MAX_LEN + exampleDeps.sizeofProtocolHeader),
        completions c.trace, queueIds c.serializeq_, isClosed c)) =
    some (true, [], [0, 1], false) := by
  decide

/-- C14, as amended: unless the worker is shutting down, on a connection that
is handshaken (or connected, for a handshake message), `send` of a message that
passes `preSendCheck`, is not cancelled and whose size under the connection's
protocol exceeds `Message::MAX_LEN + sizeof(ProtocolHeader)` completes the
envelope exactly once, with status TOOBIG, and changes nothing else but `err`
and the drained-bytes account (the callback finds the connection as it was):
nothing is serialized (`next_pos_`, `sendq_`, `serializeq_` are unchanged) and
the connection stays open. -/
theorem send_too_big (d : Deps) (c : Connection) (e : Envelope)
    (hsd : d.shuttingDown = false)
    (hpre : (preSendCheck d c e.msg).2 = 0)
    (hcan : e.msg.cancelled = false)
    (hg : c.handshaken_ = true ∨
      (c.connected_ = true ∧ isHandshakeMessage e.msg.type_ = true))
    (hbig : e.msg.size c.proto_ > d.MAX_LEN + d.sizeofProtocolHeader) :
    send d c e =
      { c with
        err := Status.TOOBIG
        noted_drained := c.noted_drained + e.cost_
        trace := c.trace ++ [Event.onSent e.id Status.TOOBIG CompletionMethod.IMMEDIATE]
        callback_views := c.callback_views ++ [c.view] } ∧
    completions (send d c e).trace = completions c.trace ++ [(e.id, Status.TOOBIG)] ∧
    (send d c e).next_pos_ = c.next_pos_ ∧ (send d c e).sendq_ = c.sendq_ ∧
    (send d c e).serializeq_ = c.serializeq_ ∧ isClosed (send d c e) = false := by
  have hp := preSendCheck_pass d c e.msg hpre
  have hopen : isClosed c = false := isClosed_of_preSendCheck_pass d c e.msg hpre
  have hg2 : (c.handshaken_ || (c.connected_ && isHandshakeMessage e.msg.type_)) = true := by
    rcases hg with h | ⟨h1, h2⟩
    · rw [h]
      rfl
    · rw [h1, h2]
      cases c.handshaken_ <;> rfl
  have key : send d c e =
      { c with
        err := Status.TOOBIG
        noted_drained := c.noted_drained + e.cost_
        trace := c.trace ++
          [Event.onSent e.id Status.TOOBIG CompletionMethod.IMMEDIATE]
        callback_views := c.callback_views ++ [c.view] } := by
    rw [send, hp]
    simp only [show ((0 : Int) != 0) = false from rfl, Bool.false_eq_true, if_false]
    rw [if_neg (by simp [hcan]), if_pos hg2, if_pos hbig]
    unfold onSent
    rw [if_pos (by simp [hsd])]
    rfl
  refine ⟨key, ?_, ?_, ?_, ?_, ?_⟩
  · rw [key]
    show completions (c.trace ++ _) = _
    rw [completions_append]
    rfl
  · rw [key]
  · rw [key]
  · rw [key]
  · rw [key]
    exact hopen

theorem send_too_big_witness :
    exampleDeps.shuttingDown = false ∧
    (preSendCheck exampleDeps exampleOpenConnection exampleTooBig).2 = 0 ∧
    exampleTooBig.cancelled = false ∧
    exampleOpenConnection.handshaken_ = true ∧
    exampleTooBig.size exampleOpenConnection.proto_ >
      exampleDeps.MAX_LEN + exampleDeps.sizeofProtocolHeader ∧
    completions
      (send exampleDeps exampleOpenConnection
        { id := 3, msg := exampleTooBig, drain_pos_ := DRAIN_POS_UNSET
          cost_ := 2013 }).trace =
      completions exampleOpenConnection.trace ++ [(3, Status.TOOBIG)] :=
  ⟨rfl, by decide, rfl, rfl, by decide,
    (send_too_big exampleDeps exampleOpenConnection
      { id := 3, msg := exampleTooBig, drain_pos_ := DRAIN_POS_UNSET, cost_ := 2013 }
      rfl (by decide) rfl (Or.inl rfl) (by decide)).2.1⟩

/-! ## The receive pipeline and refused connects -/

theorem readMessageHeader_too_long (d : Deps) (c : Connection) (hdr : ProtocolHeader)
    (hlen : hdr.len > d.MAX_LEN + d.bytesNeeded hdr.type c.proto_) :
    readMessageHeader d c hdr = ({ headerRead c hdr with err := Status.BADMSG }, -1) := by
  unfold readMessageHeader headerRead
  simp only []
  split <;> rfl

theorem onReadFailure_close (d : Deps) (c : Connection)
    (h1 : c.err ≠ Status.NOBUFS) (h2 : c.err ≠ Status.PROTONOSUPPORT)
    (h3 : c.err ≠ Status.INVALID_CLUSTER) (h4 : c.err ≠ Status.ACCESS)
    (h5 : c.err ≠ Status.DESTINATION_MISMATCH) :
    onReadFailure d c = close d c c.err := by
  unfold onReadFailure
  rw [if_neg h1, if_neg (by simp [h2, h3, h4, h5])]

/-- C15: a header whose declared length exceeds `Message::MAX_LEN` plus the
header size of its type under the connection's protocol makes
`readMessageHeader` fail with BADMSG; the header branch of `onBytesAvailable`
then does not expect a body but closes the connection with BADMSG, so that
`isClosed()` holds and no body can be read. -/
theorem oversized_header_closes (d : Deps) (c : Connection) (hdr : ProtocolHeader)
    (hcl : c.closing_ = false)
    (hlen : hdr.len > d.MAX_LEN + d.bytesNeeded hdr.type c.proto_) :
    (readMessageHeader d c hdr).2 = -1 ∧
    (readMessageHeader d c hdr).1.err = Status.BADMSG ∧
    onMessageHeader d c hdr =
      close d { headerRead c hdr with err := Status.BADMSG } Status.BADMSG ∧
    isClosed (onMessageHeader d c hdr) = true ∧
    ∀ r, step d (onMessageHeader d c hdr) (Op.body r) = none := by
  have hr := readMessageHeader_too_long d c hdr hlen
  have hm : onMessageHeader d c hdr =
      close d { headerRead c hdr with err := Status.BADMSG } Status.BADMSG := by
    unfold onMessageHeader
    rw [hr]
    simp only [show ((-1 : Int) = 0) = False from by simp, if_false]
    rw [onReadFailure_close d _ (by simp) (by simp) (by simp) (by simp) (by simp)]
  have hc : isClosed (onMessageHeader d c hdr) = true := by
    rw [hm]
    exact isClosed_close d _ _ hcl
  refine ⟨by rw [hr], by rw [hr], hm, hc, ?_⟩
  intro r
  simp only [step, hc, Bool.not_true, Bool.false_and, Bool.false_eq_true, if_false]

theorem oversized_header_closes_witness :
    exampleIncoming.closing_ = false ∧
    (5000 : Nat) > exampleDeps.MAX_LEN +
      exampleDeps.bytesNeeded MessageType.HELLO exampleIncoming.proto_ ∧
    isClosed exampleIncoming = false ∧
    isClosed (onMessageHeader exampleDeps exampleIncoming
      { len := 5000, type := MessageType.HELLO, cksum := 0 }) = true :=
  ⟨rfl, by decide, rfl,
    (oversized_header_closes exampleDeps exampleIncoming
      { len := 5000, type := MessageType.HELLO, cksum := 0 } rfl (by decide)).2.2.2.1⟩

theorem readMessageHeader_before_handshake (d : Deps) (c : Connection)
    (hdr : ProtocolHeader)
    (hmin : d.sizeofProtocolHeader - 8 < hdr.len)
    (hmax : hdr.len ≤ d.MAX_LEN + d.bytesNeeded hdr.type c.proto_)
    (hh : c.handshaken_ = false) (hty : isHandshakeMessage hdr.type = false) :
    readMessageHeader d c hdr = ({ headerRead c hdr with err := Status.PROTO }, -1) := by
  unfold readMessageHeader headerRead
  simp only []
  rw [if_neg (Nat.not_le.2 hmin), if_neg (Nat.not_lt.2 hmax), if_pos (by simp [hh, hty])]

/-- C16: a header with an in-bounds length and a message type that is not a
handshake message, arriving while `handshaken_` is false, makes
`readMessageHeader` fail with PROTO; the header branch of `onBytesAvailable`
then does not expect a body but closes the connection with PROTO, so that the
body is neither read nor dispatched. -/
theorem early_message_header_closes (d : Deps) (c : Connection) (hdr : ProtocolHeader)
    (hcl : c.closing_ = false)
    (hmin : d.sizeofProtocolHeader - 8 < hdr.len)
    (hmax : hdr.len ≤ d.MAX_LEN + d.bytesNeeded hdr.type c.proto_)
    (hh : c.handshaken_ = false) (hty : isHandshakeMessage hdr.type = false) :
    (readMessageHeader d c hdr).2 = -1 ∧
    (readMessageHeader d c hdr).1.err = Status.PROTO ∧
    onMessageHeader d c hdr =
      close d { headerRead c hdr with err := Status.PROTO } Status.PROTO ∧
    isClosed (onMessageHeader d c hdr) = true ∧
    ∀ r, step d (onMessageHeader d c hdr) (Op.body r) = none := by
  have hr := readMessageHeader_before_handshake d c hdr hmin hmax hh hty
  have hm : onMessageHeader d c hdr =
      close d { headerRead c hdr with err := Status.PROTO } Status.PROTO := by
    unfold onMessageHeader
    rw [hr]
    simp only [show ((-1 : Int) = 0) = False from by simp, if_false]
    rw [onReadFailure_close d _ (by simp) (by simp) (by simp) (by simp) (by simp)]
  have hc : isClosed (onMessageHeader d c hdr) = true := by
    rw [hm]
    exact isClosed_close d _ _ hcl
  refine ⟨by rw [hr], by rw [hr], hm, hc, ?_⟩
  intro r
  simp only [step, hc, Bool.not_true, Bool.false_and, Bool.false_eq_true, if_false]

theorem early_message_header_closes_witness :
    exampleIncoming.closing_ = false ∧
    exampleDeps.sizeofProtocolHeader - 8 < 50 ∧
    (50 : Nat) ≤ exampleDeps.MAX_LEN +
      exampleDeps.bytesNeeded (MessageType.OTHER 1) exampleIncoming.proto_ ∧
    exampleIncoming.handshaken_ = false ∧
    isHandshakeMessage (MessageType.OTHER 1) = false ∧
    isClosed exampleIncoming = false ∧
    (onMessageHeader exampleDeps exampleIncoming
      { len := 50, type := MessageType.OTHER 1, cksum := 0 }).err = Status.PROTO ∧
    isClosed (onMessageHeader exampleDeps exampleIncoming
      { len := 50, type := MessageType.OTHER 1, cksum := 0 }) = true :=
  ⟨rfl, by decide, by decide, rfl, rfl, rfl, by decide,
    (early_message_header_closes exampleDeps exampleIncoming
      { len := 50, type := MessageType.OTHER 1, cksum := 0 } rfl (by decide) (by decide)
      rfl rfl).2.2.2.1⟩

theorem validateReceivedMessage_duplicate (d : Deps) (c : Connection) (t : MessageType)
    (hty : isHandshakeMessage t = true) (hh : c.handshaken_ = true) :
    validateReceivedMessage d c t = ({ c with err := Status.PROTO }, false) := by
  unfold validateReceivedMessage
  rw [if_pos (by simp [hty, hh])]

theorem dispatchMessageBody_fails_of_handshaken (d : Deps) (c : Connection)
    (header : ProtocolHeader) (r : Received) (t : MessageType)
    (hd : r.deserialized = some t)
    (hty : isHandshakeMessage t = true) (hh : c.handshaken_ = true) :
    (dispatchMessageBody d c header r).2 = -1 := by
  unfold dispatchMessageBody
  simp only []
  split
  · split <;> rfl
  · split
    · rfl
    · rename_i c1 heq
      have hc1 := congrArg (fun p => p.1.handshaken_) heq
      have hv : ∀ (c0 : Connection) (ph : ProtocolHeader) (k : Nat),
          (verifyChecksum d c0 ph k).1.handshaken_ = c0.handshaken_ := by
        intro c0 ph k
        unfold verifyChecksum
        simp only []
        repeat' split
        all_goals rfl
      simp only [hv] at hc1
      have hh1 : c1.handshaken_ = true := by
        rw [← hc1]
        exact hh
      rw [hd]
      simp only []
      rw [validateReceivedMessage_duplicate d c1 t hty hh1]

theorem verifyChecksum_verdict_congr (d : Deps) (c1 c2 : Connection)
    (ph : ProtocolHeader) (k : Nat) (h : c1.proto_ = c2.proto_) :
    (verifyChecksum d c1 ph k).2 = (verifyChecksum d c2 ph k).2 := by
  unfold verifyChecksum
  simp only []
  rw [h]
  split
  · rfl
  · split <;> rfl

theorem verifyChecksum_pass (d : Deps) (c : Connection) (ph : ProtocolHeader) (k : Nat)
    (h : (verifyChecksum d c ph k).2 = true) : verifyChecksum d c ph k = (c, true) := by
  unfold verifyChecksum at h ⊢
  simp only [] at h ⊢
  split
  · rfl
  · rename_i h1
    rw [if_neg h1] at h
    split
    · rename_i h2
      rw [if_pos h2] at h
      cases h
    · rfl

theorem dispatchMessageBody_duplicate_handshake (d : Deps) (c : Connection)
    (header : ProtocolHeader) (r : Received) (t : MessageType)
    (hres : (r.resource_token || d.shouldBeInlined header.type) = true)
    (hck : (verifyChecksum d c header r.cksum_computed).2 = true)
    (hd : r.deserialized = some t)
    (hty : isHandshakeMessage t = true) (hh : c.handshaken_ = true) :
    dispatchMessageBody d c header r =
      ({ bodyAdmitted c header with err := Status.PROTO }, -1) := by
  have hck2 : verifyChecksum d (bodyAdmitted c header) header r.cksum_computed =
      (bodyAdmitted c header, true) := by
    apply verifyChecksum_pass
    rw [verifyChecksum_verdict_congr d (bodyAdmitted c header) c header _ rfl]
    exact hck
  have hval := validateReceivedMessage_duplicate d (bodyAdmitted c header) t hty hh
  unfold dispatchMessageBody
  simp only []
  rw [if_neg (by
    intro h
    simp only [Bool.and_eq_true, Bool.not_eq_true'] at h
    rw [h.1, h.2] at hres
    cases hres)]
  unfold expectProtocolHeader
  unfold bodyAdmitted at hck2 hval
  simp only [] at hck2 hval ⊢
  rw [hck2]
  simp only [hd]
  rw [hval]
  rfl

theorem verifyChecksum_handshaken (d : Deps) (c : Connection) (ph : ProtocolHeader)
    (k : Nat) : (verifyChecksum d c ph k).1.handshaken_ = c.handshaken_ := by
  unfold verifyChecksum
  simp only []
  repeat' split
  all_goals rfl

theorem dispatchMessageBody_duplicate_eq (d : Deps) (c : Connection)
    (header : ProtocolHeader) (r : Received) (t : MessageType)
    (hd : r.deserialized = some t)
    (hty : isHandshakeMessage t = true) (hh : c.handshaken_ = true) :
    dispatchMessageBody d c header r =
      if !r.resource_token && !d.shouldBeInlined header.type then
        if !c.legacy_connection_ then
          ({ c with
              recv_message_ph_ := header, err := Status.NOBUFS
              retry_receipt_of_message_ := true, read_cb_installed := false }, -1)
        else ({ c with recv_message_ph_ := header, err := Status.NOBUFS }, -1)
      else
        match verifyChecksum d (bodyAdmitted c header) header r.cksum_computed with
        | (c, false) => ({ c with err := Status.BADMSG }, -1)
        | (c, true) => ({ c with err := Status.PROTO }, -1) := by
  unfold dispatchMessageBody
  simp only []
  split
  · rfl
  · unfold expectProtocolHeader bodyAdmitted
    simp only []
    have hv := verifyChecksum_handshaken d
      { c with
        recv_message_ph_ := header
        num_messages_received_ := c.num_messages_received_ + 1
        num_bytes_received_ := c.num_bytes_received_ + header.len
        expecting_header_ := true } header r.cksum_computed
    generalize verifyChecksum d
      { c with
        recv_message_ph_ := header
        num_messages_received_ := c.num_messages_received_ + 1
        num_bytes_received_ := c.num_bytes_received_ + header.len
        expecting_header_ := true } header r.cksum_computed = p at hv ⊢
    obtain ⟨c1, b⟩ := p
    cases b
    · rfl
    · simp only [hd]
      have hh1 : c1.handshaken_ = true := hv.trans hh
      rw [validateReceivedMessage_duplicate d c1 t hty hh1]

/-- C17: after the handshake has completed, a received handshake message (HELLO
or ACK) is rejected.  `validateReceivedMessage` fails with `err` = PROTO;
`dispatchMessageBody` returns -1, and its outcome does not depend on what
`onReceived` would answer (the message does not reach it); once the message
has been admitted and its checksum verified, `dispatchMessageBody` fails with
`err` = PROTO without touching `handshaken_` or the queues, and the body
branch of `onBytesAvailable` closes the connection with PROTO. -/
theorem handshake_message_after_handshake_rejected (d : Deps) (c : Connection)
    (header : ProtocolHeader) (r : Received) (t : MessageType)
    (hcl : c.closing_ = false) (hd : r.deserialized = some t)
    (hty : isHandshakeMessage t = true) (hh : c.handshaken_ = true) :
    validateReceivedMessage d c t = ({ c with err := Status.PROTO }, false) ∧
    (dispatchMessageBody d c header r).2 = -1 ∧
    (∀ (disp : Disposition) (herr : Status),
      dispatchMessageBody d c header { r with disposition := disp, handler_err := herr } =
        dispatchMessageBody d c header r) ∧
    ((r.resource_token || d.shouldBeInlined header.type) = true →
      (verifyChecksum d c header r.cksum_computed).2 = true →
      dispatchMessageBody d c header r =
        ({ bodyAdmitted c header with err := Status.PROTO }, -1)) ∧
    ((r.resource_token || d.shouldBeInlined c.recv_message_ph_.type) = true →
      (verifyChecksum d c c.recv_message_ph_ r.cksum_computed).2 = true →
      onMessageBody d c r =
        close d { bodyAdmitted c c.recv_message_ph_ with err := Status.PROTO }
          Status.PROTO ∧
      isClosed (onMessageBody d c r) = true) := by
  refine ⟨validateReceivedMessage_duplicate d c t hty hh,
    dispatchMessageBody_fails_of_handshaken d c header r t hd hty hh, ?_,
    fun hres hck => dispatchMessageBody_duplicate_handshake d c header r t hres hck hd hty hh,
    ?_⟩
  · intro disp herr
    rw [dispatchMessageBody_duplicate_eq d c header r t hd hty hh,
      dispatchMessageBody_duplicate_eq d c header
        { r with disposition := disp, handler_err := herr } t hd hty hh]
  · intro hres hck
    have hm : onMessageBody d c r =
        close d { bodyAdmitted c c.recv_message_ph_ with err := Status.PROTO }
          Status.PROTO := by
      unfold onMessageBody
      rw [dispatchMessageBody_duplicate_handshake d c _ r t hres hck hd hty hh]
      simp only [show ((-1 : Int) = 0) = False from by simp, if_false]
      rw [onReadFailure_close d _ (by simp) (by simp) (by simp) (by simp) (by simp)]
    refine ⟨hm, ?_⟩
    rw [hm]
    exact isClosed_close d _ _ hcl

theorem handshake_message_after_handshake_rejected_witness :
    exampleOpenConnection.closing_ = false ∧
    exampleAckReceived.deserialized = some MessageType.ACK ∧
    isHandshakeMessage MessageType.ACK = true ∧
    exampleOpenConnection.handshaken_ = true ∧
    isClosed exampleOpenConnection = false ∧
    (dispatchMessageBody exampleDeps exampleOpenConnection
      { len := 10, type := MessageType.ACK, cksum := 0 } exampleAckReceived).2 = -1 ∧
    isClosed (onMessageBody exampleDeps exampleOpenConnection exampleAckReceived) = true :=
  ⟨rfl, rfl, rfl, rfl, rfl,
    (handshake_message_after_handshake_rejected exampleDeps exampleOpenConnection
      { len := 10, type := MessageType.ACK, cksum := 0 } exampleAckReceived MessageType.ACK
      rfl rfl rfl rfl).2.1,
    ((handshake_message_after_handshake_rejected exampleDeps exampleOpenConnection
      { len := 10, type := MessageType.ACK, cksum := 0 } exampleAckReceived MessageType.ACK
      rfl rfl rfl rfl).2.2.2.2 (by decide) (by decide)).2⟩

/-- C19 as stated fails: for a type with checksumming enabled under a protocol
that carries a checksum, a header checksum of 0 is never verified: with 0 in
the header and 7 computed over the body, `verifyChecksum` returns true and
`dispatchMessageBody` deserializes, dispatches and returns 0. -/
theorem zero_checksum_not_verified :
    (isChecksummingEnabled exampleDeps (exampleHeader 0).type,
      exampleDeps.needChecksumInHeader (exampleHeader 0).type exampleOpenConnection.proto_,
      decide ((exampleHeader 0).cksum ≠ (exampleReceived 7).cksum_computed),
      (verifyChecksum exampleDeps exampleOpenConnection (exampleHeader 0) 7).2,
      (dispatchMessageBody exampleDeps exampleOpenConnection (exampleHeader 0)
        (exampleReceived 7)).2,
      (dispatchMessageBody exampleDeps exampleOpenConnection (exampleHeader 0)
        (exampleReceived 7)).1.err) =
    (true, true, true, true, 0, Status.OK) := by
  decide

theorem verifyChecksum_mismatch (d : Deps) (c : Connection) (ph : ProtocolHeader)
    (k : Nat) (hen : isChecksummingEnabled d ph.type = true)
    (hneed : d.needChecksumInHeader ph.type c.proto_ = true)
    (hnz : ph.cksum ≠ 0) (hne : ph.cksum ≠ k) :
    verifyChecksum d c ph k = ({ c with err := Status.CHECKSUM_MISMATCH }, false) := by
  unfold verifyChecksum
  simp only []
  rw [if_neg (by simp [hen, hneed, hnz]), if_pos (by simp [hne])]

/-- C19, as amended: for a message type with checksumming enabled and a
protocol version that carries a checksum in the header, whenever the header
carries a checksum other than 0 that differs from the checksum computed over
the received body, `verifyChecksum` reports CHECKSUM_MISMATCH, and
`dispatchMessageBody`, once the message is admitted (a resource token was
granted or the type is processed inline), fails with `err` downgraded to
BADMSG without deserializing or dispatching the message.  A header checksum
of 0 is not verified. -/
theorem checksum_mismatch_rejected (d : Deps) (c : Connection)
    (header : ProtocolHeader) (r : Received)
    (hen : isChecksummingEnabled d header.type = true)
    (hneed : d.needChecksumInHeader header.type c.proto_ = true)
    (hnz : header.cksum ≠ 0) (hne : header.cksum ≠ r.cksum_computed) :
    verifyChecksum d c header r.cksum_computed =
      ({ c with err := Status.CHECKSUM_MISMATCH }, false) ∧
    ((r.resource_token || d.shouldBeInlined header.type) = true →
      dispatchMessageBody d c header r =
        ({ bodyAdmitted c header with err := Status.BADMSG }, -1)) ∧
    (∀ k, (verifyChecksum d c { header with cksum := 0 } k).2 = true) := by
  refine ⟨verifyChecksum_mismatch d c header _ hen hneed hnz hne, ?_, ?_⟩
  · intro hres
    have hv := verifyChecksum_mismatch d (bodyAdmitted c header) header r.cksum_computed
      hen hneed hnz hne
    unfold dispatchMessageBody
    simp only []
    rw [if_neg (by
      intro h
      simp only [Bool.and_eq_true, Bool.not_eq_true'] at h
      rw [h.1, h.2] at hres
      cases hres)]
    unfold expectProtocolHeader
    unfold bodyAdmitted at hv ⊢
    simp only [] at hv ⊢
    rw [hv]
  · intro k
    unfold verifyChecksum
    simp

theorem checksum_mismatch_rejected_witness :
    isChecksummingEnabled exampleDeps (exampleHeader 9).type = true ∧
    exampleDeps.needChecksumInHeader (exampleHeader 9).type
      exampleOpenConnection.proto_ = true ∧
    (exampleHeader 9).cksum ≠ 0 ∧
    (exampleHeader 9).cksum ≠ (exampleReceived 7).cksum_computed ∧
    (exampleReceived 7).resource_token = true ∧
    dispatchMessageBody exampleDeps exampleOpenConnection (exampleHeader 9)
        (exampleReceived 7) =
      ({ bodyAdmitted exampleOpenConnection (exampleHeader 9) with
          err := Status.BADMSG }, -1) :=
  ⟨rfl, rfl, by decide, by decide, rfl,
    (checksum_mismatch_rejected exampleDeps exampleOpenConnection (exampleHeader 9)
      (exampleReceived 7) rfl rfl (by decide) (by decide)).2.1 rfl⟩

/-- C20: `connect()` fails at once when the peer is a client address (`err`
ISCONN if the connection is open, UNREACHABLE if it is closed), else when the
connection is already open (ISCONN if connected, ALREADY otherwise), else when
the connect throttle vetoes the attempt (DISABLED): it returns -1 and changes
nothing but `err`, so `connected_`, `handshaken_`, the queues, `next_pos_`,
`drain_pos_` and `retries_so_far_` are as before. -/
theorem connect_refused_at_once (d : Deps) (c : Connection) (mayConnect : Bool)
    (a : ConnectAttempt) (fut : Option Status)
    (h : c.peer_is_client_address = true ∨ isClosed c = false ∨ mayConnect = false) :
    connect d c mayConnect a fut = ({ c with err := connectRefusal c }, -1) ∧
    (connect d c mayConnect a fut).1.connected_ = c.connected_ ∧
    (connect d c mayConnect a fut).1.handshaken_ = c.handshaken_ ∧
    (connect d c mayConnect a fut).1.pendingq_ = c.pendingq_ ∧
    (connect d c mayConnect a fut).1.serializeq_ = c.serializeq_ ∧
    (connect d c mayConnect a fut).1.sendq_ = c.sendq_ ∧
    (connect d c mayConnect a fut).1.next_pos_ = c.next_pos_ ∧
    (connect d c mayConnect a fut).1.drain_pos_ = c.drain_pos_ ∧
    (connect d c mayConnect a fut).1.retries_so_far_ = c.retries_so_far_ ∧
    isClosed (connect d c mayConnect a fut).1 = isClosed c := by
  have hpre : preConnectAttempt c mayConnect = ({ c with err := connectRefusal c }, -1) := by
    unfold preConnectAttempt connectRefusal
    by_cases hp : c.peer_is_client_address = true
    · rw [if_pos hp, if_pos hp]
      split <;> rfl
    · rw [if_neg hp, if_neg hp]
      by_cases hc : (!isClosed c) = true
      · rw [if_pos hc, if_pos hc]
      · rw [if_neg hc, if_neg hc]
        rcases h with h | h | h
        · exact absurd h hp
        · rw [h] at hc
          exact absurd rfl hc
        · rw [h]
          rfl
  have key : connect d c mayConnect a fut = ({ c with err := connectRefusal c }, -1) := by
    unfold connect
    rw [hpre]
    rfl
  refine ⟨key, ?_, ?_, ?_, ?_, ?_, ?_, ?_, ?_, ?_⟩
  all_goals first | (rw [key]; done) | (rw [key]; rfl)

theorem connect_refused_at_once_witness :
    isClosed exampleConnecting = false ∧
    connect exampleDeps exampleConnecting true ConnectAttempt.started none =
      ({ exampleConnecting with err := Status.ALREADY }, -1) :=
  ⟨rfl,
    (connect_refused_at_once exampleDeps exampleConnecting true ConnectAttempt.started none
      (Or.inr (Or.inl rfl))).1⟩

/-! ## Frame round trip -/

theorem exampleDeps_wireFormat : wireFormat exampleDeps := by
  refine ⟨rfl, ?_, by decide, ?_⟩
  · intro t p
    show (if isHandshakeMessage t then 5 else 13) = if (!isHandshakeMessage t) then 13 else 5
    cases isHandshakeMessage t <;> rfl
  · intro body
    exact Nat.mod_lt _ (by decide)

theorem bytesNeeded_le (d : Deps) (hw : wireFormat d) (t : MessageType) (p : Nat) :
    5 ≤ d.bytesNeeded t p ∧ d.bytesNeeded t p ≤ 13 := by
  rw [hw.2.1 t p]
  split <;> exact ⟨by decide, by decide⟩

theorem readMessageHeader_ok (d : Deps) (c : Connection) (hdr : ProtocolHeader)
    (hmin : d.sizeofProtocolHeader - 8 < hdr.len)
    (hmax : hdr.len ≤ d.MAX_LEN + d.bytesNeeded hdr.type c.proto_)
    (hadm : c.handshaken_ = true ∨ isHandshakeMessage hdr.type = true) :
    readMessageHeader d c hdr =
      (if d.needChecksumInHeader hdr.type c.proto_ then
        { c with recv_message_ph_ := hdr }
       else headerRead c hdr, 0) := by
  unfold readMessageHeader headerRead
  simp only []
  rw [if_neg (Nat.not_le.2 hmin), if_neg (Nat.not_lt.2 hmax),
    if_neg (by rcases hadm with h | h <;> simp [h])]
  split <;> rfl

theorem serializeMessageBuf_frameOf (d : Deps) (c : Connection) (msg : Message)
    (body : List Nat) (hw : wireFormat d) (htamper : d.shouldTamperChecksum = 0)
    (hs : msg.serialize c.proto_ = some body)
    (h1 : 1 ≤ body.length) (h2 : body.length ≤ d.MAX_LEN) :
    serializeMessageBuf d c msg = (c, some (frameOf d c.proto_ msg body)) := by
  have hb := bytesNeeded_le d hw msg.type_ c.proto_
  have hlen : (d.bytesNeeded msg.type_ c.proto_ + body.length) % 2 ^ 32 =
      d.bytesNeeded msg.type_ c.proto_ + body.length := by
    apply Nat.mod_eq_of_lt
    have := hw.2.2.1
    omega
  have hck : ((if d.needChecksumInHeader msg.type_ c.proto_ &&
        isChecksummingEnabled d msg.type_ then d.computeChecksum body else 0) +
      d.shouldTamperChecksum) % 2 ^ 64 =
      (if d.needChecksumInHeader msg.type_ c.proto_ &&
        isChecksummingEnabled d msg.type_ then d.computeChecksum body else 0) := by
    rw [htamper, Nat.add_zero]
    apply Nat.mod_eq_of_lt
    split
    · exact hw.2.2.2 body
    · exact Nat.two_pow_pos 64
  unfold serializeMessageBuf frameOf
  simp only [hs]
  rw [if_neg (by omega), hlen, hck]

/-- C18: frame round trip.  For a message whose body serializes to between 1
and `Message::MAX_LEN` bytes, the frame `serializeMessage` builds under the
sender's protocol version (no checksum tampering) is read back by a receiver
on the same protocol version whose handshake state admits the type:
`readMessageHeader` succeeds and stores the same type and `len` = header size
+ body length, the body then expected has the length of the serialized body,
and `verifyChecksum` returns true for the checksum of that body; when the type
carries a checksum and checksumming is enabled, the checksum read from the
header is the one computed over the received body. -/
theorem frame_round_trip (d : Deps) (cs cr : Connection) (msg : Message)
    (body : List Nat) (hw : wireFormat d) (htamper : d.shouldTamperChecksum = 0)
    (hs : msg.serialize cs.proto_ = some body)
    (h1 : 1 ≤ body.length) (h2 : body.length ≤ d.MAX_LEN)
    (hp : cr.proto_ = cs.proto_)
    (hadm : cr.handshaken_ = true ∨ isHandshakeMessage msg.type_ = true) :
    ∃ f : Frame, serializeMessageBuf d cs msg = (cs, some f) ∧ f.body = body ∧
      (readMessageHeader d cr f.hdr).2 = 0 ∧
      (readMessageHeader d cr f.hdr).1.recv_message_ph_.type = msg.type_ ∧
      (readMessageHeader d cr f.hdr).1.recv_message_ph_.len =
        d.bytesNeeded msg.type_ cs.proto_ + body.length ∧
      bytesExpected d (expectMessageBody (readMessageHeader d cr f.hdr).1) = body.length ∧
      (∀ c : Connection, c.proto_ = cs.proto_ →
        (verifyChecksum d c (readMessageHeader d cr f.hdr).1.recv_message_ph_
          (receivedChecksum d (readMessageHeader d cr f.hdr).1.recv_message_ph_ f.body)).2 =
          true) ∧
      (d.needChecksumInHeader msg.type_ cs.proto_ = true →
        isChecksummingEnabled d msg.type_ = true →
        (readMessageHeader d cr f.hdr).1.recv_message_ph_.cksum =
          receivedChecksum d (readMessageHeader d cr f.hdr).1.recv_message_ph_ f.body) := by
  have hb := bytesNeeded_le d hw msg.type_ cs.proto_
  have hsz := hw.1
  have hser := serializeMessageBuf_frameOf d cs msg body hw htamper hs h1 h2
  have hread := readMessageHeader_ok d cr (frameOf d cs.proto_ msg body).hdr
    (by
      show d.sizeofProtocolHeader - 8 < d.bytesNeeded msg.type_ cs.proto_ + body.length
      omega)
    (by
      show d.bytesNeeded msg.type_ cs.proto_ + body.length ≤
        d.MAX_LEN + d.bytesNeeded msg.type_ cr.proto_
      rw [hp]
      omega)
    hadm
  have hty : (readMessageHeader d cr (frameOf d cs.proto_ msg body).hdr).1.recv_message_ph_.type =
      msg.type_ := by
    rw [hread]
    simp only []
    split <;> rfl
  have hlen : (readMessageHeader d cr (frameOf d cs.proto_ msg body).hdr).1.recv_message_ph_.len =
      d.bytesNeeded msg.type_ cs.proto_ + body.length := by
    rw [hread]
    simp only []
    split <;> rfl
  have hproto : (readMessageHeader d cr (frameOf d cs.proto_ msg body).hdr).1.proto_ =
      cs.proto_ := by
    rw [hread]
    simp only []
    split <;> exact hp
  have hcarried : d.needChecksumInHeader msg.type_ cs.proto_ = true →
      (readMessageHeader d cr (frameOf d cs.proto_ msg body).hdr).1.recv_message_ph_.cksum =
        if isChecksummingEnabled d msg.type_ then d.computeChecksum body else 0 := by
    intro hneed
    have hneed2 : d.needChecksumInHeader (frameOf d cs.proto_ msg body).hdr.type cr.proto_ =
        true := by
      rw [hp]
      exact hneed
    rw [hread, if_pos hneed2]
    show (if d.needChecksumInHeader msg.type_ cs.proto_ && isChecksummingEnabled d msg.type_
      then d.computeChecksum body else 0) = _
    rw [hneed]
    rfl
  have hcomputed : d.needChecksumInHeader msg.type_ cs.proto_ = true →
      receivedChecksum d
        (readMessageHeader d cr (frameOf d cs.proto_ msg body).hdr).1.recv_message_ph_
        (frameOf d cs.proto_ msg body).body = d.computeChecksum body := by
    intro hneed
    unfold receivedChecksum readerChecksum
    have h13 : d.bytesNeeded msg.type_ cs.proto_ = 13 := by
      rw [hw.2.1, if_pos hneed]
    show d.computeChecksum (body.take _) = _
    rw [hlen, h13, hsz, Nat.add_sub_cancel_left, List.take_length]
  refine ⟨frameOf d cs.proto_ msg body, hser, rfl, by rw [hread], hty, hlen, ?_, ?_, ?_⟩
  · unfold bytesExpected expectMessageBody
    simp only [Bool.false_eq_true, if_false]
    rw [hty, hlen, hproto]
    have hlt := hw.2.2.1
    have h64 : (2 : Nat) ^ 32 < 2 ^ 64 := by decide
    rw [show d.bytesNeeded msg.type_ cs.proto_ + body.length + 2 ^ 64 -
      d.bytesNeeded msg.type_ cs.proto_ = body.length + 2 ^ 64 from by omega,
      Nat.add_mod_right, Nat.mod_eq_of_lt (by omega)]
  · intro c hc
    generalize (readMessageHeader d cr (frameOf d cs.proto_ msg body).hdr).1.recv_message_ph_ =
      ph at hty hcarried hcomputed
    unfold verifyChecksum
    simp only []
    by_cases hen : (isChecksummingEnabled d ph.type && d.needChecksumInHeader ph.type c.proto_ &&
        ph.cksum != 0) = true
    · rw [if_neg (by simp [hen])]
      rw [hty, hc] at hen
      simp only [Bool.and_eq_true] at hen
      obtain ⟨⟨hena, hneed⟩, _⟩ := hen
      have hsame : ph.cksum = receivedChecksum d ph (frameOf d cs.proto_ msg body).body := by
        rw [hcarried hneed, hcomputed hneed, if_pos hena]
      rw [if_neg (by simp [← hsame])]
    · rw [if_pos (by simp [hen])]
  · intro hneed hena
    rw [hcarried hneed, hcomputed hneed, if_pos hena]

theorem frame_round_trip_witness :
    wireFormat exampleDeps ∧ exampleDeps.shouldTamperChecksum = 0 ∧
    (exampleMessage 1 10).serialize exampleOpenConnection.proto_ =
      some (List.replicate 10 0) ∧
    exampleOpenConnection.handshaken_ = true ∧
    ∃ f : Frame,
      serializeMessageBuf exampleDeps exampleOpenConnection (exampleMessage 1 10) =
        (exampleOpenConnection, some f) ∧
      f.body = List.replicate 10 0 ∧
      (readMessageHeader exampleDeps exampleOpenConnection f.hdr).2 = 0 ∧
      (readMessageHeader exampleDeps exampleOpenConnection f.hdr).1.recv_message_ph_.type =
        MessageType.OTHER 1 ∧
      (readMessageHeader exampleDeps exampleOpenConnection f.hdr).1.recv_message_ph_.len =
        23 :=
  ⟨exampleDeps_wireFormat, rfl, rfl, rfl,
    (frame_round_trip exampleDeps exampleOpenConnection exampleOpenConnection
      (exampleMessage 1 10) (List.replicate 10 0) exampleDeps_wireFormat rfl rfl
      (by decide) (by decide) rfl (Or.inl rfl)).imp
      (fun _ h => ⟨h.1, h.2.1, h.2.2.1, h.2.2.2.1, h.2.2.2.2.1⟩)⟩
/-! ## Frame lengths on the two sides -/

/-- C27 (failing input): on a handshaken connection `readMessageHeader` accepts
the header of an application message that declares a frame of 10 bytes although
the header of that type takes 13 bytes; the body length `bytesExpected()` then
computes has wrapped around to `2 ^ 64 - 3`, far above `Message::MAX_LEN`. -/
theorem readMessageHeader_accepts_short_frame :
    wireFormat exampleDeps ∧ exampleOpenConnection.handshaken_ = true ∧
    (readMessageHeader exampleDeps exampleOpenConnection exampleShortHeader).2 = 0 ∧
    exampleShortHeader.len ≤
      exampleDeps.bytesNeeded exampleShortHeader.type exampleOpenConnection.proto_ ∧
    bytesExpected exampleDeps
      (expectMessageBody
        (readMessageHeader exampleDeps exampleOpenConnection exampleShortHeader).1) =
      2 ^ 64 - 3 ∧
    exampleDeps.MAX_LEN < 2 ^ 64 - 3 :=
  ⟨exampleDeps_wireFormat, rfl, by decide, by decide, by decide, by decide⟩

/-- C28 (failing input): with `Message::MAX_LEN` = 20, an ACK with a frame of
30 bytes, above `Message::MAX_LEN` + 5 (the header of an ACK takes 5 bytes) and
below `Message::MAX_LEN + sizeof(ProtocolHeader)` = 33: `send()` on a
handshaken connection does not reject it but serializes it with `len` = 30,
and `readMessageHeader` on a connection of the same protocol version that
waits for the ACK rejects that header with BADMSG. -/
theorem send_accepts_frame_receiver_rejects :
    exampleOpenConnection.proto_ = exampleEarlySent.proto_ ∧
    shortFrameDeps.MAX_LEN + shortFrameDeps.bytesNeeded MessageType.ACK 5 < 30 ∧
    30 ≤ shortFrameDeps.MAX_LEN + shortFrameDeps.sizeofProtocolHeader ∧
    (send shortFrameDeps exampleOpenConnection
      { id := 3, msg := exampleLongAck, drain_pos_ := DRAIN_POS_UNSET, cost_ := 30 }).trace =
      exampleOpenConnection.trace ++ [Event.serialized 3 MessageType.ACK 46 30] ∧
    (serializeMessageBuf shortFrameDeps exampleOpenConnection exampleLongAck).2.map Frame.hdr =
      some { len := 30, type := MessageType.ACK, cksum := 0 } ∧
    (readMessageHeader shortFrameDeps exampleEarlySent
      { len := 30, type := MessageType.ACK, cksum := 0 }).2 = -1 ∧
    (readMessageHeader shortFrameDeps exampleEarlySent
      { len := 30, type := MessageType.ACK, cksum := 0 }).1.err = Status.BADMSG :=
  ⟨by decide, by decide, by decide, by decide, by decide, by decide, by decide⟩
/-! ## Refused handshakes and deferred receipts -/

theorem processHandshakeMessage_over_budget (d : Deps) (c : Connection) (r : Received)
    (hclient : c.peer_type_client = true) (hbudget : r.conn_budget_token = false) :
    processHandshakeMessage d c MessageType.HELLO r =
      ({ c with
          conn_external_token_ := false
          handshaken_ := false, err := Status.TOOMANY }, false) := by
  unfold processHandshakeMessage
  simp only []
  rw [if_pos (by simp [hclient, hbudget])]

theorem validateReceivedMessage_pass (d : Deps) (c : Connection) (t : MessageType)
    (hh : c.handshaken_ = false)
    (hg : c.is_gossip = false ∨ d.allowedOnGossipConnection t = true) :
    validateReceivedMessage d c t = (c, true) := by
  unfold validateReceivedMessage
  rw [if_neg (by simp [hh]), if_neg (by rcases hg with hg | hg <;> simp [hg])]

theorem dispatchMessageBody_hello_over_budget (d : Deps) (c : Connection)
    (header : ProtocolHeader) (r : Received)
    (hres : (r.resource_token || d.shouldBeInlined header.type) = true)
    (hck : (verifyChecksum d c header r.cksum_computed).2 = true)
    (hty : header.type = MessageType.HELLO)
    (hd : r.deserialized = some MessageType.HELLO)
    (hh : c.handshaken_ = false)
    (hg : c.is_gossip = false ∨ d.allowedOnGossipConnection MessageType.HELLO = true)
    (hdisp : r.disposition = Disposition.NORMAL)
    (hclient : c.peer_type_client = true) (hbudget : r.conn_budget_token = false) :
    dispatchMessageBody d c header r = (helloRefused c header, -1) := by
  have hck2 : verifyChecksum d (bodyAdmitted c header) header r.cksum_computed =
      (bodyAdmitted c header, true) := by
    apply verifyChecksum_pass
    rw [verifyChecksum_verdict_congr d (bodyAdmitted c header) c header _ rfl]
    exact hck
  have hval := validateReceivedMessage_pass d (bodyAdmitted c header) MessageType.HELLO hh hg
  have hhs : isHandshakeMessage header.type = true := by rw [hty]; rfl
  have hproc := processHandshakeMessage_over_budget d
    { bodyAdmitted c header with
      handshaken_ := true, first_attempt_ := false
      handshake_timeout_event_ := false } r hclient hbudget
  unfold dispatchMessageBody
  simp only []
  rw [if_neg (by
    intro h
    simp only [Bool.and_eq_true, Bool.not_eq_true'] at h
    rw [h.1, h.2] at hres
    cases hres)]
  unfold expectProtocolHeader
  unfold bodyAdmitted at hck2 hval hproc
  simp only [] at hck2 hval hproc ⊢
  rw [hck2]
  simp only [hd]
  rw [hval]
  simp only [hhs, if_true, hdisp]
  rw [hproc]
  rfl

/-- C22: on the accepting side, when the HELLO of a client peer is processed
and the external connection budget yields no token, the handshake does not
complete.  `processHandshakeMessage` fails with `err` = TOOMANY and
`handshaken_` false; `dispatchMessageBody` fails with it, leaving the
serialization queue and the trace as they were (nothing is serialized); and
the body branch of `onBytesAvailable` closes the connection with TOOMANY:
`isClosed()` holds, `handshaken_` is false, and all the close adds to the trace
are its callbacks with reason TOOMANY. -/
theorem hello_over_budget_closes (d : Deps) (c : Connection) (r : Received)
    (hopen : isClosed c = false) (hcl : c.closing_ = false)
    (hres : (r.resource_token || d.shouldBeInlined c.recv_message_ph_.type) = true)
    (hck : (verifyChecksum d c c.recv_message_ph_ r.cksum_computed).2 = true)
    (hty : c.recv_message_ph_.type = MessageType.HELLO)
    (hd : r.deserialized = some MessageType.HELLO)
    (hh : c.handshaken_ = false)
    (hg : c.is_gossip = false ∨ d.allowedOnGossipConnection MessageType.HELLO = true)
    (hdisp : r.disposition = Disposition.NORMAL)
    (hclient : c.peer_type_client = true) (hbudget : r.conn_budget_token = false) :
    (∀ c0 : Connection, c0.peer_type_client = true →
      (processHandshakeMessage d c0 MessageType.HELLO r).2 = false ∧
      (processHandshakeMessage d c0 MessageType.HELLO r).1.err = Status.TOOMANY ∧
      (processHandshakeMessage d c0 MessageType.HELLO r).1.handshaken_ = false ∧
      (processHandshakeMessage d c0 MessageType.HELLO r).1.serializeq_ = c0.serializeq_ ∧
      (processHandshakeMessage d c0 MessageType.HELLO r).1.trace = c0.trace) ∧
    (dispatchMessageBody d c c.recv_message_ph_ r).2 = -1 ∧
    (dispatchMessageBody d c c.recv_message_ph_ r).1.err = Status.TOOMANY ∧
    (dispatchMessageBody d c c.recv_message_ph_ r).1.handshaken_ = false ∧
    (dispatchMessageBody d c c.recv_message_ph_ r).1.serializeq_ = c.serializeq_ ∧
    (dispatchMessageBody d c c.recv_message_ph_ r).1.trace = c.trace ∧
    onMessageBody d c r =
      close d (dispatchMessageBody d c c.recv_message_ph_ r).1 Status.TOOMANY ∧
    isClosed (onMessageBody d c r) = true ∧
    (onMessageBody d c r).handshaken_ = false ∧
    (onMessageBody d c r).serializeq_ = [] ∧
    (onMessageBody d c r).trace = c.trace ++ closeEvents d c.core Status.TOOMANY := by
  have hdm := dispatchMessageBody_hello_over_budget d c c.recv_message_ph_ r hres hck hty hd
    hh hg hdisp hclient hbudget
  have hm : onMessageBody d c r =
      close d (helloRefused c c.recv_message_ph_) Status.TOOMANY := by
    unfold onMessageBody
    rw [hdm]
    simp only [show ((-1 : Int) = 0) = False from by simp, if_false]
    rw [onReadFailure_close d _ (by simp [helloRefused]) (by simp [helloRefused])
      (by simp [helloRefused]) (by simp [helloRefused]) (by simp [helloRefused])]
    rfl
  have hcore := close_core_open d (helloRefused c c.recv_message_ph_) Status.TOOMANY hcl hopen
  refine ⟨?_, by rw [hdm], by rw [hdm]; rfl, by rw [hdm]; rfl, by rw [hdm]; rfl,
    by rw [hdm]; rfl, by rw [hm, hdm], ?_, ?_, ?_, ?_⟩
  · intro c0 h0
    rw [processHandshakeMessage_over_budget d c0 r h0 hbudget]
    exact ⟨rfl, rfl, rfl, rfl, rfl⟩
  · rw [hm]
    exact isClosed_close d _ _ hcl
  · rw [hm]
    exact congrArg Core.handshaken_ hcore
  · rw [hm]
    exact congrArg Core.serializeq_ hcore
  · rw [hm]
    exact congrArg Core.trace hcore

theorem hello_over_budget_closes_witness :
    isClosed exampleHelloBody = false ∧ exampleHelloBody.peer_type_client = true ∧
    exampleHelloOverBudget.conn_budget_token = false ∧
    isClosed (onMessageBody exampleDeps exampleHelloBody exampleHelloOverBudget) = true ∧
    (onMessageBody exampleDeps exampleHelloBody exampleHelloOverBudget).trace =
      [Event.onClose 7 Status.TOOMANY] :=
  ⟨rfl, rfl, rfl,
    (hello_over_budget_closes exampleDeps exampleHelloBody exampleHelloOverBudget rfl rfl
      rfl rfl rfl rfl rfl (Or.inl rfl) rfl rfl rfl).2.2.2.2.2.2.2.1,
    (hello_over_budget_closes exampleDeps exampleHelloBody exampleHelloOverBudget rfl rfl
      rfl rfl rfl rfl rfl (Or.inl rfl) rfl rfl rfl).2.2.2.2.2.2.2.2.2.2⟩

theorem dispatchMessageBody_no_token (d : Deps) (c : Connection)
    (header : ProtocolHeader) (r : Received)
    (htok : r.resource_token = false) (hinl : d.shouldBeInlined header.type = false) :
    dispatchMessageBody d c header r = (deferredReceipt c header, -1) := by
  unfold dispatchMessageBody deferredReceipt
  simp only []
  rw [if_pos (by simp [htok, hinl])]
  split <;> rfl

theorem readUnit_no_token (d : Deps) (c : Connection) (inbuf : Inbuf) (bytes_cached : Nat)
    (hexp : c.expecting_header_ = false)
    (hpend : c.msg_pending_processing_ = none)
    (hpos : 0 < bytesExpected d c) (havail : bytesExpected d c ≤ inbuf.length)
    (htok : (inbuf.bodies inbuf.bodies_dispatched).resource_token = false)
    (hinl : d.shouldBeInlined c.recv_message_ph_.type = false) :
    readUnit d c inbuf bytes_cached =
      (deferredReceipt { c with msg_pending_processing_ := some (bytesExpected d c) }
          c.recv_message_ph_,
        { inbuf with
          length := inbuf.length - bytesExpected d c
          bodies_dispatched := inbuf.bodies_dispatched + 1 }, -1) := by
  have hmin : min inbuf.length (bytesExpected d c) = bytesExpected d c :=
    Nat.min_eq_right havail
  unfold readUnit
  rw [if_neg (by simp [hexp])]
  simp only [hpend, hmin, if_pos hpos]
  rw [dispatchMessageBody_no_token d _ _ _ htok hinl]
  rfl

theorem onReadFailure_nobufs (d : Deps) (c : Connection) (h : c.err = Status.NOBUFS) :
    onReadFailure d c = { c with read_more_ := true } := by
  unfold onReadFailure
  rw [if_pos h]

theorem deferredReceipt_err (c : Connection) (header : ProtocolHeader) :
    (deferredReceipt c header).err = Status.NOBUFS := by
  unfold deferredReceipt
  split <;> rfl

theorem onBytesAvailable_no_token (d : Deps) (c : Connection) (inbuf : Inbuf)
    (hexp : c.expecting_header_ = false)
    (hpend : c.msg_pending_processing_ = none)
    (hpos : 0 < bytesExpected d c) (havail : bytesExpected d c ≤ inbuf.length)
    (hmax : 0 < d.incoming_messages_max_per_socket)
    (htok : (inbuf.bodies inbuf.bodies_dispatched).resource_token = false)
    (hinl : d.shouldBeInlined c.recv_message_ph_.type = false) :
    onBytesAvailable d c inbuf =
      { conn :=
          { deferredReceipt { c with msg_pending_processing_ := some (bytesExpected d c) }
              c.recv_message_ph_ with read_more_ := true }
        inbuf :=
          { inbuf with
            length := inbuf.length - bytesExpected d c
            bodies_dispatched := inbuf.bodies_dispatched + 1 }
        i := 0, loop_end := LoopEnd.failed } := by
  unfold onBytesAvailable
  simp only [hpend, Option.getD_none, Nat.add_zero]
  rw [onBytesAvailableLoop]
  rw [if_pos havail, if_pos (by simpa using hmax)]
  have hr := readUnit_no_token d c inbuf 0 hexp hpend hpos havail htok hinl
  simp only [hr]
  rw [if_pos (by decide)]
  rw [onReadFailure_nobufs d _ (deferredReceipt_err _ _)]

theorem bytesExpected_congr (d : Deps) (c1 c2 : Connection)
    (h1 : c1.recv_message_ph_ = c2.recv_message_ph_) (h2 : c1.proto_ = c2.proto_)
    (h3 : c1.expecting_header_ = c2.expecting_header_) :
    bytesExpected d c1 = bytesExpected d c2 := by
  unfold bytesExpected
  rw [h1, h2, h3]

/-- C24: when `dispatchMessageBody` gets no resource token for a received
message whose type is not processed inline, the message is deferred, not
dropped.  The call fails with `err` = NOBUFS whatever the body would
deserialize to, and changes nothing but the stored header and, on a new-style
connection, the retry timer it schedules in place of the read callback.  The
invocation of `onBytesAvailable` that took the body out of the input buffer
stops there: the connection stays open, the body stays in
`msg_pending_processing_` with the pipeline still expecting it,
`num_messages_received_` and `num_bytes_received_` are unchanged, and
`read_more_` is scheduled. -/
theorem no_resource_token_defers (d : Deps) (c : Connection) (inbuf : Inbuf)
    (hopen : isClosed c = false)
    (hexp : c.expecting_header_ = false)
    (hpend : c.msg_pending_processing_ = none)
    (hpos : 0 < bytesExpected d c) (havail : bytesExpected d c ≤ inbuf.length)
    (hmax : 0 < d.incoming_messages_max_per_socket)
    (htok : (inbuf.bodies inbuf.bodies_dispatched).resource_token = false)
    (hinl : d.shouldBeInlined c.recv_message_ph_.type = false) :
    (∀ (c0 : Connection) (header : ProtocolHeader) (r : Received),
      r.resource_token = false → d.shouldBeInlined header.type = false →
      dispatchMessageBody d c0 header r = (deferredReceipt c0 header, -1) ∧
      (dispatchMessageBody d c0 header r).1.err = Status.NOBUFS ∧
      (c0.legacy_connection_ = false →
        (dispatchMessageBody d c0 header r).1.retry_receipt_of_message_ = true)) ∧
    (onBytesAvailable d c inbuf).loop_end = LoopEnd.failed ∧
    (onBytesAvailable d c inbuf).conn.err = Status.NOBUFS ∧
    isClosed (onBytesAvailable d c inbuf).conn = false ∧
    (onBytesAvailable d c inbuf).conn.msg_pending_processing_ = some (bytesExpected d c) ∧
    (onBytesAvailable d c inbuf).conn.expecting_header_ = false ∧
    (onBytesAvailable d c inbuf).conn.recv_message_ph_ = c.recv_message_ph_ ∧
    bytesExpected d (onBytesAvailable d c inbuf).conn = bytesExpected d c ∧
    (onBytesAvailable d c inbuf).conn.num_messages_received_ = c.num_messages_received_ ∧
    (onBytesAvailable d c inbuf).conn.num_bytes_received_ = c.num_bytes_received_ ∧
    (onBytesAvailable d c inbuf).conn.read_more_ = true := by
  have hb := onBytesAvailable_no_token d c inbuf hexp hpend hpos havail hmax htok hinl
  have hfield : ∀ {α : Type} (f : Connection → α) (c0 : Connection) (h : ProtocolHeader),
      (∀ x y z w, f { c0 with
        recv_message_ph_ := x, err := y
        retry_receipt_of_message_ := z, read_cb_installed := w } = f c0) →
      (∀ x y, f { c0 with recv_message_ph_ := x, err := y } = f c0) →
      f (deferredReceipt c0 h) = f c0 := by
    intro α f c0 h h1 h2
    unfold deferredReceipt
    split
    · exact h1 _ _ _ _
    · exact h2 _ _
  refine ⟨?_, by rw [hb], ?_, ?_, ?_, ?_, ?_, ?_, ?_, ?_, by rw [hb]⟩
  · intro c0 header r h1 h2
    have he := dispatchMessageBody_no_token d c0 header r h1 h2
    refine ⟨he, by rw [he]; exact deferredReceipt_err _ _, ?_⟩
    intro hl
    rw [he]
    unfold deferredReceipt
    rw [if_pos (by simp [hl])]
  · rw [hb]
    exact deferredReceipt_err _ _
  · rw [hb]
    show isClosed (deferredReceipt _ _) = false
    rw [hfield isClosed _ _ (fun _ _ _ _ => rfl) (fun _ _ => rfl)]
    exact hopen
  · rw [hb]
    show (deferredReceipt _ _).msg_pending_processing_ = _
    rw [hfield Connection.msg_pending_processing_ _ _ (fun _ _ _ _ => rfl) (fun _ _ => rfl)]
  · rw [hb]
    show (deferredReceipt _ _).expecting_header_ = _
    rw [hfield Connection.expecting_header_ _ _ (fun _ _ _ _ => rfl) (fun _ _ => rfl)]
    exact hexp
  · rw [hb]
    show (deferredReceipt _ _).recv_message_ph_ = _
    unfold deferredReceipt
    split <;> rfl
  · apply bytesExpected_congr
    · rw [hb]
      show (deferredReceipt _ _).recv_message_ph_ = _
      unfold deferredReceipt
      split <;> rfl
    · rw [hb]
      show (deferredReceipt _ _).proto_ = _
      rw [hfield Connection.proto_ _ _ (fun _ _ _ _ => rfl) (fun _ _ => rfl)]
    · rw [hb]
      show (deferredReceipt _ _).expecting_header_ = _
      rw [hfield Connection.expecting_header_ _ _ (fun _ _ _ _ => rfl) (fun _ _ => rfl)]
  · rw [hb]
    show (deferredReceipt _ _).num_messages_received_ = _
    rw [hfield Connection.num_messages_received_ _ _ (fun _ _ _ _ => rfl) (fun _ _ => rfl)]
  · rw [hb]
    show (deferredReceipt _ _).num_bytes_received_ = _
    rw [hfield Connection.num_bytes_received_ _ _ (fun _ _ _ _ => rfl) (fun _ _ => rfl)]

theorem no_resource_token_defers_witness :
    isClosed exampleAwaitingBody = false ∧
    bytesExpected exampleDeps exampleAwaitingBody = 10 ∧
    (exampleNoToken.bodies 0).resource_token = false ∧
    (onBytesAvailable exampleDeps exampleAwaitingBody exampleNoToken).conn.err =
      Status.NOBUFS ∧
    isClosed (onBytesAvailable exampleDeps exampleAwaitingBody exampleNoToken).conn = false ∧
    (onBytesAvailable exampleDeps exampleAwaitingBody exampleNoToken).conn.msg_pending_processing_ =
      some 10 :=
  ⟨rfl, by decide, rfl,
    (no_resource_token_defers exampleDeps exampleAwaitingBody exampleNoToken rfl rfl rfl
      (by decide) (by decide) (by decide) rfl rfl).2.2.1,
    (no_resource_token_defers exampleDeps exampleAwaitingBody exampleNoToken rfl rfl rfl
      (by decide) (by decide) (by decide) rfl rfl).2.2.2.1,
    ((no_resource_token_defers exampleDeps exampleAwaitingBody exampleNoToken rfl rfl rfl
      (by decide) (by decide) (by decide) rfl rfl).2.2.2.2.1).trans
      (congrArg some (by decide))⟩
/-! ## Callbacks of a close -/

theorem Grew.refl (c : Connection) : Grew c c [] :=
  ⟨(List.append_nil _).symm, (List.append_nil _).symm, rfl⟩

theorem Grew.of_eq {c c1 c2 : Connection} {evs : List Event} (h : Grew c c1 evs)
    (ht : c2.trace = c1.trace) (hv : c2.callback_views = c1.callback_views)
    (hw : c2.view = c1.view) : Grew c c2 evs :=
  ⟨ht.trans h.1, hv.trans h.2.1, hw.trans h.2.2⟩

theorem Grew.callbacks {c c1 c2 : Connection} {evs : List Event} (h : Grew c c1 evs)
    (l : List Event) (ht : c2.trace = c1.trace ++ l)
    (hv : c2.callback_views = c1.callback_views ++ l.map (fun _ => c1.view))
    (hw : c2.view = c1.view) : Grew c c2 (evs ++ l) := by
  refine ⟨?_, ?_, hw.trans h.2.2⟩
  · rw [ht, h.1, List.append_assoc]
  · rw [hv, h.2.1, h.2.2, List.map_append, List.append_assoc]

theorem Grew.onSent (d : Deps) {c c1 : Connection} {evs : List Event} (h : Grew c c1 evs)
    (e : Envelope) (r : Status) (cm : CompletionMethod) :
    Grew c (onSent d c1 e r cm)
      (evs ++ if d.shuttingDown then [] else [Event.onSent e.id r cm]) := by
  unfold LogDevice.onSent
  cases d.shuttingDown
  · exact h.callbacks [Event.onSent e.id r cm] rfl rfl rfl
  · simpa using h

theorem Grew.onSentAll (d : Deps) (r : Status) (q : List Envelope) :
    ∀ {c c1 : Connection} {evs : List Event}, Grew c c1 evs →
      Grew c (onSentAll d c1 q r)
        (evs ++ if d.shuttingDown then []
          else q.map (fun e => Event.onSent e.id r CompletionMethod.IMMEDIATE)) := by
  induction q with
  | nil =>
    intro c c1 evs h
    cases d.shuttingDown <;> simpa [LogDevice.onSentAll] using h
  | cons e q ih =>
    intro c c1 evs h
    have h2 := ih (h.onSent d e r CompletionMethod.IMMEDIATE)
    simp only [LogDevice.onSentAll, List.foldl_cons] at h2 ⊢
    cases hsd : d.shuttingDown
    · simpa [hsd] using h2
    · simpa [hsd] using h2

theorem grew_tail (c0 x : Connection) (evs : List Event) (l1 l2 : List Nat)
    (f1 f2 : Nat → Event) (h : Grew c0 x evs) :
    Grew c0
      { x with
        drain_pos_ := x.next_pos_
        trace := (x.trace ++ l1.map f1) ++ l2.map f2
        callback_views :=
          (x.callback_views ++
            l1.map (fun _ => Connection.view { x with drain_pos_ := x.next_pos_ })) ++
          l2.map (fun _ => Connection.view { x with
            drain_pos_ := x.next_pos_
            trace := x.trace ++ l1.map f1
            callback_views := x.callback_views ++
              l1.map (fun _ => Connection.view { x with drain_pos_ := x.next_pos_ }) }) }
      (evs ++ l1.map f1 ++ l2.map f2) := by
  refine ⟨?_, ?_, ?_⟩
  · show (x.trace ++ l1.map f1) ++ l2.map f2 = c0.trace ++ (evs ++ l1.map f1 ++ l2.map f2)
    rw [h.1]
    simp
  · show (x.callback_views ++ l1.map (fun _ => x.view)) ++ l2.map (fun _ => x.view) =
      c0.callback_views ++ (evs ++ l1.map f1 ++ l2.map f2).map (fun _ => c0.view)
    rw [h.2.1, h.2.2]
    simp [List.map_map, Function.comp_def, Nat.add_assoc]
  · show x.view = c0.view
    exact h.2.2

theorem clearConnQueues_grew (d : Deps) (c c0 : Connection) (r : Status)
    (hc0 : c0 = { c with
        pendingq_ := [], serializeq_ := [], sendq_ := []
        on_close_ := [], pending_bw_cbs_ := [] }) :
    Grew c0 (clearConnQueues d c r) (closeEvents d c.core r) := by
  have h2 := Grew.onSentAll d r c.sendq_ (Grew.onSentAll d r c.serializeq_ (Grew.refl c0))
  have h3 : Grew c0 (if !d.shuttingDown then
      onSentAll d (onSentAll d (onSentAll d c0 c.serializeq_ r) c.sendq_ r)
        (PendingQueue.trimAll c.pendingq_) r
      else onSentAll d (onSentAll d c0 c.serializeq_ r) c.sendq_ r)
      (if d.shuttingDown then []
        else (c.serializeq_ ++ c.sendq_ ++ c.pendingq_).map
          (fun e => Event.onSent e.id r CompletionMethod.IMMEDIATE)) := by
    have h3 := Grew.onSentAll d r c.pendingq_ h2
    cases hsd : d.shuttingDown
    · simpa [hsd, PendingQueue.trimAll] using h3
    · simpa [hsd] using h2
  have hev : closeEvents d c.core r =
      (if d.shuttingDown then []
        else (c.serializeq_ ++ c.sendq_ ++ c.pendingq_).map
          (fun e => Event.onSent e.id r CompletionMethod.IMMEDIATE)) ++
        c.pending_bw_cbs_.map (fun cb => Event.bwCancelled cb r) ++
        c.on_close_.map (fun cb => Event.onClose cb r) := rfl
  rw [hev]
  have h4 := grew_tail c0 _ _ c.pending_bw_cbs_ c.on_close_
    (fun cb => Event.bwCancelled cb r) (fun cb => Event.onClose cb r) h3
  unfold clearConnQueues
  simp only []
  rw [← hc0]
  exact h4

theorem endStreamRewind_frame (c : Connection) :
    closeFrame (endStreamRewind c) = closeFrame c := by
  unfold endStreamRewind
  split <;> rfl

theorem closeDeferredEvents_frame (d : Deps) (c : Connection) :
    closeFrame (closeDeferredEvents d c) = closeFrame c := by
  unfold closeDeferredEvents
  split
  · split <;> rfl
  · rfl

theorem closeTransport_frame (d : Deps) (c : Connection) :
    closeFrame (closeTransport d c) = closeFrame c := by
  unfold closeTransport SocketWriteCallback.clear closeFrame
  simp only []
  split_ifs <;> rfl

theorem closeTransport_kept (d : Deps) (c : Connection) :
    closeFrame (closeTransport d (closeDeferredEvents d (endStreamRewind c))) =
      closeFrame c :=
  (closeTransport_frame d _).trans
    ((closeDeferredEvents_frame d _).trans (endStreamRewind_frame c))

theorem closeOpen_views (d : Deps) (c : Connection) (r : Status) :
    (closeOpen d c r).trace = c.trace ++ closeEvents d c.core r ∧
    (closeOpen d c r).callback_views =
      c.callback_views ++ (closeEvents d c.core r).map (fun _ => closedView) := by
  have hk := closeTransport_kept d { c with conn_closed_ := some true }
  generalize hc3 : closeTransport d (closeDeferredEvents d
    (endStreamRewind { c with conn_closed_ := some true })) = c3 at hk
  simp only [closeFrame, Prod.mk.injEq] at hk
  obtain ⟨k1, k2, k3, k4, k5, k6, k7, k8⟩ := hk
  have hco : closeOpen d c r = clearConnQueues d (markDisconnectedOnClose c3) r := by
    rw [← hc3]
    rfl
  have hev : closeEvents d (markDisconnectedOnClose c3).core r = closeEvents d c.core r := by
    unfold closeEvents
    show (if d.shuttingDown then []
      else (c3.serializeq_ ++ c3.sendq_ ++ c3.pendingq_).map _) ++ c3.pending_bw_cbs_.map _ ++
        c3.on_close_.map _ = _
    rw [k4, k5, k6, k7, k8]
    rfl
  have hg := clearConnQueues_grew d (markDisconnectedOnClose c3) _ r rfl
  rw [hev] at hg
  have hview : ({ markDisconnectedOnClose c3 with
      pendingq_ := [], serializeq_ := [], sendq_ := []
      on_close_ := [], pending_bw_cbs_ := [] } : Connection).view = closedView := by
    show ({ pendingq_ := [], serializeq_ := [], sendq_ := [], connected_ := false
            handshaken_ := false
            closed := isClosed (markDisconnectedOnClose c3) } : CallbackView) = closedView
    have : isClosed (markDisconnectedOnClose c3) = true := by
      show (match c3.conn_closed_ with
        | some false => false
        | _ => true) = true
      rw [k3]
    rw [this]
    rfl
  rw [hco]
  refine ⟨?_, ?_⟩
  · rw [hg.1]
    show c3.trace ++ _ = _
    rw [k1]
  · rw [hg.2.1, hview]
    show c3.callback_views ++ _ = _
    rw [k2]

theorem close_views (d : Deps) (c : Connection) (r : Status) :
    ∃ evs : List Event,
      (close d c r).trace = c.trace ++ evs ∧
      (close d c r).callback_views = c.callback_views ++ evs.map (fun _ => closedView) ∧
      ∀ ev ∈ evs, ev.isCallback = true := by
  cases hcl : c.closing_
  · cases hc : isClosed c
    · refine ⟨closeEvents d c.core r, ?_, ?_, ?_⟩
      · have := congrArg Core.trace (close_core_open d c r hcl hc)
        exact this
      · have hc2 : isClosed { c with closing_ := true } = false := hc
        simp only [close, hcl, hc2, Bool.false_eq_true, if_false]
        exact (closeOpen_views d { c with closing_ := true } r).2
      · intro ev hev
        unfold closeEvents at hev
        simp only [List.mem_append, List.mem_map] at hev
        rcases hev with (hev | ⟨cb, _, rfl⟩) | ⟨cb, _, rfl⟩
        · split at hev
          · cases hev
          · simp only [List.mem_map] at hev
            obtain ⟨e, _, rfl⟩ := hev
            rfl
        · rfl
        · rfl
    · rw [close_of_isClosed d c r hcl hc]
      exact ⟨[], (List.append_nil _).symm, (List.append_nil _).symm, fun _ h => (by cases h)⟩
  · rw [close_of_closing d c r hcl]
    exact ⟨[], (List.append_nil _).symm, (List.append_nil _).symm, fun _ h => (by cases h)⟩

/-- C23: during close, every completion callback, bandwidth callback and
on-close callback runs only after the three message queues have been moved out
of the connection.  Every event a close adds to the trace is such a callback,
each has its entry in `callback_views`, the connection as the callback finds
it when it is invoked, and each of these views shows `pendingq_`,
`serializeq_` and `sendq_` empty, `connected_` and `handshaken_` false and
`isClosed()` true. -/
theorem close_callbacks_after_queues_moved (d : Deps) (c : Connection) (reason : Status) :
    (close d c reason).trace = c.trace ++ newEvents c (close d c reason) ∧
    (close d c reason).callback_views =
      c.callback_views ++ newViews c (close d c reason) ∧
    (∀ ev ∈ newEvents c (close d c reason), ev.isCallback = true) ∧
    (newViews c (close d c reason)).length = (newEvents c (close d c reason)).length ∧
    ∀ v ∈ newViews c (close d c reason),
      v.pendingq_ = [] ∧ v.serializeq_ = [] ∧ v.sendq_ = [] ∧
      v.connected_ = false ∧ v.handshaken_ = false ∧ v.closed = true := by
  obtain ⟨evs, h1, h2, h3⟩ := close_views d c reason
  have e1 : newEvents c (close d c reason) = evs := by
    unfold newEvents
    rw [h1, List.drop_left]
  have e2 : newViews c (close d c reason) = evs.map (fun _ => closedView) := by
    unfold newViews
    rw [h2, List.drop_left]
  rw [e1, e2]
  refine ⟨h1, h2, h3, List.length_map _ _, ?_⟩
  intro v hv
  simp only [List.mem_map] at hv
  obtain ⟨_, _, rfl⟩ := hv
  exact ⟨rfl, rfl, rfl, rfl, rfl, rfl⟩

/-- On the open connection of the examples, with two envelopes in flight, one
pending and one on-close callback, a close runs four callbacks; each finds the
queues empty and the connection closed, while before the close the connection
showed its three envelopes. -/
theorem close_callbacks_example :
    exampleOpenConnection.view =
      { pendingq_ := [2], serializeq_ := [], sendq_ := [0, 1]
        connected_ := true, handshaken_ := true, closed := false } ∧
    newEvents exampleOpenConnection
        (close exampleDeps exampleOpenConnection Status.SHUTDOWN) =
      [Event.onSent 0 Status.SHUTDOWN CompletionMethod.IMMEDIATE,
        Event.onSent 1 Status.SHUTDOWN CompletionMethod.IMMEDIATE,
        Event.onSent 2 Status.SHUTDOWN CompletionMethod.IMMEDIATE,
        Event.onClose 7 Status.SHUTDOWN] ∧
    newViews exampleOpenConnection
        (close exampleDeps exampleOpenConnection Status.SHUTDOWN) =
      [closedView, closedView, closedView, closedView] := by
  decide
/-! ## Additivity of transport acknowledgements -/

theorem drainViews_sendq (v : CallbackView) (x : List Nat) (done rest : List Envelope) :
    drainViews { v with sendq_ := x } done rest = drainViews v done rest := by
  induction done with
  | nil => rfl
  | cons e done ih =>
    simp only [drainViews]
    rw [ih]

theorem drainViews_append (v : CallbackView) (done1 done2 rest : List Envelope) :
    drainViews v (done1 ++ done2) rest =
      drainViews v done1 (done2 ++ rest) ++ drainViews v done2 rest := by
  induction done1 with
  | nil => rfl
  | cons e done1 ih =>
    simp only [List.cons_append, drainViews, List.append_eq, ih, List.append_assoc]

theorem drainedPrefix_append_undrained (pos : Nat) (q : List Envelope) :
    drainedPrefix pos q ++ undrained pos q = q :=
  List.takeWhile_append_dropWhile _ q

theorem onBytesAdmittedToSendLoop_spec (d : Deps) (pos : Nat) :
    ∀ (q : List Envelope) (fuel : Nat) (c : Connection), c.sendq_ = q → q.length ≤ fuel →
      onBytesAdmittedToSendLoop d pos fuel c =
        completedOK d c (drainedPrefix pos q) (undrained pos q) := by
  intro q
  induction q with
  | nil =>
    intro fuel c hq _
    have hc : completedOK d c (drainedPrefix pos []) (undrained pos []) = c := by
      cases c
      simp only [completedOK, drainedPrefix, undrained, queueCost, drainViews] at hq ⊢
      subst hq
      simp
    rw [hc]
    cases fuel with
    | zero => rfl
    | succ f =>
      rw [onBytesAdmittedToSendLoop]
      simp only [hq]
  | cons e rest ih =>
    intro fuel c hq hlen
    cases fuel with
    | zero => simp at hlen
    | succ f =>
      have hlen2 : rest.length ≤ f := by simpa using hlen
      rw [onBytesAdmittedToSendLoop]
      simp only [hq]
      by_cases hp : e.drain_pos_ ≤ pos
      · rw [if_pos hp]
        have hs : ({ onSent d { c with sendq_ := rest } e Status.OK CompletionMethod.IMMEDIATE with
            num_messages_sent_ :=
              (onSent d { c with sendq_ := rest } e Status.OK
                CompletionMethod.IMMEDIATE).num_messages_sent_ + 1 } : Connection).sendq_ = rest := by
          show (onSent d { c with sendq_ := rest } e Status.OK CompletionMethod.IMMEDIATE).sendq_ = rest
          unfold onSent
          split <;> rfl
        rw [ih f _ hs hlen2]
        have ht : drainedPrefix pos (e :: rest) = e :: drainedPrefix pos rest := by
          simp [drainedPrefix, List.takeWhile_cons, hp]
        have hu : undrained pos (e :: rest) = undrained pos rest := by
          simp [undrained, List.dropWhile_cons, hp]
        rw [ht, hu]
        have hv : ∀ (p s x : List Nat) (b1 b2 b3 : Bool),
            drainViews (CallbackView.mk p s x b1 b2 b3) (e :: drainedPrefix pos rest)
              (undrained pos rest) =
            CallbackView.mk p s (queueIds rest) b1 b2 b3 ::
              drainViews (CallbackView.mk p s (queueIds rest) b1 b2 b3) (drainedPrefix pos rest)
                (undrained pos rest) := by
          intro p s x b1 b2 b3
          rw [drainViews_sendq (CallbackView.mk p s x b1 b2 b3) (queueIds rest)]
          simp only [drainViews, drainedPrefix_append_undrained]
        cases c
        simp only [completedOK, onSent, queueCost, Connection.view, isClosed]
        cases d.shuttingDown
        · simp [hv]
          omega
        · simp
          omega
      · rw [if_neg hp]
        have ht : drainedPrefix pos (e :: rest) = [] := by
          simp [drainedPrefix, List.takeWhile_cons, hp]
        have hu : undrained pos (e :: rest) = e :: rest := by
          simp [undrained, List.dropWhile_cons, hp]
        rw [ht, hu]
        cases c
        simp only [completedOK, queueCost, drainViews] at hq ⊢
        subst hq
        simp

theorem onBytesAdmittedToSend_spec (d : Deps) (c : Connection) (nbytes : Nat) :
    onBytesAdmittedToSend d c nbytes =
      { completedOK d c (drainedPrefix (c.drain_pos_ + nbytes) c.sendq_)
          (undrained (c.drain_pos_ + nbytes) c.sendq_) with
        drain_pos_ := c.drain_pos_ + nbytes
        noted_drained :=
          (completedOK d c (drainedPrefix (c.drain_pos_ + nbytes) c.sendq_)
            (undrained (c.drain_pos_ + nbytes) c.sendq_)).noted_drained +
            (if c.legacy_connection_ then nbytes else 0) } := by
  unfold onBytesAdmittedToSend
  simp only []
  rw [onBytesAdmittedToSendLoop_spec d _ c.sendq_ _ c rfl (Nat.le_refl _)]
  by_cases hl : c.legacy_connection_ = true
  · rw [if_pos hl]
    have h2 : ({ completedOK d c (drainedPrefix (c.drain_pos_ + nbytes) c.sendq_)
        (undrained (c.drain_pos_ + nbytes) c.sendq_) with
        drain_pos_ := c.drain_pos_ + nbytes } : Connection).legacy_connection_ = true := hl
    rw [if_pos h2]
    rfl
  · rw [if_neg hl]
    have h2 : ¬ ({ completedOK d c (drainedPrefix (c.drain_pos_ + nbytes) c.sendq_)
        (undrained (c.drain_pos_ + nbytes) c.sendq_) with
        drain_pos_ := c.drain_pos_ + nbytes } : Connection).legacy_connection_ = true := hl
    rw [if_neg h2]
    rfl

theorem drainedPrefix_add (pos n : Nat) (q : List Envelope) :
    drainedPrefix (pos + n) q =
      drainedPrefix pos q ++ drainedPrefix (pos + n) (undrained pos q) := by
  induction q with
  | nil => rfl
  | cons e rest ih =>
    by_cases h1 : e.drain_pos_ ≤ pos
    · have h2 : e.drain_pos_ ≤ pos + n := Nat.le_trans h1 (Nat.le_add_right _ _)
      have e1 : drainedPrefix (pos + n) (e :: rest) = e :: drainedPrefix (pos + n) rest := by
        simp [drainedPrefix, List.takeWhile_cons, h2]
      have e2 : drainedPrefix pos (e :: rest) = e :: drainedPrefix pos rest := by
        simp [drainedPrefix, List.takeWhile_cons, h1]
      have e3 : undrained pos (e :: rest) = undrained pos rest := by
        simp [undrained, List.dropWhile_cons, h1]
      rw [e1, e2, e3, ih]
      rfl
    · have e2 : drainedPrefix pos (e :: rest) = [] := by
        simp [drainedPrefix, List.takeWhile_cons, h1]
      have e3 : undrained pos (e :: rest) = e :: rest := by
        simp [undrained, List.dropWhile_cons, h1]
      rw [e2, e3]
      rfl

theorem undrained_add (pos n : Nat) (q : List Envelope) :
    undrained (pos + n) (undrained pos q) = undrained (pos + n) q := by
  induction q with
  | nil => rfl
  | cons e rest ih =>
    by_cases h1 : e.drain_pos_ ≤ pos
    · have h2 : e.drain_pos_ ≤ pos + n := Nat.le_trans h1 (Nat.le_add_right _ _)
      have e1 : undrained (pos + n) (e :: rest) = undrained (pos + n) rest := by
        simp [undrained, List.dropWhile_cons, h2]
      have e3 : undrained pos (e :: rest) = undrained pos rest := by
        simp [undrained, List.dropWhile_cons, h1]
      rw [e1, e3, ih]
    · have e3 : undrained pos (e :: rest) = e :: rest := by
        simp [undrained, List.dropWhile_cons, h1]
      rw [e3]

theorem queueCost_append (q1 q2 : List Envelope) :
    queueCost (q1 ++ q2) = queueCost q1 + queueCost q2 := by
  simp [queueCost]

theorem onBytesAdmittedToSend_add (d : Deps) (c : Connection) (a b : Nat) :
    onBytesAdmittedToSend d (onBytesAdmittedToSend d c a) b =
      onBytesAdmittedToSend d c (a + b) := by
  have hp := drainedPrefix_add (c.drain_pos_ + a) b c.sendq_
  have hu := undrained_add (c.drain_pos_ + a) b c.sendq_
  rw [Nat.add_assoc] at hp hu
  rw [onBytesAdmittedToSend_spec d c (a + b), hp, ← hu]
  rw [onBytesAdmittedToSend_spec d _ b, onBytesAdmittedToSend_spec d c a]
  have hv : ∀ (p s : List Nat) (b1 b2 b3 : Bool),
      drainViews (CallbackView.mk p s
          (queueIds (undrained (c.drain_pos_ + a) c.sendq_)) b1 b2 b3)
        (drainedPrefix (c.drain_pos_ + (a + b)) (undrained (c.drain_pos_ + a) c.sendq_))
        (undrained (c.drain_pos_ + (a + b)) (undrained (c.drain_pos_ + a) c.sendq_)) =
      drainViews (CallbackView.mk p s (queueIds c.sendq_) b1 b2 b3)
        (drainedPrefix (c.drain_pos_ + (a + b)) (undrained (c.drain_pos_ + a) c.sendq_))
        (undrained (c.drain_pos_ + (a + b)) (undrained (c.drain_pos_ + a) c.sendq_)) := by
    intro p s b1 b2 b3
    exact (drainViews_sendq (CallbackView.mk p s (queueIds c.sendq_) b1 b2 b3) _ _ _)
  cases c
  simp only [completedOK, Connection.view, isClosed, Nat.add_assoc] at hv ⊢
  cases d.shuttingDown <;>
    simp [queueCost_append, Nat.add_assoc, List.map_append, drainViews_append,
      drainedPrefix_append_undrained, hv] <;> split <;> omega

/-- C29: `onBytesAdmittedToSend` is additive.  Calling it with `a` and then
with `b` leaves the same connection as one call with `a + b`: the same
completion callbacks in the same order, the same `sendq_`, `drain_pos_` and
`num_messages_sent_` (and this for all `a` and `b`, also beyond
`next_pos_ - drain_pos_`).  In every call the envelopes taken off `sendq_` are
its longest prefix whose drain positions are at most the new `drain_pos_`:
they are a prefix, each has its drain position at or below the new
`drain_pos_`, the envelope left at the head of `sendq_` has not, they are
counted in `num_messages_sent_`, and unless the worker is shutting down each
is completed with OK, in queue order. -/
theorem onBytesAdmittedToSend_additive (d : Deps) (c : Connection) (a b : Nat) :
    onBytesAdmittedToSend d (onBytesAdmittedToSend d c a) b =
      onBytesAdmittedToSend d c (a + b) ∧
    ∀ (c0 : Connection) (n : Nat),
      (onBytesAdmittedToSend d c0 n).drain_pos_ = c0.drain_pos_ + n ∧
      drainedPrefix (c0.drain_pos_ + n) c0.sendq_ ++ (onBytesAdmittedToSend d c0 n).sendq_ =
        c0.sendq_ ∧
      (∀ e ∈ drainedPrefix (c0.drain_pos_ + n) c0.sendq_, e.drain_pos_ ≤ c0.drain_pos_ + n) ∧
      (∀ e ∈ (onBytesAdmittedToSend d c0 n).sendq_.head?, c0.drain_pos_ + n < e.drain_pos_) ∧
      (onBytesAdmittedToSend d c0 n).num_messages_sent_ =
        c0.num_messages_sent_ + (drainedPrefix (c0.drain_pos_ + n) c0.sendq_).length ∧
      (d.shuttingDown = false →
        (onBytesAdmittedToSend d c0 n).trace =
          c0.trace ++ (drainedPrefix (c0.drain_pos_ + n) c0.sendq_).map
            (fun e => Event.onSent e.id Status.OK CompletionMethod.IMMEDIATE)) := by
  refine ⟨onBytesAdmittedToSend_add d c a b, ?_⟩
  intro c0 n
  rw [onBytesAdmittedToSend_spec]
  refine ⟨rfl, drainedPrefix_append_undrained _ _, ?_, ?_, rfl, ?_⟩
  · intro e he
    have := List.mem_takeWhile_imp he
    simpa using this
  · intro e he
    show c0.drain_pos_ + n < e.drain_pos_
    have he2 : e ∈ (undrained (c0.drain_pos_ + n) c0.sendq_).head? := he
    unfold undrained at he2
    have h3 := List.head?_dropWhile_not (fun e => decide (e.drain_pos_ ≤ c0.drain_pos_ + n))
      c0.sendq_
    rw [Option.mem_def] at he2
    rw [he2] at h3
    simp only [Option.all_some, Bool.not_eq_true', decide_eq_false_iff_not, Nat.not_le] at h3
    simpa using h3
  · intro hsd
    show (completedOK d c0 (drainedPrefix (c0.drain_pos_ + n) c0.sendq_)
      (undrained (c0.drain_pos_ + n) c0.sendq_)).trace = _
    unfold completedOK
    simp [hsd]
/-! ## Socket health -/

theorem getSlowSocketReason_range (d : Deps) (s : HealthStats) (tcp_info : Option TCPInfo) :
    (getSlowSocketReason d s tcp_info).2 = SocketDrainStatusType.NET_SLOW ∨
    (getSlowSocketReason d s tcp_info).2 = SocketDrainStatusType.RECV_SLOW ∨
    (getSlowSocketReason d s tcp_info).2 = SocketDrainStatusType.IDLE := by
  unfold getSlowSocketReason
  cases tcp_info with
  | none => exact Or.inl rfl
  | some t =>
    simp only []
    split_ifs <;> simp

theorem getSlowSocketReason_active_time (d : Deps) (s : HealthStats)
    (tcp_info : Option TCPInfo) (x : Nat) :
    (getSlowSocketReason d { s with active_time_ := x } tcp_info).2 =
      (getSlowSocketReason d s tcp_info).2 := by
  unfold getSlowSocketReason
  cases tcp_info with
  | none => rfl
  | some t =>
    simp only []
    split_ifs <;> rfl

theorem checkSocketHealth_decision (d : Deps) (c : Connection) (s : HealthStats)
    (now : Nat) (age : Envelope → Nat) (tcp_info : Option TCPInfo) :
    (checkSocketHealth d c s now age tcp_info).2 =
      if c.handshaken_ = false ∨ d.socket_health_check_period = 0 then
        SocketDrainStatusType.UNKNOWN
      else if frontAgeMs age c > d.max_time_to_allow_socket_drain then
        SocketDrainStatusType.STALLED
      else if d.toDouble (activeTime s now) ≤
          d.toDouble (d.toDouble
            ((d.socket_health_check_period * d.min_socket_idle_threshold_percent : Nat) : ℚ) /
              100) then
        SocketDrainStatusType.IDLE
      else if d.toDouble (d.toDouble d.min_bytes_to_drain_per_second / 1000) ≤
          d.toDouble (d.toDouble (d.toDouble s.num_bytes_sent_ * 1) /
            d.toDouble d.socket_health_check_period) then
        SocketDrainStatusType.ACTIVE
      else (getSlowSocketReason d s tcp_info).2 := by
  have key : ∀ (a : Nat) (s1 : HealthStats),
      (getSlowSocketReason d s1 tcp_info).2 = (getSlowSocketReason d s tcp_info).2 →
      ((match (if a > d.max_time_to_allow_socket_drain then
            (s1, SocketDrainStatusType.STALLED)
          else if (!decide (d.toDouble (d.toDouble
              ((d.socket_health_check_period * d.min_socket_idle_threshold_percent : Nat) : ℚ) /
                100) < d.toDouble s1.active_time_)) = true then
            (s1, SocketDrainStatusType.IDLE)
          else if d.toDouble (d.toDouble (d.toDouble s1.num_bytes_sent_ * 1) /
              d.toDouble d.socket_health_check_period) <
              d.toDouble (d.toDouble d.min_bytes_to_drain_per_second / 1000) then
            getSlowSocketReason d s1 tcp_info
          else (s1, SocketDrainStatusType.ACTIVE) : HealthStats × SocketDrainStatusType) with
        | (s2, decision) =>
          (resetHealthCounters d c
            (if (decide (decision = SocketDrainStatusType.ACTIVE) ||
                decide (decision = SocketDrainStatusType.UNKNOWN)) = true then
              { s2 with busy_time_ := s2.busy_time_ + s2.active_time_ }
            else s2) now, decision)).2 : SocketDrainStatusType) =
        if a > d.max_time_to_allow_socket_drain then SocketDrainStatusType.STALLED
        else if d.toDouble s1.active_time_ ≤ d.toDouble (d.toDouble
            ((d.socket_health_check_period * d.min_socket_idle_threshold_percent : Nat) : ℚ) /
              100) then
          SocketDrainStatusType.IDLE
        else if d.toDouble (d.toDouble d.min_bytes_to_drain_per_second / 1000) ≤
            d.toDouble (d.toDouble (d.toDouble s1.num_bytes_sent_ * 1) /
              d.toDouble d.socket_health_check_period) then
          SocketDrainStatusType.ACTIVE
        else (getSlowSocketReason d s tcp_info).2 := by
    intro a s1 hg
    by_cases h2 : a > d.max_time_to_allow_socket_drain
    · rw [if_pos h2, if_pos h2]
    · rw [if_neg h2, if_neg h2]
      by_cases h3 : d.toDouble s1.active_time_ ≤ d.toDouble (d.toDouble
          ((d.socket_health_check_period * d.min_socket_idle_threshold_percent : Nat) : ℚ) /
            100)
      · rw [if_pos h3, if_pos (by simpa using h3)]
      · rw [if_neg h3, if_neg (by simpa using h3)]
        by_cases h4 : d.toDouble (d.toDouble d.min_bytes_to_drain_per_second / 1000) ≤
            d.toDouble (d.toDouble (d.toDouble s1.num_bytes_sent_ * 1) /
              d.toDouble d.socket_health_check_period)
        · rw [if_pos h4, if_neg (not_lt.mpr h4)]
        · rw [if_neg h4, if_pos (not_le.mp h4)]
          exact hg
  have hf : frontAgeMs age c =
      match c.sendq_ with
      | front :: _ => age front / 1000
      | [] => 0 := by
    unfold frontAgeMs
    cases c.sendq_ <;> rfl
  rw [hf]
  unfold checkSocketHealth activeTime
  by_cases h1 : c.handshaken_ = false ∨ d.socket_health_check_period = 0
  · rw [if_pos h1]
    simp only []
    rw [if_pos (by rcases h1 with h | h <;> simp [h])]
  · rw [if_neg h1]
    simp only []
    rw [if_neg (by
      simp only [not_or, Bool.not_eq_false] at h1
      simp [h1.1, h1.2])]
    cases hst : s.active_start_time_ with
    | none => exact key _ s rfl
    | some start =>
      have hg := getSlowSocketReason_active_time d s tcp_info (s.active_time_ + (now - start))
      rw [hst] at hg
      exact key _ _ hg

/-- The front of `sendq_` is its oldest envelope when no envelope behind it is
older, as when the envelopes were released in the order of their creation. -/
theorem frontAgeMs_eq_oldestAgeMs (age : Envelope → Nat) (c : Connection)
    (front : Envelope) (rest : List Envelope) (hq : c.sendq_ = front :: rest)
    (hold : ∀ e ∈ rest, age e ≤ age front) :
    frontAgeMs age c = oldestAgeMs age c := by
  unfold frontAgeMs oldestAgeMs
  rw [hq]
  simp only [List.head?_cons, List.map_cons, List.foldr_cons]
  have h : ∀ l : List Envelope, (∀ e ∈ l, age e ≤ age front) →
      (l.map (fun e => age e / 1000)).foldr max 0 ≤ age front / 1000 := by
    intro l
    induction l with
    | nil => intro _; exact Nat.zero_le _
    | cons a l ih =>
      intro hl
      simp only [List.map_cons, List.foldr_cons]
      exact max_le (Nat.div_le_div_right (hl a (List.mem_cons_self a l)))
        (ih (fun e he => hl e (List.mem_cons_of_mem a he)))
  exact (max_eq_left (h rest hold)).symm

/-- C26 as stated fails: on a handshaken connection envelope 1 is created before
envelope 2 and released after it, so `sendq_` holds 2 before 1.  The oldest
message of `sendq_` is 200000 ms old, above `max_time_to_allow_socket_drain` of
180000 ms, but the message at the front is 1 ms old and the decision is IDLE,
not STALLED. -/
theorem front_of_sendq_not_oldest :
    (run exampleDeps (Connection.outgoing exampleDeps true false false)
      exampleOutOfOrder).map (fun c => (c.handshaken_, queueIds c.sendq_)) =
      some (true, [2, 1]) ∧
    oldestAgeMs exampleAge exampleOutOfOrderSent = 200000 ∧
    exampleDeps.max_time_to_allow_socket_drain = 180000 ∧
    exampleDeps.socket_health_check_period = 60000 ∧
    frontAgeMs exampleAge exampleOutOfOrderSent = 1 ∧
    (checkSocketHealth exampleDeps exampleOutOfOrderSent exampleHealthStats 20000
      exampleAge none).2 = SocketDrainStatusType.IDLE := by
  have hh : exampleOutOfOrderSent.handshaken_ = true := by decide
  have hf : frontAgeMs exampleAge exampleOutOfOrderSent = 1 := by decide
  refine ⟨by decide, by decide, rfl, rfl, hf, ?_⟩
  rw [checkSocketHealth_decision, hf]
  norm_num [hh, exampleDeps, exampleHealthStats, activeTime]

/-- C26, as amended: the classification of `checkSocketHealth`.  The decision is
UNKNOWN when the connection is not handshaken or the health-check period is 0;
otherwise STALLED when the age, in whole milliseconds, of the message at the
front of `sendq_` (the one written first, which need not be the oldest) exceeds
`max_time_to_allow_socket_drain`; otherwise IDLE when the accumulated active
time is not greater than `period * min_socket_idle_threshold_percent / 100`;
otherwise ACTIVE when the bytes sent divided by the period in milliseconds are
at least `min_bytes_to_drain_per_second / 1000`; otherwise what
`getSlowSocketReason` returns, which is NET_SLOW, RECV_SLOW or IDLE.  The
quotients and both sides of the two comparisons are `double` values, each
rounded by `toDouble`. -/
theorem checkSocketHealth_classifies (d : Deps) (c : Connection) (s : HealthStats)
    (now : Nat) (age : Envelope → Nat) (tcp_info : Option TCPInfo) :
    (checkSocketHealth d c s now age tcp_info).2 =
      (if c.handshaken_ = false ∨ d.socket_health_check_period = 0 then
        SocketDrainStatusType.UNKNOWN
      else if frontAgeMs age c > d.max_time_to_allow_socket_drain then
        SocketDrainStatusType.STALLED
      else if d.toDouble (activeTime s now) ≤
          d.toDouble (d.toDouble
            ((d.socket_health_check_period * d.min_socket_idle_threshold_percent : Nat) : ℚ) /
              100) then
        SocketDrainStatusType.IDLE
      else if d.toDouble (d.toDouble d.min_bytes_to_drain_per_second / 1000) ≤
          d.toDouble (d.toDouble (d.toDouble s.num_bytes_sent_ * 1) /
            d.toDouble d.socket_health_check_period) then
        SocketDrainStatusType.ACTIVE
      else (getSlowSocketReason d s tcp_info).2) ∧
    ((getSlowSocketReason d s tcp_info).2 = SocketDrainStatusType.NET_SLOW ∨
      (getSlowSocketReason d s tcp_info).2 = SocketDrainStatusType.RECV_SLOW ∨
      (getSlowSocketReason d s tcp_info).2 = SocketDrainStatusType.IDLE) :=
  ⟨checkSocketHealth_decision d c s now age tcp_info,
    getSlowSocketReason_range d s tcp_info⟩

theorem checkSocketHealth_example :
    (checkSocketHealth exampleDeps exampleOpenConnection exampleHealthStats 40000
      (fun _ => 5000000)
      (some { busy_time := 1000, rwnd_limited_time := 800, sndbuf_limited_time := 0 })).2 =
      SocketDrainStatusType.RECV_SLOW ∧
    (checkSocketHealth exampleDeps exampleOpenConnection exampleHealthStats 40000
      (fun _ => 5000000)
      (some { busy_time := 1000, rwnd_limited_time := 100, sndbuf_limited_time := 0 })).2 =
      SocketDrainStatusType.NET_SLOW ∧
    (checkSocketHealth exampleDeps exampleOpenConnection exampleHealthStats 20000
      (fun _ => 5000000) none).2 = SocketDrainStatusType.IDLE ∧
    (checkSocketHealth exampleDeps exampleOpenConnection exampleHealthStats 20000
      (fun _ => 200000000) none).2 = SocketDrainStatusType.STALLED ∧
    (checkSocketHealth exampleDeps exampleOpenConnection
      { exampleHealthStats with num_bytes_sent_ := 120000000 } 40000
      (fun _ => 5000000) none).2 = SocketDrainStatusType.ACTIVE := by
  have hh : exampleOpenConnection.handshaken_ = true := rfl
  have h1 : frontAgeMs (fun _ => 5000000) exampleOpenConnection = 5000 := rfl
  have h2 : frontAgeMs (fun _ => 200000000) exampleOpenConnection = 200000 := rfl
  have e0 : Int.toNat 0 = 0 := rfl
  have e10 : Int.toNat 10 = 10 := rfl
  have e20 : Int.toNat 20 = 20 := rfl
  have e80 : Int.toNat 80 = 80 := rfl
  have e90 : Int.toNat 90 = 90 := rfl
  simp only [checkSocketHealth_decision, h1, h2]
  refine ⟨?_, ?_, ?_, ?_, ?_⟩ <;>
    norm_num [hh, exampleDeps, exampleHealthStats, activeTime,
      getSlowSocketReason, toUnsigned, e0, e10, e20, e80, e90]
/-! ## The read loop -/

theorem onBytesAvailable_example :
    (onBytesAvailable oneMessageDeps exampleOpenConnection exampleThreeFrames).loop_end =
      LoopEnd.bound ∧
    (onBytesAvailable oneMessageDeps exampleOpenConnection exampleThreeFrames).i = 2 ∧
    (onBytesAvailable oneMessageDeps exampleOpenConnection
      exampleThreeFrames).inbuf.bodies_dispatched = 1 ∧
    (onBytesAvailable oneMessageDeps exampleOpenConnection exampleThreeFrames).inbuf.length =
      46 ∧
    (onBytesAvailable oneMessageDeps exampleOpenConnection
      exampleThreeFrames).conn.num_messages_received_ = 1 ∧
    (onBytesAvailable oneMessageDeps exampleOpenConnection exampleThreeFrames).conn.read_more_ =
      true := by
  decide
/-! ## Connect retries -/

theorem onSent_retries (d : Deps) (c : Connection) (e : Envelope) (r : Status)
    (cm : CompletionMethod) : (onSent d c e r cm).retries_so_far_ = c.retries_so_far_ := by
  unfold onSent
  split <;> rfl

theorem onSentAll_retries (d : Deps) (r : Status) (q : List Envelope) :
    ∀ c : Connection, (onSentAll d c q r).retries_so_far_ = c.retries_so_far_ := by
  induction q with
  | nil => intro c; rfl
  | cons e q ih =>
    intro c
    have h := ih (onSent d c e r CompletionMethod.IMMEDIATE)
    simp only [onSentAll, List.foldl_cons] at h ⊢
    rw [h, onSent_retries]

theorem clearConnQueues_retries (d : Deps) (c : Connection) (r : Status) :
    (clearConnQueues d c r).retries_so_far_ = c.retries_so_far_ := by
  unfold clearConnQueues
  simp only []
  split <;> simp only [onSentAll_retries]

theorem closeTransport_retries (d : Deps) (c : Connection) :
    (closeTransport d c).retries_so_far_ = c.retries_so_far_ := by
  unfold closeTransport SocketWriteCallback.clear
  simp only []
  repeat' split
  all_goals rfl

theorem closeOpen_retries (d : Deps) (c : Connection) (r : Status) :
    (closeOpen d c r).retries_so_far_ = c.retries_so_far_ := by
  unfold closeOpen
  simp only []
  rw [clearConnQueues_retries]
  show (closeTransport d _).retries_so_far_ = _
  rw [closeTransport_retries]
  unfold closeDeferredEvents endStreamRewind
  repeat' split
  all_goals rfl

theorem close_retries (d : Deps) (c : Connection) (r : Status) :
    (close d c r).retries_so_far_ = c.retries_so_far_ := by
  unfold close
  split
  · rfl
  · simp only []
    split
    · rfl
    · exact closeOpen_retries d _ r

theorem preSendCheck_retries (d : Deps) (c : Connection) (msg : Message) :
    (preSendCheck d c msg).1.retries_so_far_ = c.retries_so_far_ := by
  unfold preSendCheck
  repeat' split
  all_goals first | rfl | exact close_retries d c _

theorem serializeMessageBuf_retries (d : Deps) (c : Connection) (msg : Message) :
    (serializeMessageBuf d c msg).1.retries_so_far_ = c.retries_so_far_ := by
  unfold serializeMessageBuf
  simp only []
  repeat' split
  all_goals first | rfl | exact close_retries d _ _

theorem sendBuffer_retries (c : Connection) (len : Nat) :
    (sendBuffer c len).retries_so_far_ = c.retries_so_far_ := by
  unfold sendBuffer
  repeat' split
  all_goals rfl

theorem serializeMessage_retries (d : Deps) (c : Connection) (e : Envelope) :
    (serializeMessage d c e).1.retries_so_far_ = c.retries_so_far_ := by
  have h := serializeMessageBuf_retries d c e.msg
  unfold serializeMessage
  split
  · rename_i c1 heq
    rw [heq] at h
    exact h
  · rename_i c1 buf heq
    rw [heq] at h
    simp only []
    rw [sendBuffer_retries]
    exact h

theorem injectAsyncMessageError_retries (d : Deps) (c : Connection) (e : Envelope) :
    (injectAsyncMessageError d c e).1.retries_so_far_ = c.retries_so_far_ := by
  unfold injectAsyncMessageError
  simp only []
  repeat' split
  all_goals first | rfl | exact onSent_retries d _ _ _ _

theorem send_retries (d : Deps) (c : Connection) (e : Envelope) :
    (send d c e).retries_so_far_ = c.retries_so_far_ := by
  have hp := preSendCheck_retries d c e.msg
  unfold send
  simp only []
  split
  · rw [onSent_retries]
    exact hp
  · split
    · rw [onSent_retries]
      exact hp
    · split
      · split
        · rw [onSent_retries]
          exact hp
        · have hi := injectAsyncMessageError_retries d (preSendCheck d c e.msg).1 e
          split
          · rename_i c1 heq
            rw [heq] at hi
            exact hi.trans hp
          · rename_i c1 heq
            rw [heq] at hi
            have hs := serializeMessage_retries d c1 e
            split
            · rw [onSent_retries]
              exact hs.trans (hi.trans hp)
            · exact hs.trans (hi.trans hp)
      · exact hp

theorem flushNextInSerializeQueue_retries (d : Deps) (c : Connection) :
    (flushNextInSerializeQueue d c).retries_so_far_ = c.retries_so_far_ := by
  unfold flushNextInSerializeQueue
  split
  · rfl
  · exact send_retries d _ _

theorem flushSerializeQueueLoop_retries (d : Deps) (fuel : Nat) :
    ∀ c : Connection, (flushSerializeQueueLoop d fuel c).retries_so_far_ = c.retries_so_far_ := by
  induction fuel with
  | zero => intro c; rfl
  | succ f ih =>
    intro c
    rw [flushSerializeQueueLoop]
    split
    · rfl
    · rw [ih, flushNextInSerializeQueue_retries]

theorem flushSerializeQueue_retries (d : Deps) (c : Connection) :
    (flushSerializeQueue d c).retries_so_far_ = c.retries_so_far_ :=
  flushSerializeQueueLoop_retries d _ c

theorem transitionToConnected_retries (d : Deps) (c : Connection) :
    (transitionToConnected d c).retries_so_far_ = c.retries_so_far_ := by
  unfold transitionToConnected addHandshakeTimeoutEvent
  simp only []
  rw [flushNextInSerializeQueue_retries]
  split <;> rfl

theorem onConnected_retries (d : Deps) (c : Connection) :
    (onConnected d c).retries_so_far_ = c.retries_so_far_ := by
  unfold onConnected
  split
  · rfl
  · rw [transitionToConnected_retries]

theorem eventCallbackImpl_retries (d : Deps) (c : Connection) (e : SocketEvent) :
    (eventCallbackImpl d c e).retries_so_far_ = c.retries_so_far_ := by
  unfold eventCallbackImpl onError onPeerClosed
  repeat' split
  all_goals first | rfl | exact onConnected_retries d c | exact close_retries d c _

theorem eventCallback_retries (d : Deps) (c : Connection) (e : SocketEvent) :
    (eventCallback d c e).retries_so_far_ = c.retries_so_far_ := by
  unfold eventCallback enqueueDeferredEvent
  split
  · rfl
  · exact eventCallbackImpl_retries d c e

theorem processDeferredEventQueueLoop_retries (d : Deps) (fuel : Nat) :
    ∀ c : Connection,
      (processDeferredEventQueueLoop d fuel c).retries_so_far_ = c.retries_so_far_ := by
  induction fuel with
  | zero => intro c; rfl
  | succ f ih =>
    intro c
    rw [processDeferredEventQueueLoop]
    split
    · rfl
    · rw [ih, eventCallbackImpl_retries]

theorem processDeferredEventQueue_retries (d : Deps) (c : Connection) :
    (processDeferredEventQueue d c).retries_so_far_ = c.retries_so_far_ := by
  unfold processDeferredEventQueue
  exact processDeferredEventQueueLoop_retries d _ c

theorem registerMessage_retries (d : Deps) (c : Connection) (msg : Message) :
    (registerMessage d c msg).1.retries_so_far_ = c.retries_so_far_ := by
  have hp := preSendCheck_retries d c msg
  unfold registerMessage
  simp only []
  repeat' split
  all_goals exact hp

theorem releaseMessage_retries (d : Deps) (c : Connection) (e : Envelope) :
    (releaseMessage d c e).retries_so_far_ = c.retries_so_far_ := by
  unfold releaseMessage
  exact send_retries d _ e

theorem sendHello_retries (d : Deps) (c : Connection) :
    (sendHello d c).retries_so_far_ = c.retries_so_far_ := by
  have hr := registerMessage_retries d c d.createHelloMessage
  unfold sendHello
  split
  · rename_i c1 e heq
    rw [heq] at hr
    rw [releaseMessage_retries]
    exact hr
  · rename_i c1 heq
    rw [heq] at hr
    exact hr

theorem onBytesAdmittedToSend_retries (d : Deps) (c : Connection) (n : Nat) :
    (onBytesAdmittedToSend d c n).retries_so_far_ = c.retries_so_far_ := by
  rw [onBytesAdmittedToSend_spec]
  rfl

theorem bytesSentCallback_retries (d : Deps) (c : Connection) (n : Nat) :
    (bytesSentCallback d c n).retries_so_far_ = c.retries_so_far_ := by
  unfold bytesSentCallback
  split
  · exact onBytesAdmittedToSend_retries d c n
  · rfl

theorem onOutputEmpty_retries (d : Deps) (c : Connection) :
    (onOutputEmpty d c).retries_so_far_ = c.retries_so_far_ := by
  unfold onOutputEmpty
  split
  · exact close_retries d c _
  · rfl

theorem flushBufferedOutput_retries (c : Connection) :
    (flushBufferedOutput c).retries_so_far_ = c.retries_so_far_ := by
  unfold flushBufferedOutput
  split <;> rfl

theorem scheduleWriteChain_retries (d : Deps) (c : Connection) :
    (scheduleWriteChain d c).retries_so_far_ = c.retries_so_far_ := by
  unfold scheduleWriteChain
  simp only []
  split
  · rfl
  · rw [onBytesAdmittedToSend_retries]

theorem drainSendQueue_retries (d : Deps) (c : Connection) (n : Nat) :
    (drainSendQueue d c n).retries_so_far_ = c.retries_so_far_ := by
  unfold drainSendQueue onBytesPassedToTCP
  simp only []
  split
  · rw [close_retries]
  · rfl

theorem flushOutputAndClose_retries (d : Deps) (c : Connection) (r : Status) :
    (flushOutputAndClose d c r).retries_so_far_ = c.retries_so_far_ := by
  unfold flushOutputAndClose
  simp only []
  repeat' split
  all_goals first | rfl | exact close_retries d c _

theorem onReadFailure_retries (d : Deps) (c : Connection) :
    (onReadFailure d c).retries_so_far_ = c.retries_so_far_ := by
  unfold onReadFailure
  repeat' split
  all_goals first | rfl | exact close_retries d c _ | exact flushOutputAndClose_retries d c _

theorem readMessageHeader_retries (d : Deps) (c : Connection) (hdr : ProtocolHeader) :
    (readMessageHeader d c hdr).1.retries_so_far_ = c.retries_so_far_ := by
  unfold readMessageHeader
  simp only []
  repeat' split
  all_goals rfl

theorem onMessageHeader_retries (d : Deps) (c : Connection) (hdr : ProtocolHeader) :
    (onMessageHeader d c hdr).retries_so_far_ = c.retries_so_far_ := by
  have h := readMessageHeader_retries d c hdr
  unfold onMessageHeader
  simp only []
  split
  · exact h
  · rw [onReadFailure_retries]
    exact h

theorem verifyChecksum_retries (d : Deps) (c : Connection) (ph : ProtocolHeader) (k : Nat) :
    (verifyChecksum d c ph k).1.retries_so_far_ = c.retries_so_far_ := by
  unfold verifyChecksum
  simp only []
  repeat' split
  all_goals rfl

theorem validateReceivedMessage_retries (d : Deps) (c : Connection) (t : MessageType) :
    (validateReceivedMessage d c t).1.retries_so_far_ = c.retries_so_far_ := by
  unfold validateReceivedMessage
  repeat' split
  all_goals rfl

theorem processHandshakeMessage_retries (d : Deps) (c : Connection) (t : MessageType)
    (r : Received) :
    (processHandshakeMessage d c t r).1.retries_so_far_ = c.retries_so_far_ := by
  unfold processHandshakeMessage
  split
  · exact flushSerializeQueue_retries d _
  · split
    · rfl
    · simp only []
      rw [flushSerializeQueue_retries]
      split <;> rfl
  · exact flushSerializeQueue_retries d _

theorem dispatchMessageBody_retries (d : Deps) (c : Connection) (header : ProtocolHeader)
    (r : Received) :
    (dispatchMessageBody d c header r).1.retries_so_far_ = c.retries_so_far_ := by
  unfold dispatchMessageBody
  simp only []
  split
  · split <;> rfl
  · have hv := verifyChecksum_retries d
      (expectProtocolHeader
        { c with
          recv_message_ph_ := header
          num_messages_received_ := c.num_messages_received_ + 1
          num_bytes_received_ := c.num_bytes_received_ + header.len }) header r.cksum_computed
    split
    · rename_i c1 heq
      rw [heq] at hv
      exact hv
    · rename_i c1 heq
      rw [heq] at hv
      split
      · split <;> exact hv
      · rename_i t _
        have hval := validateReceivedMessage_retries d c1 t
        split
        · rename_i c2 heq2
          rw [heq2] at hval
          exact hval.trans hv
        · rename_i c2 heq2
          rw [heq2] at hval
          split
          · split
            · rename_i hhs
              have hp := processHandshakeMessage_retries d
                { c2 with
                  handshaken_ := true, first_attempt_ := false
                  handshake_timeout_event_ := false } t r
              split
              · rename_i c3 heq3
                rw [heq3] at hp
                exact hp.trans (hval.trans hv)
              · rename_i c3 heq3
                rw [heq3] at hp
                exact hp.trans (hval.trans hv)
            · exact hval.trans hv
          · split <;> exact hval.trans hv
          · split <;> exact hval.trans hv

theorem onMessageBody_retries (d : Deps) (c : Connection) (r : Received) :
    (onMessageBody d c r).retries_so_far_ = c.retries_so_far_ := by
  have h := dispatchMessageBody_retries d c c.recv_message_ph_ r
  unfold onMessageBody
  simp only []
  split
  · exact h
  · rw [onReadFailure_retries]
    exact h

theorem doConnectAttempt_retries (d : Deps) (c : Connection) (a : ConnectAttempt) :
    (doConnectAttempt d c a).1.retries_so_far_ = c.retries_so_far_ := by
  unfold doConnectAttempt expectProtocolHeader
  cases a <;> simp only []
  all_goals repeat' split
  all_goals rfl

theorem connect_retries (d : Deps) (c : Connection) (mayConnect : Bool)
    (a : ConnectAttempt) (fut : Option Status) :
    (connect d c mayConnect a fut).1.retries_so_far_ = c.retries_so_far_ ∨
    (connect d c mayConnect a fut).1.retries_so_far_ = 0 := by
  unfold connect
  have hp : (preConnectAttempt c mayConnect).1.retries_so_far_ = c.retries_so_far_ := by
    unfold preConnectAttempt
    repeat' split
    all_goals rfl
  simp only []
  split
  · exact Or.inl hp
  · split
    · right
      have hd := doConnectAttempt_retries d
        { (preConnectAttempt c mayConnect).1 with retries_so_far_ := 0 } a
      split
      · split
        · rw [close_retries]
          exact hd
        · exact hd
      · rw [sendHello_retries]
        exact hd
    · left
      have ha : ∀ f : Option Status,
          (asyncConnect (preConnectAttempt c mayConnect).1 f).retries_so_far_ =
            c.retries_so_far_ := by
        intro f
        unfold asyncConnect
        split <;> exact hp
      have hc : ∀ c0 : Connection, c0.retries_so_far_ = c.retries_so_far_ →
          (if good c0 then sendHello d c0 else c0).retries_so_far_ = c.retries_so_far_ := by
        intro c0 h0
        split
        · rw [sendHello_retries]
          exact h0
        · exact h0
      split
      · show (transitionToConnected d _).retries_so_far_ = _
        rw [transitionToConnected_retries]
        exact hc _ (ha _)
      · exact hc _ (ha _)

theorem step_retries (d : Deps) (c c1 : Connection) (op : Op)
    (hop : ∀ a, op ≠ Op.connectAttemptTimeout a) (hhs : op ≠ Op.handshakeTimeout)
    (h : step d c op = some c1) :
    c1.retries_so_far_ = c.retries_so_far_ ∨ c1.retries_so_far_ = 0 := by
  cases op with
  | connectAttemptTimeout a => exact absurd rfl (hop a)
  | handshakeTimeout => exact absurd rfl hhs
  | connect m a fut =>
    simp only [step, Option.some.injEq] at h
    subst h
    exact connect_retries d c m a fut
  | connectCompleted st =>
    simp only [step] at h
    split at h
    · split at h
      · simp only [Option.some.injEq] at h
        subst h
        exact Or.inl (transitionToConnected_retries d c)
      · simp only [Option.some.injEq] at h
        subst h
        exact Or.inl rfl
    · cases h
  | event e =>
    simp only [step] at h
    split at h
    · simp only [Option.some.injEq] at h
      subst h
      exact Or.inl (eventCallback_retries d c e)
    · cases h
  | deferredEvents =>
    simp only [step] at h
    split at h
    · simp only [Option.some.injEq] at h
      subst h
      exact Or.inl (processDeferredEventQueue_retries d c)
    · cases h
  | registerMessage msg =>
    simp only [step, Option.some.injEq] at h
    subst h
    exact Or.inl (registerMessage_retries d c msg)
  | releaseMessage id =>
    simp only [step] at h
    split at h
    · simp only [Option.some.injEq] at h
      subst h
      exact Or.inl (releaseMessage_retries d c _)
    · cases h
  | discardEnvelope id =>
    simp only [step] at h
    split at h
    · simp only [Option.some.injEq] at h
      subst h
      exact Or.inl rfl
    · cases h
  | bytesSent n =>
    simp only [step] at h
    split at h
    · split at h
      · split at h
        · simp only [Option.some.injEq] at h
          subst h
          rw [onOutputEmpty_retries, bytesSentCallback_retries]
          exact Or.inl rfl
        · simp only [Option.some.injEq] at h
          subst h
          rw [bytesSentCallback_retries]
          exact Or.inl rfl
      · cases h
    · cases h
  | flushBufferedOutput =>
    simp only [step] at h
    split at h
    · simp only [Option.some.injEq] at h
      subst h
      exact Or.inl (flushBufferedOutput_retries c)
    · cases h
  | scheduleWriteChain =>
    simp only [step] at h
    split at h
    · simp only [Option.some.injEq] at h
      subst h
      exact Or.inl (scheduleWriteChain_retries d c)
    · cases h
  | drainSendQueue n =>
    simp only [step] at h
    split at h
    · simp only [Option.some.injEq] at h
      subst h
      exact Or.inl (drainSendQueue_retries d c n)
    · cases h
  | header hdr =>
    simp only [step] at h
    split at h
    · simp only [Option.some.injEq] at h
      subst h
      exact Or.inl (onMessageHeader_retries d c hdr)
    · cases h
  | body r =>
    simp only [step] at h
    split at h
    · simp only [Option.some.injEq] at h
      subst h
      exact Or.inl (onMessageBody_retries d c r)
    · cases h
  | pushOnCloseCallback cb =>
    simp only [step, Option.some.injEq] at h
    subst h
    exact Or.inl rfl
  | flushOutputAndClose reason =>
    simp only [step, Option.some.injEq] at h
    subst h
    exact Or.inl (flushOutputAndClose_retries d c reason)
  | close reason =>
    simp only [step, Option.some.injEq] at h
    subst h
    exact Or.inl (close_retries d c reason)

theorem onConnectAttemptTimeout_exhausted (d : Deps) (c : Connection) (a : ConnectAttempt)
    (h : d.connection_retries ≤ c.retries_so_far_) :
    onConnectAttemptTimeout d c a = close d c Status.TIMEDOUT := by
  unfold onConnectAttemptTimeout onConnectTimeout
  rw [if_pos h]

theorem onConnectAttemptTimeout_retry (d : Deps) (c : Connection)
    (h : c.retries_so_far_ < d.connection_retries) :
    onConnectAttemptTimeout d c ConnectAttempt.started =
      { (doConnectAttempt d
          { c with
            bev_ := none, read_cb_installed := false
            output_empty_cb_installed := false, conn_closed_ := some true }
          ConnectAttempt.started).1 with
        retries_so_far_ := c.retries_so_far_ + 1 } := by
  unfold onConnectAttemptTimeout
  rw [if_neg (by omega)]
  simp only []
  have h2 : (doConnectAttempt d
      { c with
        bev_ := none, read_cb_installed := false
        output_empty_cb_installed := false, conn_closed_ := some true }
      ConnectAttempt.started).2 = 0 := by
    unfold doConnectAttempt
    simp only []
    split <;> rfl
  have h3 := doConnectAttempt_retries d
    { c with
      bev_ := none, read_cb_installed := false
      output_empty_cb_installed := false, conn_closed_ := some true }
    ConnectAttempt.started
  rw [if_neg (by simp [h2])]
  rw [h3]

theorem onConnectAttemptTimeout_le (d : Deps) (c : Connection) (a : ConnectAttempt)
    (h : c.retries_so_far_ ≤ d.connection_retries) :
    (onConnectAttemptTimeout d c a).retries_so_far_ ≤ d.connection_retries := by
  unfold onConnectAttemptTimeout onConnectTimeout
  split
  · rw [close_retries]
    exact h
  · simp only []
    have h3 := doConnectAttempt_retries d
      { c with
        bev_ := none, read_cb_installed := false
        output_empty_cb_installed := false, conn_closed_ := some true } a
    split
    · rw [close_retries, h3]
      exact h
    · show (doConnectAttempt d _ a).1.retries_so_far_ + 1 ≤ _
      rw [h3]
      show c.retries_so_far_ + 1 ≤ _
      omega

theorem fire_retries_le (d : Deps) (c c1 : Connection) (t : Timer)
    (h : c.retries_so_far_ ≤ d.connection_retries) (hs : fire d c t = some c1) :
    c1.retries_so_far_ ≤ d.connection_retries := by
  cases t with
  | connectAttempt a =>
    simp only [fire] at hs
    split at hs
    · simp only [Option.some.injEq] at hs
      subst hs
      exact onConnectAttemptTimeout_le d _ a h
    · cases hs
  | handshake =>
    simp only [fire] at hs
    split at hs
    · simp only [Option.some.injEq] at hs
      subst hs
      unfold onHandshakeTimeout onConnectTimeout
      rw [close_retries]
      exact h
    · cases hs

theorem step_retries_le (d : Deps) (c c1 : Connection) (op : Op)
    (h : c.retries_so_far_ ≤ d.connection_retries) (hs : step d c op = some c1) :
    c1.retries_so_far_ ≤ d.connection_retries := by
  by_cases h1 : ∃ a, op = Op.connectAttemptTimeout a
  · obtain ⟨a, rfl⟩ := h1
    exact fire_retries_le d c c1 (Timer.connectAttempt a) h hs
  · by_cases h2 : op = Op.handshakeTimeout
    · subst h2
      exact fire_retries_le d c c1 Timer.handshake h hs
    · rcases step_retries d c c1 op (fun a ha => h1 ⟨a, ha⟩) h2 hs with h3 | h3
      · rw [h3]
        exact h
      · rw [h3]
        exact Nat.zero_le _

theorem advance_retries_le (d : Deps) (c c1 : Connection) (a : Activity)
    (h : c.retries_so_far_ ≤ d.connection_retries) (hs : advance d c a = some c1) :
    c1.retries_so_far_ ≤ d.connection_retries := by
  cases a with
  | op o => exact step_retries_le d c c1 o h hs
  | timer t => exact fire_retries_le d c c1 t h hs

theorem runTimed_retries_le (d : Deps) (acts : List Activity) :
    ∀ c c1 : Connection, c.retries_so_far_ ≤ d.connection_retries →
      runTimed d c acts = some c1 → c1.retries_so_far_ ≤ d.connection_retries := by
  induction acts with
  | nil =>
    intro c c1 h hr
    simp only [runTimed, Option.some.injEq] at hr
    subst hr
    exact h
  | cons a as ih =>
    intro c c1 h hr
    simp only [runTimed] at hr
    split at hr
    · rename_i c2 hs
      exact ih c2 c1 (advance_retries_le d c c2 a h hs) hr
    · cases hr

theorem connect_resets_retries (d : Deps) (c : Connection) (mayConnect : Bool)
    (a : ConnectAttempt) (fut : Option Status)
    (hl : c.legacy_connection_ = true) (hp : (preConnectAttempt c mayConnect).2 = 0) :
    (connect d c mayConnect a fut).1.retries_so_far_ = 0 := by
  have hl2 : (preConnectAttempt c mayConnect).1.legacy_connection_ = true := by
    unfold preConnectAttempt
    repeat' split
    all_goals exact hl
  unfold connect
  simp only []
  rw [if_neg (by simp [hp]), if_pos hl2]
  have hd := doConnectAttempt_retries d
    { (preConnectAttempt c mayConnect).1 with retries_so_far_ := 0 } a
  split
  · split
    · rw [close_retries]
      exact hd
    · exact hd
  · rw [sendHello_retries]
    exact hd

theorem onConnectAttemptTimeout_open (d : Deps) (c : Connection)
    (h : c.retries_so_far_ < d.connection_retries) :
    isClosed (onConnectAttemptTimeout d c ConnectAttempt.started) = false := by
  rw [onConnectAttemptTimeout_retry d c h]
  unfold doConnectAttempt expectProtocolHeader
  simp only []
  split <;> rfl

/-- C21: connect retries are bounded.  In every state reachable from a freshly
constructed connection by operations and by the timers of connection
establishment, `retries_so_far_` is at most `connection_retries`; a `connect()`
on a legacy connection that starts an attempt sets it to 0; a connect-attempt
timeout with `retries_so_far_ < connection_retries` whose new attempt starts
increments it by exactly one and leaves the connection open; and a timeout
with `retries_so_far_ >= connection_retries` is `close(TIMEDOUT)`, which closes
an open connection and completes what it holds with TIMEDOUT. -/
theorem connect_retries_bounded (d : Deps) (c0 c : Connection) (acts : List Activity)
    (h0 : Initial d c0) (hrun : runTimed d c0 acts = some c) :
    c.retries_so_far_ ≤ d.connection_retries ∧
    (∀ (c1 : Connection) (mayConnect : Bool) (a : ConnectAttempt) (fut : Option Status),
      c1.legacy_connection_ = true → (preConnectAttempt c1 mayConnect).2 = 0 →
      (connect d c1 mayConnect a fut).1.retries_so_far_ = 0) ∧
    (∀ c1 : Connection, c1.retries_so_far_ < d.connection_retries →
      (onConnectAttemptTimeout d c1 ConnectAttempt.started).retries_so_far_ =
        c1.retries_so_far_ + 1 ∧
      isClosed (onConnectAttemptTimeout d c1 ConnectAttempt.started) = false) ∧
    (∀ (c1 : Connection) (a : ConnectAttempt), d.connection_retries ≤ c1.retries_so_far_ →
      onConnectAttemptTimeout d c1 a = close d c1 Status.TIMEDOUT ∧
      (onConnectAttemptTimeout d c1 a).retries_so_far_ = c1.retries_so_far_ ∧
      (c1.closing_ = false → isClosed (onConnectAttemptTimeout d c1 a) = true) ∧
      (c1.closing_ = false → isClosed c1 = false →
        (onConnectAttemptTimeout d c1 a).core = Core.closed d c1.core Status.TIMEDOUT)) := by
  have hinit : c0.retries_so_far_ ≤ d.connection_retries := by
    rcases h0 with ⟨l, s, g, rfl⟩ | ⟨l, s, g, p, rfl⟩
    · exact Nat.zero_le _
    · have : (Connection.incoming d l s g p).retries_so_far_ = 0 := by
        unfold Connection.incoming addHandshakeTimeoutEvent expectProtocolHeader
        simp only []
        split <;> rfl
      rw [this]
      exact Nat.zero_le _
  refine ⟨runTimed_retries_le d acts c0 c hinit hrun, ?_, ?_, ?_⟩
  · intro c1 m a fut hl hp
    exact connect_resets_retries d c1 m a fut hl hp
  · intro c1 h
    refine ⟨?_, onConnectAttemptTimeout_open d c1 h⟩
    rw [onConnectAttemptTimeout_retry d c1 h]
  · intro c1 a h
    have he := onConnectAttemptTimeout_exhausted d c1 a h
    refine ⟨he, ?_, ?_, ?_⟩
    · rw [he, close_retries]
    · intro hcl
      rw [he]
      exact isClosed_close d c1 _ hcl
    · intro hcl hopen
      rw [he]
      exact close_core_open d c1 _ hcl hopen

theorem connect_retries_bounded_witness :
    Initial exampleDeps (Connection.outgoing exampleDeps true false false) ∧
    runTimed exampleDeps (Connection.outgoing exampleDeps true false false)
      exampleThreeRetries = some exampleRetried ∧
    exampleRetried.retries_so_far_ = 3 ∧ isClosed exampleRetried = false ∧
    exampleRetried.retries_so_far_ ≤ exampleDeps.connection_retries ∧
    isClosed (onConnectAttemptTimeout exampleDeps exampleRetried ConnectAttempt.started) =
      true :=
  ⟨Or.inl ⟨true, false, false, rfl⟩, rfl, by decide, by decide,
    (connect_retries_bounded exampleDeps _ _ exampleThreeRetries
      (Or.inl ⟨true, false, false, rfl⟩) rfl).1,
    ((connect_retries_bounded exampleDeps _ exampleRetried exampleThreeRetries
      (Or.inl ⟨true, false, false, rfl⟩) rfl).2.2.2 exampleRetried ConnectAttempt.started
      (by decide)).2.2.1 (by decide)⟩
/-! ## Byte accounting -/

theorem getBytesPending_legacy (c : Connection) (h : c.legacy_connection_ = true) :
    getBytesPending c = heldBytes c := by
  unfold getBytesPending heldBytes
  simp only [h, Bool.not_true, Bool.false_eq_true, if_false]
  omega

theorem queueCost_nil : queueCost [] = 0 := rfl

theorem queueCost_cons (e : Envelope) (q : List Envelope) :
    queueCost (e :: q) = e.cost_ + queueCost q := by
  simp [queueCost]

theorem onSent_ledger (d : Deps) (hsd : d.shuttingDown = false) (c : Connection)
    (e : Envelope) (r : Status) (cm : CompletionMethod) (held : Nat)
    (h : Ledger c (held + e.cost_)) : Ledger (onSent d c e r cm) held := by
  unfold onSent
  rw [if_pos (by simp [hsd])]
  refine ⟨h.legacy, ?_, h.open_bev, h.closed_buf⟩
  have hb := h.balance
  show c.noted_queued = c.noted_drained + e.cost_ + heldBytes c + held
  omega

theorem Ledger.of_books {c1 c2 : Connection} {held : Nat} (hb : books c1 = books c2)
    (h : Ledger c2 held) : Ledger c1 held := by
  simp only [books, Prod.mk.injEq] at hb
  obtain ⟨h1, h2, h3, h4, h5, h6, h7, h8, h9⟩ := hb
  have hh : heldBytes c1 = heldBytes c2 := by
    unfold heldBytes
    rw [h3, h4, h5, h6, h7]
  have hc : isClosed c1 = isClosed c2 := by
    unfold isClosed
    rw [h2]
  refine ⟨h1.trans h.legacy, ?_, ?_, ?_⟩
  · rw [h8, h9, hh]
    exact h.balance
  · rw [hc, h3]
    exact h.open_bev
  · rw [hc, h3, h4]
    exact h.closed_buf

theorem closeTransport_books (d : Deps) (hsd : d.shuttingDown = false) (c : Connection)
    (hl : c.legacy_connection_ = true) :
    books (closeTransport d c) =
      (c.legacy_connection_, c.conn_closed_, none, none, c.pendingq_, c.serializeq_,
        c.sendq_, c.noted_queued,
        c.noted_drained + (c.bev_.getD 0 + c.buffered_output_.getD 0)) := by
  unfold closeTransport books
  simp only [hl, hsd, if_true, Bool.not_false, Bool.and_true]
  split_ifs <;> simp_all

theorem onSentAll_books (d : Deps) (hsd : d.shuttingDown = false) (r : Status)
    (q : List Envelope) :
    ∀ c : Connection, books (onSentAll d c q r) =
      (c.legacy_connection_, c.conn_closed_, c.bev_, c.buffered_output_, c.pendingq_,
        c.serializeq_, c.sendq_, c.noted_queued, c.noted_drained + queueCost q) := by
  induction q with
  | nil => intro c; rfl
  | cons e q ih =>
    intro c
    simp only [onSentAll, List.foldl_cons] at ih ⊢
    rw [ih]
    unfold onSent
    rw [if_pos (by simp [hsd])]
    simp only [queueCost_cons, Nat.add_assoc]

theorem clearConnQueues_books (d : Deps) (hsd : d.shuttingDown = false) (c : Connection)
    (r : Status) :
    books (clearConnQueues d c r) =
      (c.legacy_connection_, c.conn_closed_, c.bev_, c.buffered_output_, [], [], [],
        c.noted_queued,
        c.noted_drained +
          (queueCost c.pendingq_ + queueCost c.serializeq_ + queueCost c.sendq_)) := by
  have h3 := onSentAll_books d hsd r c.pendingq_
    (onSentAll d (onSentAll d { c with
      pendingq_ := [], serializeq_ := [], sendq_ := []
      on_close_ := [], pending_bw_cbs_ := [] } c.serializeq_ r) c.sendq_ r)
  have h2 := onSentAll_books d hsd r c.sendq_
    (onSentAll d { c with
      pendingq_ := [], serializeq_ := [], sendq_ := []
      on_close_ := [], pending_bw_cbs_ := [] } c.serializeq_ r)
  have h1 := onSentAll_books d hsd r c.serializeq_
    { c with
      pendingq_ := [], serializeq_ := [], sendq_ := []
      on_close_ := [], pending_bw_cbs_ := [] }
  simp only [books, Prod.mk.injEq] at h1 h2 h3
  obtain ⟨a1, a2, a3, a4, a5, a6, a7, a8, a9⟩ := h1
  obtain ⟨b1, b2, b3, b4, b5, b6, b7, b8, b9⟩ := h2
  obtain ⟨c1, c2, c3, c4, c5, c6, c7, c8, c9⟩ := h3
  unfold clearConnQueues PendingQueue.trimAll
  simp only [hsd, Bool.not_false, if_true, books, Prod.mk.injEq]
  refine ⟨c1.trans (b1.trans a1), c2.trans (b2.trans a2), c3.trans (b3.trans a3),
    c4.trans (b4.trans a4), c5.trans (b5.trans a5), c6.trans (b6.trans a6),
    c7.trans (b7.trans a7), c8.trans (b8.trans a8), ?_⟩
  rw [c9, b9, a9]
  omega

theorem endStreamRewind_books (c : Connection) : books (endStreamRewind c) = books c := by
  unfold endStreamRewind
  split <;> rfl

theorem closeDeferredEvents_books (d : Deps) (c : Connection) :
    books (closeDeferredEvents d c) = books c := by
  unfold closeDeferredEvents
  repeat' split
  all_goals rfl

theorem closeOpen_books (d : Deps) (hsd : d.shuttingDown = false) (c : Connection)
    (r : Status) (hl : c.legacy_connection_ = true) :
    books (closeOpen d c r) =
      (true, some true, none, none, [], [], [], c.noted_queued,
        c.noted_drained + heldBytes c) := by
  unfold closeOpen
  simp only []
  have e1 := endStreamRewind_books { c with conn_closed_ := some true }
  have e2 := closeDeferredEvents_books d (endStreamRewind { c with conn_closed_ := some true })
  have e12 := e2.trans e1
  simp only [books, Prod.mk.injEq] at e12
  obtain ⟨a1, a2, a3, a4, a5, a6, a7, a8, a9⟩ := e12
  have e3 := closeTransport_books d hsd
    (closeDeferredEvents d (endStreamRewind { c with conn_closed_ := some true }))
    (a1.trans hl)
  simp only [books, Prod.mk.injEq] at e3
  obtain ⟨b1, b2, b3, b4, b5, b6, b7, b8, b9⟩ := e3
  rw [clearConnQueues_books d hsd]
  simp only [Prod.mk.injEq]
  refine ⟨?_, ?_, ?_, ?_, trivial, trivial, trivial, ?_, ?_⟩
  · exact b1.trans (a1.trans hl)
  · exact b2.trans a2
  · exact b3
  · exact b4
  · exact b8.trans a8
  · show (closeTransport d _).noted_drained +
      (queueCost (closeTransport d _).pendingq_ + queueCost (closeTransport d _).serializeq_ +
        queueCost (closeTransport d _).sendq_) = _
    rw [b9, b5, b6, b7, a3, a4, a5, a6, a7, a9]
    unfold heldBytes
    show c.noted_drained + (c.bev_.getD 0 + c.buffered_output_.getD 0) +
      (queueCost c.pendingq_ + queueCost c.serializeq_ + queueCost c.sendq_) = _
    omega

theorem Ledger.of_values {c : Connection} {held : Nat} {cl : Option Bool}
    {bev buf : Option Nat} {pq sq xq : List Envelope} {q dr : Nat}
    (hb : books c = (true, cl, bev, buf, pq, sq, xq, q, dr))
    (hbal : q = dr + (queueCost pq + queueCost sq + queueCost xq + bev.getD 0 + buf.getD 0) +
      held)
    (hopen : cl = some false → bev.isSome = true)
    (hclosed : cl ≠ some false → bev = none ∧ buf.getD 0 = 0) : Ledger c held := by
  simp only [books, Prod.mk.injEq] at hb
  obtain ⟨h1, h2, h3, h4, h5, h6, h7, h8, h9⟩ := hb
  refine ⟨h1, ?_, ?_, ?_⟩
  · unfold heldBytes
    rw [h3, h4, h5, h6, h7, h8, h9]
    exact hbal
  · intro ho
    rw [h3]
    apply hopen
    rw [← h2]
    exact (isClosed_eq_false_iff c).1 ho
  · intro hc
    rw [h3, h4]
    apply hclosed
    rw [← h2]
    exact (isClosed_eq_true_iff c).1 hc

theorem close_ledger (d : Deps) (hsd : d.shuttingDown = false) (c : Connection)
    (r : Status) (held : Nat) (h : Ledger c held) : Ledger (close d c r) held := by
  unfold close
  split
  · exact h
  · simp only []
    split
    · exact @Ledger.of_books _ c _ rfl h
    · have hb := closeOpen_books d hsd { c with closing_ := true } r h.legacy
      refine @Ledger.of_values { closeOpen d { c with closing_ := true } r with
        closing_ := false } _ _ _ _ _ _ _ _ _ hb ?_ (fun h0 => by cases h0)
        (fun _ => ⟨rfl, rfl⟩)
      have hbal := h.balance
      simp only [queueCost_nil, Option.getD_none, Nat.add_zero]
      show c.noted_queued = c.noted_drained + heldBytes c + held
      exact hbal

theorem Ledger.requeue {c c1 : Connection} {held held1 : Nat} (h : Ledger c held)
    (hl : c1.legacy_connection_ = c.legacy_connection_)
    (hc : c1.conn_closed_ = c.conn_closed_) (hb : c1.bev_ = c.bev_)
    (hbuf : c1.buffered_output_ = c.buffered_output_)
    (hbal : c1.noted_queued + (c.noted_drained +
        (queueCost c.pendingq_ + queueCost c.serializeq_ + queueCost c.sendq_) + held) =
      c.noted_queued + (c1.noted_drained +
        (queueCost c1.pendingq_ + queueCost c1.serializeq_ + queueCost c1.sendq_) + held1)) :
    Ledger c1 held1 := by
  have hcl : isClosed c1 = isClosed c := by
    unfold isClosed
    rw [hc]
  have hbal0 := h.balance
  refine ⟨hl.trans h.legacy, ?_, ?_, ?_⟩
  · unfold heldBytes at hbal0 ⊢
    rw [hb, hbuf]
    omega
  · rw [hcl, hb]
    exact h.open_bev
  · rw [hcl, hb, hbuf]
    exact h.closed_buf

theorem preSendCheck_ledger (d : Deps) (hsd : d.shuttingDown = false) (c : Connection)
    (msg : Message) (held : Nat) (h : Ledger c held) :
    Ledger (preSendCheck d c msg).1 held := by
  unfold preSendCheck
  repeat' split
  all_goals first
    | exact h
    | exact @Ledger.of_books _ c _ rfl h
    | exact @Ledger.of_books _ (close d c Status.INTERNAL) _ rfl (close_ledger d hsd c _ held h)

theorem serializeMessageBuf_some (d : Deps) (c c1 : Connection) (msg : Message) (f : Frame)
    (h : serializeMessageBuf d c msg = (c1, some f)) : c1 = c := by
  unfold serializeMessageBuf at h
  simp only [] at h
  split at h
  · simp at h
  · split at h
    · simp at h
    · simp only [Prod.mk.injEq] at h
      exact h.1.symm

theorem serializeMessageBuf_ledger (d : Deps) (hsd : d.shuttingDown = false) (c : Connection)
    (msg : Message) (held : Nat) (h : Ledger c held) :
    Ledger (serializeMessageBuf d c msg).1 held := by
  unfold serializeMessageBuf
  simp only []
  repeat' split
  all_goals first
    | exact h
    | exact close_ledger d hsd _ _ held (@Ledger.of_books _ c _ rfl h)

theorem sendBuffer_books (c : Connection) (len : Nat) (hl : c.legacy_connection_ = true) :
    books (sendBuffer c len) =
      (c.legacy_connection_, c.conn_closed_,
        (match c.buffered_output_ with
          | some _ => c.bev_
          | none => c.bev_.map (· + len)),
        c.buffered_output_.map (· + len), c.pendingq_, c.serializeq_, c.sendq_,
        c.noted_queued, c.noted_drained) := by
  unfold sendBuffer
  rw [if_pos hl]
  cases c.buffered_output_ <;> rfl

theorem serializeMessage_books (d : Deps) (c : Connection) (e : Envelope) (f : Frame)
    (hl : c.legacy_connection_ = true)
    (heq : serializeMessageBuf d c e.msg = (c, some f)) :
    (serializeMessage d c e).2 = 0 ∧
    ∃ pos, books (serializeMessage d c e).1 =
      (true, c.conn_closed_,
        (match c.buffered_output_ with
          | some _ => c.bev_
          | none => c.bev_.map (· + f.chainDataLength d c.proto_)),
        c.buffered_output_.map (· + f.chainDataLength d c.proto_), c.pendingq_,
        c.serializeq_, c.sendq_ ++ [{ e with drain_pos_ := pos }],
        c.noted_queued + f.chainDataLength d c.proto_, c.noted_drained) := by
  have hsb := sendBuffer_books c (f.chainDataLength d c.proto_) hl
  simp only [books, Prod.mk.injEq] at hsb
  obtain ⟨b1, b2, b3, b4, b5, b6, b7, b8, b9⟩ := hsb
  have hp : (sendBuffer c (f.chainDataLength d c.proto_)).proto_ = c.proto_ := by
    unfold sendBuffer
    repeat' split
    all_goals rfl
  rw [serializeMessage, heq]
  simp only []
  refine ⟨trivial, (sendBuffer c (f.chainDataLength d c.proto_)).next_pos_ +
    f.chainDataLength d c.proto_, ?_⟩
  simp only [books, Prod.mk.injEq]
  exact ⟨b1.trans hl, b2, b3, b4, b5, b6, by rw [b7], by rw [b8], b9⟩

theorem serializeMessage_ledger (d : Deps) (hsd : d.shuttingDown = false) (c : Connection)
    (e : Envelope) (held : Nat) (h : Ledger c (held + e.cost_)) (hopen : isClosed c = false) :
    ((serializeMessage d c e).2 = 0 → Ledger (serializeMessage d c e).1 held) ∧
    ((serializeMessage d c e).2 ≠ 0 → Ledger (serializeMessage d c e).1 (held + e.cost_)) := by
  have hbuf := serializeMessageBuf_ledger d hsd c e.msg _ h
  cases hs : serializeMessageBuf d c e.msg with
  | mk c1 o =>
    cases o with
    | none =>
      rw [serializeMessage, hs]
      rw [hs] at hbuf
      exact ⟨fun h0 => by simp at h0, fun _ => hbuf⟩
    | some f =>
      have hc1 := serializeMessageBuf_some d c c1 e.msg f hs
      subst hc1
      obtain ⟨h0, pos, hb⟩ := serializeMessage_books d c1 e f h.legacy hs
      refine ⟨fun _ => ?_, fun hn => absurd h0 hn⟩
      have hbev := h.open_bev hopen
      have hbal := h.balance
      have hco := (isClosed_eq_false_iff c1).1 hopen
      have hco2 : c1.conn_closed_ = some false := hco
      unfold heldBytes at hbal
      refine Ledger.of_values hb ?_ ?_ ?_
      · rw [queueCost_append]
        have hc : queueCost [{ e with drain_pos_ := pos }] = e.cost_ := by
          simp [queueCost]
        rw [hc]
        cases hb2 : c1.buffered_output_ with
        | none =>
          cases hv : c1.bev_ with
          | none =>
            rw [hv] at hbev
            cases hbev
          | some n =>
            rw [hb2, hv] at hbal
            simp only [Option.map_some', Option.map_none', Option.getD_some,
              Option.getD_none] at hbal ⊢
            omega
        | some m =>
          rw [hb2] at hbal
          simp only [Option.map_some', Option.getD_some] at hbal ⊢
          omega
      · intro _
        cases hb2 : c1.buffered_output_ with
        | none =>
          simp only [Option.isSome_map']
          exact hbev
        | some m => exact hbev
      · intro hne
        exact absurd hco2 hne

theorem isClosed_of_books {c1 c2 : Connection} (h : books c1 = books c2) :
    isClosed c1 = isClosed c2 := by
  simp only [books, Prod.mk.injEq] at h
  unfold isClosed
  rw [h.2.1]

theorem injectAsyncMessageError_ledger (d : Deps) (hsd : d.shuttingDown = false)
    (c : Connection) (e : Envelope) (held : Nat) (h : Ledger c (held + e.cost_)) :
    ((injectAsyncMessageError d c e).2 = true →
      Ledger (injectAsyncMessageError d c e).1 held) ∧
    ((injectAsyncMessageError d c e).2 = false →
      Ledger (injectAsyncMessageError d c e).1 (held + e.cost_) ∧
      isClosed (injectAsyncMessageError d c e).1 = isClosed c) := by
  have key : ∀ c0 : Connection, books c0 = books c →
      ((if c0.message_error_injection_rewinding_stream_ then
          (onSent d { c0 with
              message_error_injection_rewound_count_ :=
                c0.message_error_injection_rewound_count_ + 1 } e
            d.message_error_injection_status CompletionMethod.DEFERRED, true)
        else
          ({ c0 with
              message_error_injection_pass_count_ :=
                c0.message_error_injection_pass_count_ + 1 }, false)).2 = true →
        Ledger (if c0.message_error_injection_rewinding_stream_ then
          (onSent d { c0 with
              message_error_injection_rewound_count_ :=
                c0.message_error_injection_rewound_count_ + 1 } e
            d.message_error_injection_status CompletionMethod.DEFERRED, true)
        else
          ({ c0 with
              message_error_injection_pass_count_ :=
                c0.message_error_injection_pass_count_ + 1 }, false)).1 held) ∧
      ((if c0.message_error_injection_rewinding_stream_ then
          (onSent d { c0 with
              message_error_injection_rewound_count_ :=
                c0.message_error_injection_rewound_count_ + 1 } e
            d.message_error_injection_status CompletionMethod.DEFERRED, true)
        else
          ({ c0 with
              message_error_injection_pass_count_ :=
                c0.message_error_injection_pass_count_ + 1 }, false)).2 = false →
        Ledger (if c0.message_error_injection_rewinding_stream_ then
          (onSent d { c0 with
              message_error_injection_rewound_count_ :=
                c0.message_error_injection_rewound_count_ + 1 } e
            d.message_error_injection_status CompletionMethod.DEFERRED, true)
        else
          ({ c0 with
              message_error_injection_pass_count_ :=
                c0.message_error_injection_pass_count_ + 1 }, false)).1 (held + e.cost_) ∧
        isClosed (if c0.message_error_injection_rewinding_stream_ then
          (onSent d { c0 with
              message_error_injection_rewound_count_ :=
                c0.message_error_injection_rewound_count_ + 1 } e
            d.message_error_injection_status CompletionMethod.DEFERRED, true)
        else
          ({ c0 with
              message_error_injection_pass_count_ :=
                c0.message_error_injection_pass_count_ + 1 }, false)).1 = isClosed c) := by
    intro c0 hb
    have h0 : Ledger c0 (held + e.cost_) := Ledger.of_books hb h
    split
    · refine ⟨fun _ => ?_, fun hf => (by cases hf)⟩
      exact onSent_ledger d hsd _ e _ _ held (@Ledger.of_books _ c0 _ rfl h0)
    · refine ⟨fun hf => (by cases hf), fun _ => ⟨@Ledger.of_books _ c0 _ rfl h0, ?_⟩⟩
      exact isClosed_of_books hb
  unfold injectAsyncMessageError
  simp only []
  apply key
  repeat' split
  all_goals rfl

theorem send_ledger (d : Deps) (hsd : d.shuttingDown = false) (c : Connection)
    (e : Envelope) (held : Nat) (h : Ledger c (held + e.cost_)) :
    Ledger (send d c e) held := by
  have hp := preSendCheck_ledger d hsd c e.msg _ h
  unfold send
  simp only []
  split
  · exact onSent_ledger d hsd _ e _ _ held hp
  · rename_i hrv
    have h0 : (preSendCheck d c e.msg).2 = 0 := by simpa using hrv
    have hpass := preSendCheck_pass d c e.msg h0
    have hopen : isClosed (preSendCheck d c e.msg).1 = false := by
      rw [hpass]
      exact isClosed_of_preSendCheck_pass d c e.msg h0
    split
    · exact onSent_ledger d hsd _ e _ _ held hp
    · split
      · split
        · exact onSent_ledger d hsd _ e _ _ held
            (@Ledger.of_books _ (preSendCheck d c e.msg).1 _ rfl hp)
        · have hi := injectAsyncMessageError_ledger d hsd (preSendCheck d c e.msg).1 e held hp
          split
          · rename_i c2 heq
            rw [heq] at hi
            exact hi.1 rfl
          · rename_i c2 heq
            rw [heq] at hi
            obtain ⟨hl2, hc2⟩ := hi.2 rfl
            have hs := serializeMessage_ledger d hsd c2 e held hl2 (hc2.trans hopen)
            split
            · rename_i hrv2
              exact onSent_ledger d hsd _ e _ _ held (hs.2 (by simpa using hrv2))
            · rename_i hrv2
              exact hs.1 (by simpa using hrv2)
      · refine Ledger.requeue hp rfl rfl rfl rfl ?_
        simp only [queueCost_append]
        have hc : queueCost [e] = e.cost_ := by simp [queueCost]
        rw [hc]
        omega

theorem flushNextInSerializeQueue_ledger (d : Deps) (hsd : d.shuttingDown = false)
    (c : Connection) (held : Nat) (h : Ledger c held) :
    Ledger (flushNextInSerializeQueue d c) held := by
  obtain hq | ⟨e, rest, hq⟩ : c.serializeq_ = [] ∨ ∃ e rest, c.serializeq_ = e :: rest := by
    cases c.serializeq_ with
    | nil => exact Or.inl rfl
    | cons e rest => exact Or.inr ⟨e, rest, rfl⟩
  · rw [flushNextInSerializeQueue_nil d c hq]
    exact h
  · rw [flushNextInSerializeQueue_cons d c e rest hq]
    apply send_ledger d hsd
    refine Ledger.requeue h rfl rfl rfl rfl ?_
    simp only [hq, queueCost_cons]
    omega

theorem flushSerializeQueueLoop_ledger (d : Deps) (hsd : d.shuttingDown = false)
    (fuel : Nat) :
    ∀ (c : Connection) (held : Nat), Ledger c held →
      Ledger (flushSerializeQueueLoop d fuel c) held := by
  induction fuel with
  | zero => intro c held h; exact h
  | succ f ih =>
    intro c held h
    rw [flushSerializeQueueLoop]
    split
    · exact h
    · exact ih _ _ (flushNextInSerializeQueue_ledger d hsd c held h)

theorem flushSerializeQueue_ledger (d : Deps) (hsd : d.shuttingDown = false)
    (c : Connection) (held : Nat) (h : Ledger c held) :
    Ledger (flushSerializeQueue d c) held :=
  flushSerializeQueueLoop_ledger d hsd _ c held h

theorem transitionToConnected_ledger (d : Deps) (hsd : d.shuttingDown = false)
    (c : Connection) (held : Nat) (h : Ledger c held) :
    Ledger (transitionToConnected d c) held := by
  unfold transitionToConnected
  apply flushNextInSerializeQueue_ledger d hsd
  refine @Ledger.of_books _ c _ ?_ h
  unfold addHandshakeTimeoutEvent
  split <;> rfl

theorem onConnected_ledger (d : Deps) (hsd : d.shuttingDown = false)
    (c : Connection) (held : Nat) (h : Ledger c held) :
    Ledger (onConnected d c) held := by
  unfold onConnected
  split
  · exact @Ledger.of_books _ c _ rfl h
  · exact transitionToConnected_ledger d hsd _ held (@Ledger.of_books _ c _ rfl h)

theorem eventCallbackImpl_ledger (d : Deps) (hsd : d.shuttingDown = false)
    (c : Connection) (e : SocketEvent) (held : Nat) (h : Ledger c held) :
    Ledger (eventCallbackImpl d c e) held := by
  unfold eventCallbackImpl onError onPeerClosed
  repeat' split
  all_goals first
    | exact h
    | exact onConnected_ledger d hsd c held h
    | exact close_ledger d hsd c _ held h

theorem eventCallback_ledger (d : Deps) (hsd : d.shuttingDown = false)
    (c : Connection) (e : SocketEvent) (held : Nat) (h : Ledger c held) :
    Ledger (eventCallback d c e) held := by
  unfold eventCallback enqueueDeferredEvent
  split
  · exact @Ledger.of_books _ c _ rfl h
  · exact eventCallbackImpl_ledger d hsd c e held h

theorem processDeferredEventQueueLoop_ledger (d : Deps) (hsd : d.shuttingDown = false)
    (fuel : Nat) :
    ∀ (c : Connection) (held : Nat), Ledger c held →
      Ledger (processDeferredEventQueueLoop d fuel c) held := by
  induction fuel with
  | zero => intro c held h; exact h
  | succ f ih =>
    intro c held h
    rw [processDeferredEventQueueLoop]
    split
    · exact h
    · exact ih _ _ (eventCallbackImpl_ledger d hsd _ _ held (@Ledger.of_books _ c _ rfl h))

theorem processDeferredEventQueue_ledger (d : Deps) (hsd : d.shuttingDown = false)
    (c : Connection) (held : Nat) (h : Ledger c held) :
    Ledger (processDeferredEventQueue d c) held := by
  unfold processDeferredEventQueue
  exact @Ledger.of_books _ (processDeferredEventQueueLoop d c.deferred_event_queue_.length c) _
    rfl (processDeferredEventQueueLoop_ledger d hsd _ c held h)

theorem registerMessage_ledger (d : Deps) (hsd : d.shuttingDown = false)
    (c : Connection) (msg : Message) (held : Nat) (h : Ledger c held) :
    Ledger (registerMessage d c msg).1 held := by
  have hp := preSendCheck_ledger d hsd c msg held h
  unfold registerMessage
  simp only []
  split
  · exact hp
  · split
    · exact @Ledger.of_books _ (preSendCheck d c msg).1 _ rfl hp
    · refine Ledger.requeue hp rfl rfl rfl rfl ?_
      simp only [queueCost_append, queueCost_cons, queueCost_nil]
      omega

theorem queueCost_eraseEnvelope (q : List Envelope) (e : Envelope) (he : e ∈ q)
    (hn : (queueIds q).Nodup) :
    queueCost (eraseEnvelope q e) + e.cost_ = queueCost q := by
  induction q with
  | nil => cases he
  | cons x q ih =>
    simp only [queueIds, List.map_cons, List.nodup_cons] at hn
    rcases List.mem_cons.1 he with hx | hx
    · subst hx
      have hnone : eraseEnvelope q e = q := by
        unfold eraseEnvelope
        apply List.filter_eq_self.2
        intro y hy
        have : y.id ≠ e.id := fun heq => hn.1 (heq ▸ List.mem_map_of_mem Envelope.id hy)
        simpa using this
      unfold eraseEnvelope at hnone ⊢
      rw [List.filter_cons_of_neg (by simp), hnone, queueCost_cons]
      omega
    · have hne : x.id ≠ e.id := fun heq => hn.1 (heq ▸ List.mem_map_of_mem Envelope.id hx)
      have := ih hx hn.2
      unfold eraseEnvelope at this ⊢
      rw [List.filter_cons_of_pos (by simpa using hne), queueCost_cons, queueCost_cons]
      omega

theorem erased_ledger (c : Connection) (e : Envelope) (held : Nat) (h : Ledger c held)
    (he : e ∈ c.pendingq_) (hn : (queueIds c.pendingq_).Nodup) :
    Ledger { c with pendingq_ := eraseEnvelope c.pendingq_ e } (held + e.cost_) := by
  have hq := queueCost_eraseEnvelope c.pendingq_ e he hn
  refine Ledger.requeue h rfl rfl rfl rfl ?_
  simp only []
  omega

theorem releaseMessage_ledger (d : Deps) (hsd : d.shuttingDown = false)
    (c : Connection) (e : Envelope) (held : Nat) (h : Ledger c held)
    (he : e ∈ c.pendingq_) (hn : (queueIds c.pendingq_).Nodup) :
    Ledger (releaseMessage d c e) held := by
  unfold releaseMessage
  apply send_ledger d hsd
  exact @Ledger.of_books _ { c with pendingq_ := eraseEnvelope c.pendingq_ e } _ rfl
    (erased_ledger c e held h he hn)

theorem discardEnvelope_ledger (c : Connection) (e : Envelope) (held : Nat)
    (h : Ledger c held) (he : e ∈ c.pendingq_) (hn : (queueIds c.pendingq_).Nodup) :
    Ledger (discardEnvelope c e) held := by
  have hq := queueCost_eraseEnvelope c.pendingq_ e he hn
  unfold discardEnvelope
  refine Ledger.requeue h rfl rfl rfl rfl ?_
  simp only []
  omega

theorem registerMessage_some (d : Deps) (c c1 : Connection) (msg : Message) (env : Envelope)
    (h : registerMessage d c msg = (c1, some env)) :
    c1.pendingq_ = c.pendingq_ ++ [env] ∧ env.id = c.envelopes_created := by
  unfold registerMessage at h
  simp only [] at h
  split at h
  · simp at h
  · rename_i hrv
    have h0 : (preSendCheck d c msg).2 = 0 := by simpa using hrv
    have hpass := preSendCheck_pass d c msg h0
    split at h
    · simp at h
    · simp only [Prod.mk.injEq, Option.some.injEq] at h
      obtain ⟨h1, h2⟩ := h
      rw [← h1, ← h2, hpass]
      exact ⟨rfl, rfl⟩

theorem sendHello_ledger (d : Deps) (hsd : d.shuttingDown = false)
    (c : Connection) (held : Nat) (h : Ledger c held)
    (hn : (queueIds c.pendingq_).Nodup)
    (hfresh : ∀ id ∈ queueIds c.pendingq_, id < c.envelopes_created) :
    Ledger (sendHello d c) held := by
  have hr := registerMessage_ledger d hsd c d.createHelloMessage held h
  unfold sendHello
  split
  · rename_i c1 env heq
    rw [heq] at hr
    obtain ⟨hp, hid⟩ := registerMessage_some d c c1 _ env heq
    apply releaseMessage_ledger d hsd c1 env held hr
    · rw [hp]
      simp
    · rw [hp]
      simp only [queueIds, List.map_append, List.map_cons, List.map_nil]
      refine List.Nodup.append hn (List.nodup_singleton _) ?_
      intro x hx hx2
      rw [List.mem_singleton] at hx2
      have := hfresh x hx
      omega
  · rename_i c1 heq
    rw [heq] at hr
    exact hr

theorem bytesSent_ledger (d : Deps) (hsd : d.shuttingDown = false) (c : Connection)
    (len n : Nat) (h : Ledger c 0) (hbev : c.bev_ = some len) (hn : n ≤ len) :
    Ledger (bytesSentCallback d { c with bev_ := some (len - n) } n) 0 := by
  have hbal := h.balance
  unfold heldBytes at hbal
  rw [hbev] at hbal
  simp only [Option.getD_some] at hbal
  have hopen : isClosed ({ c with bev_ := some (len - n) } : Connection) = isClosed c := rfl
  unfold bytesSentCallback
  split
  · rw [onBytesAdmittedToSend_spec]
    have hsplit := drainedPrefix_append_undrained (c.drain_pos_ + n) c.sendq_
    have hcost : queueCost (drainedPrefix (c.drain_pos_ + n) c.sendq_) +
        queueCost (undrained (c.drain_pos_ + n) c.sendq_) = queueCost c.sendq_ := by
      rw [← queueCost_append, hsplit]
    refine ⟨h.legacy, ?_, fun _ => rfl, ?_⟩
    · unfold heldBytes completedOK
      simp only [hsd, Bool.false_eq_true, if_false, h.legacy, if_true, Option.getD_some]
      omega
    · intro hc
      have hc2 : isClosed c = true := hc
      have := (h.closed_buf hc2).1
      rw [hbev] at this
      cases this
  · refine ⟨h.legacy, ?_, fun _ => rfl, ?_⟩
    · rename_i hz
      have hn0 : n = 0 := by omega
      subst hn0
      unfold heldBytes
      simp only [Option.getD_some]
      omega
    · intro hc
      have hc2 : isClosed c = true := hc
      have := (h.closed_buf hc2).1
      rw [hbev] at this
      cases this

theorem onOutputEmpty_ledger (d : Deps) (hsd : d.shuttingDown = false)
    (c : Connection) (held : Nat) (h : Ledger c held) :
    Ledger (onOutputEmpty d c) held := by
  unfold onOutputEmpty
  split
  · exact close_ledger d hsd c _ held h
  · exact h

theorem flushBufferedOutput_ledger (c : Connection) (held : Nat) (h : Ledger c held)
    (hopen : isClosed c = false) : Ledger (flushBufferedOutput c) held := by
  have hbev := h.open_bev hopen
  have hbal := h.balance
  unfold heldBytes at hbal
  unfold flushBufferedOutput
  cases hb : c.buffered_output_ with
  | none =>
    simp only []
    exact h
  | some n =>
    simp only []
    cases hv : c.bev_ with
    | none =>
      rw [hv] at hbev
      cases hbev
    | some m =>
      rw [hb, hv] at hbal
      simp only [Option.getD_some] at hbal
      refine ⟨h.legacy, ?_, fun _ => rfl, ?_⟩
      · unfold heldBytes
        simp only [Option.map_some', Option.getD_some]
        omega
      · intro hc
        have hc2 : isClosed c = true := hc
        rw [hopen] at hc2
        cases hc2

theorem flushOutputAndClose_ledger (d : Deps) (hsd : d.shuttingDown = false)
    (c : Connection) (r : Status) (held : Nat) (h : Ledger c held) :
    Ledger (flushOutputAndClose d c r) held := by
  unfold flushOutputAndClose
  simp only []
  repeat' split
  all_goals first
    | exact h
    | exact close_ledger d hsd c _ held h
    | exact @Ledger.of_books _ c _ rfl h

theorem onReadFailure_ledger (d : Deps) (hsd : d.shuttingDown = false)
    (c : Connection) (held : Nat) (h : Ledger c held) :
    Ledger (onReadFailure d c) held := by
  unfold onReadFailure
  repeat' split
  all_goals first
    | exact @Ledger.of_books _ c _ rfl h
    | exact close_ledger d hsd c _ held h
    | exact flushOutputAndClose_ledger d hsd c _ held h

theorem readMessageHeader_books (d : Deps) (c : Connection) (hdr : ProtocolHeader) :
    books (readMessageHeader d c hdr).1 = books c := by
  unfold readMessageHeader
  simp only []
  repeat' split
  all_goals rfl

theorem onMessageHeader_ledger (d : Deps) (hsd : d.shuttingDown = false)
    (c : Connection) (hdr : ProtocolHeader) (held : Nat) (h : Ledger c held) :
    Ledger (onMessageHeader d c hdr) held := by
  have hr : Ledger (readMessageHeader d c hdr).1 held :=
    Ledger.of_books (readMessageHeader_books d c hdr) h
  unfold onMessageHeader
  simp only []
  split
  · exact @Ledger.of_books _ (readMessageHeader d c hdr).1 _ rfl hr
  · exact onReadFailure_ledger d hsd _ held hr

theorem processHandshakeMessage_ledger (d : Deps) (hsd : d.shuttingDown = false)
    (c : Connection) (t : MessageType) (r : Received) (held : Nat) (h : Ledger c held) :
    Ledger (processHandshakeMessage d c t r).1 held := by
  unfold processHandshakeMessage
  split
  · exact flushSerializeQueue_ledger d hsd _ held (@Ledger.of_books _ c _ rfl h)
  · split
    · exact @Ledger.of_books _ c _ rfl h
    · simp only []
      apply flushSerializeQueue_ledger d hsd
      refine @Ledger.of_books _ c _ ?_ h
      split <;> rfl
  · exact flushSerializeQueue_ledger d hsd _ held h

theorem verifyChecksum_books (d : Deps) (c : Connection) (ph : ProtocolHeader) (k : Nat) :
    books (verifyChecksum d c ph k).1 = books c := by
  unfold verifyChecksum
  simp only []
  repeat' split
  all_goals rfl

theorem validateReceivedMessage_books (d : Deps) (c : Connection) (t : MessageType) :
    books (validateReceivedMessage d c t).1 = books c := by
  unfold validateReceivedMessage
  repeat' split
  all_goals rfl

theorem dispatchMessageBody_ledger (d : Deps) (hsd : d.shuttingDown = false)
    (c : Connection) (header : ProtocolHeader) (r : Received) (held : Nat)
    (h : Ledger c held) :
    Ledger (dispatchMessageBody d c header r).1 held := by
  unfold dispatchMessageBody
  simp only []
  split
  · split
    · exact @Ledger.of_books _ c _ rfl h
    · exact @Ledger.of_books _ c _ rfl h
  · have hv := verifyChecksum_books d
      (expectProtocolHeader
        { c with
          recv_message_ph_ := header
          num_messages_received_ := c.num_messages_received_ + 1
          num_bytes_received_ := c.num_bytes_received_ + header.len }) header r.cksum_computed
    have h0 : Ledger (expectProtocolHeader
        { c with
          recv_message_ph_ := header
          num_messages_received_ := c.num_messages_received_ + 1
          num_bytes_received_ := c.num_bytes_received_ + header.len }) held :=
      @Ledger.of_books _ c _ rfl h
    split
    · rename_i c1 heq
      rw [heq] at hv
      exact @Ledger.of_books _ c1 _ rfl (Ledger.of_books hv h0)
    · rename_i c1 heq
      rw [heq] at hv
      have h1 : Ledger c1 held := Ledger.of_books hv h0
      split
      · split
        all_goals first
          | exact h1
          | exact @Ledger.of_books _ c1 _ rfl h1
      · rename_i t _
        have hval := validateReceivedMessage_books d c1 t
        split
        · rename_i c2 heq2
          rw [heq2] at hval
          exact Ledger.of_books hval h1
        · rename_i c2 heq2
          rw [heq2] at hval
          have h2 : Ledger c2 held := Ledger.of_books hval h1
          split
          · split
            · have hp := processHandshakeMessage_ledger d hsd
                { c2 with
                  handshaken_ := true, first_attempt_ := false
                  handshake_timeout_event_ := false } t r held
                (@Ledger.of_books _ c2 _ rfl h2)
              split
              · rename_i c3 heq3
                rw [heq3] at hp
                exact hp
              · rename_i c3 heq3
                rw [heq3] at hp
                exact hp
            · exact h2
          · split
            all_goals first
              | exact h2
              | exact @Ledger.of_books _ c2 _ rfl h2
          · split
            all_goals first
              | exact @Ledger.of_books _ c2 _ rfl h2

theorem onMessageBody_ledger (d : Deps) (hsd : d.shuttingDown = false)
    (c : Connection) (r : Received) (held : Nat) (h : Ledger c held) :
    Ledger (onMessageBody d c r) held := by
  have hd := dispatchMessageBody_ledger d hsd c c.recv_message_ph_ r held h
  unfold onMessageBody
  simp only []
  split
  · exact @Ledger.of_books _ (dispatchMessageBody d c c.recv_message_ph_ r).1 _ rfl hd
  · exact onReadFailure_ledger d hsd _ held hd

theorem doConnectAttempt_ledger (d : Deps) (c : Connection) (a : ConnectAttempt)
    (held : Nat) (h : Ledger c held) (hc : isClosed c = true) :
    Ledger (doConnectAttempt d c a).1 held ∧
    (doConnectAttempt d c a).1.pendingq_ = c.pendingq_ ∧
    (doConnectAttempt d c a).1.envelopes_created = c.envelopes_created := by
  obtain ⟨hb1, hb2⟩ := h.closed_buf hc
  have hbal := h.balance
  unfold heldBytes at hbal
  rw [hb1, hb2] at hbal
  simp only [Option.getD_none] at hbal
  have key : ∀ c1 : Connection, c1.legacy_connection_ = c.legacy_connection_ →
      c1.conn_closed_ = some false → c1.bev_ = some 0 →
      c1.buffered_output_.getD 0 = 0 → c1.pendingq_ = c.pendingq_ →
      c1.serializeq_ = c.serializeq_ → c1.sendq_ = c.sendq_ →
      c1.noted_queued = c.noted_queued → c1.noted_drained = c.noted_drained →
      Ledger c1 held := by
    intro c1 h1 h2 h3 h4 h5 h6 h7 h8 h9
    refine ⟨h1.trans h.legacy, ?_, ?_, ?_⟩
    · unfold heldBytes
      rw [h3, h4, h5, h6, h7, h8, h9]
      simp only [Option.getD_some]
      omega
    · intro _
      rw [h3]
      rfl
    · intro hcl
      have := (isClosed_eq_true_iff c1).1 hcl
      exact absurd h2 this
  have hbuf : (if c.isSSL then (if c.buffered_output_.isSome then c.buffered_output_
      else some 0) else none : Option Nat).getD 0 = 0 := by
    cases hbo : c.buffered_output_ with
    | none => split <;> rfl
    | some x =>
      rw [hbo] at hb2
      split
      · exact hb2
      · rfl
  unfold doConnectAttempt expectProtocolHeader
  cases a with
  | noBufferevent e => exact ⟨@Ledger.of_books _ c _ rfl h, rfl, rfl⟩
  | started =>
    simp only []
    split
    · exact ⟨key _ rfl rfl rfl hbuf rfl rfl rfl rfl rfl, rfl, rfl⟩
    · exact ⟨key _ rfl rfl rfl hbuf rfl rfl rfl rfl rfl, rfl, rfl⟩
  | connectFailed e =>
    simp only []
    exact ⟨key _ rfl rfl rfl hbuf rfl rfl rfl rfl rfl, trivial, trivial⟩

theorem preConnectAttempt_books (c : Connection) (mayConnect : Bool) :
    books (preConnectAttempt c mayConnect).1 = books c ∧
    ((preConnectAttempt c mayConnect).2 = 0 →
      (preConnectAttempt c mayConnect).1 = c ∧ isClosed c = true) := by
  unfold preConnectAttempt
  split
  · split
    · exact ⟨rfl, fun h => by simp at h⟩
    · exact ⟨rfl, fun h => by simp at h⟩
  · split
    · exact ⟨rfl, fun h => by simp at h⟩
    · rename_i h1
      split
      · exact ⟨rfl, fun h => by simp at h⟩
      · exact ⟨rfl, fun _ => ⟨rfl, by simpa using h1⟩⟩

theorem connect_ledger (d : Deps) (hsd : d.shuttingDown = false) (c : Connection)
    (mayConnect : Bool) (a : ConnectAttempt) (fut : Option Status)
    (h : Ledger c 0) (hn : (queueIds c.pendingq_).Nodup)
    (hfresh : ∀ id ∈ queueIds c.pendingq_, id < c.envelopes_created) :
    Ledger (connect d c mayConnect a fut).1 0 := by
  obtain ⟨hpb, hpass⟩ := preConnectAttempt_books c mayConnect
  have hp : Ledger (preConnectAttempt c mayConnect).1 0 := Ledger.of_books hpb h
  unfold connect
  simp only []
  split
  · exact hp
  · rename_i hrv
    have h0 : (preConnectAttempt c mayConnect).2 = 0 := by simpa using hrv
    obtain ⟨hc1, hcl⟩ := hpass h0
    rw [if_pos hp.legacy]
    have hd := doConnectAttempt_ledger d
      { (preConnectAttempt c mayConnect).1 with retries_so_far_ := 0 } a 0
      (@Ledger.of_books _ (preConnectAttempt c mayConnect).1 _ rfl hp)
      (by rw [hc1]; exact hcl)
    split
    · split
      · exact close_ledger d hsd _ _ 0 hd.1
      · exact hd.1
    · apply sendHello_ledger d hsd
      · exact @Ledger.of_books _ (doConnectAttempt d
          { (preConnectAttempt c mayConnect).1 with retries_so_far_ := 0 } a).1 _ rfl hd.1
      · show (queueIds (doConnectAttempt d _ a).1.pendingq_).Nodup
        rw [hd.2.1]
        show (queueIds (preConnectAttempt c mayConnect).1.pendingq_).Nodup
        rw [hc1]
        exact hn
      · show ∀ id ∈ queueIds (doConnectAttempt d _ a).1.pendingq_,
          id < (doConnectAttempt d _ a).1.envelopes_created
        rw [hd.2.1, hd.2.2]
        show ∀ id ∈ queueIds (preConnectAttempt c mayConnect).1.pendingq_,
          id < (preConnectAttempt c mayConnect).1.envelopes_created
        rw [hc1]
        exact hfresh

theorem pending_nodup_of_inv (d : Deps) (hsd : d.shuttingDown = false) (c : Connection)
    (hinv : Inv d c.core) : (queueIds c.pendingq_).Nodup := by
  have h := (hinv.ids hsd).nodup
  have h1 : (queueIds c.core.pendingq_).Nodup := by
    rw [List.append_assoc, List.append_assoc, List.append_assoc] at h
    exact (List.nodup_append.1 h).1
  exact h1

theorem pending_fresh_of_inv (d : Deps) (hsd : d.shuttingDown = false) (c : Connection)
    (hinv : Inv d c.core) : ∀ id ∈ queueIds c.pendingq_, id < c.envelopes_created := by
  intro id hid
  have hid2 : id ∈ queueIds c.core.pendingq_ := hid
  exact (hinv.ids hsd).fresh id (by simp [hid2])

theorem onConnectAttemptTimeout_ledger (d : Deps) (hsd : d.shuttingDown = false)
    (c : Connection) (a : ConnectAttempt) (h : Ledger c 0) (hinv : BaseInv c.core)
    (hf : c.connect_timeout_event_ = true) :
    Ledger (onConnectAttemptTimeout d { c with connect_timeout_event_ := false } a) 0 := by
  have h1 : Ledger { c with connect_timeout_event_ := false } 0 :=
    @Ledger.of_books _ c _ rfl h
  obtain ⟨_, _, hcon⟩ := hinv.timer hf
  obtain ⟨_, hb1, hb2⟩ := hinv.unconnected hcon
  have hbev : c.bev_.getD 0 = 0 := hb1
  have hbuf : c.buffered_output_.getD 0 = 0 := hb2
  unfold onConnectAttemptTimeout onConnectTimeout
  split
  · exact close_ledger d hsd _ _ 0 h1
  · simp only []
    have h2 : Ledger ({ c with
        connect_timeout_event_ := false, bev_ := none, read_cb_installed := false
        output_empty_cb_installed := false, conn_closed_ := some true } : Connection) 0 := by
      refine ⟨h.legacy, ?_, fun ho => (by cases ho), fun _ => ⟨rfl, hbuf⟩⟩
      have hbal := h.balance
      unfold heldBytes at hbal ⊢
      simp only [Option.getD_none]
      omega
    have hd := (doConnectAttempt_ledger d _ a 0 h2 rfl).1
    split
    · exact close_ledger d hsd _ _ 0 hd
    · exact @Ledger.of_books _ (doConnectAttempt d _ a).1 _ rfl hd

theorem onHandshakeTimeout_ledger (d : Deps) (hsd : d.shuttingDown = false)
    (c : Connection) (h : Ledger c 0) :
    Ledger (onHandshakeTimeout d { c with handshake_timeout_event_ := false }) 0 := by
  unfold onHandshakeTimeout onConnectTimeout
  exact close_ledger d hsd _ _ 0 (@Ledger.of_books _ c _ rfl h)

theorem step_ledger (d : Deps) (hsd : d.shuttingDown = false) (c c1 : Connection) (op : Op)
    (h : Ledger c 0) (hinv : Inv d c.core) (hs : step d c op = some c1) : Ledger c1 0 := by
  have hnd := pending_nodup_of_inv d hsd c hinv
  have hl := h.legacy
  cases op with
  | connectAttemptTimeout a =>
    simp only [step, fire] at hs
    split at hs
    · rename_i hf
      simp only [Option.some.injEq] at hs
      subst hs
      exact onConnectAttemptTimeout_ledger d hsd c a h hinv.base hf
    · cases hs
  | handshakeTimeout =>
    simp only [step, fire] at hs
    split at hs
    · simp only [Option.some.injEq] at hs
      subst hs
      exact onHandshakeTimeout_ledger d hsd c h
    · cases hs
  | connect m a fut =>
    simp only [step, Option.some.injEq] at hs
    subst hs
    exact connect_ledger d hsd c m a fut h hnd (pending_fresh_of_inv d hsd c hinv)
  | connectCompleted st =>
    simp only [step, hl] at hs
    simp at hs
  | event e =>
    simp only [step] at hs
    split at hs
    · simp only [Option.some.injEq] at hs
      subst hs
      exact eventCallback_ledger d hsd c e 0 h
    · cases hs
  | deferredEvents =>
    simp only [step] at hs
    split at hs
    · simp only [Option.some.injEq] at hs
      subst hs
      exact processDeferredEventQueue_ledger d hsd c 0 h
    · cases hs
  | registerMessage msg =>
    simp only [step, Option.some.injEq] at hs
    subst hs
    exact registerMessage_ledger d hsd c msg 0 h
  | releaseMessage id =>
    simp only [step] at hs
    split at hs
    · rename_i e he
      simp only [Option.some.injEq] at hs
      subst hs
      exact releaseMessage_ledger d hsd c e 0 h (mem_of_findPending he) hnd
    · cases hs
  | discardEnvelope id =>
    simp only [step] at hs
    split at hs
    · rename_i e he
      simp only [Option.some.injEq] at hs
      subst hs
      exact discardEnvelope_ledger c e 0 h (mem_of_findPending he) hnd
    · cases hs
  | bytesSent n =>
    simp only [step] at hs
    split at hs
    · rename_i len hbev
      split at hs
      · rename_i hg
        have hn : n ≤ len := by
          simp only [Bool.and_eq_true, decide_eq_true_eq] at hg
          exact hg.2
        have hb := bytesSent_ledger d hsd c len n h hbev hn
        split at hs
        · simp only [Option.some.injEq] at hs
          subst hs
          exact onOutputEmpty_ledger d hsd _ 0 hb
        · simp only [Option.some.injEq] at hs
          subst hs
          exact hb
      · cases hs
    · cases hs
  | flushBufferedOutput =>
    simp only [step] at hs
    split at hs
    · rename_i hg
      simp only [Option.some.injEq] at hs
      subst hs
      apply flushBufferedOutput_ledger c 0 h
      simp only [Bool.and_eq_true, Bool.not_eq_true'] at hg
      exact hg.2
    · cases hs
  | scheduleWriteChain =>
    simp only [step, hl] at hs
    simp at hs
  | drainSendQueue n =>
    simp only [step, hl] at hs
    simp at hs
  | header hdr =>
    simp only [step] at hs
    split at hs
    · simp only [Option.some.injEq] at hs
      subst hs
      exact onMessageHeader_ledger d hsd c hdr 0 h
    · cases hs
  | body r =>
    simp only [step] at hs
    split at hs
    · simp only [Option.some.injEq] at hs
      subst hs
      exact onMessageBody_ledger d hsd c r 0 h
    · cases hs
  | pushOnCloseCallback cb =>
    simp only [step, Option.some.injEq] at hs
    subst hs
    exact @Ledger.of_books _ c _ rfl h
  | flushOutputAndClose reason =>
    simp only [step, Option.some.injEq] at hs
    subst hs
    exact flushOutputAndClose_ledger d hsd c reason 0 h
  | close reason =>
    simp only [step, Option.some.injEq] at hs
    subst hs
    exact close_ledger d hsd c reason 0 h

theorem run_ledger (d : Deps) (hsd : d.shuttingDown = false) (ops : List Op) :
    ∀ c c1 : Connection, Ledger c 0 → Inv d c.core → run d c ops = some c1 →
      Ledger c1 0 := by
  induction ops with
  | nil =>
    intro c c1 h _ hr
    simp only [run, Option.some.injEq] at hr
    subst hr
    exact h
  | cons op ops ih =>
    intro c c1 h hinv hr
    simp only [run] at hr
    split at hr
    · rename_i c2 hs
      exact ih c2 c1 (step_ledger d hsd c c2 op h hinv hs) (step_inv d c c2 op hinv hs) hr
    · cases hr

theorem initial_ledger (d : Deps) (c : Connection) (h : Initial d c)
    (hl : c.legacy_connection_ = true) : Ledger c 0 := by
  rcases h with ⟨l, s, g, rfl⟩ | ⟨l, s, g, p, rfl⟩
  · exact ⟨hl, rfl, fun ho => (by cases ho), fun _ => ⟨rfl, rfl⟩⟩
  · have hl2 : l = true := by
      have : (Connection.incoming d l s g p).legacy_connection_ = l := by
        unfold Connection.incoming addHandshakeTimeoutEvent expectProtocolHeader
        simp only []
        split <;> rfl
      rw [this] at hl
      exact hl
    subst hl2
    unfold Connection.incoming addHandshakeTimeoutEvent expectProtocolHeader
    simp only []
    split
    · refine ⟨rfl, ?_, fun _ => rfl, fun hc => (by cases hc)⟩
      unfold heldBytes
      cases s <;> rfl
    · refine ⟨rfl, ?_, fun _ => rfl, fun hc => (by cases hc)⟩
      unfold heldBytes
      cases s <;> rfl

theorem heldBytes_closed (d : Deps) (c : Connection) (hinv : Inv d c.core) (h : Ledger c 0)
    (hc : isClosed c = true) :
    heldBytes c = queueCost c.pendingq_ + queueCost c.serializeq_ := by
  obtain ⟨hcon, _⟩ := hinv.base.closed ((isClosed_eq_true_iff c).1 hc)
  have e3 : c.sendq_ = [] := (hinv.base.unconnected hcon).1
  obtain ⟨e6, e7⟩ := h.closed_buf hc
  unfold heldBytes
  rw [e3, e6, e7]
  rfl

theorem heldBytes_close_open (d : Deps) (c : Connection) (reason : Status)
    (hl : c.legacy_connection_ = true) (hcl : c.closing_ = false)
    (hc : isClosed c = false) : heldBytes (close d c reason) = 0 := by
  have hk := close_core_open d c reason hcl hc
  have hl2 : c.core.legacy_connection_ = true := hl
  have e1 : (close d c reason).pendingq_ = [] := congrArg Core.pendingq_ hk
  have e2 : (close d c reason).serializeq_ = [] := congrArg Core.serializeq_ hk
  have e3 : (close d c reason).sendq_ = [] := congrArg Core.sendq_ hk
  have e4 : (close d c reason).bev_ = none := by
    have := congrArg Core.bev_ hk
    simp only [Core.closed, hl2, if_true] at this
    exact this
  have e5 : (close d c reason).buffered_output_ = none := by
    have := congrArg Core.buffered_output_ hk
    simp only [Core.closed, hl2, if_true] at this
    exact this
  unfold heldBytes
  rw [e1, e2, e3, e4, e5]
  rfl

/-- Byte accounting on a legacy connection whose worker is not shutting down,
over the calls of the owner, the events of the transport and the timers.  In
every state reachable from a freshly constructed legacy connection the total
passed to `noteBytesQueued` is the total passed to `noteBytesDrained` plus
`getBytesPending()`, which is the summed cost of the envelopes in `pendingq_`,
`serializeq_` and `sendq_` plus the bytes in the output buffers; on a closed
connection the difference is the cost of the envelopes left in `pendingq_` and
`serializeq_`; and a `close` that finds the connection open leaves the two
totals equal. -/
theorem byte_accounting_invariant (d : Deps) (c0 c : Connection) (ops : List Op)
    (h0 : Initial d c0) (hl : c0.legacy_connection_ = true)
    (hsd : d.shuttingDown = false) (hrun : run d c0 ops = some c) :
    c.noted_queued = c.noted_drained + getBytesPending c ∧
    c.noted_queued - c.noted_drained = getBytesPending c ∧
    getBytesPending c =
      queueCost c.pendingq_ + queueCost c.serializeq_ + queueCost c.sendq_ +
        c.bev_.getD 0 + c.buffered_output_.getD 0 ∧
    (isClosed c = true →
      c.noted_queued = c.noted_drained + queueCost c.pendingq_ + queueCost c.serializeq_) ∧
    ∀ reason, isClosed c = false →
      isClosed (close d c reason) = true ∧
      (close d c reason).noted_queued = (close d c reason).noted_drained := by
  have hinv0 := initial_inv d c0 h0
  have hinv := run_inv d ops c0 c hinv0 hrun
  have hled := run_ledger d hsd ops c0 c (initial_ledger d c0 h0 hl) hinv0 hrun
  have hp := getBytesPending_legacy c hled.legacy
  have hbal := hled.balance
  refine ⟨by rw [hp]; omega, by rw [hp]; omega, hp, ?_, ?_⟩
  · intro hc
    rw [heldBytes_closed d c hinv hled hc] at hbal
    omega
  · intro reason ho
    have hs : step d c (Op.close reason) = some (close d c reason) := rfl
    have hled2 := step_ledger d hsd c _ _ hled hinv hs
    have hcl : c.closing_ = false := hinv.base.closing
    have hc := isClosed_close d c reason hcl
    have hbal2 := hled2.balance
    rw [heldBytes_close_open d c reason hled.legacy hcl ho] at hbal2
    exact ⟨hc, by omega⟩

theorem byte_accounting_example :
    run exampleDeps (Connection.outgoing exampleDeps true false false) exampleEarlySend =
      some exampleEarlySent ∧
    exampleEarlySent.noted_queued = 47 ∧ exampleEarlySent.noted_drained = 0 ∧
    getBytesPending exampleEarlySent = 47 :=
  ⟨rfl, by decide, by decide, by decide⟩

/-- C30 (failing input): the first connect attempt of an outgoing legacy
connection times out and the new attempt gets no bufferevent.  The connection
is then closed while HELLO (envelope 0, 12 bytes) is still in `serializeq_`; a
`close` changes nothing, and after it 12 bytes are noted as queued, none as
drained and `getBytesPending()` is 12. -/
theorem failed_retry_leaves_bytes_pending :
    (run exampleDeps (Connection.outgoing exampleDeps true false false)
      exampleFailedRetry).map
      (fun c => (isClosed c, queueIds c.serializeq_, c.noted_queued, c.noted_drained,
        getBytesPending c)) = some (true, [0], 12, 0, 12) ∧
    (run exampleDeps (Connection.outgoing exampleDeps true false false)
      (exampleFailedRetry ++ [Op.close Status.SHUTDOWN])).map
      (fun c => (isClosed c, queueIds c.serializeq_, c.noted_queued, c.noted_drained,
        getBytesPending c)) = some (true, [0], 12, 0, 12) := by
  decide

end LogDevice
